import Mathlib

/-!
# minimal-ext2: the inode address tree and its resize engine

A shallow embedding of `src/filesys/ext2/inode.c` (lookup, resize, expand,
shrink, byte-level read and write) over a block-granular disk, followed by the
properties proved about it.

Conventions of the embedding.

* C `uint32_t` values are natural numbers; every operation that can wrap is
  reduced modulo `2 ^ 32` (`u32`).  C `int` / `off_t` values are integers,
  wrapped to the signed 32-bit range by `toInt32`.
* `PANIC`, a failed `ASSERT` and a division by zero are the result `none`.
* The disk is a map from block id to block contents, a block being a map from
  byte offset to byte.  Index blocks are arrays of little-endian 32-bit words.
* The block allocator (`free-map.c`) is the environment of `inode.c`: the block
  id answered to the `k`-th request is `answers k`, released blocks are logged.
-/

namespace Ext2

/-! ## Machine integers -/

/-- Value of `UINT32_MAX`. -/
def UINT32_MAX : Nat := 4294967295

/-- Reduction of a natural number to an unsigned 32-bit value. -/
def u32 (x : Nat) : Nat := x % 4294967296

/-- Conversion of an integer to a C `int` (two's complement, 32 bits). -/
def toInt32 (x : Int) : Int :=
  if x % 4294967296 < 2147483648 then x % 4294967296 else x % 4294967296 - 4294967296

/-- The `uint32_t` difference `x - 1`. -/
def dec32 (x : Nat) : Nat := if x = 0 then 4294967295 else u32 (x - 1)

/-- The `uint32_t` difference `x - y`. -/
def sub32 (x y : Nat) : Nat := if y ≤ x then u32 (x - y) else u32 (x + 4294967296 - y)

/-- Conversion of a C `int` to `uint32_t`. -/
def ofInt32 (x : Int) : Nat := (x % 4294967296).toNat

/-- Modelled from the spec: `round.h` is not among the sources.  The spec reads
`DIV_ROUND_UP(X, STEP)` as the rounded-up quotient `⌈X / STEP⌉`; the macro is
`((X) + (STEP) - 1) / (STEP)`, evaluated here on the `uint32_t` operands it has
at its uses in `inode.c`, so the sum is reduced modulo `2^32` before the
division, and a zero `STEP` is a division by zero.  For `X ≤ 2^32 - STEP` the
value is `⌈X / STEP⌉` on either reading. -/
def DIV_ROUND_UP (x step : Nat) : Option Nat :=
  if step = 0 then none else some (u32 (x + step - 1) / step)

/-! ## Constants of `inode.c` and `free-map.h` -/

/-- Number of direct slots of an inode, `DIRECT_BLOCKS`. -/
def DIRECT_BLOCKS : Nat := 12

/-- Error value of the allocator, `FREEMAP_GET_ERROR`. -/
def FREEMAP_GET_ERROR : Nat := UINT32_MAX

/-- Flag `RANGE_OVERLAP` of `enum RANGE`. -/
def RANGE_OVERLAP : Nat := 1
/-- Flag `RANGE_CONTAINS` of `enum RANGE`: range 1 contains range 2. -/
def RANGE_CONTAINS : Nat := 2
/-- Flag `RANGE_CONTAINED` of `enum RANGE`: range 2 contains range 1. -/
def RANGE_CONTAINED : Nat := 4
/-- Flag `RANGE_AHEAD` of `enum RANGE`. -/
def RANGE_AHEAD : Nat := 8
/-- Flag `RANGE_BEHIND` of `enum RANGE`. -/
def RANGE_BEHIND : Nat := 16

/-! ## Pure helpers of `inode.c` -/

/-- Comparison of two inclusive ranges, `inode_range_compare`. -/
def inode_range_compare (start1 end1 start2 end2 : Nat) : Nat :=
  if end1 < start2 then RANGE_AHEAD
  else if end2 < start1 then RANGE_BEHIND
  else
    let range := RANGE_OVERLAP
    let range := if start1 ≤ start2 ∧ end1 ≥ end2 then range ||| RANGE_CONTAINS else range
    let range := if start2 ≤ start1 ∧ end2 ≥ end1 then range ||| RANGE_CONTAINED else range
    range

/-- Linear block index of a tree position, `inode_get_direct_block_idx`.  The
sums are `uint32_t` sums; reducing once at the end equals reducing after every
operation. -/
def inode_get_direct_block_idx (items_per_block l0 l1 l2 l3 : Nat) : Nat :=
  if l0 < DIRECT_BLOCKS then l0
  else if l0 = DIRECT_BLOCKS then u32 (DIRECT_BLOCKS + l1)
  else if l0 = DIRECT_BLOCKS + 1 then
    u32 (DIRECT_BLOCKS + items_per_block + l1 * items_per_block + l2)
  else if l0 = DIRECT_BLOCKS + 2 then
    u32 (DIRECT_BLOCKS + items_per_block + items_per_block * items_per_block
      + l1 * items_per_block * items_per_block + l2 * items_per_block + l3)
  else UINT32_MAX

/-- Number of index blocks needed for `direct_blocks` data blocks,
`inode_get_indirect_blocks`.  `blocks` and `indirect_blocks` are C `int`s, the
products of `items_per_block` are `uint32_t`; `none` is a failed `ASSERT` or a
division by zero. -/
def inode_get_indirect_blocks (direct_blocks items_per_block : Nat) : Option Int :=
  if items_per_block = 0 then none
  else if u32 (DIRECT_BLOCKS + items_per_block + items_per_block * items_per_block
      + items_per_block * items_per_block * items_per_block) < direct_blocks then none
  else
    let blocks : Int := toInt32 direct_blocks
    let indirect_blocks : Int := 0
    -- top level
    let blocks := toInt32 (blocks - DIRECT_BLOCKS)
    if blocks < 1 then some indirect_blocks
    else
      -- singly indirect level
      let indirect_blocks := toInt32 (indirect_blocks + 1)
      let blocks := toInt32 (blocks - items_per_block)
      if blocks < 1 then some indirect_blocks
      else
        -- doubly indirect level
        let indirect_blocks := toInt32 (indirect_blocks + 1)
        if ofInt32 blocks ≤ u32 (items_per_block * items_per_block) then
          (DIV_ROUND_UP (ofInt32 blocks) items_per_block).map
            (fun (q : Nat) => toInt32 (indirect_blocks + (q : Int)))
        else
          let indirect_blocks := toInt32 (indirect_blocks + items_per_block)
          let blocks := toInt32 (blocks - u32 (items_per_block * items_per_block))
          -- triply indirect level
          let indirect_blocks := toInt32 (indirect_blocks + 1)
          (DIV_ROUND_UP (ofInt32 blocks) (u32 (items_per_block * items_per_block))).bind
            (fun (q2 : Nat) =>
              (DIV_ROUND_UP (ofInt32 blocks) items_per_block).map
                (fun (q1 : Nat) => toInt32 (toInt32 (indirect_blocks + (q2 : Int)) + (q1 : Int))))

/-! ## Data model -/

/-- Modelled from the spec: `superblock.h` is not among the sources.  The
record keeps the superblock fields the spec lists as relevant and the code
reads, under the names the code uses. -/
structure superblock where
  s_inodes_count : Nat
  s_blocks_count : Nat
  s_first_data_block : Nat
  s_log_block_size : Nat
  s_blocks_per_group : Nat
  s_inodes_per_group : Nat
  s_free_blocks_count : Nat
  s_free_inodes_count : Nat
  s_magic : Nat

/-- The in-memory inode record, `struct inode` of `inode.h`.  `i_block` has
fifteen entries, indices `0 .. 14`. -/
structure inode where
  i_mode : Nat
  i_uid : Nat
  i_size : Nat
  i_atime : Nat
  i_ctime : Nat
  i_mtime : Nat
  i_dtime : Nat
  i_gid : Nat
  i_links_count : Nat
  i_blocks : Nat
  i_flags : Nat
  i_osd1 : Nat
  i_block : Nat → Nat
  i_generation : Nat
  i_file_acl : Nat
  i_dir_acl : Nat
  i_faddr : Nat
  i_osd2 : Nat → Nat

/-- What `inode.c` acts on besides the inode it is handed: the registered
superblock, the device contents (block id, then byte offset, to byte), and the
allocator seen from outside.  `answers k` is the block id the allocator gives
to request number `k` (`FREEMAP_GET_ERROR` when it has no space), `calls`
counts the requests made so far and `freed` lists the released blocks, the
most recent first. -/
structure fs where
  sb : superblock
  disk : Nat → Nat → Nat
  answers : Nat → Nat
  calls : Nat
  freed : List Nat

/-- Block size of the file system, `ext2_get_block_size`: `1024 << s_log_block_size`
as a `uint32_t`. -/
def ext2_get_block_size (sb : superblock) : Nat := u32 (1024 * 2 ^ sb.s_log_block_size)

/-! ## Block I/O and index words -/

/-- Contents of block `block_idx` as a buffer of `block_size` bytes,
`ext2_read_block`.  The sector loop is taken as one block-granular access. -/
def ext2_read_block (disk : Nat → Nat → Nat) (block_idx block_size : Nat) : Nat → Nat :=
  fun k => if k < block_size then disk block_idx k else 0

/-- Device contents after `ext2_write_block` stores the first `block_size`
bytes of `buffer` in block `block_idx`. -/
def ext2_write_block (disk : Nat → Nat → Nat) (block_idx block_size : Nat) (buffer : Nat → Nat) :
    Nat → Nat → Nat :=
  fun b k => if b = block_idx ∧ k < block_size then buffer k else disk b k

/-- Entry `i` of a buffer read as an array of little-endian `uint32_t`. -/
def get_word (buf : Nat → Nat) (i : Nat) : Nat :=
  buf (4 * i) % 256 + 256 * (buf (4 * i + 1) % 256) + 65536 * (buf (4 * i + 2) % 256)
    + 16777216 * (buf (4 * i + 3) % 256)

/-- Buffer after the assignment `array[i] = v` of a `uint32_t`. -/
def set_word (buf : Nat → Nat) (i v : Nat) : Nat → Nat :=
  fun k =>
    if k = 4 * i then v % 256
    else if k = 4 * i + 1 then v / 256 % 256
    else if k = 4 * i + 2 then v / 65536 % 256
    else if k = 4 * i + 3 then v / 16777216 % 256
    else buf k

/-- State with the device contents replaced. -/
def set_disk (st : fs) (disk : Nat → Nat → Nat) : fs := { st with disk := disk }

/-! ## The allocator as seen by `inode.c` -/

/-- One request `freemap_get_block(zero)`.  The answer is the next entry of
`answers`; on success the superblock count of free blocks drops by one and,
when `zero` is set, the block is filled with zero bytes (`free-map.c`, lines
83 and 92 to 98).  Bitmap, superblock and descriptor writes go to metadata
blocks, which are kept outside `disk`. -/
def freemap_get_block (zero : Bool) (st : fs) : Nat × fs :=
  let block_id := u32 (st.answers st.calls)
  let st := { st with calls := st.calls + 1 }
  if block_id = FREEMAP_GET_ERROR then (block_id, st)
  else
    let st := { st with sb := { st.sb with
      s_free_blocks_count := dec32 st.sb.s_free_blocks_count } }
    if zero then
      (block_id,
        set_disk st (ext2_write_block st.disk block_id (ext2_get_block_size st.sb) (fun _ => 0)))
    else (block_id, st)

/-- One call `freemap_free_block(block_id)`: it asserts `block_id > 0`, logs the
release and raises the superblock count of free blocks by one (`free-map.c`,
lines 123 and 149).  The bitmap of the allocator is outside `fs`, so its
assertion that the released block is marked in use (line 144) is not checked
here: a release at which the program stops on that assertion returns in this
model. -/
def freemap_free_block (block_id : Nat) (st : fs) : Option fs :=
  if block_id = 0 then none
  else some { st with
    freed := block_id :: st.freed,
    sb := { st.sb with s_free_blocks_count := u32 (st.sb.s_free_blocks_count + 1) } }

/-! ## Expanding and shrinking one indirect level -/

/-- First linear block index covered by entry `i` of an index block at depth
`level` under `i_block[l0]` (the `item_start` of the two range walkers). -/
def item_start (level items_per_block l0 l1 l2 i : Nat) : Nat :=
  if level = 1 then inode_get_direct_block_idx items_per_block l0 i 0 0
  else if level = 2 then inode_get_direct_block_idx items_per_block l0 l1 i 0
  else inode_get_direct_block_idx items_per_block l0 l1 l2 i

/-- Last linear block index covered by entry `i` (the `item_end` of the two
range walkers); `items_per_block - 1` is a `uint32_t` difference. -/
def item_end (level items_per_block l0 l1 l2 i : Nat) : Nat :=
  if level = 1 then
    inode_get_direct_block_idx items_per_block l0 i
      (dec32 items_per_block) (dec32 items_per_block)
  else if level = 2 then
    inode_get_direct_block_idx items_per_block l0 l1 i (dec32 items_per_block)
  else inode_get_direct_block_idx items_per_block l0 l1 l2 i

/-- The allocation step of `inode_expand_range` for an entry holding
`block_id2` whose range is `[istart, iend]`: a zero entry gets a fresh block,
zero-filled unless the entry is a leaf.  The result is the new value of
`block_id2` and the state. -/
def expand_entry (block_id2 istart iend : Nat) (st : fs) : Nat × fs :=
  if block_id2 = 0 then
    if istart = iend then freemap_get_block false st else freemap_get_block true st
  else (block_id2, st)

/-- The `for` loop of `inode_expand_range` from entry `i` on, with `n` entries
left to visit.  `self` stands for the recursive call of `inode_expand_range`
(its returned value is not looked at); the result is the value of `ret`, the
buffer `level_data` and the state when the loop is left. -/
def expand_loop (self : Nat → Nat → Nat → Nat → Nat → Nat → Nat → Nat → Nat → fs → Option (Int × fs))
    (level start end_ items_per_block l0 l1 l2 l3 : Nat) :
    Nat → Nat → (Nat → Nat) → fs → Option (Int × (Nat → Nat) × fs)
  | 0, _, level_data, st => some (0, level_data, st)
  | n + 1, i, level_data, st =>
    let istart := item_start level items_per_block l0 l1 l2 i
    let iend := item_end level items_per_block l0 l1 l2 i
    let range_comparison := inode_range_compare istart iend start end_
    if range_comparison &&& RANGE_OVERLAP > 0 then
      -- Allocate block in disk if not exist.
      let got := expand_entry (get_word level_data i) istart iend st
      if got.1 ≠ FREEMAP_GET_ERROR then
        if istart = iend then
          expand_loop self level start end_ items_per_block l0 l1 l2 l3 n (i + 1)
            (set_word level_data i got.1) got.2
        else if level = 1 then
          (self got.1 (level + 1) start end_ items_per_block l0 i 0 0 got.2).bind fun r =>
            expand_loop self level start end_ items_per_block l0 l1 l2 l3 n (i + 1)
              (set_word level_data i got.1) r.2
        else if level = 2 then
          (self got.1 (level + 1) start end_ items_per_block l0 l1 i 0 got.2).bind fun r =>
            expand_loop self level start end_ items_per_block l0 l1 l2 l3 n (i + 1)
              (set_word level_data i got.1) r.2
        else none
      else some (-1, level_data, got.2)
    else if range_comparison &&& RANGE_AHEAD > 0 then
      expand_loop self level start end_ items_per_block l0 l1 l2 l3 n (i + 1) level_data st
    else some (0, level_data, st)

/-- Allocation of the blocks of the index block `block_id` whose range meets
`[start, end_]`, `inode_expand_range`.  The first argument bounds the nesting
of the recursive calls; `none` is a `PANIC`, a failed `ASSERT`, or an
exhausted bound. -/
def inode_expand_range :
    Nat → Nat → Nat → Nat → Nat → Nat → Nat → Nat → Nat → Nat → fs → Option (Int × fs)
  | 0, _, _, _, _, _, _, _, _, _, _ => none
  | fuel + 1, block_id, level, start, end_, items_per_block, l0, l1, l2, l3, st =>
    if level = 0 then none
    else
      (expand_loop (inode_expand_range fuel) level start end_ items_per_block l0 l1 l2 l3
        items_per_block 0 (ext2_read_block st.disk block_id (u32 (items_per_block * 4))) st).bind
        fun r => some (r.1,
          set_disk r.2.2 (ext2_write_block r.2.2.disk block_id (u32 (items_per_block * 4)) r.2.1))

/-- The `for` loop of `inode_shrink_range` from entry `i` on, with `n` entries
left to visit; `self` stands for the recursive call. -/
def shrink_loop (self : Nat → Nat → Nat → Nat → Nat → Nat → Nat → Nat → Nat → fs → Option (Int × fs))
    (level start end_ items_per_block l0 l1 l2 l3 : Nat) :
    Nat → Nat → (Nat → Nat) → fs → Option (Int × (Nat → Nat) × fs)
  | 0, _, level_data, st => some (0, level_data, st)
  | n + 1, i, level_data, st =>
    let istart := item_start level items_per_block l0 l1 l2 i
    let iend := item_end level items_per_block l0 l1 l2 i
    let range_comparison := inode_range_compare istart iend start end_
    if range_comparison &&& RANGE_OVERLAP > 0 then
      -- If the block is cleared already.
      if get_word level_data i = 0 then
        shrink_loop self level start end_ items_per_block l0 l1 l2 l3 n (i + 1) level_data st
      else if istart = iend then
        -- free block and set entry to zero
        (freemap_free_block (get_word level_data i) st).bind fun st =>
          shrink_loop self level start end_ items_per_block l0 l1 l2 l3 n (i + 1)
            (set_word level_data i 0) st
      else
        -- free sub level
        (if level = 1 then
            self (get_word level_data i) (level + 1) start end_ items_per_block l0 i 0 0 st
          else if level = 2 then
            self (get_word level_data i) (level + 1) start end_ items_per_block l0 l1 i 0 st
          else none).bind fun r =>
          -- if shrink range contains entire level
          if start ≤ istart then
            (freemap_free_block (get_word level_data i) r.2).bind fun st =>
              shrink_loop self level start end_ items_per_block l0 l1 l2 l3 n (i + 1)
                (set_word level_data i 0) st
          else
            shrink_loop self level start end_ items_per_block l0 l1 l2 l3 n (i + 1) level_data r.2
    else if range_comparison &&& RANGE_AHEAD > 0 then
      shrink_loop self level start end_ items_per_block l0 l1 l2 l3 n (i + 1) level_data st
    else some (0, level_data, st)

/-- Release of the blocks of the index block `block_id` whose range meets
`[start, end_]`, `inode_shrink_range`. -/
def inode_shrink_range :
    Nat → Nat → Nat → Nat → Nat → Nat → Nat → Nat → Nat → Nat → fs → Option (Int × fs)
  | 0, _, _, _, _, _, _, _, _, _, _ => none
  | fuel + 1, block_id, level, start, end_, items_per_block, l0, l1, l2, l3, st =>
    if level = 0 then none
    else
      (shrink_loop (inode_shrink_range fuel) level start end_ items_per_block l0 l1 l2 l3
        items_per_block 0 (ext2_read_block st.disk block_id (u32 (items_per_block * 4))) st).bind
        fun r => some (r.1,
          set_disk r.2.2 (ext2_write_block r.2.2.disk block_id (u32 (items_per_block * 4)) r.2.1))

/-! ## `inode_resize` -/

/-- Inode after the assignment `inode->i_block[i] = v`. -/
def set_i_block (ino : inode) (i v : Nat) : inode :=
  { ino with i_block := fun j => if j = i then v else ino.i_block j }

/-- How a block of `inode_resize` hands control on: to the statement that
follows it, to the label `done`, or out of the function with `return -1`. -/
inductive flow where
  | next
  | done
  | fail
  deriving DecidableEq

/-- The `for` loop over the direct slots in the expanding branch of
`inode_resize`, from slot `i` on (`n` bounds the iterations left).  The flag is
`false` when the loop left the function with `return -1`. -/
def expand_direct (fs_blocks : Nat) : Nat → Nat → inode → fs → Bool × inode × fs
  | 0, _, ino, st => (true, ino, st)
  | n + 1, i, ino, st =>
    if i < DIRECT_BLOCKS ∧ i < fs_blocks then
      if ino.i_block i = 0 then
        if (freemap_get_block false st).1 ≠ FREEMAP_GET_ERROR then
          expand_direct fs_blocks n (i + 1)
            (set_i_block ino i (freemap_get_block false st).1) (freemap_get_block false st).2
        else (false, ino, (freemap_get_block false st).2)
      else expand_direct fs_blocks n (i + 1) ino st
    else (true, ino, st)

/-- The block of the expanding branch of `inode_resize` for the indirect level
under `i_block[l0]` (`l0` is `DIRECT_BLOCKS`, `DIRECT_BLOCKS+1` or
`DIRECT_BLOCKS+2`).  The source repeats this block three times; the third copy
has no `goto done` of its own because `goto done` follows it.  The value
returned by `inode_expand_range` is not looked at. -/
def expand_level (items_per_block old_fs_blocks fs_blocks l0 : Nat) (ino : inode) (st : fs) :
    Option (flow × inode × fs) :=
  let start_idx := inode_get_direct_block_idx items_per_block l0 0 0 0
  let end_idx := inode_get_direct_block_idx items_per_block l0
    (dec32 items_per_block) (dec32 items_per_block)
    (dec32 items_per_block)
  let range_comparison :=
    inode_range_compare old_fs_blocks (dec32 fs_blocks) start_idx end_idx
  if range_comparison &&& RANGE_OVERLAP > 0 then
    if ino.i_block l0 = 0 then
      if (freemap_get_block true st).1 ≠ FREEMAP_GET_ERROR then
        (inode_expand_range 3 (freemap_get_block true st).1 1 old_fs_blocks
          (dec32 fs_blocks) items_per_block l0 0 0 0
          (freemap_get_block true st).2).bind
          fun r => some (flow.next, set_i_block ino l0 (freemap_get_block true st).1, r.2)
      else some (flow.fail, ino, (freemap_get_block true st).2)
    else
      (inode_expand_range 3 (ino.i_block l0) 1 old_fs_blocks (dec32 fs_blocks)
        items_per_block l0 0 0 0 st).bind
        fun r => some (flow.next, ino, r.2)
  -- Level range passed expansion range
  else if range_comparison &&& RANGE_AHEAD > 0 then some (flow.done, ino, st)
  else some (flow.next, ino, st)

/-- The `for` loop over the direct slots in the shrinking branch of
`inode_resize`, from slot `i` on. -/
def shrink_direct (old_fs_blocks : Nat) : Nat → Nat → inode → fs → Option (inode × fs)
  | 0, _, ino, st => some (ino, st)
  | n + 1, i, ino, st =>
    if i < DIRECT_BLOCKS ∧ i < old_fs_blocks then
      if ino.i_block i ≠ 0 then
        (freemap_free_block (ino.i_block i) st).bind fun st =>
          shrink_direct old_fs_blocks n (i + 1) (set_i_block ino i 0) st
      else shrink_direct old_fs_blocks n (i + 1) ino st
    else some (ino, st)

/-- The block of the shrinking branch of `inode_resize` for the indirect level
under `i_block[l0]`. -/
def shrink_level (items_per_block fs_blocks old_fs_blocks l0 : Nat) (ino : inode) (st : fs) :
    Option (flow × inode × fs) :=
  let start_idx := inode_get_direct_block_idx items_per_block l0 0 0 0
  let end_idx := inode_get_direct_block_idx items_per_block l0
    (dec32 items_per_block) (dec32 items_per_block)
    (dec32 items_per_block)
  let range_comparison :=
    inode_range_compare fs_blocks (dec32 old_fs_blocks) start_idx end_idx
  if range_comparison &&& RANGE_OVERLAP > 0 then
    if ino.i_block l0 ≠ 0 then
      -- Shrink sub range first
      (inode_shrink_range 3 (ino.i_block l0) 1 fs_blocks (dec32 old_fs_blocks)
        items_per_block l0 0 0 0 st).bind fun r =>
        -- If shrink range contains the whole level
        if fs_blocks ≤ start_idx then
          (freemap_free_block (ino.i_block l0) r.2).bind fun st =>
            some (flow.next, set_i_block ino l0 0, st)
        else some (flow.next, ino, r.2)
    else some (flow.next, ino, st)
  -- if level range passed shrink range
  else if range_comparison &&& RANGE_AHEAD > 0 then some (flow.done, ino, st)
  else some (flow.next, ino, st)

/-- The three indirect levels in source order: single, double, triple.  A level
that does not hand control to the next statement ends the walk. -/
def walk_levels (step : Nat → inode → fs → Option (flow × inode × fs)) (ino : inode) (st : fs) :
    Option (flow × inode × fs) :=
  (step DIRECT_BLOCKS ino st).bind fun r1 =>
    if r1.1 = flow.next then
      (step (DIRECT_BLOCKS + 1) r1.2.1 r1.2.2).bind fun r2 =>
        if r2.1 = flow.next then step (DIRECT_BLOCKS + 2) r2.2.1 r2.2.2
        else some r2
    else some r1

/-- The label `done` of `inode_resize`: the size fields are set. -/
def resize_done (bytes fs_blocks : Nat) (indirect_blocks : Int) (ino : inode) (st : fs) : inode :=
  { ino with
    i_size := bytes,
    i_blocks := u32 ((fs_blocks + ofInt32 indirect_blocks) * (2 * 2 ^ st.sb.s_log_block_size)) }

/-- The end of a branch of `inode_resize` after its three indirect levels:
`return -1` when a level failed, the label `done` otherwise. -/
def resize_finish (bytes fs_blocks : Nat) (indirect_blocks : Int) (r : flow × inode × fs) :
    Int × inode × fs :=
  if r.1 = flow.fail then (-1, r.2.1, r.2.2)
  else (0, resize_done bytes fs_blocks indirect_blocks r.2.1 r.2.2, r.2.2)

/-- The shrinking branch of `inode_resize` (label `shrink`). -/
def resize_shrink (items_per_block bytes fs_blocks old_fs_blocks : Nat) (indirect_blocks : Int)
    (ino : inode) (st : fs) : Option (Int × inode × fs) :=
  (shrink_direct old_fs_blocks DIRECT_BLOCKS fs_blocks ino st).bind fun r1 =>
    (walk_levels (shrink_level items_per_block fs_blocks old_fs_blocks) r1.1 r1.2).bind fun r2 =>
      some (resize_finish bytes fs_blocks indirect_blocks r2)

/-- The expanding branch of `inode_resize`. -/
def resize_expand (items_per_block bytes fs_blocks old_fs_blocks : Nat) (indirect_blocks : Int)
    (ino : inode) (st : fs) : Option (Int × inode × fs) :=
  if (expand_direct fs_blocks DIRECT_BLOCKS old_fs_blocks ino st).1 = false then
    some (-1, (expand_direct fs_blocks DIRECT_BLOCKS old_fs_blocks ino st).2.1,
      (expand_direct fs_blocks DIRECT_BLOCKS old_fs_blocks ino st).2.2)
  else
    (walk_levels (expand_level items_per_block old_fs_blocks fs_blocks)
      (expand_direct fs_blocks DIRECT_BLOCKS old_fs_blocks ino st).2.1
      (expand_direct fs_blocks DIRECT_BLOCKS old_fs_blocks ino st).2.2).bind fun r2 =>
      some (resize_finish bytes fs_blocks indirect_blocks r2)

/-- Resize of the block tree of an inode to hold `bytes` bytes, `inode_resize`.
The result is the returned `int`, the inode and the state; `none` is a `PANIC`,
a failed `ASSERT` or a division by zero. -/
def inode_resize (st : fs) (ino : inode) (bytes : Nat) : Option (Int × inode × fs) :=
  -- Calculate number of direct fs block to hold bytes
  (DIV_ROUND_UP bytes (ext2_get_block_size st.sb)).bind fun fs_blocks =>
    (DIV_ROUND_UP ino.i_size (ext2_get_block_size st.sb)).bind fun old_fs_blocks =>
      (inode_get_indirect_blocks fs_blocks (ext2_get_block_size st.sb / 4)).bind
        fun indirect_blocks =>
          if indirect_blocks < 0 then some (-1, ino, st)
          -- If blocks does not expand or shrink
          else if fs_blocks = old_fs_blocks then
            some (0, resize_done bytes fs_blocks indirect_blocks ino st, st)
          -- If data shrinks
          else if fs_blocks < old_fs_blocks then
            resize_shrink (ext2_get_block_size st.sb / 4) bytes fs_blocks old_fs_blocks
              indirect_blocks ino st
          else
            resize_expand (ext2_get_block_size st.sb / 4) bytes fs_blocks old_fs_blocks
              indirect_blocks ino st

/-! ## Lookup -/

/-- Entry for `idx` in the index tree rooted at `block_id`, followed down
`level` further levels, `inode_traverse_linklist`.  `ids_per_entry` is the
`uint32_t` product of `level` factors `items_per_block`; a zero divisor and an
index past the end of the block are `none`. -/
def inode_traverse_linklist (st : fs) : Nat → Nat → Nat → Option Nat
  | 0, block_id, idx =>
    let items_per_block := ext2_get_block_size st.sb / 4
    let table_idx := idx
    if items_per_block ≤ table_idx then none
    else some (get_word (ext2_read_block st.disk block_id (ext2_get_block_size st.sb)) table_idx)
  | level + 1, block_id, idx =>
    let items_per_block := ext2_get_block_size st.sb / 4
    let ids_per_entry := u32 (items_per_block ^ (level + 1))
    if ids_per_entry = 0 then none
    else
      let table_idx := idx / ids_per_entry
      if items_per_block ≤ table_idx then none
      else
        let block_id :=
          get_word (ext2_read_block st.disk block_id (ext2_get_block_size st.sb)) table_idx
        let idx := sub32 idx (u32 (table_idx * ids_per_entry))
        inode_traverse_linklist st level block_id idx

/-- Block id of the `idx`-th data block of an inode, `inode_get_data_block`;
`none` is the `PANIC` for an index past the triple-indirect range. -/
def inode_get_data_block (st : fs) (ino : inode) (idx : Nat) : Option Nat :=
  let items_per_block := ext2_get_block_size st.sb / 4
  -- if block is within first 12 blocks
  let ids_per_level := DIRECT_BLOCKS
  if idx < ids_per_level then some (ino.i_block idx)
  else
    let idx := idx - ids_per_level
    let ids_per_level := items_per_block
    if idx < ids_per_level then inode_traverse_linklist st 0 (ino.i_block 12) idx
    else
      let idx := idx - ids_per_level
      let ids_per_level := u32 (ids_per_level * items_per_block)
      if idx < ids_per_level then inode_traverse_linklist st 1 (ino.i_block 13) idx
      else
        let idx := idx - ids_per_level
        let ids_per_level := u32 (ids_per_level * items_per_block)
        if idx < ids_per_level then inode_traverse_linklist st 2 (ino.i_block 14) idx
        else none

/-! ## Byte-level read and write -/

/-- The `while` loop of `inode_read_at`.  `size`, `offset` and `bytes_read` are
`off_t` (signed 32-bit) values; `buffer` is the caller's memory, from byte
offset to byte.  The first argument bounds the iterations; `kmalloc` of the
bounce buffer is taken to succeed.  `none` is a failed `ASSERT`, a `PANIC` of
the lookup, or an exhausted bound. -/
def read_loop (st : fs) (ino : inode) :
    Nat → (Nat → Nat) → Int → Int → Int → Option (Int × (Nat → Nat))
  | 0, buffer, size, _, bytes_read => if size > 0 then none else some (bytes_read, buffer)
  | n + 1, buffer, size, offset, bytes_read =>
    if size > 0 then
      let block_size := ext2_get_block_size st.sb
      if block_size = 0 then none
      else
        let block_idx := ofInt32 offset / block_size
        let block_ofs := ofInt32 offset % block_size
        (inode_get_data_block st ino block_idx).bind fun block_id =>
          if block_id = UINT32_MAX then none
          else
            -- Calculate bytes to copy
            let inode_left := toInt32 ((ino.i_size : Int) - offset)
            let block_left := toInt32 ((block_size : Int) - (block_ofs : Int))
            let min_left := if inode_left < block_left then inode_left else block_left
            let chunk_size := if size < min_left then size else min_left
            -- no bytes to be read
            if chunk_size ≤ 0 then some (bytes_read, buffer)
            else
              let block := ext2_read_block st.disk block_id block_size
              let buffer : Nat → Nat :=
                if block_ofs = 0 ∧ ofInt32 chunk_size = block_size then
                  -- whole block data
                  fun k =>
                    if bytes_read.toNat ≤ k ∧ k < bytes_read.toNat + block_size then
                      block (k - bytes_read.toNat)
                    else buffer k
                else
                  fun k =>
                    if bytes_read.toNat ≤ k ∧ k < bytes_read.toNat + chunk_size.toNat then
                      block (block_ofs + (k - bytes_read.toNat))
                    else buffer k
              read_loop st ino n buffer (toInt32 (size - chunk_size))
                (toInt32 (offset + chunk_size)) (toInt32 (bytes_read + chunk_size))
    else some (bytes_read, buffer)

/-- Read of `size` bytes at `offset` into `buffer`, `inode_read_at`: the
number of bytes read and the buffer afterwards. -/
def inode_read_at (st : fs) (ino : inode) (buffer : Nat → Nat) (size offset : Int) :
    Option (Int × (Nat → Nat)) :=
  read_loop st ino size.toNat buffer size offset 0

/-- The `while` loop of `inode_write_at`; `buffer` is the caller's data. -/
def write_loop (ino : inode) (buffer : Nat → Nat) :
    Nat → fs → Int → Int → Int → Option (Int × fs)
  | 0, st, size, _, bytes_written => if size > 0 then none else some (bytes_written, st)
  | n + 1, st, size, offset, bytes_written =>
    if size > 0 then
      let block_size := ext2_get_block_size st.sb
      if block_size = 0 then none
      else
        let block_idx := ofInt32 offset / block_size
        let block_ofs := ofInt32 offset % block_size
        (inode_get_data_block st ino block_idx).bind fun block_id =>
          if block_id = UINT32_MAX then none
          else
            -- Calculate bytes to write
            let inode_left := toInt32 ((ino.i_size : Int) - offset)
            let block_left := toInt32 ((block_size : Int) - (block_ofs : Int))
            let min_left := if inode_left < block_left then inode_left else block_left
            let chunk_size := if size < min_left then size else min_left
            if chunk_size ≤ 0 then some (bytes_written, st)
            else
              let data : Nat → Nat :=
                if block_ofs = 0 ∧ ofInt32 chunk_size = block_size then
                  -- whole block data
                  fun k => buffer (bytes_written.toNat + k)
                else
                  -- First read the block from disk, then modify data read
                  let bounce := ext2_read_block st.disk block_id block_size
                  fun k =>
                    if block_ofs ≤ k ∧ k < block_ofs + chunk_size.toNat then
                      buffer (bytes_written.toNat + (k - block_ofs))
                    else bounce k
              write_loop ino buffer n
                (set_disk st (ext2_write_block st.disk block_id block_size data))
                (toInt32 (size - chunk_size))
                (toInt32 (offset + chunk_size)) (toInt32 (bytes_written + chunk_size))
    else some (bytes_written, st)

/-- Write of `size` bytes of `buffer` at `offset`, `inode_write_at`: the number
of bytes written, the inode (resized) and the state afterwards. -/
def inode_write_at (st : fs) (ino : inode) (buffer : Nat → Nat) (size offset : Int) :
    Option (Int × inode × fs) :=
  -- Resize inode
  (inode_resize st ino (ofInt32 (toInt32 (offset + size)))).bind fun r =>
    if r.1 < 0 then some (0, r.2.1, r.2.2)
    else
      (write_loop r.2.1 buffer size.toNat r.2.2 size offset 0).bind fun w =>
        some (w.1, r.2.1, w.2)

/-! ## The registered device: `ext2.h`, `block_group.h` -/

/-- The `uint16_t` value of a number. -/
def u16 (x : Nat) : Nat := x % 65536

/-- Block group descriptor, `struct bg_desc_table` of `block_group.h`.  The
three counters are `uint16_t`. -/
structure bg_desc_table where
  bg_block_bitmap : Nat
  bg_inode_bitmap : Nat
  bg_inode_table : Nat
  bg_free_blocks_count : Nat
  bg_free_inodes_count : Nat
  bg_used_dirs_count : Nat
  bg_pad : Nat
  bg_reserved : Nat → Nat

/-- Registry entry of a device, `struct ext2_meta_data` of `ext2.h`: the
superblock and the descriptor table held in memory. -/
structure ext2_meta_data where
  sb : superblock
  bg_desc_tabs : Nat → bg_desc_table

/-- A registered device seen by `free-map.c` and by the inode-table functions
of `inode.c`: its registry entry and its contents.  `disk` holds the blocks
(block id, then byte offset, to byte); the superblock area and the area of the
descriptor table are kept apart from it, as the records last written there
(`disk_sb`, `disk_bg`). -/
structure ext2 where
  meta : ext2_meta_data
  disk : Nat → Nat → Nat
  disk_sb : superblock
  disk_bg : Nat → bg_desc_table

/-! ## Bitmaps -/

/-- Modelled from the spec: `bitmap.c` is not among the sources (`bitmap.h`
declares the functions).  A bitmap is a count of bits and the bits; bit `i` is
LSB-first within byte `i / 8` of the backing buffer. -/
structure bitmap where
  bit_cnt : Nat
  bits : Nat → Bool

/-- Sentinel `BITMAP_ERROR` of `bitmap.h`. -/
def BITMAP_ERROR : Nat := UINT32_MAX

/-- Modelled from the spec: `bitmap_create_from_buf(block, block_size)` wraps a
buffer of `block_size` bytes, which holds `8 * block_size` bits; no bit lies
past the end of the buffer. -/
def bitmap_create_from_buf (block : Nat → Nat) (block_size : Nat) : bitmap :=
  { bit_cnt := 8 * block_size,
    bits := fun i => decide (i < 8 * block_size) && decide (block (i / 8) / 2 ^ (i % 8) % 2 = 1) }

/-- The value `1` or `0` of a bit. -/
def bit_val (b : Bool) : Nat := if b then 1 else 0

/-- Modelled from the spec: `bitmap_get_bits` exposes the backing buffer; byte
`k` packs the bits `8 * k`, ..., `8 * k + 7`, lowest first. -/
def bitmap_get_bits (b : bitmap) : Nat → Nat :=
  fun k =>
    bit_val (b.bits (8 * k)) + 2 * bit_val (b.bits (8 * k + 1))
      + 4 * bit_val (b.bits (8 * k + 2)) + 8 * bit_val (b.bits (8 * k + 3))
      + 16 * bit_val (b.bits (8 * k + 4)) + 32 * bit_val (b.bits (8 * k + 5))
      + 64 * bit_val (b.bits (8 * k + 6)) + 128 * bit_val (b.bits (8 * k + 7))

/-- Whether the `cnt` bits from `start` on all have the value `value`. -/
def bits_all (bits : Nat → Bool) (value : Bool) : Nat → Nat → Bool
  | 0, _ => true
  | cnt + 1, start => (bits start == value) && bits_all bits value cnt (start + 1)

/-- Modelled from the spec: `bitmap_all(b, start, cnt)`, the test-all-in-range
operation: the `cnt` bits from `start` on are all set. -/
def bitmap_all (b : bitmap) (start cnt : Nat) : Bool := bits_all b.bits true cnt start

/-- Modelled from the spec: `bitmap_set_multiple(b, start, cnt, value)`, the
set-range operation. -/
def bitmap_set_multiple (b : bitmap) (start cnt : Nat) (value : Bool) : bitmap :=
  { b with bits := fun i =>
      if start ≤ i ∧ i < start + cnt ∧ i < b.bit_cnt then value else b.bits i }

/-- The lowest index among `i`, ..., `i + n - 1` at which `p` holds. -/
def scan_from (p : Nat → Bool) : Nat → Nat → Option Nat
  | 0, _ => none
  | n + 1, i => if p i then some i else scan_from p n (i + 1)

/-- Modelled from the spec: `bitmap_scan(b, start, cnt, value)` returns the
lowest index at or after `start` of `cnt` contiguous bits equal to `value`, all
inside the bitmap, or the sentinel. -/
def bitmap_scan (b : bitmap) (start cnt : Nat) (value : Bool) : Nat :=
  if cnt ≤ b.bit_cnt then
    (scan_from (fun i => bits_all b.bits value cnt i) (b.bit_cnt - cnt + 1 - start) start).getD
      BITMAP_ERROR
  else BITMAP_ERROR

/-- Modelled from the spec: `bitmap_scan_and_flip` scans and, when a group of
bits is found, negates its bits.  The result is the index and the bitmap. -/
def bitmap_scan_and_flip (b : bitmap) (start cnt : Nat) (value : Bool) : Nat × bitmap :=
  if bitmap_scan b start cnt value ≠ BITMAP_ERROR then
    (bitmap_scan b start cnt value,
      bitmap_set_multiple b (bitmap_scan b start cnt value) cnt (!value))
  else (BITMAP_ERROR, b)

/-! ## Device access of `ext2.c` on a registered device -/

/-- Bitmap stored in block `block_idx`, `ext2_read_bitmap`. -/
def ext2_read_bitmap (st : ext2) (block_idx : Nat) : bitmap :=
  bitmap_create_from_buf
    (ext2_read_block st.disk block_idx (ext2_get_block_size st.meta.sb))
    (ext2_get_block_size st.meta.sb)

/-- Device after `ext2_write_block` of the first `block_size` bytes of `buffer`. -/
def write_block (st : ext2) (block_idx block_size : Nat) (buffer : Nat → Nat) : ext2 :=
  { st with disk := ext2_write_block st.disk block_idx block_size buffer }

/-- Device after `ext2_write_superblock(d, meta->sb)`. -/
def ext2_write_superblock (st : ext2) : ext2 := { st with disk_sb := st.meta.sb }

/-- Device after `ext2_write_bg_desc_tables(d, meta->bg_desc_tabs)`: whole
blocks of descriptors are written, `sizeof(struct bg_desc_table)` being 32.
`none` is a division by zero. -/
def ext2_write_bg_desc_tables (st : ext2) : Option ext2 :=
  (DIV_ROUND_UP st.meta.sb.s_blocks_count st.meta.sb.s_blocks_per_group).bind fun block_groups =>
    (DIV_ROUND_UP (u32 (block_groups * 32)) (ext2_get_block_size st.meta.sb)).bind
      fun blocks_to_write =>
        some { st with disk_bg := fun g =>
          if 32 * g < blocks_to_write * ext2_get_block_size st.meta.sb then st.meta.bg_desc_tabs g
          else st.disk_bg g }

/-- Registry with the superblock replaced. -/
def set_sb (st : ext2) (sb : superblock) : ext2 :=
  { st with meta := { st.meta with sb := sb } }

/-- Registry with descriptor `g` replaced, the assignment through `bg_desc`. -/
def set_bg_desc (st : ext2) (g : Nat) (desc : bg_desc_table) : ext2 :=
  { st with meta := { st.meta with
      bg_desc_tabs := fun j => if j = g then desc else st.meta.bg_desc_tabs j } }

/-! ## `free-map.c` -/

/-- The `for` loop of `freemap_get_blocks` and of `freemap_get_inode` over the
groups, from group `i` on with `n` groups left: the value of `i` when the loop
is left, either at the `break` for a group whose counter satisfies `enough` or
at the end of the groups.  The `int` counter is taken not to overflow. -/
def search_group (enough : Nat → Bool) : Nat → Nat → Nat
  | 0, i => i
  | n + 1, i => if enough i then i else search_group enough n (i + 1)

/-- The loop that zero-fills the allotted blocks, from block `block_id + i` on. -/
def zero_blocks (block_id block_size : Nat) : Nat → Nat → ext2 → ext2
  | 0, _, st => st
  | n + 1, i, st =>
    zero_blocks block_id block_size n (i + 1)
      (write_block st (u32 (block_id + i)) block_size (fun _ => 0))

/-- Superblock with `s_free_blocks_count` assigned. -/
def sb_set_free_blocks (sb : superblock) (v : Nat) : superblock :=
  { sb with s_free_blocks_count := v }

/-- Superblock with `s_free_inodes_count` assigned. -/
def sb_set_free_inodes (sb : superblock) (v : Nat) : superblock :=
  { sb with s_free_inodes_count := v }

/-- Descriptor with `bg_free_blocks_count` assigned. -/
def bg_set_free_blocks (desc : bg_desc_table) (v : Nat) : bg_desc_table :=
  { desc with bg_free_blocks_count := v }

/-- Descriptor with `bg_free_inodes_count` assigned. -/
def bg_set_free_inodes (desc : bg_desc_table) (v : Nat) : bg_desc_table :=
  { desc with bg_free_inodes_count := v }

/-- The statements `freemap_get_blocks` (lines 83 to 90) and
`freemap_free_blocks` (lines 149 to 156) share: the two counters get their new
values, then the bitmap of group `g`, the superblock and the descriptor table
are written to the device. -/
def update_blocks (st : ext2) (g sb_count bg_count : Nat) (block_map : bitmap) : Option ext2 :=
  ext2_write_bg_desc_tables
    (ext2_write_superblock
      (write_block
        (set_bg_desc (set_sb st (sb_set_free_blocks st.meta.sb sb_count)) g
          (bg_set_free_blocks (st.meta.bg_desc_tabs g) bg_count))
        (st.meta.bg_desc_tabs g).bg_block_bitmap (ext2_get_block_size st.meta.sb)
        (bitmap_get_bits block_map)))

/-- The statements `freemap_get_inode` (lines 211 to 218) and
`freemap_free_inode` (lines 264 to 271) share. -/
def update_inodes (st : ext2) (g sb_count bg_count : Nat) (inode_map : bitmap) : Option ext2 :=
  ext2_write_bg_desc_tables
    (ext2_write_superblock
      (write_block
        (set_bg_desc (set_sb st (sb_set_free_inodes st.meta.sb sb_count)) g
          (bg_set_free_inodes (st.meta.bg_desc_tabs g) bg_count))
        (st.meta.bg_desc_tabs g).bg_inode_bitmap (ext2_get_block_size st.meta.sb)
        (bitmap_get_bits inode_map)))

/-- The group the loop of `freemap_get_blocks` stops at. -/
def blocks_group (blocks : Nat) (st : ext2) : Nat :=
  search_group (fun g => decide (blocks ≤ (st.meta.bg_desc_tabs g).bg_free_blocks_count))
    (st.meta.sb.s_blocks_count / st.meta.sb.s_blocks_per_group - 1) 1

/-- The group the loop of `freemap_get_inode` stops at. -/
def inodes_group (st : ext2) : Nat :=
  search_group (fun g => decide (0 < (st.meta.bg_desc_tabs g).bg_free_inodes_count))
    (st.meta.sb.s_inodes_count / st.meta.sb.s_inodes_per_group - 1) 1

/-- Block id of local index `idx` of group `g`: the two `+=` of lines 75 and 81. -/
def block_of_index (st : ext2) (g idx : Nat) : Nat :=
  u32 (u32 (idx + u32 (g * st.meta.sb.s_blocks_per_group)) + st.meta.sb.s_first_data_block)

/-- Inode number of local index `idx` of group `g`: lines 207 and 209. -/
def inode_of_index (st : ext2) (g idx : Nat) : Nat :=
  u32 (u32 (idx + u32 (g * st.meta.sb.s_inodes_per_group)) + 1)

/-- Allocation of `blocks` contiguous blocks, `freemap_get_blocks`: the block id
returned and the device afterwards.  `none` is a failed `ASSERT`, a division by
zero, or the use of `bg_desc` while it is still `NULL` (the loop over the
groups never ran and `i` differs from `bg_groups`). -/
def freemap_get_blocks (blocks : Nat) (zero : Bool) (st : ext2) : Option (Nat × ext2) :=
  if blocks = 0 then none
  -- Check if there are enough free blocks
  else if st.meta.sb.s_free_blocks_count < blocks then some (FREEMAP_GET_ERROR, st)
  else if st.meta.sb.s_blocks_per_group = 0 then none
  -- Search block groups, start from the second group; check if block group is found
  else if blocks_group blocks st = st.meta.sb.s_blocks_count / st.meta.sb.s_blocks_per_group then
    some (FREEMAP_GET_ERROR, st)
  else if st.meta.sb.s_blocks_count / st.meta.sb.s_blocks_per_group ≤ 1 then none
  else if
    (bitmap_scan_and_flip
      (ext2_read_bitmap st (st.meta.bg_desc_tabs (blocks_group blocks st)).bg_block_bitmap)
      0 blocks false).1 ≠ BITMAP_ERROR then
    (update_blocks st (blocks_group blocks st)
      (sub32 st.meta.sb.s_free_blocks_count blocks)
      (u16 (sub32 (st.meta.bg_desc_tabs (blocks_group blocks st)).bg_free_blocks_count blocks))
      (bitmap_scan_and_flip
        (ext2_read_bitmap st (st.meta.bg_desc_tabs (blocks_group blocks st)).bg_block_bitmap)
        0 blocks false).2).bind fun st4 =>
      -- Zero newly allotted blocks
      if zero then
        some (block_of_index st (blocks_group blocks st)
            (bitmap_scan_and_flip
              (ext2_read_bitmap st (st.meta.bg_desc_tabs (blocks_group blocks st)).bg_block_bitmap)
              0 blocks false).1,
          zero_blocks
            (block_of_index st (blocks_group blocks st)
              (bitmap_scan_and_flip
                (ext2_read_bitmap st
                  (st.meta.bg_desc_tabs (blocks_group blocks st)).bg_block_bitmap)
                0 blocks false).1)
            (ext2_get_block_size st.meta.sb) blocks 0 st4)
      else
        some (block_of_index st (blocks_group blocks st)
            (bitmap_scan_and_flip
              (ext2_read_bitmap st (st.meta.bg_desc_tabs (blocks_group blocks st)).bg_block_bitmap)
              0 blocks false).1, st4)
  else some (FREEMAP_GET_ERROR, st)

/-- Release of `blocks` blocks from `block_id` on, `freemap_free_blocks`.
`none` is a failed `ASSERT` or a division by zero.  The group is
`(block_id - s_first_data_block) / s_blocks_per_group` and the local index the
remainder of that division. -/
def freemap_free_blocks (block_id blocks : Nat) (st : ext2) : Option ext2 :=
  if block_id = 0 ∨ blocks = 0 then none
  else if st.meta.sb.s_blocks_per_group = 0 then none
  else if
    bitmap_all
      (ext2_read_bitmap st
        (st.meta.bg_desc_tabs
          (sub32 block_id st.meta.sb.s_first_data_block
            / st.meta.sb.s_blocks_per_group)).bg_block_bitmap)
      (sub32 block_id st.meta.sb.s_first_data_block % st.meta.sb.s_blocks_per_group)
      blocks = false then none
  else
    update_blocks st
      (sub32 block_id st.meta.sb.s_first_data_block / st.meta.sb.s_blocks_per_group)
      (u32 (st.meta.sb.s_free_blocks_count + blocks))
      (u16 ((st.meta.bg_desc_tabs
          (sub32 block_id st.meta.sb.s_first_data_block
            / st.meta.sb.s_blocks_per_group)).bg_free_blocks_count + blocks))
      (bitmap_set_multiple
        (ext2_read_bitmap st
          (st.meta.bg_desc_tabs
            (sub32 block_id st.meta.sb.s_first_data_block
              / st.meta.sb.s_blocks_per_group)).bg_block_bitmap)
        (sub32 block_id st.meta.sb.s_first_data_block % st.meta.sb.s_blocks_per_group)
        blocks false)

/-- Allocation of an inode number, `freemap_get_inode`. -/
def freemap_get_inode (st : ext2) : Option (Nat × ext2) :=
  -- Check if there are enough free inodes
  if st.meta.sb.s_free_inodes_count < 1 then some (FREEMAP_GET_ERROR, st)
  else if st.meta.sb.s_inodes_per_group = 0 then none
  else if inodes_group st = st.meta.sb.s_inodes_count / st.meta.sb.s_inodes_per_group then
    some (FREEMAP_GET_ERROR, st)
  else if st.meta.sb.s_inodes_count / st.meta.sb.s_inodes_per_group ≤ 1 then none
  else if
    (bitmap_scan_and_flip
      (ext2_read_bitmap st (st.meta.bg_desc_tabs (inodes_group st)).bg_inode_bitmap)
      0 1 false).1 ≠ BITMAP_ERROR then
    (update_inodes st (inodes_group st)
      (dec32 st.meta.sb.s_free_inodes_count)
      (u16 (dec32 (st.meta.bg_desc_tabs (inodes_group st)).bg_free_inodes_count))
      (bitmap_scan_and_flip
        (ext2_read_bitmap st (st.meta.bg_desc_tabs (inodes_group st)).bg_inode_bitmap)
        0 1 false).2).bind fun st4 =>
      some (inode_of_index st (inodes_group st)
          (bitmap_scan_and_flip
            (ext2_read_bitmap st (st.meta.bg_desc_tabs (inodes_group st)).bg_inode_bitmap)
            0 1 false).1, st4)
  else some (FREEMAP_GET_ERROR, st)

/-- Release of an inode number, `freemap_free_inode`: the group is
`(inode - 1) / s_inodes_per_group` and the local index the remainder. -/
def freemap_free_inode (inode : Nat) (st : ext2) : Option ext2 :=
  if st.meta.sb.s_inodes_per_group = 0 then none
  else if
    bitmap_all
      (ext2_read_bitmap st
        (st.meta.bg_desc_tabs (dec32 inode / st.meta.sb.s_inodes_per_group)).bg_inode_bitmap)
      (dec32 inode % st.meta.sb.s_inodes_per_group) 1 = false then none
  else
    update_inodes st (dec32 inode / st.meta.sb.s_inodes_per_group)
      (u32 (st.meta.sb.s_free_inodes_count + 1))
      (u16 ((st.meta.bg_desc_tabs
          (dec32 inode / st.meta.sb.s_inodes_per_group)).bg_free_inodes_count + 1))
      (bitmap_set_multiple
        (ext2_read_bitmap st
          (st.meta.bg_desc_tabs (dec32 inode / st.meta.sb.s_inodes_per_group)).bg_inode_bitmap)
        (dec32 inode % st.meta.sb.s_inodes_per_group) 1 false)

/-! ## The inode table: `ext2_get_inode`, `ext2_write_inode` -/

/-- Where the record of inode number `ino_idx` lives: the block and the slot
inside the block that `ext2_get_inode` (lines 60 to 86) and `ext2_write_inode`
(lines 106 to 132) compute by the same statements.  `sizeof(struct inode)` is
128.  `none` is a failed `ASSERT` (the first one compares `block_group`, still
`0`, with the number of groups) or a division by zero. -/
def inode_location (st : ext2) (ino_idx : Nat) : Option (Nat × Nat) :=
  (DIV_ROUND_UP st.meta.sb.s_blocks_count st.meta.sb.s_blocks_per_group).bind fun groups =>
    if groups = 0 then none
    else if st.meta.sb.s_inodes_per_group = 0 then none
    else if ext2_get_block_size st.meta.sb % 128 ≠ 0 then none
    else if ext2_get_block_size st.meta.sb / 128 = 0 then none
    else
      some
        (u32 ((st.meta.bg_desc_tabs (dec32 ino_idx / st.meta.sb.s_inodes_per_group)).bg_inode_table
          + sub32 (dec32 ino_idx)
              (u32 (dec32 ino_idx / st.meta.sb.s_inodes_per_group
                * st.meta.sb.s_inodes_per_group))
            / (ext2_get_block_size st.meta.sb / 128)),
        sub32 (dec32 ino_idx)
            (u32 (dec32 ino_idx / st.meta.sb.s_inodes_per_group * st.meta.sb.s_inodes_per_group))
          % (ext2_get_block_size st.meta.sb / 128))

/-- The 128-byte record of inode number `ino_idx`, `ext2_get_inode`: the copy
of slot `block_offset` of the table block. -/
def ext2_get_inode (st : ext2) (ino_idx : Nat) : Option (Nat → Nat) :=
  (inode_location st ino_idx).bind fun loc =>
    some (fun k =>
      if k < 128 then
        ext2_read_block st.disk loc.1 (ext2_get_block_size st.meta.sb) (128 * loc.2 + k)
      else 0)

/-- Device after `ext2_write_inode(b, ino_idx, inode)`: the table block is read,
slot `block_offset` is replaced by the 128 bytes of `inode`, and the block is
written back. -/
def ext2_write_inode (st : ext2) (ino_idx : Nat) (inode : Nat → Nat) : Option ext2 :=
  (inode_location st ino_idx).bind fun loc =>
    some (write_block st loc.1 (ext2_get_block_size st.meta.sb)
      (fun k =>
        if 128 * loc.2 ≤ k ∧ k < 128 * loc.2 + 128 then inode (k - 128 * loc.2)
        else ext2_read_block st.disk loc.1 (ext2_get_block_size st.meta.sb) k))

/-! ## Directory entries: `directory.h`, `dir_get_next` -/

/-- `sizeof(struct directory)`: the packed fields `inode` (4 bytes), `rec_len`
(2), `name_len` (1), `file_type` (1) and `name` (`UINT8_MAX` bytes). -/
def SIZEOF_DIRECTORY : Nat := 263

/-- File type `EXT2_FT_UNKNOWN`. -/
def EXT2_FT_UNKNOWN : Nat := 0
/-- File type `EXT2_FT_REG_FILE`. -/
def EXT2_FT_REG_FILE : Nat := 1
/-- File type `EXT2_FT_DIR`. -/
def EXT2_FT_DIR : Nat := 2

/-- Value `FILESYS_REGULAR` of `enum FILE_TYPE` (`filesys.h`). -/
def FILESYS_REGULAR : Nat := 0
/-- Value `FILESYS_DIRECTORY` of `enum FILE_TYPE`. -/
def FILESYS_DIRECTORY : Nat := 1

/-- Field `inode` of the entry at byte offset `o` of a directory buffer. -/
def dir_inode (buf : Nat → Nat) (o : Nat) : Nat :=
  buf o % 256 + 256 * (buf (o + 1) % 256) + 65536 * (buf (o + 2) % 256)
    + 16777216 * (buf (o + 3) % 256)

/-- Field `rec_len` of the entry at byte offset `o`. -/
def dir_rec_len (buf : Nat → Nat) (o : Nat) : Nat :=
  buf (o + 4) % 256 + 256 * (buf (o + 5) % 256)

/-- Field `name_len` of the entry at byte offset `o`. -/
def dir_name_len (buf : Nat → Nat) (o : Nat) : Nat := buf (o + 6) % 256

/-- Field `file_type` of the entry at byte offset `o`. -/
def dir_file_type (buf : Nat → Nat) (o : Nat) : Nat := buf (o + 7) % 256

/-- Byte `k` of the field `name` of the entry at byte offset `o`. -/
def dir_name (buf : Nat → Nat) (o k : Nat) : Nat := buf (o + 8 + k) % 256

/-- Buffer after the assignment of the `uint32_t` field `inode` at offset `o`. -/
def set_dir_inode (buf : Nat → Nat) (o v : Nat) : Nat → Nat :=
  fun k =>
    if k = o then v % 256
    else if k = o + 1 then v / 256 % 256
    else if k = o + 2 then v / 65536 % 256
    else if k = o + 3 then v / 16777216 % 256
    else buf k

/-- Buffer after the assignment of the `uint16_t` field `rec_len` at offset `o`. -/
def set_dir_rec_len (buf : Nat → Nat) (o v : Nat) : Nat → Nat :=
  fun k =>
    if k = o + 4 then v % 256
    else if k = o + 5 then v / 256 % 256
    else buf k

/-- Buffer after the assignment of the `uint8_t` field `name_len` at offset `o`. -/
def set_dir_name_len (buf : Nat → Nat) (o v : Nat) : Nat → Nat :=
  fun k => if k = o + 6 then v % 256 else buf k

/-- Buffer after the assignment of the `uint8_t` field `file_type` at offset `o`. -/
def set_dir_file_type (buf : Nat → Nat) (o v : Nat) : Nat → Nat :=
  fun k => if k = o + 7 then v % 256 else buf k

/-- Buffer after `memset(buf + o, 0, n)`. -/
def memset_zero (buf : Nat → Nat) (o n : Nat) : Nat → Nat :=
  fun k => if o ≤ k ∧ k < o + n then 0 else buf k

/-- Buffer after `memcpy(last_entry->name, name, n)` for the entry at offset `o`;
`name` is the string as its list of bytes. -/
def set_dir_name (buf : Nat → Nat) (o : Nat) (name : List Nat) (n : Nat) : Nat → Nat :=
  fun k => if o + 8 ≤ k ∧ k < o + 8 + n then name.getD (k - (o + 8)) 0 % 256 else buf k

/-- Offset of the entry after the one at offset `o`, `dir_get_next`. -/
def dir_get_next (buf : Nat → Nat) (o : Nat) : Nat := o + dir_rec_len buf o

/-! ## `filesys_create` on the directory buffer -/

/-- The `do ... while` loop of `filesys_create` that looks for the last entry
(lines 121 to 127), entered with `last_entry` at offset `o`: the offset at which
it stops.  Pointers are offsets into `directory_data`.  The first argument
bounds the iterations: `none` is a loop that does not end. -/
def last_entry_loop (directory_data : Nat → Nat) (file_size : Nat) : Nat → Nat → Option Nat
  | 0, _ => none
  | n + 1, o =>
    if dir_inode directory_data (dir_get_next directory_data o) ≠ 0
        ∧ dir_get_next directory_data o
            + dir_rec_len directory_data (dir_get_next directory_data o) < file_size then
      last_entry_loop directory_data file_size n (dir_get_next directory_data o)
    else some (dir_get_next directory_data o)

/-- The record length lines 139 to 142 give the last entry: `sizeof(struct
directory) - (UINT8_MAX - name_len)`, aligned to 4 bytes, as `uint16_t`. -/
def recalibrated_rec_len (name_len : Nat) : Nat :=
  if u16 (SIZEOF_DIRECTORY - (255 - name_len)) % 4 > 0 then
    u16 (u16 (SIZEOF_DIRECTORY - (255 - name_len))
      + (4 - u16 (SIZEOF_DIRECTORY - (255 - name_len)) % 4))
  else u16 (SIZEOF_DIRECTORY - (255 - name_len))

/-- Lines 137 to 143 of `filesys_create`: the record length of a live last
entry is recalibrated. -/
def recalibrate (directory_data : Nat → Nat) (last_entry : Nat) : Nat → Nat :=
  if dir_inode directory_data last_entry ≠ 0 then
    set_dir_rec_len directory_data last_entry
      (recalibrated_rec_len (dir_name_len directory_data last_entry))
  else directory_data

/-- The file type the `switch` of lines 165 to 175 stores. -/
def entry_file_type (type : Nat) : Nat :=
  if type = FILESYS_REGULAR then EXT2_FT_REG_FILE
  else if type = FILESYS_DIRECTORY then EXT2_FT_DIR
  else EXT2_FT_UNKNOWN

/-- Lines 159 to 177 of `filesys_create`: the entry at offset `last_entry` is
zeroed and filled.  `name_len` is a `uint8_t`, so `strlen(name)` is stored
modulo 256; `rec_len` is the `uint16_t` value of the `uint32_t` difference
between the block size and the offset of the entry in the buffer. -/
def create_entry (directory_data : Nat → Nat) (last_entry inode_num : Nat) (name : List Nat)
    (type block_size : Nat) : Nat → Nat :=
  set_dir_rec_len
    (set_dir_file_type
      (set_dir_name
        (set_dir_name_len
          (set_dir_inode (memset_zero directory_data last_entry SIZEOF_DIRECTORY) last_entry
            inode_num)
          last_entry name.length)
        last_entry name (name.length % 256))
      last_entry (entry_file_type type))
    last_entry (u16 (sub32 block_size (u32 last_entry)))

/-- What `filesys_create` does to the buffer `directory_data` that holds the
`file_size` bytes of the parent directory (lines 121 to 177), for the inode
number `inode_num` that `freemap_get_inode` returned and the leaf name `name`:
the buffer it hands to `file_write_at`.  The inode record built in between
(lines 150 to 157) does not touch the buffer.  The buffer is a map over all
offsets: what the code stores at the offsets from `file_size` on lies past the
memory `kmalloc` gave and is not among the `file_size` bytes `file_write_at`
persists.  `none` is a `goto cleanup` or a loop that does not end. -/
def filesys_create_dir (directory_data : Nat → Nat) (file_size inode_num : Nat)
    (name : List Nat) (type block_size : Nat) : Option (Nat → Nat) :=
  (last_entry_loop directory_data file_size (file_size + 1) 0).bind fun last_entry =>
    -- check if pointer passed file limit
    if file_size ≤ last_entry then none
    -- Goto new last entry
    else if file_size ≤ dir_get_next (recalibrate directory_data last_entry) last_entry then none
    else
      some (create_entry (recalibrate directory_data last_entry)
        (dir_get_next (recalibrate directory_data last_entry) last_entry)
        inode_num name type block_size)

/-! ## Inode records and the volume: `inode.h`, `ext2.h` -/

/-- The little-endian `uint16_t` at byte offset `o` of a record. -/
def le16 (r : Nat → Nat) (o : Nat) : Nat := r o % 256 + 256 * (r (o + 1) % 256)

/-- The little-endian `uint32_t` at byte offset `o` of a record. -/
def le32 (r : Nat → Nat) (o : Nat) : Nat :=
  r o % 256 + 256 * (r (o + 1) % 256) + 65536 * (r (o + 2) % 256)
    + 16777216 * (r (o + 3) % 256)

/-- Byte `k` (lowest first) of a value. -/
def byte_of (v k : Nat) : Nat := v / 256 ^ k % 256

/-- The `struct inode` held in a 128-byte record: the packed fields of
`inode.h` at their offsets (`i_mode` 0, `i_uid` 2, `i_size` 4, `i_atime` 8,
`i_ctime` 12, `i_mtime` 16, `i_dtime` 20, `i_gid` 24, `i_links_count` 26,
`i_blocks` 28, `i_flags` 32, `i_osd1` 36, `i_block` 40, `i_generation` 100,
`i_file_acl` 104, `i_dir_acl` 108, `i_faddr` 112, `i_osd2` 116). -/
def inode_of_record (r : Nat → Nat) : inode :=
  { i_mode := le16 r 0, i_uid := le16 r 2, i_size := le32 r 4, i_atime := le32 r 8,
    i_ctime := le32 r 12, i_mtime := le32 r 16, i_dtime := le32 r 20, i_gid := le16 r 24,
    i_links_count := le16 r 26, i_blocks := le32 r 28, i_flags := le32 r 32,
    i_osd1 := le32 r 36, i_block := fun j => if j < 15 then le32 r (40 + 4 * j) else 0,
    i_generation := le32 r 100, i_file_acl := le32 r 104, i_dir_acl := le32 r 108,
    i_faddr := le32 r 112, i_osd2 := fun j => if j < 12 then r (116 + j) % 256 else 0 }

/-- The 128 bytes of a `struct inode`, the inverse layout of `inode_of_record`. -/
def record_of_inode (ino : inode) : Nat → Nat :=
  fun k =>
    if k < 2 then byte_of ino.i_mode k
    else if k < 4 then byte_of ino.i_uid (k - 2)
    else if k < 8 then byte_of ino.i_size (k - 4)
    else if k < 12 then byte_of ino.i_atime (k - 8)
    else if k < 16 then byte_of ino.i_ctime (k - 12)
    else if k < 20 then byte_of ino.i_mtime (k - 16)
    else if k < 24 then byte_of ino.i_dtime (k - 20)
    else if k < 26 then byte_of ino.i_gid (k - 24)
    else if k < 28 then byte_of ino.i_links_count (k - 26)
    else if k < 32 then byte_of ino.i_blocks (k - 28)
    else if k < 36 then byte_of ino.i_flags (k - 32)
    else if k < 40 then byte_of ino.i_osd1 (k - 36)
    else if k < 100 then byte_of (ino.i_block ((k - 40) / 4)) ((k - 40) % 4)
    else if k < 104 then byte_of ino.i_generation (k - 100)
    else if k < 108 then byte_of ino.i_file_acl (k - 104)
    else if k < 112 then byte_of ino.i_dir_acl (k - 108)
    else if k < 116 then byte_of ino.i_faddr (k - 112)
    else if k < 128 then ino.i_osd2 (k - 116) % 256
    else 0

/-- Flag `EXT2_S_IFDIR` of `i_mode`. -/
def EXT2_S_IFDIR : Nat := 16384
/-- Flag `EXT2_S_IFREG` of `i_mode`. -/
def EXT2_S_IFREG : Nat := 32768
/-- Inode number of the root directory, `EXT2_ROOT_INO`. -/
def EXT2_ROOT_INO : Nat := 2

/-- The file system as `filesys.c`, `file.c` and `directory.c` act on it: the
registered device with its inode table and inode allocator, and the block
allocator as `inode.c` sees it (`answers`, `calls`, `freed`, see `fs`). -/
structure volume where
  dev : ext2
  answers : Nat → Nat
  calls : Nat
  freed : List Nat

/-- The volume as `inode.c` sees it: the registered superblock, the blocks and
the block allocator. -/
def volume_fs (v : volume) : fs :=
  { sb := v.dev.meta.sb, disk := v.dev.disk, answers := v.answers, calls := v.calls,
    freed := v.freed }

/-- The volume after a function of `inode.c` has left the state `s`: the
registered superblock, the blocks and the block allocator are those of `s`. -/
def volume_of_fs (v : volume) (s : fs) : volume :=
  { dev := { v.dev with meta := { v.dev.meta with sb := s.sb }, disk := s.disk },
    answers := s.answers, calls := s.calls, freed := s.freed }

/-- The volume with the device replaced. -/
def volume_set_dev (v : volume) (d : ext2) : volume := { v with dev := d }

/-! ## Objects on the heap -/

/-- The objects `kmalloc` hands out that outlive a call: copies of `struct
inode` and of `struct directory`, by address.  Address 0 is `NULL`; `live`
tells the addresses handed out and not yet passed to `kfree`; `brk` is the
next address `kmalloc` hands out.  `kmalloc` is taken to succeed. -/
structure heap where
  inodes : Nat → inode
  dirs : Nat → Nat → Nat
  live : Nat → Bool
  brk : Nat

/-- `kmalloc` of a `struct inode` holding `ino`: its address and the heap. -/
def heap_new_inode (hp : heap) (ino : inode) : Nat × heap :=
  (hp.brk + 1,
    { hp with inodes := fun a => if a = hp.brk + 1 then ino else hp.inodes a,
              live := fun a => if a = hp.brk + 1 then true else hp.live a,
              brk := hp.brk + 1 })

/-- `kmalloc` of a `struct directory` holding the bytes `d`: its address and the heap. -/
def heap_new_dir (hp : heap) (d : Nat → Nat) : Nat × heap :=
  (hp.brk + 1,
    { hp with dirs := fun a => if a = hp.brk + 1 then d else hp.dirs a,
              live := fun a => if a = hp.brk + 1 then true else hp.live a,
              brk := hp.brk + 1 })

/-- Heap after `kfree(a)`; `kfree(NULL)` does nothing. -/
def kfree (hp : heap) (a : Nat) : heap :=
  { hp with live := fun b => if b = a ∧ a ≠ 0 then false else hp.live b }

/-- Heap after an assignment through a `struct inode *`. -/
def heap_set_inode (hp : heap) (a : Nat) (ino : inode) : heap :=
  { hp with inodes := fun b => if b = a then ino else hp.inodes b }

/-! ## `file.c` -/

/-- Modelled from the spec: `file.h` is not among the sources.  An open file
handle holds the fields `file.c` uses: the pointers `dir` and `inode` (as
addresses on the heap), the position `pos` (an `off_t`) and the flag
`deny_write`; the device is the one file-system device and the lock has no
effect on a single thread. -/
structure file where
  dir : Nat
  inode : Nat
  pos : Int
  deny_write : Bool

/-- Handle made by `file_open(device, dir, inode)`; `none` is the failed `ASSERT`
on a `NULL` inode. -/
def file_open (dir inode : Nat) : Option file :=
  if inode = 0 then none
  else some { dir := dir, inode := inode, pos := 0, deny_write := false }

/-- Handle made by `file_reopen(file)`. -/
def file_reopen (f : file) : Option file := file_open f.dir f.inode

/-- Heap after `file_close(file)`: the entry copy and the inode of the handle go
to `kfree`. -/
def file_close (hp : heap) (f : file) : heap := kfree (kfree hp f.dir) f.inode

/-- The pointer `file_get_inode` returns. -/
def file_get_inode (f : file) : Nat := f.inode

/-- Read of `size` bytes at the position, `file_read`: the byte count, the
buffer and the handle. -/
def file_read (v : volume) (hp : heap) (f : file) (buffer : Nat → Nat) (size : Int) :
    Option (Int × (Nat → Nat) × file) :=
  (inode_read_at (volume_fs v) (hp.inodes f.inode) buffer size f.pos).bind fun r =>
    some (r.1, r.2, { f with pos := toInt32 (f.pos + r.1) })

/-- Read of `size` bytes at `start`, `file_read_at`. -/
def file_read_at (v : volume) (hp : heap) (f : file) (buffer : Nat → Nat) (size start : Int) :
    Option (Int × (Nat → Nat) × file) :=
  if start < 0 then none
  else
    (inode_read_at (volume_fs v) (hp.inodes f.inode) buffer size start).bind fun r =>
      some (r.1, r.2, { f with pos := toInt32 (f.pos + r.1) })

/-- The part `file_write` and `file_write_at` share: `inode_write_at` at
`start`, the position moves by the bytes written, and the inode goes to the
record of inode number `file->dir->inode`; `none` is a failure inside
`inode_write_at` or `ext2_write_inode`, or a `NULL` `file->dir`. -/
def file_write_from (v : volume) (hp : heap) (f : file) (buffer : Nat → Nat) (size start : Int) :
    Option (Int × volume × heap × file) :=
  (inode_write_at (volume_fs v) (hp.inodes f.inode) buffer size start).bind fun w =>
    -- Update inode in disk
    if f.dir = 0 then none
    else (ext2_write_inode (volume_of_fs v w.2.2).dev (dir_inode (hp.dirs f.dir) 0)
        (record_of_inode w.2.1)).bind fun d =>
      some (w.1, volume_set_dev (volume_of_fs v w.2.2) d, heap_set_inode hp f.inode w.2.1,
        { f with pos := toInt32 (f.pos + w.1) })

/-- Write of `size` bytes at the position, `file_write`. -/
def file_write (v : volume) (hp : heap) (f : file) (buffer : Nat → Nat) (size : Int) :
    Option (Int × volume × heap × file) :=
  file_write_from v hp f buffer size f.pos

/-- Write of `size` bytes at `start`, `file_write_at`. -/
def file_write_at (v : volume) (hp : heap) (f : file) (buffer : Nat → Nat) (size start : Int) :
    Option (Int × volume × heap × file) :=
  if start < 0 then none else file_write_from v hp f buffer size start

/-- Resize of the file to `size` bytes, `file_truncate`: the value of `err`, the
volume, the heap and the handle. -/
def file_truncate (v : volume) (hp : heap) (f : file) (size : Int) :
    Option (Int × volume × heap × file) :=
  (inode_resize (volume_fs v) (hp.inodes f.inode) (ofInt32 size)).bind fun r =>
    -- Update inode
    if f.dir = 0 then none
    else (ext2_write_inode (volume_of_fs v r.2.2).dev (dir_inode (hp.dirs f.dir) 0)
        (record_of_inode r.2.1)).bind fun d =>
      some (r.1, volume_set_dev (volume_of_fs v r.2.2) d, heap_set_inode hp f.inode r.2.1,
        -- Update position
        { f with pos := if r.1 = 0 ∧ f.pos ≥ size then toInt32 (size - 1) else f.pos })

/-- Handle after `file_seek(file, new_pos)`; `none` is the failed `ASSERT`. -/
def file_seek (f : file) (new_pos : Int) : Option file :=
  if new_pos < 0 then none else some { f with pos := new_pos }

/-- Position, `file_tell`. -/
def file_tell (f : file) : Int := f.pos

/-- Length, `file_length`: `i_size` as an `off_t`. -/
def file_length (hp : heap) (f : file) : Int := toInt32 (hp.inodes f.inode).i_size

/-! ## `directory.c` -/

/-- Whether `memcmp(a, b, n)` is `0`: the first `n` bytes of `a` and `b` agree. -/
def mem_eq (a b : Nat → Nat) : Nat → Bool
  | 0 => true
  | n + 1 => mem_eq a b n && decide (a n % 256 = b n % 256)

/-- Memory that holds the string `s`, its terminator and, after it, the bytes
`rest`; bytes further on are taken to be `0`. -/
def cstring (s rest : List Nat) : Nat → Nat := fun k => (s ++ 0 :: rest).getD k 0

/-- The `while` loop of `dir_lookup_current` with `next` at byte offset `o` of
the memory `cur`: the offset of the entry returned, or `none` for `NULL`.  The
memory is that of the directory buffer and of what lies past its end.  The
first argument bounds the iterations: the outer `none` is a scan that does not
end. -/
def lookup_scan (cur file_name : Nat → Nat) : Nat → Nat → Option (Option Nat)
  | 0, _ => none
  | n + 1, o =>
    if dir_inode cur o ≠ 0 then
      if mem_eq (fun k => cur (o + 8 + k)) file_name (dir_name_len cur o) then some (some o)
      else lookup_scan cur file_name n (dir_get_next cur o)
    else some none

/-- Entry of the directory `cur` that `dir_lookup_current` returns for
`file_name`.  Every step of a scan that ends moves `next` forward, and
addresses have 32 bits, so `2^32` steps bound it. -/
def dir_lookup_current (cur file_name : Nat → Nat) : Option (Option Nat) :=
  lookup_scan cur file_name 4294967296 0

/-- Modelled from the spec: `strtok_r` is a function of the C library.  The
tokens `strtok_r(path_copy, "/", &save_ptr)` yields call after call, each with
the bytes that follow its terminator in `path_copy`: a token is a maximal run
of bytes other than `'/'` (47); `acc` holds the token being read, reversed. -/
def path_tokens : List Nat → List Nat → List (List Nat × List Nat)
  | [], acc => if acc = [] then [] else [(acc.reverse, [])]
  | c :: cs, acc =>
    if c = 47 then
      if acc = [] then path_tokens cs [] else (acc.reverse, cs) :: path_tokens cs []
    else path_tokens cs (c :: acc)

/-- The bytes of the inode read as a directory file into fresh memory `fresh`,
as `dir_get_root` and `dir_lookup` (line 60) do: `inode_read_at` of `i_size`
bytes from offset 0; the count it returns is not looked at. -/
def read_directory (dev : ext2) (ino : inode) (fresh : Nat → Nat) : Option (Nat → Nat) :=
  (inode_read_at
      { sb := dev.meta.sb, disk := dev.disk, answers := fun _ => FREEMAP_GET_ERROR, calls := 0,
        freed := [] }
      ino fresh (toInt32 ino.i_size) 0).bind fun r => some r.2

/-- The directory buffer `dir_get_root` returns. -/
def dir_get_root (dev : ext2) (fresh : Nat → Nat) : Option (Nat → Nat) :=
  (ext2_get_inode dev EXT2_ROOT_INO).bind fun r => read_directory dev (inode_of_record r) fresh

/-- The `for` loop of `dir_lookup` over the tokens still to come.  `depth`
counts the directories entered, `cur` is the buffer of the current directory,
`same` tells whether `cur == last`, and `file_ptr` is the memory at the entry
found last (`none` for `NULL`); the buffer entered next starts as
`fresh (depth + 1)`.  The result is the value of `file_ptr` when the loop is
left; the outer `none` is a failed `ASSERT` or a scan that does not end. -/
def lookup_loop (dev : ext2) (fresh : Nat → Nat → Nat) :
    List (List Nat × List Nat) → Nat → (Nat → Nat) → Bool → Option (Nat → Nat) →
      Option (Option (Nat → Nat))
  | [], _, _, _, file_ptr => some file_ptr
  | tok :: rest, depth, cur, same, _ =>
    -- check if current directory is the same as the last
    if same then some none
    else
      -- look up current directory
      (dir_lookup_current cur (cstring tok.1 tok.2)).bind fun found =>
        if found.isSome ∧ dir_inode cur (found.getD 0) ≠ 0
            ∧ dir_file_type cur (found.getD 0) = EXT2_FT_DIR then
          -- get file inode
          (ext2_get_inode dev (dir_inode cur (found.getD 0))).bind fun r =>
            if (inode_of_record r).i_mode &&& EXT2_S_IFDIR = 0 then some none
            else
              -- read directory file and switch directory
              (read_directory dev (inode_of_record r) (fresh (depth + 1))).bind fun next =>
                lookup_loop dev fresh rest (depth + 1) next false
                  (some (fun k => cur (found.getD 0 + k)))
        else
          lookup_loop dev fresh rest depth cur true
            (found.map fun o => fun k => cur (o + k))

/-- The copy of the entry found for `path`, `dir_lookup`: `some none` is `NULL`.
The outer `none` is a failed `ASSERT`, a scan that does not end, or a path
without a token, for which `file_ptr` is read before it is ever assigned. -/
def dir_lookup (dev : ext2) (fresh : Nat → Nat → Nat) (path : List Nat) :
    Option (Option (Nat → Nat)) :=
  -- start from root
  (dir_get_root dev (fresh 0)).bind fun cur =>
    if path_tokens path [] = [] then none
    else
      (lookup_loop dev fresh (path_tokens path []) 0 cur false none).bind fun file_ptr =>
        -- file found
        if file_ptr.isSome ∧ dir_inode (file_ptr.getD (fun _ => 0)) 0 ≠ 0 then
          some (some (fun k => if k < SIZEOF_DIRECTORY then file_ptr.getD (fun _ => 0) k else 0))
        else some none

/-! ## `filesys.c` -/

/-- Handle `filesys_open(name)` returns (`none` for `NULL`) and the heap, which
holds the entry copy and the inode of the handle. -/
def filesys_open (dev : ext2) (hp : heap) (fresh : Nat → Nat → Nat) (name : List Nat) :
    Option (Option file × heap) :=
  -- look up file
  (dir_lookup dev fresh name).bind fun file_desc =>
    if file_desc.isSome then
      -- look up inode
      (ext2_get_inode dev (dir_inode (file_desc.getD (fun _ => 0)) 0)).bind fun r =>
        -- open file
        (file_open (heap_new_dir hp (file_desc.getD (fun _ => 0))).1
            (heap_new_inode (heap_new_dir hp (file_desc.getD (fun _ => 0))).2
              (inode_of_record r)).1).bind fun f =>
          some (some f,
            (heap_new_inode (heap_new_dir hp (file_desc.getD (fun _ => 0))).2
              (inode_of_record r)).2)
    else some (none, hp)

/-- The first loop of `filesys_split_path` (lines 327 to 347) about to look at
index `n - 1` of `parent_path`: the array and the value of `i` when the loop is
left.  The array is the list of its `len` bytes; byte `len` is the terminator. -/
def split_scan : Nat → List Nat → List Nat × Int
  | 0, p => (p, -1)
  | i + 1, p =>
    if p.getD i 0 = 47 then (if i > 0 then p.set i 0 else p, (i : Int))
    else if p.getD i 0 = 46 then
      if i > 0 then
        -- Check if this is part of file name
        if p.getD (i - 1) 0 ≠ 47 ∨ p.getD (i - 1) 0 ≠ 46 then split_scan i (p.set i 0)
        else (p, (i : Int))
      else (p, (i : Int))
    else split_scan i (p.set i 0)

/-- The strings `*parent` and `*name` that `filesys_split_path` returns for
`path`; `none` is the failed `ASSERT` on an empty path. -/
def filesys_split_path (path : List Nat) : Option (List Nat × List Nat) :=
  if path.length = 0 then none
  else
    -- Check path length (first component), save file name (second component)
    some
      (if ((split_scan path.length path).1.takeWhile fun c => c ≠ 0) = [] then [46]
        else (split_scan path.length path).1.takeWhile fun c => c ≠ 0,
        path.drop ((split_scan path.length path).2 + 1).toNat)

/-- A `struct inode` after `memset(&inode, 0, sizeof(struct inode))`. -/
def inode_zero : inode :=
  { i_mode := 0, i_uid := 0, i_size := 0, i_atime := 0, i_ctime := 0, i_mtime := 0,
    i_dtime := 0, i_gid := 0, i_links_count := 0, i_blocks := 0, i_flags := 0, i_osd1 := 0,
    i_block := fun _ => 0, i_generation := 0, i_file_acl := 0, i_dir_acl := 0, i_faddr := 0,
    i_osd2 := fun _ => 0 }

/-- A handle with `NULL` pointers, the value of a handle variable never assigned. -/
def file_null : file := { dir := 0, inode := 0, pos := 0, deny_write := false }

/-- The inode `filesys_create` builds before the resize (lines 150 to 153):
zeroed, `i_mode = EXT2_S_IFREG | permission` as a `uint16_t`, one link. -/
def create_inode (permission : Nat) : inode :=
  { inode_zero with i_mode := u16 (EXT2_S_IFREG ||| permission), i_links_count := 1 }

/-- Lines 115 to 194 of `filesys_create`, entered with the parent directory open
as `parent_file`: the value of `success`, the volume and the heap.  `fresh` is
the memory `kmalloc(file_size)` hands out for `directory_data`, `name` the leaf
name.  `none` is a failed `ASSERT`, a `PANIC` or a loop that does not end. -/
def create_in (v : volume) (hp : heap) (parent_file : file) (fresh : Nat → Nat)
    (name : List Nat) (initial_size : Int) (type permission : Nat) :
    Option (Bool × volume × heap) :=
  -- Get parent directory data
  (file_read v hp parent_file fresh (toInt32 (hp.inodes parent_file.inode).i_size)).bind fun rd =>
    if ofInt32 rd.1 ≠ (hp.inodes parent_file.inode).i_size then
      some (false, v, file_close hp rd.2.2)
    else
      -- Get last entry
      (last_entry_loop rd.2.1 (hp.inodes parent_file.inode).i_size
          ((hp.inodes parent_file.inode).i_size + 1) 0).bind fun last_entry =>
        -- check if pointer passed file limit
        if (hp.inodes parent_file.inode).i_size ≤ last_entry then
          some (false, v, file_close hp rd.2.2)
        else
          -- Get free inode
          (freemap_get_inode v.dev).bind fun gi =>
            if gi.1 = FREEMAP_GET_ERROR then
              some (false, volume_set_dev v gi.2, file_close hp rd.2.2)
            -- Goto new last entry
            else if (hp.inodes parent_file.inode).i_size
                ≤ dir_get_next (recalibrate rd.2.1 last_entry) last_entry then
              some (false, volume_set_dev v gi.2, file_close hp rd.2.2)
            else
              -- Create inode
              (inode_resize (volume_fs (volume_set_dev v gi.2)) (create_inode permission)
                  (ofInt32 initial_size)).bind fun rs =>
                if rs.1 < 0 then
                  some (false, volume_of_fs (volume_set_dev v gi.2) rs.2.2,
                    file_close hp rd.2.2)
                else
                  -- Write inode to disk
                  (ext2_write_inode (volume_of_fs (volume_set_dev v gi.2) rs.2.2).dev gi.1
                      (record_of_inode rs.2.1)).bind fun d =>
                    -- Create file entry, write directory file
                    (file_write_at
                        (volume_set_dev (volume_of_fs (volume_set_dev v gi.2) rs.2.2) d) hp
                        rd.2.2
                        (create_entry (recalibrate rd.2.1 last_entry)
                          (dir_get_next (recalibrate rd.2.1 last_entry) last_entry) gi.1 name
                          type (ext2_get_block_size rs.2.2.sb))
                        (toInt32 (hp.inodes parent_file.inode).i_size) 0).bind fun w =>
                      -- file created successfully.
                      some (true, w.2.1, file_close w.2.2.1 w.2.2.2)

/-- Creation of the file `path`, `filesys_create`: the value returned, the
volume and the heap.  `fresh c k` is the memory the `k`-th buffer allotted in
the `c`-th lookup starts as (`c` is 0 for the existence check, 1 for the lookup
of the parent, 2 for its opening, 3 for `directory_data`). -/
def filesys_create (v : volume) (hp : heap) (fresh : Nat → Nat → Nat → Nat) (path : List Nat)
    (initial_size : Int) (type permission : Nat) : Option (Bool × volume × heap) :=
  if initial_size < 0 then none
  else
    -- Check if file already exists!
    (dir_lookup v.dev (fresh 0) path).bind fun directory_data =>
      if directory_data.isSome then some (false, v, hp)
      else
        -- Split path
        (filesys_split_path path).bind fun sp =>
          -- Get parent directory
          (dir_lookup v.dev (fresh 1) sp.1).bind fun parent_dir =>
            if parent_dir.isSome = false then some (false, v, hp)
            -- Check file type
            else if dir_file_type (parent_dir.getD (fun _ => 0)) 0 ≠ EXT2_FT_DIR then
              some (false, v, hp)
            else
              -- Get directory file
              (filesys_open v.dev hp (fresh 2) sp.1).bind fun po =>
                if po.1.isSome = false then some (false, v, po.2)
                else
                  create_in v po.2 (po.1.getD file_null) (fresh 3 0) sp.2 initial_size type
                    permission

/-- The `while` loop of `filesys_remove` that looks for the entry of the file
(lines 256 to 262), with `file_entry` at offset `o`: the values of
`last_entry` (`none` for `NULL`) and `file_entry` when it is left.  `name` is
the memory of the leaf name. -/
def remove_scan (directory_data name : Nat → Nat) (file_size : Nat) :
    Nat → Option Nat → Nat → Option (Option Nat × Nat)
  | 0, _, _ => none
  | n + 1, last_entry, o =>
    if mem_eq (fun k => directory_data (o + 8 + k)) name (dir_name_len directory_data o) = false
        ∧ o + dir_rec_len directory_data o < file_size then
      remove_scan directory_data name file_size n (some o) (dir_get_next directory_data o)
    else some (last_entry, o)

/-- Lines 249 to 301 of `filesys_remove`, entered with the file open as `f` and
its parent directory open as `parent_file`. -/
def remove_in (v : volume) (hp : heap) (f parent_file : file) (fresh : Nat → Nat)
    (name : List Nat) : Option (Bool × volume × heap) :=
  -- Get parent directory data
  (file_read v hp parent_file fresh (toInt32 (hp.inodes parent_file.inode).i_size)).bind fun rd =>
    if ofInt32 rd.1 ≠ (hp.inodes parent_file.inode).i_size then
      some (false, v, file_close (file_close hp f) rd.2.2)
    else
      -- Get file directory entry
      (remove_scan rd.2.1 (cstring name []) (hp.inodes parent_file.inode).i_size
          ((hp.inodes parent_file.inode).i_size + 1) none 0).bind fun sc =>
        -- check if file entry if found.
        if (hp.inodes parent_file.inode).i_size ≤ sc.2
            ∨ mem_eq (fun k => rd.2.1 (sc.2 + 8 + k)) (cstring name [])
                (dir_name_len rd.2.1 sc.2) = false then
          some (false, v, file_close (file_close hp f) rd.2.2)
        else
          -- Truncate file to zero length
          (file_truncate v hp f 0).bind fun tr =>
            -- Zero inode
            (ext2_write_inode tr.2.1.dev (dir_inode (tr.2.2.1.dirs f.dir) 0)
                (record_of_inode inode_zero)).bind fun d =>
              -- Free inode
              (freemap_free_inode (dir_inode rd.2.1 sc.2) d).bind fun d2 =>
                -- Delete directory record
                if sc.1.isSome = false then none
                else
                  -- Write directory file
                  (file_write_at (volume_set_dev tr.2.1 d2)
                      (heap_set_inode tr.2.2.1 f.inode inode_zero) rd.2.2
                      (if dir_inode rd.2.1 (sc.1.getD 0) ≠ 0 then
                        set_dir_rec_len rd.2.1 (sc.1.getD 0)
                          (u16 (dir_rec_len rd.2.1 (sc.1.getD 0) + dir_rec_len rd.2.1 sc.2))
                      else rd.2.1)
                      (toInt32 (hp.inodes parent_file.inode).i_size) 0).bind fun w =>
                    -- file deleted successfully.
                    some (true, w.2.1, file_close (file_close w.2.2.1 tr.2.2.2) w.2.2.2)

/-- Removal of the file `path`, `filesys_remove`: the value returned, the
volume and the heap.  `fresh` is as for `filesys_create` (`c` is 0 for the
opening of the file, 1 for the lookup of the parent, 2 for its opening, 3 for
`directory_data`). -/
def filesys_remove (v : volume) (hp : heap) (fresh : Nat → Nat → Nat → Nat) (path : List Nat) :
    Option (Bool × volume × heap) :=
  if path.length = 0 then none
  else
    -- open file
    (filesys_open v.dev hp (fresh 0) path).bind fun fo =>
      if fo.1.isSome = false then some (false, v, fo.2)
      -- Check file type
      else if dir_file_type (fo.2.dirs (fo.1.getD file_null).dir) 0 ≠ EXT2_FT_REG_FILE then
        some (false, v, file_close fo.2 (fo.1.getD file_null))
      else
        -- Split path
        (filesys_split_path path).bind fun sp =>
          -- Get parent directory
          (dir_lookup v.dev (fresh 1) sp.1).bind fun parent_dir =>
            if parent_dir.isSome = false then
              some (false, v, file_close fo.2 (fo.1.getD file_null))
            -- Check parent type
            else if dir_file_type (parent_dir.getD (fun _ => 0)) 0 ≠ EXT2_FT_DIR then
              some (false, v, file_close fo.2 (fo.1.getD file_null))
            else
              -- Get directory file
              (filesys_open v.dev fo.2 (fresh 2) sp.1).bind fun po =>
                if po.1.isSome = false then
                  some (false, v, file_close po.2 (fo.1.getD file_null))
                else
                  remove_in v po.2 (fo.1.getD file_null) (po.1.getD file_null) (fresh 3 0) sp.2

/-! ## Definitions used to state the properties -/

/-! ### Concrete states used as instances -/

/-- A superblock with block size 1024 (`s_log_block_size = 0`). -/
def ex_sb : superblock :=
  { s_inodes_count := 1024, s_blocks_count := 16384, s_first_data_block := 1,
    s_log_block_size := 0, s_blocks_per_group := 8192, s_inodes_per_group := 512,
    s_free_blocks_count := 8000, s_free_inodes_count := 500, s_magic := 61267 }

/-- The all-zero inode record. -/
def ex_ino : inode :=
  { i_mode := 0, i_uid := 0, i_size := 0, i_atime := 0, i_ctime := 0, i_mtime := 0,
    i_dtime := 0, i_gid := 0, i_links_count := 0, i_blocks := 0, i_flags := 0, i_osd1 := 0,
    i_block := fun _ => 0, i_generation := 0, i_file_acl := 0, i_dir_acl := 0, i_faddr := 0,
    i_osd2 := fun _ => 0 }

/-- A state with block size 1024 whose allocator answers `9000, 9001, ...`; the
device holds the byte `7` everywhere. -/
def ex_st : fs :=
  { sb := ex_sb, disk := fun _ _ => 7, answers := fun k => 9000 + k, calls := 0, freed := [] }

/-- Result of a run that is known to return, with a default for the other case. -/
def run_result (x : Option (Int × inode × fs)) : Int × inode × fs :=
  x.getD (1, ex_ino, ex_st)

/-- Entry `j` of the index block `b` on the device. -/
def block_entry (st : fs) (b j : Nat) : Nat := get_word (st.disk b) j

/-- A state with block size 8192 (`s_log_block_size = 3`, so `W = 2048`). -/
def ex_st8k : fs :=
  { ex_st with sb := { ex_sb with s_log_block_size := 3 } }

/-- The state `ex_st` with an allocator whose request number 13 (counting from
0) is answered with `FREEMAP_GET_ERROR`. -/
def ex_st_fail : fs :=
  { ex_st with answers := fun k => if k = 13 then 4294967295 else 9000 + k }

/-! ### Properties of the state kept by a walk -/

/-- A property of the state kept by an allocation and by a block write. -/
structure GetInv (P : fs → Prop) : Prop where
  get : ∀ z st, P st → P (freemap_get_block z st).2
  write : ∀ st d, P st → P (set_disk st d)

/-- A property of the state kept by a release and by a block write. -/
structure FreeInv (P : fs → Prop) : Prop where
  free : ∀ b st st', P st → freemap_free_block b st = some st' → P st'
  write : ∀ st d, P st → P (set_disk st d)

/-! ### A registered device used as an instance -/

/-- Descriptor of group 0 of `ex_dev`: nothing free. -/
def ex_bg0 : bg_desc_table :=
  { bg_block_bitmap := 3, bg_inode_bitmap := 4, bg_inode_table := 5, bg_free_blocks_count := 0,
    bg_free_inodes_count := 0, bg_used_dirs_count := 1, bg_pad := 0, bg_reserved := fun _ => 0 }

/-- Descriptor of group 1 of `ex_dev`. -/
def ex_bg1 : bg_desc_table :=
  { bg_block_bitmap := 8193, bg_inode_bitmap := 8194, bg_inode_table := 8195,
    bg_free_blocks_count := 8000, bg_free_inodes_count := 500, bg_used_dirs_count := 0,
    bg_pad := 0, bg_reserved := fun _ => 0 }

/-- A registered device with block size 1024 and two groups of 8192 blocks and
512 inodes.  In group 1 the first 72 bits of the block bitmap and the first 12
bits of the inode bitmap are set; every other byte of the device is zero. -/
def ex_dev : ext2 :=
  { meta := { sb := ex_sb, bg_desc_tabs := fun g => if g = 1 then ex_bg1 else ex_bg0 },
    disk := fun b k =>
      if b = 8193 ∧ k < 9 then 255
      else if b = 8194 ∧ k = 0 then 255
      else if b = 8194 ∧ k = 1 then 15
      else 0,
    disk_sb := ex_sb,
    disk_bg := fun g => if g = 1 then ex_bg1 else ex_bg0 }

/-- Result of an allocation that is known to return. -/
def got (x : Option (Nat × ext2)) : Nat × ext2 := x.getD (0, ex_dev)

/-- Result of a release that is known to return. -/
def released (x : Option ext2) : ext2 := x.getD ex_dev

/-- Sum of `f 0`, ..., `f (n - 1)`. -/
def sum_upto (f : Nat → Nat) : Nat → Nat
  | 0 => 0
  | n + 1 => sum_upto f n + f n

/-- Counter coherence over the groups `0`, ..., `G - 1`: the group counters of
free blocks add up to the superblock count, and so do those of free inodes. -/
def counters_coherent (st : ext2) (G : Nat) : Prop :=
  sum_upto (fun g => (st.meta.bg_desc_tabs g).bg_free_blocks_count) G
    = st.meta.sb.s_free_blocks_count ∧
  sum_upto (fun g => (st.meta.bg_desc_tabs g).bg_free_inodes_count) G
    = st.meta.sb.s_free_inodes_count

/-- The device `ex_dev` with the free-blocks counter of group 1 at the top of
its 16 bits, and the superblock counter equal to it. -/
def ex_dev_full : ext2 :=
  { ex_dev with meta :=
      { sb := sb_set_free_blocks ex_sb 65535,
        bg_desc_tabs := fun g => if g = 1 then bg_set_free_blocks ex_bg1 65535 else ex_bg0 } }

/-- The device `ex_dev` with 64 blocks per group and 8 inodes per group: fewer
than the bits of a bitmap block. -/
def ex_dev_narrow : ext2 :=
  { ex_dev with meta :=
      { sb := { ex_sb with s_blocks_per_group := 64, s_inodes_per_group := 8 },
        bg_desc_tabs := fun g => if g = 1 then ex_bg1 else ex_bg0 } }

/-- A device with a single block group: 4096 blocks, fewer than the 8192 blocks
a group may hold, 100 of them free in group 0; no descriptor past group 0
reports a free block. -/
def ex_dev_single : ext2 :=
  { ex_dev with meta :=
      { sb := { ex_sb with s_blocks_count := 4096, s_free_blocks_count := 100 },
        bg_desc_tabs := fun g => if g = 0 then bg_set_free_blocks ex_bg0 100 else ex_bg0 } }

/-- A 128-byte inode record used as an instance. -/
def ex_record : Nat → Nat := fun k => (3 * k + 1) % 256

/-- Byte `p` of the file of an inode: the byte at offset `p mod B` of the block
the lookup gives for index `p / B` (`0` when the lookup does not return). -/
def file_byte (st : fs) (ino : inode) (p : Nat) : Nat :=
  ((inode_get_data_block st ino (p / ext2_get_block_size st.sb)).map
    (fun b => st.disk b (p % ext2_get_block_size st.sb))).getD 0

/-- An inode of 12288 bytes, twelve blocks of 1024, all of them direct:
`i_block[j] = 100 + j` for `j < 12`, and no index block. -/
def ex_ino_direct : inode :=
  { ex_ino with i_size := 12288, i_block := fun j => if j < 12 then 100 + j else 0 }

/-- An inode of 2000 bytes with the direct blocks 100 and 101. -/
def ex_ino_two : inode :=
  { ex_ino with i_size := 2000, i_block := fun j => if j < 2 then 100 + j else 0 }

/-- The state `ex_st` on a device every byte of which is `0xFF`. -/
def ex_st_ff : fs := { ex_st with disk := fun _ _ => 255 }

/-- The state `ex_st` with a block size of `2^31` bytes (`s_log_block_size = 21`). -/
def ex_st_2g : fs := { ex_st with sb := { ex_sb with s_log_block_size := 21 } }

/-! ### Directory buffers used as instances -/

/-- The buffer that holds the listed bytes at the listed offsets and zero
elsewhere. -/
def bytes_at (l : List (Nat × Nat)) (k : Nat) : Nat := (l.lookup k).getD 0

/-- A directory of two blocks of 1024 bytes: `.` at offset 0 (`rec_len` 12),
`..` at offset 12 (`rec_len` 1012, to the end of the first block) and `a` at
offset 1024 (inode 12, `rec_len` 1024, to the end of the second block). -/
def ex_dir_two_blocks : Nat → Nat :=
  bytes_at [(0, 2), (4, 12), (6, 1), (7, 2), (8, 46),
    (12, 2), (16, 244), (17, 3), (18, 2), (19, 2), (20, 46), (21, 46),
    (1024, 12), (1028, 0), (1029, 4), (1030, 1), (1031, 1), (1032, 97)]

/-- A directory of one block of 1024 bytes: `.` at offset 0 and `..` at offset
12 (`rec_len` 12 each), an unused entry (inode 0, `rec_len` 12, name `z`) at
offset 24 and the live last entry `a` at offset 36 (inode 12, `rec_len` 988, to
the end of the block). -/
def ex_dir_tombstone : Nat → Nat :=
  bytes_at [(0, 2), (4, 12), (6, 1), (7, 2), (8, 46),
    (12, 2), (16, 12), (18, 2), (19, 2), (20, 46), (21, 46),
    (28, 12), (30, 1), (31, 1), (32, 122),
    (36, 12), (40, 220), (41, 3), (42, 1), (43, 1), (44, 97)]

/-- Offset of entry number `i` of a directory buffer, counted from the entry at
offset 0 by `dir_get_next`. -/
def dir_entry (buf : Nat → Nat) : Nat → Nat
  | 0 => 0
  | i + 1 => dir_get_next buf (dir_entry buf i)

/-! ### Truncation -/

/-- Slots past the size are zero: `i_block[j]` is `0` for every slot `j` whose
range holds no block index below `n`.  Slot `j < 12` covers index `j`, slot 12
the indices from `12`, slot 13 those from `12 + W`, slot 14 those from
`12 + W + W * W`. -/
def slots_zero_beyond (W : Nat) (ino : inode) (n : Nat) : Prop :=
  (∀ j, j < 12 → n ≤ j → ino.i_block j = 0) ∧
  (n ≤ 12 → ino.i_block 12 = 0) ∧
  (n ≤ 12 + W → ino.i_block 13 = 0) ∧
  (n ≤ 12 + W + W * W → ino.i_block 14 = 0)

instance slots_zero_beyond_decidable (W : Nat) (ino : inode) (n : Nat) :
    Decidable (slots_zero_beyond W ino n) := by
  unfold slots_zero_beyond
  infer_instance

/-- An inode of `2^32 - 1` bytes whose fifteen slots hold the blocks
`100 .. 114`. -/
def ex_ino_4g : inode :=
  { ex_ino with i_size := 4294967295, i_block := fun j => if j < 15 then 100 + j else 0 }

/-- Blocks of the volume `ex_vol`: the inode bitmap of group 0 (block 4, inodes
1 to 13 in use), the inode table of group 0 (blocks 5 and 6) with the root
directory (inode 2, block 50), the regular file `a` (inode 12, 5 bytes in block
60) and the directory `d` (inode 13, block 51), and the bitmaps of group 1 as
in `ex_dev`. -/
def ex_vol_disk : Nat → Nat → Nat := fun b =>
  if b = 4 then bytes_at [(0, 255), (1, 31)]
  else if b = 5 then bytes_at [(128, 237), (129, 65), (133, 4), (154, 3), (156, 2), (168, 50)]
  else if b = 6 then
    bytes_at [(384, 164), (385, 129), (388, 5), (410, 1), (412, 2), (424, 60),
      (512, 237), (513, 65), (517, 4), (538, 2), (540, 2), (552, 51)]
  else if b = 50 then
    bytes_at [(0, 2), (4, 12), (6, 1), (7, 2), (8, 46),
      (12, 2), (16, 12), (18, 2), (19, 2), (20, 46), (21, 46),
      (24, 12), (28, 12), (30, 1), (31, 1), (32, 97),
      (36, 13), (40, 220), (41, 3), (42, 1), (43, 2), (44, 100)]
  else if b = 51 then
    bytes_at [(0, 13), (4, 12), (6, 1), (7, 2), (8, 46),
      (12, 2), (16, 244), (17, 3), (18, 2), (19, 2), (20, 46), (21, 46)]
  else if b = 60 then bytes_at [(0, 104), (1, 101), (2, 108), (3, 108), (4, 111)]
  else if b = 8193 then (fun k => if k < 9 then 255 else 0)
  else if b = 8194 then bytes_at [(0, 255), (1, 15)]
  else fun _ => 0

/-- A volume with block size 1024 whose root directory holds `.`, `..`, the
regular file `a` and the directory `d`; its block allocator answers
`9000, 9001, ...`. -/
def ex_vol : volume :=
  { dev := { ex_dev with disk := ex_vol_disk },
    answers := fun k => 9000 + k, calls := 0, freed := [] }

/-- A heap on which nothing is allotted. -/
def ex_heap : heap :=
  { inodes := fun _ => inode_zero, dirs := fun _ _ => 0, live := fun _ => false, brk := 0 }

/-- Fresh memory that holds zero bytes. -/
def zfresh : Nat → Nat → Nat → Nat := fun _ _ _ => 0

/-! ### Helpers of the statements on `file.c` -/

/-- The superblock apart from its count of free blocks. -/
def sb_geometry (sb : superblock) : superblock := { sb with s_free_blocks_count := 0 }

/-- The chunk the read loop computes for `size` bytes left at `offset`. -/
def chunk_size (st : fs) (ino : inode) (size offset : Int) : Int :=
  if size <
      (if toInt32 ((ino.i_size : Int) - offset)
          < toInt32 ((ext2_get_block_size st.sb : Int)
              - ((ofInt32 offset % ext2_get_block_size st.sb : Nat) : Int))
        then toInt32 ((ino.i_size : Int) - offset)
        else toInt32 ((ext2_get_block_size st.sb : Int)
              - ((ofInt32 offset % ext2_get_block_size st.sb : Nat) : Int)))
  then size
  else
    (if toInt32 ((ino.i_size : Int) - offset)
          < toInt32 ((ext2_get_block_size st.sb : Int)
              - ((ofInt32 offset % ext2_get_block_size st.sb : Nat) : Int))
        then toInt32 ((ino.i_size : Int) - offset)
        else toInt32 ((ext2_get_block_size st.sb : Int)
              - ((ofInt32 offset % ext2_get_block_size st.sb : Nat) : Int)))

/-- The buffer after one iteration of the read loop has stored its chunk. -/
def read_store (st : fs) (ino : inode) (buffer : Nat → Nat) (size offset bytes_read : Int)
    (block_id : Nat) : Nat → Nat :=
  if ofInt32 offset % ext2_get_block_size st.sb = 0
      ∧ ofInt32 (chunk_size st ino size offset) = ext2_get_block_size st.sb then
    fun k =>
      if bytes_read.toNat ≤ k ∧ k < bytes_read.toNat + ext2_get_block_size st.sb then
        ext2_read_block st.disk block_id (ext2_get_block_size st.sb) (k - bytes_read.toNat)
      else buffer k
  else
    fun k =>
      if bytes_read.toNat ≤ k
          ∧ k < bytes_read.toNat + (chunk_size st ino size offset).toNat then
        ext2_read_block st.disk block_id (ext2_get_block_size st.sb)
          (ofInt32 offset % ext2_get_block_size st.sb + (k - bytes_read.toNat))
      else buffer k

/-- The inode of the file `a` of `ex_vol`, as its record on the disk holds it. -/
def ex_ino_a : inode := inode_of_record fun k => ex_vol_disk 6 (384 + k)

/-- The directory entry of the file `a` of `ex_vol`. -/
def ex_entry_a : Nat → Nat := fun k => [12, 0, 0, 0, 12, 0, 1, 1, 97].getD k 0

/-- The heap after the file `a` of `ex_vol` has been opened twice: the entry
copies are at the addresses 1 and 3, the inodes at 2 and 4. -/
def ex_heap_a : heap :=
  { inodes := fun a => if a = 2 ∨ a = 4 then ex_ino_a else inode_zero,
    dirs := fun a => if a = 1 ∨ a = 3 then ex_entry_a else fun _ => 0,
    live := fun a => decide (1 ≤ a ∧ a ≤ 4),
    brk := 4 }

/-- The handle of the first opening of `a`. -/
def ex_file_a : file := { dir := 1, inode := 2, pos := 0, deny_write := false }

/-- The handle of the second opening of `a`. -/
def ex_file_a2 : file := { dir := 3, inode := 4, pos := 0, deny_write := false }

/-! ### Helpers of the statements on `directory.c` and `filesys.c` -/

/-- The iterations of the loop of `dir_lookup` for tokens each of which names a
directory that is entered (lines 39 to 65): the count of directories entered
and the buffer of the directory reached.  `none` is a failure of an iteration
or a token for which no directory is entered. -/
def lookup_enter (dev : ext2) (fresh : Nat → Nat → Nat) :
    List (List Nat × List Nat) → Nat → (Nat → Nat) → Option (Nat × (Nat → Nat))
  | [], depth, cur => some (depth, cur)
  | tok :: rest, depth, cur =>
    (dir_lookup_current cur (cstring tok.1 tok.2)).bind fun found =>
      if found.isSome ∧ dir_inode cur (found.getD 0) ≠ 0
          ∧ dir_file_type cur (found.getD 0) = EXT2_FT_DIR then
        (ext2_get_inode dev (dir_inode cur (found.getD 0))).bind fun r =>
          if (inode_of_record r).i_mode &&& EXT2_S_IFDIR = 0 then none
          else
            (read_directory dev (inode_of_record r) (fresh (depth + 1))).bind fun next =>
              lookup_enter dev fresh rest (depth + 1) next
      else none

/-- The volume `ex_vol` with `i_size = 2^32 - 1` in the record of the file `a`
(inode 12); the file still holds the one block 60. -/
def ex_vol_4g : volume :=
  { ex_vol with
    dev := { ex_dev with
      disk := fun b =>
        if b = 6 then
          bytes_at [(384, 164), (385, 129), (388, 255), (389, 255), (390, 255), (391, 255),
            (410, 1), (412, 2), (424, 60),
            (512, 237), (513, 65), (517, 4), (538, 2), (540, 2), (552, 51)]
        else ex_vol_disk b } }

/-- The volume `ex_vol` with the regular file `ab` (inode 14, 3 bytes in block
61) in the place of the directory `d`: the root directory holds `.`, `..`, `a`
and `ab`. -/
def ex_vol_ab : volume :=
  { ex_vol with
    dev := { ex_dev with
      disk := fun b =>
        if b = 4 then bytes_at [(0, 255), (1, 63)]
        else if b = 6 then
          bytes_at [(384, 164), (385, 129), (388, 5), (410, 1), (412, 2), (424, 60),
            (640, 164), (641, 129), (644, 3), (666, 1), (668, 2), (680, 61)]
        else if b = 50 then
          bytes_at [(0, 2), (4, 12), (6, 1), (7, 2), (8, 46),
            (12, 2), (16, 12), (18, 2), (19, 2), (20, 46), (21, 46),
            (24, 12), (28, 12), (30, 1), (31, 1), (32, 97),
            (36, 14), (40, 220), (41, 3), (42, 2), (43, 1), (44, 97), (45, 98)]
        else if b = 61 then bytes_at [(0, 97), (1, 98), (2, 99)]
        else ex_vol_disk b } }

/-! ### Helpers of the statements on the address tree and on directories -/

/-- The positions of the address tree below the direct slots: `l1` under
`i_block[12]`, `l1, l2` under `i_block[13]` and `l1, l2, l3` under
`i_block[14]`, every index below `W`; the indices a level does not use are 0. -/
def tree_pos (W l0 l1 l2 l3 : Nat) : Prop :=
  (l0 = 12 ∧ l1 < W ∧ l2 = 0 ∧ l3 = 0) ∨ (l0 = 13 ∧ l1 < W ∧ l2 < W ∧ l3 = 0)
    ∨ (l0 = 14 ∧ l1 < W ∧ l2 < W ∧ l3 < W)

instance tree_pos_decidable (W l0 l1 l2 l3 : Nat) : Decidable (tree_pos W l0 l1 l2 l3) := by
  unfold tree_pos
  infer_instance

/-- The lexicographic order of two positions `(l0, l1, l2, l3)` and
`(m0, m1, m2, m3)`. -/
def pos_lt (l0 l1 l2 l3 m0 m1 m2 m3 : Nat) : Prop :=
  l0 < m0 ∨ (l0 = m0 ∧ (l1 < m1 ∨ (l1 = m1 ∧ (l2 < m2 ∨ (l2 = m2 ∧ l3 < m3)))))

instance pos_lt_decidable (l0 l1 l2 l3 m0 m1 m2 m3 : Nat) :
    Decidable (pos_lt l0 l1 l2 l3 m0 m1 m2 m3) := by
  unfold pos_lt
  infer_instance

/-- The entry reached from `i_block[l0]` along the entries `l1`, then `l2`
(for `l0 ≥ 13`), then `l3` (for `l0 = 14`) of the index blocks on the device. -/
def tree_entry (st : fs) (ino : inode) (l0 l1 l2 l3 : Nat) : Nat :=
  if l0 = 12 then block_entry st (ino.i_block 12) l1
  else if l0 = 13 then block_entry st (block_entry st (ino.i_block 13) l1) l2
  else block_entry st (block_entry st (block_entry st (ino.i_block 14) l1) l2) l3

/-- The offsets of the entries the `while` loop of `dir_lookup_current` reads
(their field `inode`, and `name`, `name_len`, `rec_len` when the entry is
live), in order, with `next` at byte offset `o` of the memory `cur`. -/
def lookup_visits (cur file_name : Nat → Nat) : Nat → Nat → List Nat
  | 0, _ => []
  | n + 1, o =>
    if dir_inode cur o ≠ 0 then
      if mem_eq (fun k => cur (o + 8 + k)) file_name (dir_name_len cur o) then [o]
      else o :: lookup_visits cur file_name n (dir_get_next cur o)
    else [o]

/-- The well-formedness of a directory in the words of the specification: the
entries from offset `o` on partition the bytes `[o, L)`, every `rec_len` is a
multiple of 4 and at least `8 + name_len`, and no entry crosses the end of a
block of `B` bytes, so that the last entry of a block ends at the block end.
The first argument bounds the count of entries. -/
def dir_partitions (buf : Nat → Nat) (L B : Nat) : Nat → Nat → Bool
  | 0, o => decide (o = L)
  | n + 1, o =>
    if o = L then true
    else
      decide (o < L ∧ dir_rec_len buf o % 4 = 0 ∧ 8 + dir_name_len buf o ≤ dir_rec_len buf o
        ∧ o / B = (o + dir_rec_len buf o - 1) / B)
      && dir_partitions buf L B n (o + dir_rec_len buf o)

/-- A directory of one block of 1024 bytes filled to the brim: `.` at offset 0
(`rec_len` 12), `..` at offset 12 (`rec_len` 996) and `a` at offset 1008
(inode 12, `rec_len` 16); the bytes past offset 1023 are 0. -/
def ex_dir_brim : Nat → Nat :=
  bytes_at [(0, 2), (4, 12), (6, 1), (7, 2), (8, 46),
    (12, 2), (16, 228), (17, 3), (18, 2), (19, 2), (20, 46), (21, 46),
    (1008, 12), (1012, 16), (1014, 1), (1015, 1), (1016, 97)]

/-- A directory of one block of 1024 bytes with no room after its last entry:
`.` at offset 0 (`rec_len` 12), `..` at offset 12 (`rec_len` 1000) and `a` at
offset 1012 (inode 12, `rec_len` 12). -/
def ex_dir_no_room : Nat → Nat :=
  bytes_at [(0, 2), (4, 12), (6, 1), (7, 2), (8, 46),
    (12, 2), (16, 232), (17, 3), (18, 2), (19, 2), (20, 46), (21, 46),
    (1012, 12), (1016, 12), (1018, 1), (1019, 1), (1020, 97)]

/-- The volume `ex_vol` with the block of the root directory holding `root`. -/
def ex_vol_with_root (root : Nat → Nat) : volume :=
  { ex_vol with
    dev := { ex_dev with disk := fun b => if b = 50 then root else ex_vol_disk b } }

/-- The volume `ex_vol` with an allocator that has no block left. -/
def ex_vol_no_block : volume := { ex_vol with answers := fun _ => FREEMAP_GET_ERROR }

/-- The state `ex_st` with an allocator that runs out of blocks after 13
requests: the requests 13, 14, ... are answered with `FREEMAP_GET_ERROR`. -/
def ex_st_disk_full : fs :=
  { ex_st with answers := fun k => if 13 ≤ k then 4294967295 else 9000 + k }

/-! ### Helpers of the statement on the zero-fill flag -/

/-- One iteration of the loop of `inode_expand_range` at entry `i` when the
block of the entry is requested with `freemap_get_block(false)` and the loop
goes on to the next entry: what the code does for a data block. -/
def expand_data_step
    (self : Nat → Nat → Nat → Nat → Nat → Nat → Nat → Nat → Nat → fs → Option (Int × fs))
    (level start end_ items_per_block l0 l1 l2 l3 n i : Nat) (level_data : Nat → Nat) (st : fs) :
    Option (Int × (Nat → Nat) × fs) :=
  if (freemap_get_block false st).1 ≠ FREEMAP_GET_ERROR then
    expand_loop self level start end_ items_per_block l0 l1 l2 l3 n (i + 1)
      (set_word level_data i (freemap_get_block false st).1) (freemap_get_block false st).2
  else some (-1, level_data, (freemap_get_block false st).2)

/-- One iteration of the loop of `inode_expand_range` at entry `i` when the
block of the entry is requested with `freemap_get_block(true)` and handed to
the call `sub` one level down before the loop goes on: what the code does for
an index block. -/
def expand_index_step
    (self : Nat → Nat → Nat → Nat → Nat → Nat → Nat → Nat → Nat → fs → Option (Int × fs))
    (sub : Nat → fs → Option (Int × fs))
    (level start end_ items_per_block l0 l1 l2 l3 n i : Nat) (level_data : Nat → Nat) (st : fs) :
    Option (Int × (Nat → Nat) × fs) :=
  if (freemap_get_block true st).1 ≠ FREEMAP_GET_ERROR then
    (sub (freemap_get_block true st).1 (freemap_get_block true st).2).bind fun r =>
      expand_loop self level start end_ items_per_block l0 l1 l2 l3 n (i + 1)
        (set_word level_data i (freemap_get_block true st).1) r.2
  else some (-1, level_data, (freemap_get_block true st).2)

/-- An inode of 268 blocks of 1024 bytes, the twelve direct blocks and the 256
blocks under `i_block[12]`: the slots 0 to 12 hold the blocks `100 .. 112`, the
slots 13 and 14 are zero. -/
def ex_ino_268 : inode :=
  { ex_ino with i_size := 274432, i_block := fun j => if j < 13 then 100 + j else 0 }

/-- An inode of 65804 blocks of 1024 bytes, all the blocks under the slots 0 to
13: these slots hold the blocks `100 .. 113`, the slot 14 is zero. -/
def ex_ino_65804 : inode :=
  { ex_ino with i_size := 67383296, i_block := fun j => if j < 14 then 100 + j else 0 }

/-! ## Arithmetic of the machine integers -/

theorem u32_of_lt {x : Nat} (h : x < 4294967296) : u32 x = x := Nat.mod_eq_of_lt h

theorem toInt32_of_range {x : Int} (h1 : -2147483648 ≤ x) (h2 : x < 2147483648) :
    toInt32 x = x := by
  unfold toInt32; split_ifs <;> omega

theorem ofInt32_of_nonneg {x : Int} (h1 : 0 ≤ x) (h2 : x < 4294967296) :
    ofInt32 x = x.toNat := by
  unfold ofInt32; rw [Int.emod_eq_of_lt h1 h2]

theorem ofInt32_natCast {x : Nat} (h2 : x < 4294967296) :
    ofInt32 (x : Int) = x := by
  rw [ofInt32_of_nonneg (by omega) (by omega)]; simp

/-- A rounded-up quotient is at most the dividend. -/
theorem ceil_le_self {r d : Nat} (hd : 1 ≤ d) : (r + d - 1) / d ≤ r := by
  rcases Nat.eq_zero_or_pos r with h | h
  · subst h
    rw [Nat.div_eq_of_lt (by omega)]
  · apply Nat.div_le_of_le_mul
    obtain ⟨r', rfl⟩ : ∃ r', r = r' + 1 := ⟨r - 1, by omega⟩
    obtain ⟨d', rfl⟩ : ∃ d', d = d' + 1 := ⟨d - 1, by omega⟩
    have : (d' + 1) * (r' + 1) = d' * r' + d' + r' + 1 := by ring
    omega

/-- With a divisor of at least two the rounded-up quotient is at most half. -/
theorem two_ceil_le {r d : Nat} (hd : 2 ≤ d) (hr : 1 ≤ r) : 2 * ((r + d - 1) / d) ≤ r + 1 := by
  have e : r + d - 1 = (r - 1) + d := by omega
  rw [e, Nat.add_div_right _ (by omega)]
  have : (r - 1) / d ≤ (r - 1) / 2 := Nat.div_le_div_left hd (by omega)
  omega

theorem dec32_of_pos {x : Nat} (h1 : 0 < x) (h2 : x ≤ 4294967296) : dec32 x = x - 1 := by
  unfold dec32 u32
  rw [if_neg (by omega)]
  exact Nat.mod_eq_of_lt (by omega)

theorem u32_lt (x : Nat) : u32 x < 4294967296 := Nat.mod_lt _ (by decide)

/-- A coarse bound on the overhead the code computes, valid for every block
size: nothing up to `12` blocks, one index block up to `12 + W`. -/
theorem inode_get_indirect_blocks_bound (n W : Nat) (ind : Int) (hW : 1 ≤ W)
    (hW2 : W ≤ 536870912) (hn : n ≤ 4194304)
    (h : inode_get_indirect_blocks n W = some ind) :
    0 ≤ ind ∧ (n ≤ 12 → ind = 0) ∧ (n ≤ 12 + W → ind ≤ 1) ∧ ind ≤ 3 + W + 2 * n := by
  unfold inode_get_indirect_blocks DIRECT_BLOCKS at h
  have hA := u32_lt (W * W)
  generalize u32 (W * W) = A at h hA
  generalize u32 (12 + W + W * W + W * W * W) = C at h
  rw [if_neg (by omega)] at h
  simp only [] at h
  by_cases hc : C < n
  · rw [if_pos hc] at h
    exact Option.noConfusion h
  rw [if_neg hc] at h
  rw [toInt32_of_range (x := (n : Int)) (by omega) (by omega)] at h
  have e1 : toInt32 ((n : Int) - (12 : Nat)) = (n : Int) - 12 :=
    toInt32_of_range (by push_cast; omega) (by push_cast; omega)
  rw [e1] at h
  by_cases h1 : n ≤ 12
  · rw [if_pos (by omega)] at h
    simp only [Option.some.injEq] at h
    subst h
    omega
  rw [if_neg (by omega)] at h
  have e2 : toInt32 ((n : Int) - 12 - (W : Int)) = (n : Int) - 12 - W :=
    toInt32_of_range (by omega) (by omega)
  rw [e2, toInt32_of_range (x := (0 : Int) + 1) (by omega) (by omega)] at h
  by_cases h2 : n ≤ 12 + W
  · rw [if_pos (by omega)] at h
    simp only [Option.some.injEq] at h
    subst h
    omega
  rw [if_neg (by omega)] at h
  have e3 : (((n : Int) - 12) - W) = ((n - 12 - W : Nat) : Int) := by omega
  rw [e3, ofInt32_natCast (by omega),
    toInt32_of_range (x := (0 : Int) + 1 + 1) (by omega) (by omega)] at h
  by_cases h3 : n - 12 - W ≤ A
  · rw [if_pos h3] at h
    unfold DIV_ROUND_UP at h
    rw [if_neg (by omega), u32_of_lt (by omega)] at h
    simp only [Option.map_some', Option.some.injEq] at h
    have hq : (n - 12 - W + W - 1) / W ≤ n - 12 - W := ceil_le_self hW
    generalize (n - 12 - W + W - 1) / W = q at h hq
    rw [toInt32_of_range (by omega) (by omega)] at h
    subst h
    omega
  rw [if_neg h3] at h
  have e4 : ((n - 12 - W : Nat) : Int) - (A : Int) = ((n - 12 - W - A : Nat) : Int) := by omega
  rw [e4, toInt32_of_range (by omega) (by omega), ofInt32_natCast (by omega)] at h
  unfold DIV_ROUND_UP at h
  by_cases hA0 : A = 0
  · rw [if_pos hA0] at h
    simp at h
  rw [if_neg hA0, if_neg (by omega), u32_of_lt (by omega), u32_of_lt (by omega)] at h
  simp only [Option.some_bind, Option.map_some', Option.some.injEq] at h
  have hq1 : (n - 12 - W - A + W - 1) / W ≤ n - 12 - W - A := ceil_le_self hW
  have hq2 : (n - 12 - W - A + A - 1) / A ≤ n - 12 - W - A := ceil_le_self (by omega)
  generalize (n - 12 - W - A + W - 1) / W = q1 at h hq1
  generalize (n - 12 - W - A + A - 1) / A = q2 at h hq2
  rw [toInt32_of_range (x := (0:Int) + 1 + 1 + (W : Int)) (by omega) (by omega)] at h
  rw [toInt32_of_range (x := (0:Int) + 1 + 1 + (W : Int) + 1) (by omega) (by omega)] at h
  rw [toInt32_of_range (x := (0:Int) + 1 + 1 + (W : Int) + 1 + _) (by omega) (by omega)] at h
  rw [toInt32_of_range (by omega) (by omega)] at h
  subst h
  omega

/-! ## Range comparison -/

theorem range_compare_overlap_iff (s1 e1 s2 e2 : Nat) :
    inode_range_compare s1 e1 s2 e2 &&& RANGE_OVERLAP > 0 ↔ ¬ e1 < s2 ∧ ¬ e2 < s1 := by
  unfold inode_range_compare RANGE_OVERLAP RANGE_AHEAD RANGE_BEHIND RANGE_CONTAINS RANGE_CONTAINED
  by_cases h1 : e1 < s2
  · simp [h1]
  · by_cases h2 : e2 < s1
    · simp [h1, h2]
    · simp only [h1, h2, if_false, not_false_eq_true, and_self, iff_true]
      split_ifs <;> decide

theorem range_compare_ahead_iff (s1 e1 s2 e2 : Nat) :
    inode_range_compare s1 e1 s2 e2 &&& RANGE_AHEAD > 0 ↔ e1 < s2 := by
  unfold inode_range_compare RANGE_OVERLAP RANGE_AHEAD RANGE_BEHIND RANGE_CONTAINS RANGE_CONTAINED
  by_cases h1 : e1 < s2
  · simp [h1]
  · by_cases h2 : e2 < s1
    · simp only [h1, h2, if_false, if_true, iff_false]; decide
    · simp only [h1, h2, if_false, iff_false]
      split_ifs <;> decide

/-! ## Index words -/

theorem get_word_lt (buf : Nat → Nat) (i : Nat) : get_word buf i < 4294967296 := by
  unfold get_word; omega

theorem set_word_outside (buf : Nat → Nat) (i v k : Nat) (h : k < 4 * i ∨ 4 * i + 4 ≤ k) :
    set_word buf i v k = buf k := by
  unfold set_word
  rw [if_neg (by omega), if_neg (by omega), if_neg (by omega), if_neg (by omega)]

theorem get_word_set_word_same (buf : Nat → Nat) (i v : Nat) (hv : v < 4294967296) :
    get_word (set_word buf i v) i = v := by
  have e0 : set_word buf i v (4 * i) = v % 256 := by
    unfold set_word; rw [if_pos rfl]
  have e1 : set_word buf i v (4 * i + 1) = v / 256 % 256 := by
    unfold set_word; rw [if_neg (by omega), if_pos rfl]
  have e2 : set_word buf i v (4 * i + 2) = v / 65536 % 256 := by
    unfold set_word; rw [if_neg (by omega), if_neg (by omega), if_pos rfl]
  have e3 : set_word buf i v (4 * i + 3) = v / 16777216 % 256 := by
    unfold set_word; rw [if_neg (by omega), if_neg (by omega), if_neg (by omega), if_pos rfl]
  unfold get_word
  rw [e0, e1, e2, e3]
  omega

theorem get_word_congr {buf buf' : Nat → Nat} {i : Nat}
    (h : ∀ k, 4 * i ≤ k → k < 4 * i + 4 → buf' k = buf k) :
    get_word buf' i = get_word buf i := by
  unfold get_word
  rw [h (4 * i) (by omega) (by omega), h (4 * i + 1) (by omega) (by omega),
    h (4 * i + 2) (by omega) (by omega), h (4 * i + 3) (by omega) (by omega)]

theorem get_word_set_word_other (buf : Nat → Nat) (i j v : Nat) (h : j ≠ i) :
    get_word (set_word buf i v) j = get_word buf j := by
  apply get_word_congr
  intro k h1 h2
  exact set_word_outside buf i v k (by omega)

theorem get_word_read_block (disk : Nat → Nat → Nat) (b size i : Nat) (h : 4 * i + 4 ≤ size) :
    get_word (ext2_read_block disk b size) i = get_word (disk b) i := by
  apply get_word_congr
  intro k h1 h2
  unfold ext2_read_block
  rw [if_pos (by omega)]

theorem get_word_zero (i : Nat) : get_word (fun _ => 0) i = 0 := by
  unfold get_word; rfl

/-! ## Block sizes -/

/-- A block size that is not zero comes from a shift of at most 21. -/
theorem block_size_cases (sb : superblock) (h : ext2_get_block_size sb ≠ 0) :
    sb.s_log_block_size ≤ 21 ∧ ext2_get_block_size sb = 1024 * 2 ^ sb.s_log_block_size := by
  unfold ext2_get_block_size u32 at *
  by_cases hs : sb.s_log_block_size ≤ 21
  · refine ⟨hs, Nat.mod_eq_of_lt ?_⟩
    have : 2 ^ sb.s_log_block_size ≤ 2 ^ 21 := Nat.pow_le_pow_right (by omega) hs
    omega
  · exfalso
    apply h
    obtain ⟨k, hk⟩ : ∃ k, sb.s_log_block_size = 22 + k := ⟨sb.s_log_block_size - 22, by omega⟩
    rw [hk, pow_add]
    have : 1024 * (2 ^ 22 * 2 ^ k) = 4294967296 * 2 ^ k := by ring
    rw [this]
    exact Nat.mul_mod_right _ _

/-! ## Properties of the state kept by a walk -/

theorem expand_entry_inv {P : fs → Prop} (hP : GetInv P) (b s e : Nat) (st : fs) (hst : P st) :
    P (expand_entry b s e st).2 := by
  unfold expand_entry
  split_ifs
  · exact hP.get _ _ hst
  · exact hP.get _ _ hst
  · exact hst

theorem expand_loop_inv {P : fs → Prop} (hP : GetInv P)
    (self : Nat → Nat → Nat → Nat → Nat → Nat → Nat → Nat → Nat → fs → Option (Int × fs))
    (hself : ∀ a b c d e f g h i st r, P st → self a b c d e f g h i st = some r → P r.2)
    (level start end_ W l0 l1 l2 l3 : Nat) :
    ∀ n i data st r, P st →
      expand_loop self level start end_ W l0 l1 l2 l3 n i data st = some r → P r.2.2 := by
  intro n
  induction n with
  | zero =>
    intro i data st r hst h
    simp only [expand_loop, Option.some.injEq] at h
    subst h
    exact hst
  | succ n ih =>
    intro i data st r hst h
    rw [expand_loop] at h
    simp only [] at h
    have hg := expand_entry_inv hP (get_word data i) (item_start level W l0 l1 l2 i)
      (item_end level W l0 l1 l2 i) st hst
    generalize expand_entry (get_word data i) (item_start level W l0 l1 l2 i)
      (item_end level W l0 l1 l2 i) st = got at h hg
    split_ifs at h
    all_goals try simp only [Option.bind_eq_some] at h
    all_goals first
      | exact Option.noConfusion h
      | (simp only [Option.some.injEq] at h; subst h; first | exact hst | exact hg)
      | exact ih _ _ _ _ (by first | exact hst | exact hg) h
      | (obtain ⟨a, ha, h⟩ := h
         exact ih _ _ _ _ (hself _ _ _ _ _ _ _ _ _ _ _ hg ha) h)

theorem inode_expand_range_inv {P : fs → Prop} (hP : GetInv P) :
    ∀ fuel b level start end_ W l0 l1 l2 l3 st r, P st →
      inode_expand_range fuel b level start end_ W l0 l1 l2 l3 st = some r → P r.2 := by
  intro fuel
  induction fuel with
  | zero => intro b level start end_ W l0 l1 l2 l3 st r _ h; simp [inode_expand_range] at h
  | succ fuel ih =>
    intro b level start end_ W l0 l1 l2 l3 st r hst h
    rw [inode_expand_range] at h
    split_ifs at h with h0
    simp only [Option.bind_eq_some, Option.some.injEq] at h
    obtain ⟨a, ha, rfl⟩ := h
    exact hP.write _ _ (expand_loop_inv hP _ (fun a b c d e f g h i => ih a b c d e f g h i)
      level start end_ W l0 l1 l2 l3 W 0 _ st a hst ha)

theorem shrink_loop_inv {P : fs → Prop} (hP : FreeInv P)
    (self : Nat → Nat → Nat → Nat → Nat → Nat → Nat → Nat → Nat → fs → Option (Int × fs))
    (hself : ∀ a b c d e f g h i st r, P st → self a b c d e f g h i st = some r → P r.2)
    (level start end_ W l0 l1 l2 l3 : Nat) :
    ∀ n i data st r, P st →
      shrink_loop self level start end_ W l0 l1 l2 l3 n i data st = some r → P r.2.2 := by
  intro n
  induction n with
  | zero =>
    intro i data st r hst h
    simp only [shrink_loop, Option.some.injEq] at h
    subst h
    exact hst
  | succ n ih =>
    intro i data st r hst h
    rw [shrink_loop] at h
    split_ifs at h
    all_goals try simp only [Option.bind_eq_some] at h
    all_goals first
      | exact Option.noConfusion h
      | (simp only [Option.some.injEq] at h; subst h; exact hst)
      | exact ih _ _ _ _ hst h
      | (obtain ⟨a, ha, h⟩ := h
         first
           | exact Option.noConfusion ha
           | exact ih _ _ _ _ (hP.free _ _ _ hst ha) h
           | (have pa := hself _ _ _ _ _ _ _ _ _ _ _ hst ha
              first
                | exact ih _ _ _ _ pa h
                | (obtain ⟨b, hb, h⟩ := h
                   exact ih _ _ _ _ (hP.free _ _ _ pa hb) h)))

theorem inode_shrink_range_inv {P : fs → Prop} (hP : FreeInv P) :
    ∀ fuel b level start end_ W l0 l1 l2 l3 st r, P st →
      inode_shrink_range fuel b level start end_ W l0 l1 l2 l3 st = some r → P r.2 := by
  intro fuel
  induction fuel with
  | zero => intro b level start end_ W l0 l1 l2 l3 st r _ h; simp [inode_shrink_range] at h
  | succ fuel ih =>
    intro b level start end_ W l0 l1 l2 l3 st r hst h
    rw [inode_shrink_range] at h
    split_ifs at h with h0
    simp only [Option.bind_eq_some, Option.some.injEq] at h
    obtain ⟨a, ha, rfl⟩ := h
    exact hP.write _ _ (shrink_loop_inv hP _ (fun a b c d e f g h i => ih a b c d e f g h i)
      level start end_ W l0 l1 l2 l3 W 0 _ st a hst ha)

theorem expand_direct_inv {P : fs → Prop} (hP : GetInv P) (fs_blocks : Nat) :
    ∀ n i ino st, P st → P (expand_direct fs_blocks n i ino st).2.2 := by
  intro n
  induction n with
  | zero => intro i ino st hst; exact hst
  | succ n ih =>
    intro i ino st hst
    rw [expand_direct]
    split_ifs
    · exact ih _ _ _ (hP.get _ _ hst)
    · exact hP.get _ _ hst
    · exact ih _ _ _ hst
    · exact hst

theorem shrink_direct_inv {P : fs → Prop} (hP : FreeInv P) (old_fs_blocks : Nat) :
    ∀ n i ino st r, P st → shrink_direct old_fs_blocks n i ino st = some r → P r.2 := by
  intro n
  induction n with
  | zero =>
    intro i ino st r hst h
    simp only [shrink_direct, Option.some.injEq] at h
    subst h
    exact hst
  | succ n ih =>
    intro i ino st r hst h
    rw [shrink_direct] at h
    split_ifs at h with h1 h2
    · simp only [Option.bind_eq_some] at h
      obtain ⟨a, ha, h⟩ := h
      exact ih _ _ _ _ (hP.free _ _ _ hst ha) h
    · exact ih _ _ _ _ hst h
    · simp only [Option.some.injEq] at h
      subst h
      exact hst

theorem expand_level_inv {P : fs → Prop} (hP : GetInv P) (W old_fs_blocks fs_blocks l0 : Nat)
    (ino : inode) (st : fs) (r : flow × inode × fs) (hst : P st)
    (h : expand_level W old_fs_blocks fs_blocks l0 ino st = some r) : P r.2.2 := by
  unfold expand_level at h
  simp only [] at h
  split_ifs at h
  all_goals try simp only [Option.bind_eq_some] at h
  all_goals first
    | (simp only [Option.some.injEq] at h; subst h
       first
         | exact hst
         | exact hP.get _ _ hst)
    | (obtain ⟨a, ha, h⟩ := h
       simp only [Option.some.injEq] at h; subst h
       first
         | exact inode_expand_range_inv hP _ _ _ _ _ _ _ _ _ _ _ _ hst ha
         | exact inode_expand_range_inv hP _ _ _ _ _ _ _ _ _ _ _ _ (hP.get _ _ hst) ha)

theorem shrink_level_inv {P : fs → Prop} (hP : FreeInv P) (W fs_blocks old_fs_blocks l0 : Nat)
    (ino : inode) (st : fs) (r : flow × inode × fs) (hst : P st)
    (h : shrink_level W fs_blocks old_fs_blocks l0 ino st = some r) : P r.2.2 := by
  unfold shrink_level at h
  simp only [] at h
  split_ifs at h
  all_goals try simp only [Option.bind_eq_some] at h
  all_goals first
    | (simp only [Option.some.injEq] at h; subst h; exact hst)
    | (obtain ⟨a, ha, h⟩ := h
       have pa := inode_shrink_range_inv hP _ _ _ _ _ _ _ _ _ _ _ _ hst ha
       first
         | (simp only [Option.some.injEq] at h; subst h; exact pa)
         | (obtain ⟨b, hb, h⟩ := h
            simp only [Option.some.injEq] at h; subst h
            exact hP.free _ _ _ pa hb))

theorem walk_levels_inv {P : fs → Prop}
    (step : Nat → inode → fs → Option (flow × inode × fs))
    (hstep : ∀ l0 ino st r, P st → step l0 ino st = some r → P r.2.2)
    (ino : inode) (st : fs) (r : flow × inode × fs) (hst : P st)
    (h : walk_levels step ino st = some r) : P r.2.2 := by
  unfold walk_levels at h
  simp only [Option.bind_eq_some] at h
  obtain ⟨r1, h1, h⟩ := h
  have p1 := hstep _ _ _ _ hst h1
  split_ifs at h
  · simp only [Option.bind_eq_some] at h
    obtain ⟨r2, h2, h⟩ := h
    have p2 := hstep _ _ _ _ p1 h2
    split_ifs at h
    · exact hstep _ _ _ _ p2 h
    · simp only [Option.some.injEq] at h
      subst h; exact p2
  · simp only [Option.some.injEq] at h
    subst h; exact p1

theorem resize_shrink_inv {P : fs → Prop} (hf : FreeInv P) (W bytes fs_blocks old_fs_blocks : Nat)
    (ind : Int) (ino : inode) (st : fs) (r : Int × inode × fs) (hst : P st)
    (h : resize_shrink W bytes fs_blocks old_fs_blocks ind ino st = some r) : P r.2.2 := by
  unfold resize_shrink at h
  simp only [Option.bind_eq_some, Option.some.injEq] at h
  obtain ⟨r1, h1, r2, h2, rfl⟩ := h
  have p1 := shrink_direct_inv hf old_fs_blocks DIRECT_BLOCKS fs_blocks ino st r1 hst h1
  have p2 := walk_levels_inv (shrink_level W fs_blocks old_fs_blocks)
    (fun l0 i s r hs hh => shrink_level_inv hf _ _ _ l0 i s r hs hh) r1.1 r1.2 r2 p1 h2
  unfold resize_finish
  split_ifs <;> exact p2

theorem resize_expand_inv {P : fs → Prop} (hg : GetInv P) (W bytes fs_blocks old_fs_blocks : Nat)
    (ind : Int) (ino : inode) (st : fs) (r : Int × inode × fs) (hst : P st)
    (h : resize_expand W bytes fs_blocks old_fs_blocks ind ino st = some r) : P r.2.2 := by
  unfold resize_expand at h
  have p1 := expand_direct_inv hg fs_blocks DIRECT_BLOCKS old_fs_blocks ino st hst
  generalize expand_direct fs_blocks DIRECT_BLOCKS old_fs_blocks ino st = ed at h p1
  split_ifs at h
  · simp only [Option.some.injEq] at h
    subst h; exact p1
  · simp only [Option.bind_eq_some, Option.some.injEq] at h
    obtain ⟨r2, h2, rfl⟩ := h
    have p2 := walk_levels_inv (expand_level W old_fs_blocks fs_blocks)
      (fun l0 i s r hs hh => expand_level_inv hg _ _ _ l0 i s r hs hh) ed.2.1 ed.2.2 r2 p1 h2
    unfold resize_finish
    split_ifs <;> exact p2

theorem inode_resize_inv {P : fs → Prop} (hg : GetInv P) (hf : FreeInv P)
    (st : fs) (ino : inode) (bytes : Nat) (r : Int × inode × fs) (hst : P st)
    (h : inode_resize st ino bytes = some r) : P r.2.2 := by
  unfold inode_resize at h
  simp only [Option.bind_eq_some] at h
  obtain ⟨fs_blocks, -, old_fs_blocks, -, ind, -, h⟩ := h
  split_ifs at h
  · simp only [Option.some.injEq] at h
    subst h; exact hst
  · simp only [Option.some.injEq] at h
    subst h; exact hst
  · exact resize_shrink_inv hf _ _ _ _ _ _ _ _ hst h
  · exact resize_expand_inv hg _ _ _ _ _ _ _ _ hst h

theorem freemap_get_block_log (z : Bool) (st : fs) :
    (freemap_get_block z st).2.sb.s_log_block_size = st.sb.s_log_block_size := by
  unfold freemap_get_block set_disk
  simp only []
  split_ifs <;> rfl

/-- Every step keeps the superblock apart from its count of free blocks. -/
theorem log_block_size_getInv (s : Nat) : GetInv (fun st => st.sb.s_log_block_size = s) where
  get := by
    intro z st h
    rw [freemap_get_block_log]; exact h
  write := fun _ _ h => h

theorem log_block_size_freeInv (s : Nat) : FreeInv (fun st => st.sb.s_log_block_size = s) where
  free := by
    intro b st st' h hf
    unfold freemap_free_block at hf
    split_ifs at hf
    simp only [Option.some.injEq] at hf
    subst hf
    exact h
  write := fun _ _ h => h

theorem inode_resize_log (st : fs) (ino : inode) (bytes : Nat) (r : Int × inode × fs)
    (h : inode_resize st ino bytes = some r) :
    r.2.2.sb.s_log_block_size = st.sb.s_log_block_size :=
  inode_resize_inv (log_block_size_getInv _) (log_block_size_freeInv _) st ino bytes r rfl h

theorem resize_done_fields (bytes fs_blocks : Nat) (ind : Int) (ino : inode) (st : fs) :
    (resize_done bytes fs_blocks ind ino st).i_size = bytes ∧
    (resize_done bytes fs_blocks ind ino st).i_blocks =
      u32 ((fs_blocks + ofInt32 ind) * (2 * 2 ^ st.sb.s_log_block_size)) ∧
    (resize_done bytes fs_blocks ind ino st).i_block = ino.i_block := by
  unfold resize_done
  exact ⟨rfl, rfl, rfl⟩

theorem resize_finish_zero (bytes fs_blocks : Nat) (ind : Int) (r : flow × inode × fs)
    (h0 : (resize_finish bytes fs_blocks ind r).1 = 0) :
    resize_finish bytes fs_blocks ind r =
      (0, resize_done bytes fs_blocks ind r.2.1 r.2.2, r.2.2) := by
  unfold resize_finish at h0 ⊢
  split_ifs at h0 ⊢ with h
  · simp at h0
  · rfl

/-- What a `0` returned by `inode_resize` says about the size fields. -/
theorem inode_resize_zero_fields (st : fs) (ino : inode) (bytes : Nat) (r : Int × inode × fs)
    (h : inode_resize st ino bytes = some r) (h0 : r.1 = 0) :
    ∃ fs_blocks indirect_blocks,
      DIV_ROUND_UP bytes (ext2_get_block_size st.sb) = some fs_blocks ∧
      inode_get_indirect_blocks fs_blocks (ext2_get_block_size st.sb / 4) = some indirect_blocks ∧
      0 ≤ indirect_blocks ∧
      r.2.1.i_size = bytes ∧
      r.2.1.i_blocks =
        u32 ((fs_blocks + ofInt32 indirect_blocks) * (2 * 2 ^ st.sb.s_log_block_size)) := by
  have hs := inode_resize_log st ino bytes r h
  unfold inode_resize at h
  simp only [Option.bind_eq_some] at h
  obtain ⟨fs_blocks, hfb, old_fs_blocks, -, ind, hind, h⟩ := h
  refine ⟨fs_blocks, ind, hfb, hind, ?_⟩
  have key : ∀ ino1 st1, st1.sb.s_log_block_size = st.sb.s_log_block_size →
      ¬ ind < 0 →
      0 ≤ ind ∧ (resize_done bytes fs_blocks ind ino1 st1).i_size = bytes ∧
      (resize_done bytes fs_blocks ind ino1 st1).i_blocks =
        u32 ((fs_blocks + ofInt32 ind) * (2 * 2 ^ st.sb.s_log_block_size)) := by
    intro ino1 st1 h1 h2
    have := resize_done_fields bytes fs_blocks ind ino1 st1
    rw [h1] at this
    exact ⟨by omega, this.1, this.2.1⟩
  split_ifs at h with h1 h2 h3
  · simp only [Option.some.injEq] at h
    subst h
    simp at h0
  · simp only [Option.some.injEq] at h
    subst h
    exact key ino st rfl h1
  · unfold resize_shrink at h
    simp only [Option.bind_eq_some, Option.some.injEq] at h
    obtain ⟨r1, -, r2, -, rfl⟩ := h
    rw [resize_finish_zero _ _ _ _ h0] at hs ⊢
    exact key _ _ hs h1
  · unfold resize_expand at h
    generalize expand_direct fs_blocks DIRECT_BLOCKS old_fs_blocks ino st = ed at h
    split_ifs at h with h4
    · simp only [Option.some.injEq] at h
      subst h
      simp at h0
    · simp only [Option.bind_eq_some, Option.some.injEq] at h
      obtain ⟨r2, -, rfl⟩ := h
      rw [resize_finish_zero _ _ _ _ h0] at hs ⊢
      exact key _ _ hs h1

/-- Within `2^32 - B` the rounded-up block count is the ceiling, and the
product that gives `i_blocks` does not wrap. -/
theorem resize_counts_no_wrap (sb : superblock) (bytes fs_blocks : Nat) (ind : Int)
    (hsize : bytes ≤ 4294967296 - ext2_get_block_size sb)
    (hfb : DIV_ROUND_UP bytes (ext2_get_block_size sb) = some fs_blocks)
    (hind : inode_get_indirect_blocks fs_blocks (ext2_get_block_size sb / 4) = some ind) :
    fs_blocks = (bytes + ext2_get_block_size sb - 1) / ext2_get_block_size sb ∧
    0 ≤ ind ∧
    ((u32 ((fs_blocks + ofInt32 ind) * (2 * 2 ^ sb.s_log_block_size)) : Nat) : Int) =
      ((fs_blocks : Int) + ind) * (2 * 2 ^ sb.s_log_block_size) := by
  unfold DIV_ROUND_UP at hfb
  by_cases hB : ext2_get_block_size sb = 0
  · rw [if_pos hB] at hfb; exact Option.noConfusion hfb
  rw [if_neg hB] at hfb
  simp only [Option.some.injEq] at hfb
  obtain ⟨hs, hBe⟩ := block_size_cases sb hB
  generalize sb.s_log_block_size = s at *
  generalize ext2_get_block_size sb = B at *
  subst hBe
  have hlt : bytes + 1024 * 2 ^ s - 1 < 4294967296 := by
    have h1 : 0 < 2 ^ s := by positivity
    have h2 : 2 ^ s ≤ 2 ^ 21 := Nat.pow_le_pow_right (by omega) hs
    omega
  rw [u32_of_lt hlt] at hfb
  refine ⟨hfb.symm, ?_⟩
  interval_cases s
  all_goals
    norm_num at hsize hfb hind hlt ⊢
    have hn : fs_blocks ≤ 4194304 := by omega
    obtain ⟨b0, b1, b2, b3⟩ := inode_get_indirect_blocks_bound fs_blocks _ ind (by norm_num)
      (by norm_num) hn hind
    refine ⟨b0, ?_⟩
    obtain ⟨k, rfl⟩ : ∃ k : Nat, ind = (k : Int) := ⟨ind.toNat, by omega⟩
    rw [ofInt32_natCast (by omega)]
    rw [u32_of_lt (by omega)]
    push_cast
    ring

/-! ## The lookup -/

/-- The block size is `1024 << s_log_block_size` when the shift does not wrap. -/
theorem block_size_of_log (sb : superblock) (hs : sb.s_log_block_size ≤ 21) :
    ext2_get_block_size sb = 1024 * 2 ^ sb.s_log_block_size := by
  unfold ext2_get_block_size
  apply u32_of_lt
  have : 2 ^ sb.s_log_block_size ≤ 2 ^ 21 := Nat.pow_le_pow_right (by omega) hs
  omega

/-- The last level of the walk reads the entry itself. -/
theorem traverse_zero (st : fs) (b idx : Nat) (h : idx < ext2_get_block_size st.sb / 4) :
    inode_traverse_linklist st 0 b idx = some (block_entry st b idx) := by
  rw [inode_traverse_linklist]
  rw [if_neg (by omega), get_word_read_block _ _ _ _ (by omega)]
  rfl

/-- The remainder computed by `idx -= table_idx * ids_per_entry`. -/
theorem sub32_div_mul (k d : Nat) (hk : k < 4294967296) :
    sub32 k (u32 (k / d * d)) = k % d := by
  have hle : k / d * d ≤ k := Nat.div_mul_le_self _ _
  have hm : k % d + k / d * d = k := by rw [Nat.mul_comm]; exact Nat.mod_add_div k d
  generalize k / d * d = q at hle hm ⊢
  generalize k % d = r at hm ⊢
  rw [u32_of_lt (by omega)]
  unfold sub32
  rw [if_pos hle, u32_of_lt (by omega)]
  omega

/-- The lookup for a block of `4 * W` bytes with `1 ≤ W` and `W³ < 2^32`. -/
theorem inode_get_data_block_mapping_aux (st : fs) (ino : inode) (i W : Nat)
    (hW : ext2_get_block_size st.sb = 4 * W) (hW1 : 1 ≤ W) (hW3 : W * W * W < 4294967296) :
    (i < 12 → inode_get_data_block st ino i = some (ino.i_block i)) ∧
    (12 ≤ i → i < 12 + W →
      inode_get_data_block st ino i = some (block_entry st (ino.i_block 12) (i - 12))) ∧
    (12 + W ≤ i → i < 12 + W + W * W →
      inode_get_data_block st ino i =
        some (block_entry st (block_entry st (ino.i_block 13) ((i - 12 - W) / W))
          ((i - 12 - W) % W))) ∧
    (12 + W + W * W ≤ i → i < 12 + W + W * W + W * W * W →
      inode_get_data_block st ino i =
        some (block_entry st
          (block_entry st (block_entry st (ino.i_block 14) ((i - 12 - W - W * W) / (W * W)))
            ((i - 12 - W - W * W) / W % W))
          ((i - 12 - W - W * W) % W))) ∧
    (12 + W + W * W + W * W * W ≤ i → inode_get_data_block st ino i = none) := by
  have hq : ext2_get_block_size st.sb / 4 = W := by omega
  have hWW : W ≤ W * W := Nat.le_mul_of_pos_left W hW1
  have hWWW : W * W ≤ W * W * W := Nat.le_mul_of_pos_right (W * W) hW1
  have u2 : u32 (W * W) = W * W := u32_of_lt (by omega)
  have u3 : u32 (W * W * W) = W * W * W := u32_of_lt hW3
  have hp1 : W ^ (0 + 1) = W := by ring
  have hp2 : W ^ (1 + 1) = W * W := by ring
  refine ⟨?_, ?_, ?_, ?_, ?_⟩
  · intro h
    unfold inode_get_data_block DIRECT_BLOCKS
    simp only []
    rw [if_pos h]
  · intro h1 h2
    unfold inode_get_data_block DIRECT_BLOCKS
    simp only []
    rw [if_neg (by omega), hq, if_pos (by omega)]
    exact traverse_zero st _ _ (by omega)
  · intro h1 h2
    unfold inode_get_data_block DIRECT_BLOCKS
    simp only []
    rw [if_neg (by omega), hq, if_neg (by omega), u2, if_pos (by omega)]
    rw [inode_traverse_linklist]
    simp only []
    rw [hq, hp1, u32_of_lt (by omega), if_neg (by omega)]
    have hd : (i - 12 - W) / W < W := Nat.div_lt_of_lt_mul (by omega)
    rw [if_neg (by omega), get_word_read_block _ _ _ _ (by omega)]
    rw [sub32_div_mul _ _ (by omega)]
    exact traverse_zero st _ _ (by rw [hq]; exact Nat.mod_lt _ (by omega))
  · intro h1 h2
    unfold inode_get_data_block DIRECT_BLOCKS
    simp only []
    rw [if_neg (by omega), hq, if_neg (by omega), u2, if_neg (by omega), u3, if_pos (by omega)]
    have hkl : i - 12 - W - W * W < W * W * W := by omega
    generalize i - 12 - W - W * W = k at hkl ⊢
    rw [inode_traverse_linklist]
    simp only []
    rw [hq, hp2, u2, if_neg (by omega)]
    have hd : k / (W * W) < W := Nat.div_lt_of_lt_mul hkl
    rw [if_neg (by omega), get_word_read_block _ _ _ _ (by omega)]
    rw [sub32_div_mul _ _ (by omega)]
    have hml : k % (W * W) < W * W := Nat.mod_lt _ (by omega)
    have e1 : k % (W * W) / W = k / W % W := by
      rw [Nat.mod_mul_right_div_self]
    have e2 : k % (W * W) % W = k % W := by
      rw [Nat.mod_mul_right_mod]
    rw [← e1, ← e2]
    generalize k % (W * W) = j at hml ⊢
    rw [inode_traverse_linklist]
    simp only []
    rw [hq, hp1, u32_of_lt (by omega), if_neg (by omega)]
    have hd2 : j / W < W := Nat.div_lt_of_lt_mul (by omega)
    rw [if_neg (by omega), get_word_read_block _ _ _ _ (by omega)]
    rw [sub32_div_mul _ _ (by omega)]
    exact traverse_zero st _ _ (by rw [hq]; exact Nat.mod_lt _ (by omega))
  · intro h
    unfold inode_get_data_block DIRECT_BLOCKS
    simp only []
    rw [if_neg (by omega), hq, if_neg (by omega), u2, if_neg (by omega), u3, if_neg (by omega)]

/-! ## Bitmaps -/

/-- What `scan_from` found: the lowest index with the property. -/
theorem scan_from_some (p : Nat → Bool) : ∀ n i j, scan_from p n i = some j →
    i ≤ j ∧ j < i + n ∧ p j = true ∧ ∀ k, i ≤ k → k < j → p k = false := by
  intro n
  induction n with
  | zero => intro i j h; simp [scan_from] at h
  | succ n ih =>
    intro i j h
    rw [scan_from] at h
    by_cases hp : p i = true
    · rw [if_pos hp, Option.some.injEq] at h
      subst h
      exact ⟨Nat.le_refl _, by omega, hp, fun k h1 h2 => by omega⟩
    · rw [if_neg hp] at h
      obtain ⟨h1, h2, h3, h4⟩ := ih _ _ h
      refine ⟨by omega, by omega, h3, ?_⟩
      intro k hk1 hk2
      by_cases hki : k = i
      · subst hki; simpa using hp
      · exact h4 k (by omega) hk2

/-- A failed `scan_from` saw no index with the property. -/
theorem scan_from_none (p : Nat → Bool) : ∀ n i, scan_from p n i = none →
    ∀ k, i ≤ k → k < i + n → p k = false := by
  intro n
  induction n with
  | zero => intro i _ k h1 h2; omega
  | succ n ih =>
    intro i h k h1 h2
    rw [scan_from] at h
    by_cases hp : p i = true
    · rw [if_pos hp] at h; exact Option.noConfusion h
    · rw [if_neg hp] at h
      by_cases hki : k = i
      · subst hki; simpa using hp
      · exact ih _ h k (by omega) (by omega)

/-- Meaning of `bits_all`. -/
theorem bits_all_iff (bits : Nat → Bool) (v : Bool) : ∀ cnt start,
    bits_all bits v cnt start = true ↔ ∀ j, j < cnt → bits (start + j) = v := by
  intro cnt
  induction cnt with
  | zero => intro start; simp [bits_all]
  | succ n ih =>
    intro start
    rw [bits_all, Bool.and_eq_true, ih, beq_iff_eq]
    constructor
    · rintro ⟨h0, h1⟩ j hj
      rcases Nat.eq_zero_or_pos j with hj0 | hj0
      · subst hj0; simpa using h0
      · have := h1 (j - 1) (by omega)
        have e : start + 1 + (j - 1) = start + j := by omega
        rwa [e] at this
    · intro h
      refine ⟨by simpa using h 0 (by omega), fun j hj => ?_⟩
      have := h (j + 1) (by omega)
      have e : start + (j + 1) = start + 1 + j := by omega
      rwa [e] at this

/-- What a successful scan from index 0 found. -/
theorem bitmap_scan_found (b : bitmap) (cnt : Nat) (v : Bool)
    (h : bitmap_scan b 0 cnt v ≠ BITMAP_ERROR) :
    bitmap_scan b 0 cnt v + cnt ≤ b.bit_cnt ∧
    (∀ j, j < cnt → b.bits (bitmap_scan b 0 cnt v + j) = v) ∧
    ∀ k, k < bitmap_scan b 0 cnt v → ∃ j, j < cnt ∧ b.bits (k + j) ≠ v := by
  unfold bitmap_scan at h ⊢
  by_cases hc : cnt ≤ b.bit_cnt
  · rw [if_pos hc] at h ⊢
    cases hs : scan_from (fun i => bits_all b.bits v cnt i) (b.bit_cnt - cnt + 1 - 0) 0 with
    | none => rw [hs] at h; exact absurd rfl h
    | some r =>
      rw [Option.getD_some]
      obtain ⟨-, h2, h3, h4⟩ := scan_from_some _ _ _ _ hs
      refine ⟨by omega, (bits_all_iff _ _ _ _).1 h3, ?_⟩
      intro k hk
      have hk' := h4 k (Nat.zero_le _) hk
      by_contra hcon
      have hall : bits_all b.bits v cnt k = true := by
        rw [bits_all_iff]
        intro j hj
        by_contra hne
        exact hcon ⟨j, hj, hne⟩
      have : bits_all b.bits v cnt k = false := hk'
      rw [hall] at this
      exact Bool.noConfusion this
  · rw [if_neg hc] at h
    exact absurd rfl h

/-- A bit of the byte that `bitmap_get_bits` packs. -/
theorem byte_bit (c0 c1 c2 c3 c4 c5 c6 c7 : Bool) (m : Nat) (hm : m < 8) :
    decide ((bit_val c0 + 2 * bit_val c1 + 4 * bit_val c2 + 8 * bit_val c3 + 16 * bit_val c4
      + 32 * bit_val c5 + 64 * bit_val c6 + 128 * bit_val c7) / 2 ^ m % 2 = 1) =
    (if m = 0 then c0 else if m = 1 then c1 else if m = 2 then c2 else if m = 3 then c3
      else if m = 4 then c4 else if m = 5 then c5 else if m = 6 then c6 else c7) := by
  interval_cases m <;> cases c0 <;> cases c1 <;> cases c2 <;> cases c3 <;> cases c4 <;>
    cases c5 <;> cases c6 <;> cases c7 <;> rfl

/-- The bits read back from a block into which a bitmap was written. -/
theorem bits_written (disk : Nat → Nat → Nat) (blk B : Nat) (bm : bitmap) (i : Nat) :
    (bitmap_create_from_buf
      (ext2_read_block (ext2_write_block disk blk B (bitmap_get_bits bm)) blk B) B).bits i =
    (decide (i < 8 * B) && bm.bits i) := by
  unfold bitmap_create_from_buf
  simp only []
  by_cases hi : i < 8 * B
  · have hk : i / 8 < B := by omega
    have hb : ext2_read_block (ext2_write_block disk blk B (bitmap_get_bits bm)) blk B (i / 8)
        = bitmap_get_bits bm (i / 8) := by
      unfold ext2_read_block ext2_write_block
      rw [if_pos hk, if_pos ⟨rfl, hk⟩]
    rw [hb]
    unfold bitmap_get_bits
    rw [byte_bit _ _ _ _ _ _ _ _ (i % 8) (Nat.mod_lt _ (by decide))]
    have hdm := Nat.div_add_mod i 8
    have hm : i % 8 < 8 := Nat.mod_lt _ (by decide)
    generalize i % 8 = m at hdm hm ⊢
    generalize i / 8 = k at hdm ⊢
    have hi' : decide (i < 8 * B) = true := by simpa using hi
    rw [hi', Bool.true_and]
    interval_cases m
    · rw [if_pos rfl]; congr 1
    · rw [if_neg (by decide), if_pos rfl]; congr 1
    · rw [if_neg (by decide), if_neg (by decide), if_pos rfl]; congr 1
    · rw [if_neg (by decide), if_neg (by decide), if_neg (by decide), if_pos rfl]; congr 1
    · rw [if_neg (by decide), if_neg (by decide), if_neg (by decide), if_neg (by decide),
        if_pos rfl]; congr 1
    · rw [if_neg (by decide), if_neg (by decide), if_neg (by decide), if_neg (by decide),
        if_neg (by decide), if_pos rfl]; congr 1
    · rw [if_neg (by decide), if_neg (by decide), if_neg (by decide), if_neg (by decide),
        if_neg (by decide), if_neg (by decide), if_pos rfl]; congr 1
    · rw [if_neg (by decide), if_neg (by decide), if_neg (by decide), if_neg (by decide),
        if_neg (by decide), if_neg (by decide), if_neg (by decide)]; congr 1
  · have hi' : decide (i < 8 * B) = false := by simpa using hi
    rw [hi', Bool.false_and, Bool.false_and]

/-! ## The allocator -/

/-- Where the loop over the groups stops. -/
theorem search_group_spec (enough : Nat → Bool) : ∀ n i,
    i ≤ search_group enough n i ∧ search_group enough n i ≤ i + n ∧
    (search_group enough n i < i + n → enough (search_group enough n i) = true) ∧
    ∀ j, i ≤ j → j < search_group enough n i → enough j = false := by
  intro n
  induction n with
  | zero =>
    intro i
    rw [search_group]
    exact ⟨Nat.le_refl _, Nat.le_refl _, fun h => absurd h (by omega), fun j h1 h2 => by omega⟩
  | succ n ih =>
    intro i
    rw [search_group]
    by_cases hp : enough i = true
    · rw [if_pos hp]
      exact ⟨Nat.le_refl _, by omega, fun _ => hp, fun j h1 h2 => by omega⟩
    · rw [if_neg hp]
      obtain ⟨h1, h2, h3, h4⟩ := ih (i + 1)
      refine ⟨by omega, by omega, fun h => h3 (by omega), ?_⟩
      intro j hj1 hj2
      by_cases hji : j = i
      · subst hji; simpa using hp
      · exact h4 j (by omega) hj2

/-- Two `uint32_t` additions reduce once. -/
theorem u32_add_u32 (a c d : Nat) : u32 (u32 (a + u32 c) + d) = u32 (a + c + d) := by
  unfold u32
  omega

/-- Writing the descriptor table leaves the registry and the blocks alone. -/
theorem write_bg_desc_tables_frame (st st' : ext2) (h : ext2_write_bg_desc_tables st = some st') :
    st'.meta = st.meta ∧ st'.disk = st.disk ∧ st'.disk_sb = st.disk_sb := by
  unfold ext2_write_bg_desc_tables at h
  simp only [Option.bind_eq_some] at h
  obtain ⟨a, -, b, -, h⟩ := h
  rw [Option.some.injEq] at h
  subst h
  exact ⟨rfl, rfl, rfl⟩

/-- Zero-filling leaves the registry alone. -/
theorem zero_blocks_meta (id B : Nat) : ∀ n i st, (zero_blocks id B n i st).meta = st.meta := by
  intro n
  induction n with
  | zero => intro i st; rfl
  | succ n ih => intro i st; rw [zero_blocks, ih]; rfl

/-- Zero-filling leaves the other blocks alone. -/
theorem zero_blocks_disk (id B : Nat) : ∀ n i st blk,
    (∀ j, i ≤ j → j < i + n → u32 (id + j) ≠ blk) →
    (zero_blocks id B n i st).disk blk = st.disk blk := by
  intro n
  induction n with
  | zero => intro i st blk _; rfl
  | succ n ih =>
    intro i st blk h
    rw [zero_blocks, ih _ _ _ (fun j h1 h2 => h j (by omega) (by omega))]
    unfold write_block ext2_write_block
    funext k
    simp only []
    rw [if_neg]
    rintro ⟨h1, -⟩
    exact h i (Nat.le_refl _) (by omega) h1.symm

/-- When the descriptor table can be written: the two divisors are not zero. -/
theorem write_bg_desc_tables_some (st : ext2) (h1 : st.meta.sb.s_blocks_per_group ≠ 0)
    (h2 : ext2_get_block_size st.meta.sb ≠ 0) : ∃ st', ext2_write_bg_desc_tables st = some st' := by
  unfold ext2_write_bg_desc_tables DIV_ROUND_UP
  rw [if_neg h1]
  simp only [Option.some_bind, if_neg h2]
  exact ⟨_, rfl⟩

/-- A written descriptor table shows that the two divisors are not zero. -/
theorem write_bg_desc_tables_divisors (st st' : ext2)
    (h : ext2_write_bg_desc_tables st = some st') :
    st.meta.sb.s_blocks_per_group ≠ 0 ∧ ext2_get_block_size st.meta.sb ≠ 0 := by
  unfold ext2_write_bg_desc_tables DIV_ROUND_UP at h
  by_cases h1 : st.meta.sb.s_blocks_per_group = 0
  · rw [if_pos h1] at h; exact Option.noConfusion h
  by_cases h2 : ext2_get_block_size st.meta.sb = 0
  · rw [if_neg h1] at h
    simp only [Option.some_bind, if_pos h2, Option.none_bind] at h
    exact Option.noConfusion h
  exact ⟨h1, h2⟩

/-- What `update_blocks` leaves: the registry with the two counters assigned
and the blocks with the bitmap written. -/
theorem update_blocks_post (st st' : ext2) (g a c : Nat) (bm : bitmap)
    (h : update_blocks st g a c bm = some st') :
    st'.meta.sb = sb_set_free_blocks st.meta.sb a ∧
    st'.meta.bg_desc_tabs =
      (fun j => if j = g then bg_set_free_blocks (st.meta.bg_desc_tabs g) c
        else st.meta.bg_desc_tabs j) ∧
    st'.disk = ext2_write_block st.disk (st.meta.bg_desc_tabs g).bg_block_bitmap
      (ext2_get_block_size st.meta.sb) (bitmap_get_bits bm) ∧
    st.meta.sb.s_blocks_per_group ≠ 0 ∧ ext2_get_block_size st.meta.sb ≠ 0 := by
  unfold update_blocks at h
  obtain ⟨h1, h2, -⟩ := write_bg_desc_tables_frame _ _ h
  obtain ⟨h3, h4⟩ := write_bg_desc_tables_divisors _ _ h
  rw [h1, h2]
  exact ⟨rfl, rfl, rfl, h3, h4⟩

/-- `update_blocks` returns when the two divisors are not zero. -/
theorem update_blocks_some (st : ext2) (g a c : Nat) (bm : bitmap)
    (h1 : st.meta.sb.s_blocks_per_group ≠ 0) (h2 : ext2_get_block_size st.meta.sb ≠ 0) :
    ∃ st', update_blocks st g a c bm = some st' := by
  unfold update_blocks
  exact write_bg_desc_tables_some _ h1 h2

/-- What `update_inodes` leaves. -/
theorem update_inodes_post (st st' : ext2) (g a c : Nat) (bm : bitmap)
    (h : update_inodes st g a c bm = some st') :
    st'.meta.sb = sb_set_free_inodes st.meta.sb a ∧
    st'.meta.bg_desc_tabs =
      (fun j => if j = g then bg_set_free_inodes (st.meta.bg_desc_tabs g) c
        else st.meta.bg_desc_tabs j) ∧
    st'.disk = ext2_write_block st.disk (st.meta.bg_desc_tabs g).bg_inode_bitmap
      (ext2_get_block_size st.meta.sb) (bitmap_get_bits bm) ∧
    st.meta.sb.s_blocks_per_group ≠ 0 ∧ ext2_get_block_size st.meta.sb ≠ 0 := by
  unfold update_inodes at h
  obtain ⟨h1, h2, -⟩ := write_bg_desc_tables_frame _ _ h
  obtain ⟨h3, h4⟩ := write_bg_desc_tables_divisors _ _ h
  rw [h1, h2]
  exact ⟨rfl, rfl, rfl, h3, h4⟩

/-- `update_inodes` returns when the two divisors are not zero. -/
theorem update_inodes_some (st : ext2) (g a c : Nat) (bm : bitmap)
    (h1 : st.meta.sb.s_blocks_per_group ≠ 0) (h2 : ext2_get_block_size st.meta.sb ≠ 0) :
    ∃ st', update_inodes st g a c bm = some st' := by
  unfold update_inodes
  exact write_bg_desc_tables_some _ h1 h2

/-- The two outcomes of `freemap_get_blocks` when it returns: the sentinel with
the device untouched, or a block of the group the loop stopped at. -/
theorem freemap_get_blocks_cases (n : Nat) (zero : Bool) (st st' : ext2) (id : Nat)
    (h : freemap_get_blocks n zero st = some (id, st')) :
    (id = FREEMAP_GET_ERROR ∧ st' = st) ∨
    (n ≠ 0 ∧ n ≤ st.meta.sb.s_free_blocks_count ∧
      blocks_group n st ≠ st.meta.sb.s_blocks_count / st.meta.sb.s_blocks_per_group ∧
      1 < st.meta.sb.s_blocks_count / st.meta.sb.s_blocks_per_group ∧
      bitmap_scan
        (ext2_read_bitmap st (st.meta.bg_desc_tabs (blocks_group n st)).bg_block_bitmap)
        0 n false ≠ BITMAP_ERROR ∧
      id = block_of_index st (blocks_group n st)
        (bitmap_scan
          (ext2_read_bitmap st (st.meta.bg_desc_tabs (blocks_group n st)).bg_block_bitmap)
          0 n false) ∧
      ∃ st4, update_blocks st (blocks_group n st)
          (sub32 st.meta.sb.s_free_blocks_count n)
          (u16 (sub32 (st.meta.bg_desc_tabs (blocks_group n st)).bg_free_blocks_count n))
          (bitmap_set_multiple
            (ext2_read_bitmap st (st.meta.bg_desc_tabs (blocks_group n st)).bg_block_bitmap)
            (bitmap_scan
              (ext2_read_bitmap st (st.meta.bg_desc_tabs (blocks_group n st)).bg_block_bitmap)
              0 n false) n true) = some st4 ∧
        st' = if zero = true then
            zero_blocks id (ext2_get_block_size st.meta.sb) n 0 st4
          else st4) := by
  unfold freemap_get_blocks at h
  by_cases h1 : n = 0
  · rw [if_pos h1] at h; exact Option.noConfusion h
  rw [if_neg h1] at h
  by_cases h2 : st.meta.sb.s_free_blocks_count < n
  · rw [if_pos h2, Option.some.injEq, Prod.mk.injEq] at h
    exact Or.inl ⟨h.1.symm, h.2.symm⟩
  rw [if_neg h2] at h
  by_cases h3 : st.meta.sb.s_blocks_per_group = 0
  · rw [if_pos h3] at h; exact Option.noConfusion h
  rw [if_neg h3] at h
  by_cases h4 : blocks_group n st = st.meta.sb.s_blocks_count / st.meta.sb.s_blocks_per_group
  · rw [if_pos h4, Option.some.injEq, Prod.mk.injEq] at h
    exact Or.inl ⟨h.1.symm, h.2.symm⟩
  rw [if_neg h4] at h
  by_cases h5 : st.meta.sb.s_blocks_count / st.meta.sb.s_blocks_per_group ≤ 1
  · rw [if_pos h5] at h; exact Option.noConfusion h
  rw [if_neg h5] at h
  unfold bitmap_scan_and_flip at h
  by_cases h6 : bitmap_scan
        (ext2_read_bitmap st (st.meta.bg_desc_tabs (blocks_group n st)).bg_block_bitmap)
        0 n false = BITMAP_ERROR
  · rw [if_neg (not_not.2 h6)] at h
    simp only [ne_eq, not_true_eq_false, if_false, Option.some.injEq, Prod.mk.injEq] at h
    exact Or.inl ⟨h.1.symm, h.2.symm⟩
  · rw [if_pos h6] at h
    simp only [] at h
    rw [if_pos h6] at h
    simp only [Option.bind_eq_some] at h
    obtain ⟨st4, hu, h⟩ := h
    right
    refine ⟨h1, by omega, h4, by omega, h6, ?_, st4, hu, ?_⟩
    · by_cases hz : zero = true
      · rw [if_pos hz, Option.some.injEq, Prod.mk.injEq] at h
        exact h.1.symm
      · rw [if_neg hz, Option.some.injEq, Prod.mk.injEq] at h
        exact h.1.symm
    · by_cases hz : zero = true
      · rw [if_pos hz, Option.some.injEq, Prod.mk.injEq] at h
        rw [if_pos hz, ← h.2, ← h.1]
      · rw [if_neg hz, Option.some.injEq, Prod.mk.injEq] at h
        rw [if_neg hz, ← h.2]

/-- A block read depends on that block alone. -/
theorem read_block_congr (d d' : Nat → Nat → Nat) (blk B : Nat) (h : d' blk = d blk) :
    ext2_read_block d' blk B = ext2_read_block d blk B := by
  unfold ext2_read_block
  rw [h]

/-- The bitmap read back after `update_blocks` wrote `bm` into the block of
group `g`, when the later writes left that block alone. -/
theorem read_bitmap_after_update (st st4 st' : ext2) (g a c : Nat) (bm : bitmap)
    (h : update_blocks st g a c bm = some st4)
    (hm : st'.meta = st4.meta)
    (hd : st'.disk (st.meta.bg_desc_tabs g).bg_block_bitmap
      = st4.disk (st.meta.bg_desc_tabs g).bg_block_bitmap) (i : Nat) :
    (ext2_read_bitmap st' (st.meta.bg_desc_tabs g).bg_block_bitmap).bits i =
      (decide (i < 8 * ext2_get_block_size st.meta.sb) && bm.bits i) := by
  obtain ⟨h1, -, h3, -, -⟩ := update_blocks_post _ _ _ _ _ _ h
  have hB : ext2_get_block_size st'.meta.sb = ext2_get_block_size st.meta.sb := by
    rw [hm, h1]; rfl
  unfold ext2_read_bitmap
  rw [hB, read_block_congr _ _ _ _ hd, h3]
  exact bits_written _ _ _ _ _

/-- A `uint32_t` difference that does not wrap. -/
theorem sub32_of_le (x y : Nat) (h : y ≤ x) (hx : x < 4294967296) : sub32 x y = x - y := by
  unfold sub32
  rw [if_pos h]
  exact u32_of_lt (by omega)

/-- A value that fits `uint16_t`. -/
theorem u16_of_lt (x : Nat) (h : x < 65536) : u16 x = x := Nat.mod_eq_of_lt h

/-- The block id of a local index, reduced once. -/
theorem block_of_index_eq (st : ext2) (g b : Nat) :
    block_of_index st g b
      = u32 (b + g * st.meta.sb.s_blocks_per_group + st.meta.sb.s_first_data_block) := by
  unfold block_of_index
  exact u32_add_u32 _ _ _

/-- The group the loop of `freemap_get_blocks` stopped at, when it is not the
end of the groups: the lowest group from 1 on with enough free blocks. -/
theorem blocks_group_spec (n : Nat) (st : ext2)
    (h4 : blocks_group n st ≠ st.meta.sb.s_blocks_count / st.meta.sb.s_blocks_per_group)
    (h5 : 1 < st.meta.sb.s_blocks_count / st.meta.sb.s_blocks_per_group) :
    1 ≤ blocks_group n st ∧
    blocks_group n st < st.meta.sb.s_blocks_count / st.meta.sb.s_blocks_per_group ∧
    n ≤ (st.meta.bg_desc_tabs (blocks_group n st)).bg_free_blocks_count ∧
    ∀ j, 1 ≤ j → j < blocks_group n st → (st.meta.bg_desc_tabs j).bg_free_blocks_count < n := by
  unfold blocks_group at h4 ⊢
  obtain ⟨a1, a2, a3, a4⟩ := search_group_spec
    (fun g => decide (n ≤ (st.meta.bg_desc_tabs g).bg_free_blocks_count))
    (st.meta.sb.s_blocks_count / st.meta.sb.s_blocks_per_group - 1) 1
  generalize search_group (fun g => decide (n ≤ (st.meta.bg_desc_tabs g).bg_free_blocks_count))
    (st.meta.sb.s_blocks_count / st.meta.sb.s_blocks_per_group - 1) 1 = g at *
  refine ⟨a1, by omega, ?_, ?_⟩
  · have := a3 (by omega)
    simpa using this
  · intro j h1 h2
    have := a4 j h1 h2
    simpa using this

/-- Counters of `ex_dev` fit 16 bits. -/
theorem ex_dev_counters (g : Nat) :
    (ex_dev.meta.bg_desc_tabs g).bg_free_blocks_count < 65536 ∧
    (ex_dev.meta.bg_desc_tabs g).bg_free_inodes_count < 65536 := by
  show (if g = 1 then ex_bg1 else ex_bg0).bg_free_blocks_count < 65536 ∧
    (if g = 1 then ex_bg1 else ex_bg0).bg_free_inodes_count < 65536
  split_ifs <;> exact ⟨by decide, by decide⟩

/-- Replacing one term of a sum. -/
theorem sum_upto_update (f : Nat → Nat) (g v : Nat) : ∀ G, g < G →
    sum_upto (fun j => if j = g then v else f j) G + f g = sum_upto f G + v := by
  intro G
  induction G with
  | zero => intro h; omega
  | succ G ih =>
    intro h
    rw [sum_upto, sum_upto]
    by_cases hg : g = G
    · subst hg
      have e : sum_upto (fun j => if j = g then v else f j) g = sum_upto f g := by
        clear ih h
        have : ∀ m, m ≤ g → sum_upto (fun j => if j = g then v else f j) m = sum_upto f m := by
          intro m
          induction m with
          | zero => intro _; rfl
          | succ m ihm =>
            intro hm
            rw [sum_upto, sum_upto, ihm (by omega)]
            rw [if_neg (by omega)]
        exact this g (Nat.le_refl _)
      rw [e, if_pos rfl]
      omega
    · have := ih (by omega)
      rw [if_neg (fun hh => hg hh.symm)]
      omega

/-- A sum does not see a change outside its range. -/
theorem sum_upto_congr (f f' : Nat → Nat) : ∀ G, (∀ j, j < G → f' j = f j) →
    sum_upto f' G = sum_upto f G := by
  intro G
  induction G with
  | zero => intro _; rfl
  | succ G ih =>
    intro h
    rw [sum_upto, sum_upto, ih (fun j hj => h j (by omega)), h G (by omega)]

/-- The two outcomes of `freemap_get_inode` when it returns. -/
theorem freemap_get_inode_cases (st st' : ext2) (id : Nat)
    (h : freemap_get_inode st = some (id, st')) :
    (id = FREEMAP_GET_ERROR ∧ st' = st) ∨
    (1 ≤ st.meta.sb.s_free_inodes_count ∧ st.meta.sb.s_inodes_per_group ≠ 0 ∧
      inodes_group st ≠ st.meta.sb.s_inodes_count / st.meta.sb.s_inodes_per_group ∧
      1 < st.meta.sb.s_inodes_count / st.meta.sb.s_inodes_per_group ∧
      bitmap_scan
        (ext2_read_bitmap st (st.meta.bg_desc_tabs (inodes_group st)).bg_inode_bitmap)
        0 1 false ≠ BITMAP_ERROR ∧
      id = inode_of_index st (inodes_group st)
        (bitmap_scan
          (ext2_read_bitmap st (st.meta.bg_desc_tabs (inodes_group st)).bg_inode_bitmap)
          0 1 false) ∧
      update_inodes st (inodes_group st)
          (dec32 st.meta.sb.s_free_inodes_count)
          (u16 (dec32 (st.meta.bg_desc_tabs (inodes_group st)).bg_free_inodes_count))
          (bitmap_set_multiple
            (ext2_read_bitmap st (st.meta.bg_desc_tabs (inodes_group st)).bg_inode_bitmap)
            (bitmap_scan
              (ext2_read_bitmap st (st.meta.bg_desc_tabs (inodes_group st)).bg_inode_bitmap)
              0 1 false) 1 true) = some st') := by
  unfold freemap_get_inode at h
  by_cases h2 : st.meta.sb.s_free_inodes_count < 1
  · rw [if_pos h2, Option.some.injEq, Prod.mk.injEq] at h
    exact Or.inl ⟨h.1.symm, h.2.symm⟩
  rw [if_neg h2] at h
  by_cases h3 : st.meta.sb.s_inodes_per_group = 0
  · rw [if_pos h3] at h; exact Option.noConfusion h
  rw [if_neg h3] at h
  by_cases h4 : inodes_group st = st.meta.sb.s_inodes_count / st.meta.sb.s_inodes_per_group
  · rw [if_pos h4, Option.some.injEq, Prod.mk.injEq] at h
    exact Or.inl ⟨h.1.symm, h.2.symm⟩
  rw [if_neg h4] at h
  by_cases h5 : st.meta.sb.s_inodes_count / st.meta.sb.s_inodes_per_group ≤ 1
  · rw [if_pos h5] at h; exact Option.noConfusion h
  rw [if_neg h5] at h
  unfold bitmap_scan_and_flip at h
  by_cases h6 : bitmap_scan
        (ext2_read_bitmap st (st.meta.bg_desc_tabs (inodes_group st)).bg_inode_bitmap)
        0 1 false = BITMAP_ERROR
  · rw [if_neg (not_not.2 h6)] at h
    simp only [ne_eq, not_true_eq_false, if_false, Option.some.injEq, Prod.mk.injEq] at h
    exact Or.inl ⟨h.1.symm, h.2.symm⟩
  · rw [if_pos h6] at h
    simp only [] at h
    rw [if_pos h6] at h
    simp only [Option.bind_eq_some] at h
    obtain ⟨st4, hu, h⟩ := h
    rw [Option.some.injEq, Prod.mk.injEq] at h
    right
    refine ⟨by omega, h3, h4, by omega, h6, h.1.symm, ?_⟩
    rw [← h.2]
    exact hu

/-- What `freemap_free_blocks` did when it returns. -/
theorem freemap_free_blocks_cases (id n : Nat) (st st' : ext2)
    (h : freemap_free_blocks id n st = some st') :
    id ≠ 0 ∧ n ≠ 0 ∧ st.meta.sb.s_blocks_per_group ≠ 0 ∧
    bitmap_all
      (ext2_read_bitmap st
        (st.meta.bg_desc_tabs
          (sub32 id st.meta.sb.s_first_data_block / st.meta.sb.s_blocks_per_group)).bg_block_bitmap)
      (sub32 id st.meta.sb.s_first_data_block % st.meta.sb.s_blocks_per_group) n = true ∧
    update_blocks st
      (sub32 id st.meta.sb.s_first_data_block / st.meta.sb.s_blocks_per_group)
      (u32 (st.meta.sb.s_free_blocks_count + n))
      (u16 ((st.meta.bg_desc_tabs
          (sub32 id st.meta.sb.s_first_data_block
            / st.meta.sb.s_blocks_per_group)).bg_free_blocks_count + n))
      (bitmap_set_multiple
        (ext2_read_bitmap st
          (st.meta.bg_desc_tabs
            (sub32 id st.meta.sb.s_first_data_block
              / st.meta.sb.s_blocks_per_group)).bg_block_bitmap)
        (sub32 id st.meta.sb.s_first_data_block % st.meta.sb.s_blocks_per_group)
        n false) = some st' := by
  unfold freemap_free_blocks at h
  by_cases h1 : id = 0 ∨ n = 0
  · rw [if_pos h1] at h; exact Option.noConfusion h
  rw [if_neg h1] at h
  by_cases h2 : st.meta.sb.s_blocks_per_group = 0
  · rw [if_pos h2] at h; exact Option.noConfusion h
  rw [if_neg h2] at h
  by_cases h3 : bitmap_all
      (ext2_read_bitmap st
        (st.meta.bg_desc_tabs
          (sub32 id st.meta.sb.s_first_data_block / st.meta.sb.s_blocks_per_group)).bg_block_bitmap)
      (sub32 id st.meta.sb.s_first_data_block % st.meta.sb.s_blocks_per_group) n = false
  · rw [if_pos h3] at h; exact Option.noConfusion h
  rw [if_neg h3] at h
  refine ⟨fun hh => h1 (Or.inl hh), fun hh => h1 (Or.inr hh), h2, ?_, h⟩
  simpa using h3

/-- What `freemap_free_inode` did when it returns. -/
theorem freemap_free_inode_cases (ino : Nat) (st st' : ext2)
    (h : freemap_free_inode ino st = some st') :
    st.meta.sb.s_inodes_per_group ≠ 0 ∧
    bitmap_all
      (ext2_read_bitmap st
        (st.meta.bg_desc_tabs (dec32 ino / st.meta.sb.s_inodes_per_group)).bg_inode_bitmap)
      (dec32 ino % st.meta.sb.s_inodes_per_group) 1 = true ∧
    update_inodes st (dec32 ino / st.meta.sb.s_inodes_per_group)
      (u32 (st.meta.sb.s_free_inodes_count + 1))
      (u16 ((st.meta.bg_desc_tabs
          (dec32 ino / st.meta.sb.s_inodes_per_group)).bg_free_inodes_count + 1))
      (bitmap_set_multiple
        (ext2_read_bitmap st
          (st.meta.bg_desc_tabs (dec32 ino / st.meta.sb.s_inodes_per_group)).bg_inode_bitmap)
        (dec32 ino % st.meta.sb.s_inodes_per_group) 1 false) = some st' := by
  unfold freemap_free_inode at h
  by_cases h2 : st.meta.sb.s_inodes_per_group = 0
  · rw [if_pos h2] at h; exact Option.noConfusion h
  rw [if_neg h2] at h
  by_cases h3 : bitmap_all
      (ext2_read_bitmap st
        (st.meta.bg_desc_tabs (dec32 ino / st.meta.sb.s_inodes_per_group)).bg_inode_bitmap)
      (dec32 ino % st.meta.sb.s_inodes_per_group) 1 = false
  · rw [if_pos h3] at h; exact Option.noConfusion h
  rw [if_neg h3] at h
  exact ⟨h2, by simpa using h3, h⟩

/-- The group the loop of `freemap_get_inode` stopped at, when it is not the
end of the groups. -/
theorem inodes_group_spec (st : ext2)
    (h4 : inodes_group st ≠ st.meta.sb.s_inodes_count / st.meta.sb.s_inodes_per_group)
    (h5 : 1 < st.meta.sb.s_inodes_count / st.meta.sb.s_inodes_per_group) :
    1 ≤ inodes_group st ∧
    inodes_group st < st.meta.sb.s_inodes_count / st.meta.sb.s_inodes_per_group ∧
    0 < (st.meta.bg_desc_tabs (inodes_group st)).bg_free_inodes_count ∧
    ∀ j, 1 ≤ j → j < inodes_group st → (st.meta.bg_desc_tabs j).bg_free_inodes_count = 0 := by
  unfold inodes_group at h4 ⊢
  obtain ⟨a1, a2, a3, a4⟩ := search_group_spec
    (fun g => decide (0 < (st.meta.bg_desc_tabs g).bg_free_inodes_count))
    (st.meta.sb.s_inodes_count / st.meta.sb.s_inodes_per_group - 1) 1
  generalize search_group (fun g => decide (0 < (st.meta.bg_desc_tabs g).bg_free_inodes_count))
    (st.meta.sb.s_inodes_count / st.meta.sb.s_inodes_per_group - 1) 1 = g at *
  refine ⟨a1, by omega, ?_, ?_⟩
  · have := a3 (by omega)
    simpa using this
  · intro j h1 h2
    have := a4 j h1 h2
    simpa using this

/-- Coherence after `update_blocks`, when the two new counters keep the
balance. -/
theorem update_blocks_coherent (st st' : ext2) (g a c : Nat) (bm : bitmap) (G : Nat)
    (h : update_blocks st g a c bm = some st') (hg : g < G) (hco : counters_coherent st G)
    (hbal : a + (st.meta.bg_desc_tabs g).bg_free_blocks_count
      = st.meta.sb.s_free_blocks_count + c) :
    counters_coherent st' G := by
  obtain ⟨u1, u2, -, -, -⟩ := update_blocks_post _ _ _ _ _ _ h
  obtain ⟨c1, c2⟩ := hco
  unfold counters_coherent
  rw [u1, u2]
  constructor
  · have e := sum_upto_congr
      (fun j => if j = g then c else (st.meta.bg_desc_tabs j).bg_free_blocks_count)
      (fun j => (if j = g then bg_set_free_blocks (st.meta.bg_desc_tabs g) c
        else st.meta.bg_desc_tabs j).bg_free_blocks_count) G
      (fun j _ => by
        by_cases hj : j = g
        · simp only [if_pos hj]; rfl
        · simp only [if_neg hj])
    have e2 := sum_upto_update (fun j => (st.meta.bg_desc_tabs j).bg_free_blocks_count) g c G hg
    show sum_upto _ G = a
    rw [e]
    simp only [] at e2
    omega
  · have e := sum_upto_congr
      (fun j => (st.meta.bg_desc_tabs j).bg_free_inodes_count)
      (fun j => (if j = g then bg_set_free_blocks (st.meta.bg_desc_tabs g) c
        else st.meta.bg_desc_tabs j).bg_free_inodes_count) G
      (fun j _ => by
        by_cases hj : j = g
        · simp only [if_pos hj]; rw [hj]; rfl
        · simp only [if_neg hj])
    show sum_upto _ G = st.meta.sb.s_free_inodes_count
    rw [e]
    exact c2

/-- Coherence after `update_inodes`, when the two new counters keep the
balance. -/
theorem update_inodes_coherent (st st' : ext2) (g a c : Nat) (bm : bitmap) (G : Nat)
    (h : update_inodes st g a c bm = some st') (hg : g < G) (hco : counters_coherent st G)
    (hbal : a + (st.meta.bg_desc_tabs g).bg_free_inodes_count
      = st.meta.sb.s_free_inodes_count + c) :
    counters_coherent st' G := by
  obtain ⟨u1, u2, -, -, -⟩ := update_inodes_post _ _ _ _ _ _ h
  obtain ⟨c1, c2⟩ := hco
  unfold counters_coherent
  rw [u1, u2]
  constructor
  · have e := sum_upto_congr
      (fun j => (st.meta.bg_desc_tabs j).bg_free_blocks_count)
      (fun j => (if j = g then bg_set_free_inodes (st.meta.bg_desc_tabs g) c
        else st.meta.bg_desc_tabs j).bg_free_blocks_count) G
      (fun j _ => by
        by_cases hj : j = g
        · simp only [if_pos hj]; rw [hj]; rfl
        · simp only [if_neg hj])
    show sum_upto _ G = st.meta.sb.s_free_blocks_count
    rw [e]
    exact c1
  · have e := sum_upto_congr
      (fun j => if j = g then c else (st.meta.bg_desc_tabs j).bg_free_inodes_count)
      (fun j => (if j = g then bg_set_free_inodes (st.meta.bg_desc_tabs g) c
        else st.meta.bg_desc_tabs j).bg_free_inodes_count) G
      (fun j _ => by
        by_cases hj : j = g
        · simp only [if_pos hj]; rfl
        · simp only [if_neg hj])
    have e2 := sum_upto_update (fun j => (st.meta.bg_desc_tabs j).bg_free_inodes_count) g c G hg
    show sum_upto _ G = a
    rw [e]
    simp only [] at e2
    omega

/-- A `uint32_t` decrement that does not wrap. -/
theorem dec32_of_pos' (x : Nat) (h : 0 < x) (hx : x < 4294967296) : dec32 x = x - 1 := by
  unfold dec32
  rw [if_neg (by omega)]
  exact u32_of_lt (by omega)

/-- The subtraction of `s_first_data_block` undoes its addition. -/
theorem sub32_block_of_index (st : ext2) (g b : Nat)
    (hfdb : st.meta.sb.s_first_data_block < 4294967296)
    (hlt : b + g * st.meta.sb.s_blocks_per_group < 4294967296) :
    sub32 (block_of_index st g b) st.meta.sb.s_first_data_block
      = b + g * st.meta.sb.s_blocks_per_group := by
  rw [block_of_index_eq]
  generalize b + g * st.meta.sb.s_blocks_per_group = x at *
  generalize st.meta.sb.s_first_data_block = f at *
  unfold sub32 u32
  split_ifs <;> omega

/-- Assigning the old value back gives the old superblock. -/
theorem sb_set_free_blocks_twice (sb : superblock) (a : Nat) :
    sb_set_free_blocks (sb_set_free_blocks sb a) sb.s_free_blocks_count = sb := by
  cases sb; rfl

/-- Assigning the old value back gives the old descriptor. -/
theorem bg_set_free_blocks_twice (d : bg_desc_table) (a : Nat) :
    bg_set_free_blocks (bg_set_free_blocks d a) d.bg_free_blocks_count = d := by
  cases d; rfl

/-- Assigning the old value back gives the old superblock. -/
theorem sb_set_free_inodes_twice (sb : superblock) (a : Nat) :
    sb_set_free_inodes (sb_set_free_inodes sb a) sb.s_free_inodes_count = sb := by
  cases sb; rfl

/-- Assigning the old value back gives the old descriptor. -/
theorem bg_set_free_inodes_twice (d : bg_desc_table) (a : Nat) :
    bg_set_free_inodes (bg_set_free_inodes d a) d.bg_free_inodes_count = d := by
  cases d; rfl

/-- Group and local index of a block id. -/
theorem div_mod_of_lt (b g p : Nat) (hb : b < p) : (b + g * p) / p = g ∧ (b + g * p) % p = b := by
  have hp : 0 < p := by omega
  constructor
  · rw [Nat.add_mul_div_right _ _ hp, Nat.div_eq_of_lt hb, Nat.zero_add]
  · rw [Nat.add_mul_mod_self_right, Nat.mod_eq_of_lt hb]

/-- The bitmap of group `g` read back after `update_blocks` wrote `bm`. -/
theorem read_bitmap_updated (st st4 : ext2) (g a c : Nat) (bm : bitmap)
    (h : update_blocks st g a c bm = some st4) (i : Nat) :
    (ext2_read_bitmap st4 (st.meta.bg_desc_tabs g).bg_block_bitmap).bits i =
      (decide (i < 8 * ext2_get_block_size st.meta.sb) && bm.bits i) :=
  read_bitmap_after_update st st4 st4 g a c bm h rfl rfl i

/-- A bit past the end of the block is clear in the bitmap read from it. -/
theorem read_bitmap_past (st : ext2) (blk i : Nat)
    (h : ¬ i < 8 * ext2_get_block_size st.meta.sb) : (ext2_read_bitmap st blk).bits i = false := by
  unfold ext2_read_bitmap bitmap_create_from_buf
  simp only []
  have hi' : decide (i < 8 * ext2_get_block_size st.meta.sb) = false := by simpa using h
  rw [hi', Bool.false_and]

/-- The inode bitmap of group `g` read back after `update_inodes` wrote `bm`. -/
theorem read_inode_bitmap_updated (st st4 : ext2) (g a c : Nat) (bm : bitmap)
    (h : update_inodes st g a c bm = some st4) (i : Nat) :
    (ext2_read_bitmap st4 (st.meta.bg_desc_tabs g).bg_inode_bitmap).bits i =
      (decide (i < 8 * ext2_get_block_size st.meta.sb) && bm.bits i) := by
  obtain ⟨h1, -, h3, -, -⟩ := update_inodes_post _ _ _ _ _ _ h
  have hB : ext2_get_block_size st4.meta.sb = ext2_get_block_size st.meta.sb := by
    rw [h1]; rfl
  unfold ext2_read_bitmap
  rw [hB, h3]
  exact bits_written _ _ _ _ _

/-- The inode number of a local index, reduced once. -/
theorem inode_of_index_eq (st : ext2) (g b : Nat) :
    inode_of_index st g b = u32 (b + g * st.meta.sb.s_inodes_per_group + 1) := by
  unfold inode_of_index
  exact u32_add_u32 _ _ _

/-- A non-zero block size is a multiple of 128, the size of an inode record. -/
theorem block_size_mod_128 (sb : superblock) (h : ext2_get_block_size sb ≠ 0) :
    ext2_get_block_size sb % 128 = 0 ∧ ext2_get_block_size sb / 128 ≠ 0 := by
  obtain ⟨-, he⟩ := block_size_cases sb h
  have h1 : 1 ≤ 2 ^ sb.s_log_block_size := Nat.one_le_two_pow
  have e : 1024 * 2 ^ sb.s_log_block_size = 128 * (8 * 2 ^ sb.s_log_block_size) := by ring
  rw [he, e]
  constructor
  · exact Nat.mul_mod_right _ _
  · rw [Nat.mul_div_cancel_left _ (by decide : 0 < 128)]
    omega

/-- Where `ext2_get_inode` and `ext2_write_inode` find inode number `n`: with
`g = (n - 1) / s_inodes_per_group` and `l = (n - 1) mod s_inodes_per_group`,
block `bg_inode_table[g] + l / (B / 128)` and slot `l mod (B / 128)`. -/
theorem inode_location_eq (st : ext2) (n : Nat)
    (hassert : ∃ k, DIV_ROUND_UP st.meta.sb.s_blocks_count st.meta.sb.s_blocks_per_group
      = some k ∧ k ≠ 0)
    (hipg : st.meta.sb.s_inodes_per_group ≠ 0) (hB : ext2_get_block_size st.meta.sb ≠ 0)
    (h1 : 1 ≤ n) (h2 : n < 4294967296) :
    inode_location st n = some
      (u32 ((st.meta.bg_desc_tabs ((n - 1) / st.meta.sb.s_inodes_per_group)).bg_inode_table
        + (n - 1) % st.meta.sb.s_inodes_per_group / (ext2_get_block_size st.meta.sb / 128)),
        (n - 1) % st.meta.sb.s_inodes_per_group % (ext2_get_block_size st.meta.sb / 128)) := by
  obtain ⟨m1, m2⟩ := block_size_mod_128 _ hB
  have hd : dec32 n = n - 1 := dec32_of_pos' n (by omega) h2
  have hle : (n - 1) / st.meta.sb.s_inodes_per_group * st.meta.sb.s_inodes_per_group ≤ n - 1 :=
    Nat.div_mul_le_self _ _
  have hs : sub32 (n - 1)
      (u32 ((n - 1) / st.meta.sb.s_inodes_per_group * st.meta.sb.s_inodes_per_group))
      = (n - 1) % st.meta.sb.s_inodes_per_group :=
    sub32_div_mul _ _ (by omega)
  obtain ⟨k, hk, hk0⟩ := hassert
  unfold inode_location
  rw [hk, Option.some_bind, if_neg hk0, if_neg hipg, if_neg (not_not.2 m1), if_neg m2, hd, hs]

/-! ## The read loop -/

/-- With nothing left to read the loop is left at once. -/
theorem read_loop_zero (st : fs) (ino : inode) (fuel : Nat) (buffer : Nat → Nat)
    (offset bytes_read : Int) :
    read_loop st ino fuel buffer 0 offset bytes_read = some (bytes_read, buffer) := by
  cases fuel with
  | zero => rw [read_loop, if_neg (by decide)]
  | succ f => rw [read_loop, if_neg (by decide)]

/-- One iteration of the read loop, in natural numbers: the chunk is
`min sz (min (S - off) (B - off mod B))`. -/
theorem read_loop_step (st : fs) (ino : inode) (f : Nat) (buffer : Nat → Nat)
    (sz off br : Nat) (b : Nat)
    (hB0 : ext2_get_block_size st.sb ≠ 0) (hB31 : ext2_get_block_size st.sb < 2147483648)
    (hS : ino.i_size < 2147483648) (hsz : 0 < sz) (hoff : off < 2147483648)
    (hbr : br + sz < 2147483648)
    (hl : inode_get_data_block st ino (off / ext2_get_block_size st.sb) = some b)
    (hb : b ≠ UINT32_MAX) :
    read_loop st ino (f + 1) buffer sz off br =
      if ino.i_size ≤ off then some ((br : Int), buffer)
      else
        read_loop st ino f
          (fun k =>
            if br ≤ k ∧ k < br + min sz (min (ino.i_size - off)
                (ext2_get_block_size st.sb - off % ext2_get_block_size st.sb)) then
              st.disk b (off % ext2_get_block_size st.sb + (k - br))
            else buffer k)
          ((sz - min sz (min (ino.i_size - off)
            (ext2_get_block_size st.sb - off % ext2_get_block_size st.sb)) : Nat) : Int)
          ((off + min sz (min (ino.i_size - off)
            (ext2_get_block_size st.sb - off % ext2_get_block_size st.sb)) : Nat) : Int)
          ((br + min sz (min (ino.i_size - off)
            (ext2_get_block_size st.sb - off % ext2_get_block_size st.sb)) : Nat) : Int) := by
  have hofs : ofInt32 (off : Int) = off := ofInt32_natCast (by omega)
  have hml : off % ext2_get_block_size st.sb < ext2_get_block_size st.sb :=
    Nat.mod_lt _ (Nat.pos_of_ne_zero hB0)
  rw [read_loop, if_pos (by omega)]
  simp only []
  rw [if_neg hB0, hofs, hl, Option.some_bind, if_neg hb]
  generalize hBe : ext2_get_block_size st.sb = B at *
  generalize hme : off % B = m at *
  have hil : toInt32 ((ino.i_size : Int) - (off : Int)) = (ino.i_size : Int) - off :=
    toInt32_of_range (by omega) (by omega)
  have hbl : toInt32 ((B : Int) - (m : Int)) = (B : Int) - m :=
    toInt32_of_range (by omega) (by omega)
  rw [hil, hbl]
  by_cases hle : ino.i_size ≤ off
  · rw [if_pos hle]
    have h1 : ((ino.i_size : Int) - off < (B : Int) - m) := by omega
    rw [if_pos h1]
    have h2 : ¬ ((sz : Int) < (ino.i_size : Int) - off) := by omega
    rw [if_neg h2, if_pos (by omega)]
  · rw [if_neg hle]
    have hc : (if (sz : Int) < (if (ino.i_size : Int) - off < (B : Int) - m
          then (ino.i_size : Int) - off else (B : Int) - m) then (sz : Int)
        else (if (ino.i_size : Int) - off < (B : Int) - m
          then (ino.i_size : Int) - off else (B : Int) - m))
        = ((min sz (min (ino.i_size - off) (B - m)) : Nat) : Int) := by
      split_ifs <;> omega
    rw [hc]
    generalize hce : min sz (min (ino.i_size - off) (B - m)) = c at *
    have hcpos : 0 < c := by omega
    have hcle : c ≤ sz ∧ c ≤ ino.i_size - off ∧ c ≤ B - m := by omega
    rw [if_neg (by omega)]
    have e1 : toInt32 ((sz : Int) - (c : Int)) = ((sz - c : Nat) : Int) := by
      rw [toInt32_of_range (by omega) (by omega)]; omega
    have e2 : toInt32 ((off : Int) + (c : Int)) = ((off + c : Nat) : Int) := by
      rw [toInt32_of_range (by omega) (by omega)]; omega
    have e3 : toInt32 ((br : Int) + (c : Int)) = ((br + c : Nat) : Int) := by
      rw [toInt32_of_range (by omega) (by omega)]; omega
    rw [e1, e2, e3]
    clear e1 e2 e3 hil hbl hofs hc
    refine congrFun (congrFun (congrFun (congrArg (read_loop st ino f) (funext fun k => ?_)) _) _) _
    have hbrn : (br : Int).toNat = br := Int.toNat_natCast br
    have hcn : (c : Int).toNat = c := Int.toNat_natCast c
    rw [hbrn, hcn]
    have hsz31 : sz < 2147483648 := Nat.lt_of_le_of_lt (Nat.le_add_left sz br) hbr
    have hc32 : c < 4294967296 := Nat.lt_trans (Nat.lt_of_le_of_lt hcle.1 hsz31) (by norm_num)
    have hoc : ofInt32 (c : Int) = c := ofInt32_natCast hc32
    rw [hoc]
    by_cases hw : m = 0 ∧ c = B
    · rw [if_pos hw]
      obtain ⟨hm0, hcB⟩ := hw
      subst hm0
      by_cases hk : br ≤ k ∧ k < br + B
      · rw [if_pos hk, if_pos (by omega)]
        unfold ext2_read_block
        rw [if_pos (by omega), Nat.zero_add]
      · rw [if_neg hk, if_neg (by omega)]
    · rw [if_neg hw]
      by_cases hk : br ≤ k ∧ k < br + c
      · rw [if_pos hk, if_pos hk]
        unfold ext2_read_block
        rw [if_pos (by omega)]
      · rw [if_neg hk, if_neg hk]

/-- One lookup serves every byte of a chunk. -/
theorem file_byte_in_block (st : fs) (ino : inode) (off j b : Nat)
    (hB0 : ext2_get_block_size st.sb ≠ 0)
    (hl : inode_get_data_block st ino (off / ext2_get_block_size st.sb) = some b)
    (hj : j < ext2_get_block_size st.sb - off % ext2_get_block_size st.sb) :
    file_byte st ino (off + j) = st.disk b (off % ext2_get_block_size st.sb + j) := by
  have hpos : 0 < ext2_get_block_size st.sb := Nat.pos_of_ne_zero hB0
  have hdm := Nat.div_add_mod off (ext2_get_block_size st.sb)
  have hd : (off + j) / ext2_get_block_size st.sb = off / ext2_get_block_size st.sb := by
    have e : off + j = (off % ext2_get_block_size st.sb + j)
        + off / ext2_get_block_size st.sb * ext2_get_block_size st.sb := by
      rw [Nat.mul_comm]; omega
    rw [e, Nat.add_mul_div_right _ _ hpos, Nat.div_eq_of_lt (by omega), Nat.zero_add]
  have hm : (off + j) % ext2_get_block_size st.sb = off % ext2_get_block_size st.sb + j := by
    have e : off + j = (off % ext2_get_block_size st.sb + j)
        + off / ext2_get_block_size st.sb * ext2_get_block_size st.sb := by
      rw [Nat.mul_comm]; omega
    rw [e, Nat.add_mul_mod_self_right, Nat.mod_eq_of_lt (by omega)]
  unfold file_byte
  rw [hd, hm, hl]
  rfl

/-- The read loop: it returns `min sz (S - off)` more bytes and stores the file
bytes from `off` on, when the lookup returns at every block below the size and
at the block where a short read stops. -/
theorem read_loop_spec (st : fs) (ino : inode)
    (hB0 : ext2_get_block_size st.sb ≠ 0) (hB31 : ext2_get_block_size st.sb < 2147483648)
    (hS : ino.i_size < 2147483648) :
    ∀ (fuel sz off br : Nat) (buffer : Nat → Nat), sz ≤ fuel → off < 2147483648 →
      br + sz < 2147483648 →
      (∀ i, (i * ext2_get_block_size st.sb < ino.i_size ∨
          (ino.i_size - off < sz ∧ i = max off ino.i_size / ext2_get_block_size st.sb)) →
        ∃ b, inode_get_data_block st ino i = some b ∧ b ≠ UINT32_MAX) →
      ∃ out, read_loop st ino fuel buffer sz off br
          = some (((br + min sz (ino.i_size - off) : Nat) : Int), out) ∧
        ∀ k, out k =
          if br ≤ k ∧ k < br + min sz (ino.i_size - off) then file_byte st ino (off + (k - br))
          else buffer k := by
  intro fuel
  induction fuel with
  | zero =>
    intro sz off br buffer hsz _ _ _
    have h0 : sz = 0 := by omega
    subst h0
    refine ⟨buffer, ?_, ?_⟩
    · rw [Nat.zero_min, Nat.add_zero]
      exact read_loop_zero st ino 0 buffer off br
    · intro k
      rw [if_neg (by omega)]
  | succ f ih =>
    intro sz off br buffer hsz hoff hbr hlook
    rcases Nat.eq_zero_or_pos sz with h0 | hpos
    · subst h0
      refine ⟨buffer, ?_, ?_⟩
      · rw [Nat.zero_min, Nat.add_zero]
        exact read_loop_zero st ino (f + 1) buffer off br
      · intro k
        rw [if_neg (by omega)]
    have hBpos : 0 < ext2_get_block_size st.sb := Nat.pos_of_ne_zero hB0
    have hml : off % ext2_get_block_size st.sb < ext2_get_block_size st.sb := Nat.mod_lt _ hBpos
    have hdm := Nat.div_mul_le_self off (ext2_get_block_size st.sb)
    by_cases hle : ino.i_size ≤ off
    · obtain ⟨b, hl, hb⟩ := hlook (off / ext2_get_block_size st.sb)
        (Or.inr ⟨by omega, by rw [Nat.max_eq_left hle]⟩)
      rw [read_loop_step st ino f buffer sz off br b hB0 hB31 hS hpos hoff hbr hl hb, if_pos hle]
      have hz : ino.i_size - off = 0 := by omega
      refine ⟨buffer, ?_, ?_⟩
      · rw [hz, Nat.min_zero, Nat.add_zero]
      · intro k
        rw [hz, Nat.min_zero, if_neg (by omega)]
    · obtain ⟨b, hl, hb⟩ := hlook (off / ext2_get_block_size st.sb) (Or.inl (by omega))
      rw [read_loop_step st ino f buffer sz off br b hB0 hB31 hS hpos hoff hbr hl hb, if_neg hle]
      have hfb := fun j => file_byte_in_block st ino off j b hB0 hl
      generalize hce : min sz (min (ino.i_size - off)
        (ext2_get_block_size st.sb - off % ext2_get_block_size st.sb)) = c at *
      have hcpos : 0 < c := by omega
      have hcle : c ≤ sz ∧ c ≤ ino.i_size - off
          ∧ c ≤ ext2_get_block_size st.sb - off % ext2_get_block_size st.sb := by omega
      obtain ⟨out, ho1, ho2⟩ := ih (sz - c) (off + c) (br + c)
        (fun k => if br ≤ k ∧ k < br + c then
          st.disk b (off % ext2_get_block_size st.sb + (k - br)) else buffer k)
        (by omega) (by omega) (by omega)
        (by
          intro i hi
          apply hlook i
          rcases hi with hi | ⟨hi1, hi2⟩
          · exact Or.inl hi
          · right
            refine ⟨by omega, ?_⟩
            rw [hi2, Nat.max_eq_right (by omega), Nat.max_eq_right (by omega)])
      refine ⟨out, ?_, ?_⟩
      · rw [ho1]
        have : br + c + min (sz - c) (ino.i_size - (off + c)) = br + min sz (ino.i_size - off) := by
          omega
        rw [this]
      · intro k
        rw [ho2 k]
        by_cases hk1 : br + c ≤ k ∧ k < br + c + min (sz - c) (ino.i_size - (off + c))
        · rw [if_pos hk1, if_pos (by omega)]
          congr 1
          omega
        · rw [if_neg hk1]
          by_cases hk2 : br ≤ k ∧ k < br + c
          · rw [if_pos hk2, if_pos (by omega), hfb (k - br) (by omega)]
          · rw [if_neg hk2, if_neg (by omega)]

/-! ## Truncation to zero blocks -/

/-- A release of a block other than block 0 goes through. -/
theorem freemap_free_block_some (b : Nat) (st : fs) (hb : b ≠ 0) :
    ∃ st', freemap_free_block b st = some st' := by
  unfold freemap_free_block
  rw [if_neg hb]
  exact ⟨_, rfl⟩

/-- At the third level every entry is a leaf. -/
theorem item_leaf_level3 (W l0 l1 l2 i : Nat) :
    item_start 3 W l0 l1 l2 i = item_end 3 W l0 l1 l2 i := by
  unfold item_start item_end
  rw [if_neg (by decide), if_neg (by decide), if_neg (by decide), if_neg (by decide)]

theorem div_round_up_no_wrap (S B : Nat) (hB : B ≠ 0) (hS : S ≤ 4294967296 - B)
    (hB32 : B < 4294967296) :
    DIV_ROUND_UP S B = some ((S + B - 1) / B) := by
  unfold DIV_ROUND_UP
  rw [if_neg hB, u32_of_lt (by omega)]

theorem getD_at_length (l r : List Nat) (c d : Nat) : (l ++ c :: r).getD l.length d = c := by
  induction l with
  | nil => rfl
  | cons a l ih => simpa using ih

theorem set_at_length (l r : List Nat) (c x : Nat) :
    (l ++ c :: r).set l.length x = l ++ x :: r := by
  induction l with
  | nil => rfl
  | cons a l ih => simp [ih]

theorem takeWhile_ne_zero (l : List Nat) (h : 0 ∉ l) (r : List Nat) :
    (l ++ 0 :: r).takeWhile (fun c => decide (c ≠ 0)) = l := by
  induction l with
  | nil => exact List.takeWhile_cons_of_neg (by decide)
  | cons a l ih =>
    have ha : a ≠ 0 := fun e => h (by rw [e]; exact List.mem_cons_self _ _)
    have hl : 0 ∉ l := fun e => h (List.mem_cons_of_mem _ e)
    rw [List.cons_append, List.takeWhile_cons_of_pos (by exact decide_eq_true ha), ih hl]

/-- Zero bytes. -/
theorem takeWhile_zeros (n : Nat) :
    (List.replicate n 0).takeWhile (fun c => decide (c ≠ 0)) = [] := by
  cases n with
  | zero => rfl
  | succ n => exact List.takeWhile_cons_of_neg (by decide)

/-- The scan of `filesys_split_path` on a path with a `'/'`: it stops at the
last one, with every byte after it zeroed. -/
theorem split_scan_slash (pre : List Nat) :
    ∀ (post : List Nat), 47 ∉ post → ∀ m,
      split_scan (pre.length + 1 + post.length) (pre ++ 47 :: post ++ List.replicate m 0) =
        (if pre = [] then 47 :: List.replicate (post.length + m) 0
          else pre ++ 0 :: List.replicate (post.length + m) 0, (pre.length : Int)) := by
  intro post
  induction post using List.reverseRecOn with
  | nil =>
    intro _ m
    rw [List.length_nil, Nat.add_zero, split_scan, List.append_assoc, List.cons_append,
      List.nil_append, getD_at_length, if_pos rfl, Nat.zero_add, set_at_length]
    by_cases hp : pre = []
    · subst hp
      rfl
    · have : pre.length > 0 := List.length_pos.mpr hp
      rw [if_pos this, if_neg hp]
  | append_singleton q c ih =>
    intro h47 m
    have hc : c ≠ 47 := fun e => h47 (by rw [e]; simp)
    have hq : 47 ∉ q := fun e => h47 (by simp [e])
    have hlen : pre.length + 1 + (q ++ [c]).length = (pre ++ 47 :: q).length + 1 := by
      simp; omega
    have hp : pre ++ 47 :: (q ++ [c]) ++ List.replicate m 0
        = (pre ++ 47 :: q) ++ c :: List.replicate m 0 := by simp
    have hset : ((pre ++ 47 :: q) ++ c :: List.replicate m 0).set (pre ++ 47 :: q).length 0
        = pre ++ 47 :: q ++ List.replicate (m + 1) 0 := by
      rw [set_at_length, List.replicate_succ]
    have hres := ih hq (m + 1)
    have hl2 : (pre ++ 47 :: q).length = pre.length + 1 + q.length := by simp; omega
    have hcnt : (q ++ [c]).length + m = q.length + (m + 1) := by simp; omega
    rw [hlen, hp, split_scan, getD_at_length, if_neg hc]
    have hpos : (pre ++ 47 :: q).length > 0 := by rw [hl2]; omega
    by_cases h46 : c = 46
    · rw [if_pos h46, if_pos hpos]
      have taut : ((pre ++ 47 :: q) ++ c :: List.replicate m 0).getD
            ((pre ++ 47 :: q).length - 1) 0 ≠ 47 ∨
          ((pre ++ 47 :: q) ++ c :: List.replicate m 0).getD
            ((pre ++ 47 :: q).length - 1) 0 ≠ 46 := by
        by_cases e : ((pre ++ 47 :: q) ++ c :: List.replicate m 0).getD
            ((pre ++ 47 :: q).length - 1) 0 = 47
        · right; rw [e]; decide
        · left; exact e
      rw [if_pos taut, hset, hl2, hres, hcnt]
    · rw [if_neg h46, hset, hl2, hres, hcnt]

/-- The scan of `filesys_split_path` on a path without `'/'`: it runs to the
start of the path, where it stops on a `'.'`. -/
theorem split_scan_plain :
    ∀ (path : List Nat), 47 ∉ path → ∀ m,
      split_scan path.length (path ++ List.replicate m 0) =
        if path.head? = some 46 then (46 :: List.replicate (path.length - 1 + m) 0, (0 : Int))
        else (List.replicate (path.length + m) 0, (-1 : Int)) := by
  intro path
  induction path using List.reverseRecOn with
  | nil =>
    intro _ m
    rw [List.length_nil, split_scan, List.nil_append, Nat.zero_add]
    rfl
  | append_singleton q c ih =>
    intro h47 m
    have hc : c ≠ 47 := fun e => h47 (by rw [e]; simp)
    have hq : 47 ∉ q := fun e => h47 (by simp [e])
    have hlen : (q ++ [c]).length = q.length + 1 := by simp
    have hp : q ++ [c] ++ List.replicate m 0 = q ++ c :: List.replicate m 0 := by simp
    have hset : (q ++ c :: List.replicate m 0).set q.length 0
        = q ++ List.replicate (m + 1) 0 := by
      rw [set_at_length, List.replicate_succ]
    have hres := ih hq (m + 1)
    rw [hlen, hp, split_scan, getD_at_length, if_neg hc]
    by_cases hq0 : q = []
    · subst hq0
      by_cases h46 : c = 46
      · subst h46
        rw [if_pos rfl, if_neg (by decide), if_pos (by rfl)]
        simp
      · rw [if_neg h46, hset, hres]
        have e1 : ([] : List Nat).head? ≠ some 46 := by simp
        have e2 : ([] ++ [c] : List Nat).head? ≠ some 46 := by simp [h46]
        rw [if_neg e1, if_neg e2]
        simp
        omega
    · have hpos : q.length > 0 := List.length_pos.mpr hq0
      have hhead : (q ++ [c]).head? = q.head? := by
        cases q with
        | nil => exact absurd rfl hq0
        | cons a t => rfl
      have hcont : split_scan q.length (q ++ List.replicate (m + 1) 0) =
          if (q ++ [c]).head? = some 46 then
            (46 :: List.replicate (q.length + 1 - 1 + m) 0, (0 : Int))
          else (List.replicate (q.length + 1 + m) 0, (-1 : Int)) := by
        rw [hres, hhead]
        have a1 : q.length - 1 + (m + 1) = q.length + 1 - 1 + m := by omega
        have a2 : q.length + (m + 1) = q.length + 1 + m := by omega
        rw [a1, a2]
      by_cases h46 : c = 46
      · rw [if_pos h46, if_pos hpos]
        have taut : (q ++ c :: List.replicate m 0).getD (q.length - 1) 0 ≠ 47 ∨
            (q ++ c :: List.replicate m 0).getD (q.length - 1) 0 ≠ 46 := by
          by_cases e : (q ++ c :: List.replicate m 0).getD (q.length - 1) 0 = 47
          · right; rw [e]; decide
          · left; exact e
        rw [if_pos taut, hset, hcont]
      · rw [if_neg h46, hset, hcont]

/-! ## Reads and truncation through a handle -/

theorem read_loop_succ (st : fs) (ino : inode) (f : Nat) (buffer : Nat → Nat)
    (size offset bytes_read : Int) :
    read_loop st ino (f + 1) buffer size offset bytes_read =
      if size > 0 then
        if ext2_get_block_size st.sb = 0 then none
        else
          (inode_get_data_block st ino (ofInt32 offset / ext2_get_block_size st.sb)).bind
            fun block_id =>
              if block_id = UINT32_MAX then none
              else if chunk_size st ino size offset ≤ 0 then some (bytes_read, buffer)
              else
                read_loop st ino f (read_store st ino buffer size offset bytes_read block_id)
                  (toInt32 (size - chunk_size st ino size offset))
                  (toInt32 (offset + chunk_size st ino size offset))
                  (toInt32 (bytes_read + chunk_size st ino size offset))
      else some (bytes_read, buffer) := by
  rw [read_loop]
  rfl

theorem chunk_size_le (st : fs) (ino : inode) (size offset : Int) :
    chunk_size st ino size offset ≤ size := by
  unfold chunk_size
  split_ifs <;> omega

/-- Where an iteration of the read loop stores, two buffers agree afterwards;
elsewhere they agree where they did. -/
theorem read_store_agree (st : fs) (ino : inode) (b1 b2 : Nat → Nat) (size offset br : Int)
    (block_id : Nat) (hbr : 0 ≤ br) (hc0 : 0 < chunk_size st ino size offset)
    (hc31 : chunk_size st ino size offset < 2147483648) (k : Nat)
    (h : (br ≤ (k : Int) ∧ (k : Int) < br + chunk_size st ino size offset) ∨ b1 k = b2 k) :
    read_store st ino b1 size offset br block_id k
      = read_store st ino b2 size offset br block_id k := by
  unfold read_store
  generalize chunk_size st ino size offset = c at *
  have hcn : ofInt32 c = c.toNat := ofInt32_of_nonneg (by omega) (by omega)
  by_cases hw : ofInt32 offset % ext2_get_block_size st.sb = 0
      ∧ ofInt32 c = ext2_get_block_size st.sb
  · rw [if_pos hw, if_pos hw]
    by_cases hk : br.toNat ≤ k ∧ k < br.toNat + ext2_get_block_size st.sb
    · simp only [if_pos hk]
    · simp only [if_neg hk]
      rcases h with h | h
      · exfalso
        apply hk
        rw [← hw.2, hcn]
        omega
      · exact h
  · rw [if_neg hw, if_neg hw]
    by_cases hk : br.toNat ≤ k ∧ k < br.toNat + c.toNat
    · simp only [if_pos hk]
    · simp only [if_neg hk]
      rcases h with h | h
      · exfalso
        apply hk
        omega
      · exact h

/-- The read loop on two buffers: the two runs fail together or return the same
count, and the buffers agree afterwards on the bytes read and wherever they
agreed before. -/
theorem read_loop_frame (st : fs) (ino : inode) :
    ∀ (fuel : Nat) (b1 b2 : Nat → Nat) (size off br : Int), 0 ≤ br →
      br + size < 2147483648 →
      (read_loop st ino fuel b1 size off br = none ∧ read_loop st ino fuel b2 size off br = none)
      ∨ ∃ c o1 o2, read_loop st ino fuel b1 size off br = some (c, o1) ∧
          read_loop st ino fuel b2 size off br = some (c, o2) ∧ br ≤ c ∧
          ∀ k : Nat, ((br ≤ (k : Int) ∧ (k : Int) < c) → o1 k = o2 k)
            ∧ (b1 k = b2 k → o1 k = o2 k) := by
  intro fuel
  induction fuel with
  | zero =>
    intro b1 b2 size off br hbr hsum
    rw [read_loop, read_loop]
    by_cases hs : size > 0
    · rw [if_pos hs, if_pos hs]
      exact Or.inl ⟨rfl, rfl⟩
    · rw [if_neg hs, if_neg hs]
      exact Or.inr ⟨br, b1, b2, rfl, rfl, Int.le_refl _, fun k =>
        ⟨fun h => absurd h.2 (by omega), fun h => h⟩⟩
  | succ f ih =>
    intro b1 b2 size off br hbr hsum
    rw [read_loop_succ, read_loop_succ]
    by_cases hs : size > 0
    · rw [if_pos hs, if_pos hs]
      by_cases hB : ext2_get_block_size st.sb = 0
      · rw [if_pos hB, if_pos hB]
        exact Or.inl ⟨rfl, rfl⟩
      · rw [if_neg hB, if_neg hB]
        cases hl : inode_get_data_block st ino (ofInt32 off / ext2_get_block_size st.sb) with
        | none => exact Or.inl ⟨rfl, rfl⟩
        | some id =>
          rw [Option.some_bind, Option.some_bind]
          by_cases hid : id = UINT32_MAX
          · rw [if_pos hid, if_pos hid]
            exact Or.inl ⟨rfl, rfl⟩
          · rw [if_neg hid, if_neg hid]
            by_cases hch : chunk_size st ino size off ≤ 0
            · rw [if_pos hch, if_pos hch]
              exact Or.inr ⟨br, b1, b2, rfl, rfl, Int.le_refl _, fun k =>
                ⟨fun h => absurd h.2 (by omega), fun h => h⟩⟩
            · rw [if_neg hch, if_neg hch]
              have hcle := chunk_size_le st ino size off
              have hagree := read_store_agree st ino b1 b2 size off br id hbr (by omega)
                (by omega)
              generalize chunk_size st ino size off = c at *
              have e1 : toInt32 (br + c) = br + c := toInt32_of_range (by omega) (by omega)
              have e2 : toInt32 (size - c) = size - c := toInt32_of_range (by omega) (by omega)
              rw [e1, e2]
              rcases ih (read_store st ino b1 size off br id) (read_store st ino b2 size off br id)
                (size - c) (toInt32 (off + c)) (br + c) (by omega) (by omega) with h | h
              · exact Or.inl h
              · obtain ⟨c', o1, o2, h1, h2, hle, hk⟩ := h
                refine Or.inr ⟨c', o1, o2, h1, h2, by omega, fun k => ⟨fun hr => ?_, fun he => ?_⟩⟩
                · by_cases hlt : (k : Int) < br + c
                  · exact (hk k).2 (hagree k (Or.inl ⟨hr.1, hlt⟩))
                  · exact (hk k).1 ⟨by omega, hr.2⟩
                · exact (hk k).2 (hagree k (Or.inr he))
    · rw [if_neg hs, if_neg hs]
      exact Or.inr ⟨br, b1, b2, rfl, rfl, Int.le_refl _, fun k =>
        ⟨fun h => absurd h.2 (by omega), fun h => h⟩⟩

theorem sb_geometry_getInv (g : superblock) : GetInv (fun st => sb_geometry st.sb = g) where
  get := by
    intro z st h
    unfold freemap_get_block set_disk
    simp only []
    split_ifs <;> exact h
  write := fun _ _ h => h

theorem sb_geometry_freeInv (g : superblock) : FreeInv (fun st => sb_geometry st.sb = g) where
  free := by
    intro b st st' h hf
    unfold freemap_free_block at hf
    split_ifs at hf
    simp only [Option.some.injEq] at hf
    subst hf
    exact h
  write := fun _ _ h => h

/-- A resize changes nothing of the superblock but its count of free blocks. -/
theorem inode_resize_geometry (st : fs) (ino : inode) (bytes : Nat) (r : Int × inode × fs)
    (h : inode_resize st ino bytes = some r) : sb_geometry r.2.2.sb = sb_geometry st.sb :=
  inode_resize_inv (sb_geometry_getInv _) (sb_geometry_freeInv _) st ino bytes r rfl h

/-- The place of an inode record depends on the geometry and on the descriptors. -/
theorem inode_location_congr (st st' : ext2) (n : Nat)
    (h1 : sb_geometry st'.meta.sb = sb_geometry st.meta.sb)
    (h2 : st'.meta.bg_desc_tabs = st.meta.bg_desc_tabs) :
    inode_location st' n = inode_location st n := by
  have a1 : st'.meta.sb.s_blocks_count = st.meta.sb.s_blocks_count :=
    (congrArg superblock.s_blocks_count h1 :
      (sb_geometry st'.meta.sb).s_blocks_count = (sb_geometry st.meta.sb).s_blocks_count)
  have a2 : st'.meta.sb.s_blocks_per_group = st.meta.sb.s_blocks_per_group :=
    (congrArg superblock.s_blocks_per_group h1 :
      (sb_geometry st'.meta.sb).s_blocks_per_group = (sb_geometry st.meta.sb).s_blocks_per_group)
  have a3 : st'.meta.sb.s_inodes_per_group = st.meta.sb.s_inodes_per_group :=
    (congrArg superblock.s_inodes_per_group h1 :
      (sb_geometry st'.meta.sb).s_inodes_per_group = (sb_geometry st.meta.sb).s_inodes_per_group)
  have a4 : st'.meta.sb.s_log_block_size = st.meta.sb.s_log_block_size :=
    (congrArg superblock.s_log_block_size h1 :
      (sb_geometry st'.meta.sb).s_log_block_size = (sb_geometry st.meta.sb).s_log_block_size)
  have a5 : ext2_get_block_size st'.meta.sb = ext2_get_block_size st.meta.sb := by
    unfold ext2_get_block_size
    rw [a4]
  unfold inode_location
  rw [a1, a2, a3, a5, h2]

/-- A record written by `ext2_write_inode` is the record `ext2_get_inode` reads. -/
theorem write_inode_then_get (st : ext2) (n : Nat) (x : Nat → Nat)
    (hassert : ∃ k, DIV_ROUND_UP st.meta.sb.s_blocks_count st.meta.sb.s_blocks_per_group
      = some k ∧ k ≠ 0)
    (hipg : st.meta.sb.s_inodes_per_group ≠ 0) (hB : ext2_get_block_size st.meta.sb ≠ 0)
    (h1 : 1 ≤ n) (h2 : n < 4294967296) :
    ∃ st', ext2_write_inode st n x = some st' ∧
      ext2_get_inode st' n = some (fun k => if k < 128 then x k else 0) ∧
      st'.meta = st.meta := by
  have hloc := inode_location_eq st n hassert hipg hB h1 h2
  obtain ⟨-, m2⟩ := block_size_mod_128 _ hB
  have hslot : (n - 1) % st.meta.sb.s_inodes_per_group % (ext2_get_block_size st.meta.sb / 128)
      < ext2_get_block_size st.meta.sb / 128 := Nat.mod_lt _ (Nat.pos_of_ne_zero m2)
  have hdm := Nat.div_mul_le_self (ext2_get_block_size st.meta.sb) 128
  generalize hblk : u32
    ((st.meta.bg_desc_tabs ((n - 1) / st.meta.sb.s_inodes_per_group)).bg_inode_table
      + (n - 1) % st.meta.sb.s_inodes_per_group / (ext2_get_block_size st.meta.sb / 128)) = blk
    at *
  generalize hsl : (n - 1) % st.meta.sb.s_inodes_per_group
    % (ext2_get_block_size st.meta.sb / 128) = slot at *
  generalize hBe : ext2_get_block_size st.meta.sb = B at *
  have hin : 128 * slot + 128 ≤ B := by omega
  refine ⟨write_block st blk B (fun k =>
    if 128 * slot ≤ k ∧ k < 128 * slot + 128 then x (k - 128 * slot)
    else ext2_read_block st.disk blk B k), ?_, ?_, rfl⟩
  · unfold ext2_write_inode
    rw [hloc, Option.some_bind, hBe]
  · unfold ext2_get_inode
    have hloc' : inode_location
        (write_block st blk B fun k =>
          if 128 * slot ≤ k ∧ k < 128 * slot + 128 then x (k - 128 * slot)
          else ext2_read_block st.disk blk B k) n
        = inode_location st n := rfl
    have hB' : ext2_get_block_size (write_block st blk B fun k =>
          if 128 * slot ≤ k ∧ k < 128 * slot + 128 then x (k - 128 * slot)
          else ext2_read_block st.disk blk B k).meta.sb = B := hBe
    rw [hloc', hloc, Option.some_bind, Option.some.injEq, hB']
    funext k
    by_cases hk : k < 128
    · rw [if_pos hk, if_pos hk]
      unfold write_block ext2_read_block ext2_write_block
      simp only []
      rw [if_pos (by omega), if_pos ⟨trivial, by omega⟩, if_pos ⟨by omega, by omega⟩]
      have e : 128 * slot + k - 128 * slot = k := by omega
      rw [e]
    · rw [if_neg hk, if_neg hk]

theorem record_of_inode_past (ino : inode) :
    (fun k => if k < 128 then record_of_inode ino k else 0) = record_of_inode ino := by
  funext k
  by_cases hk : k < 128
  · rw [if_pos hk]
  · rw [if_neg hk]
    unfold record_of_inode
    repeat rw [if_neg (by omega)]

theorem dir_inode_lt (buf : Nat → Nat) (o : Nat) : dir_inode buf o < 4294967296 := by
  unfold dir_inode
  omega

theorem toInt32_ofInt32 (x : Int) (h1 : -2147483648 ≤ x) (h2 : x < 2147483648) :
    toInt32 ((ofInt32 x : Nat) : Int) = x := by
  unfold toInt32 ofInt32
  have e : ((x % 4294967296).toNat : Int) = x % 4294967296 :=
    Int.toNat_of_nonneg (Int.emod_nonneg _ (by decide))
  rw [e]
  split_ifs <;> omega

/-! ## The loop of `dir_lookup` and `filesys_open` -/

/-- After the tokens `pre` have each led into a directory, the loop of
`dir_lookup` goes on in the directory reached. -/
theorem lookup_loop_enter (dev : ext2) (fresh : Nat → Nat → Nat)
    (tok : List Nat × List Nat) (rest : List (List Nat × List Nat)) :
    ∀ (pre : List (List Nat × List Nat)) (depth : Nat) (cur : Nat → Nat)
      (fp : Option (Nat → Nat)) (d' : Nat) (c' : Nat → Nat),
      lookup_enter dev fresh pre depth cur = some (d', c') →
      lookup_loop dev fresh (pre ++ tok :: rest) depth cur false fp
        = lookup_loop dev fresh (tok :: rest) d' c' false none := by
  intro pre
  induction pre with
  | nil =>
    intro depth cur fp d' c' h
    rw [lookup_enter, Option.some.injEq, Prod.mk.injEq] at h
    rw [h.1, h.2, List.nil_append]
    rw [lookup_loop, lookup_loop]
  | cons t ts ih =>
    intro depth cur fp d' c' h
    rw [lookup_enter] at h
    rw [List.cons_append, lookup_loop, if_neg (by decide)]
    cases hf : dir_lookup_current cur (cstring t.1 t.2) with
    | none =>
      rw [hf] at h
      exact absurd h (by simp)
    | some found =>
      rw [hf, Option.some_bind] at h
      rw [Option.some_bind]
      by_cases hc : found.isSome ∧ dir_inode cur (found.getD 0) ≠ 0
          ∧ dir_file_type cur (found.getD 0) = EXT2_FT_DIR
      · rw [if_pos hc] at h
        rw [if_pos hc]
        cases hg : ext2_get_inode dev (dir_inode cur (found.getD 0)) with
        | none =>
          rw [hg] at h
          exact absurd h (by simp)
        | some r =>
          rw [hg, Option.some_bind] at h
          rw [Option.some_bind]
          by_cases hm : (inode_of_record r).i_mode &&& EXT2_S_IFDIR = 0
          · rw [if_pos hm] at h
            exact absurd h (by simp)
          · rw [if_neg hm] at h
            rw [if_neg hm]
            cases hn : read_directory dev (inode_of_record r) (fresh (depth + 1)) with
            | none =>
              rw [hn] at h
              exact absurd h (by simp)
            | some next =>
              rw [hn, Option.some_bind] at h
              rw [Option.some_bind]
              exact ih (depth + 1) next _ d' c' h
      · rw [if_neg hc] at h
        exact absurd h (by simp)

/-- A token that does not lead into a directory and is not the last one ends
the loop of `dir_lookup` with `NULL`. -/
theorem lookup_loop_stuck (dev : ext2) (fresh : Nat → Nat → Nat)
    (tok : List Nat × List Nat) (rest : List (List Nat × List Nat)) (depth : Nat)
    (cur : Nat → Nat) (fp : Option (Nat → Nat)) (found : Option Nat) (hrest : rest ≠ [])
    (hfound : dir_lookup_current cur (cstring tok.1 tok.2) = some found)
    (hbad : found = none ∨ dir_inode cur (found.getD 0) = 0
      ∨ dir_file_type cur (found.getD 0) ≠ EXT2_FT_DIR
      ∨ ∃ r, ext2_get_inode dev (dir_inode cur (found.getD 0)) = some r
          ∧ (inode_of_record r).i_mode &&& EXT2_S_IFDIR = 0) :
    lookup_loop dev fresh (tok :: rest) depth cur false fp = some none := by
  obtain ⟨t2, ts, rfl⟩ := List.exists_cons_of_ne_nil hrest
  rw [lookup_loop, if_neg (by decide), hfound, Option.some_bind]
  by_cases hc : found.isSome ∧ dir_inode cur (found.getD 0) ≠ 0
      ∧ dir_file_type cur (found.getD 0) = EXT2_FT_DIR
  · rw [if_pos hc]
    rcases hbad with h | h | h | ⟨r, hr, hm⟩
    · rw [h] at hc
      exact absurd hc.1 (by decide)
    · exact absurd h hc.2.1
    · exact absurd hc.2.2 h
    · rw [hr, Option.some_bind, if_pos hm]
  · rw [if_neg hc, lookup_loop, if_pos rfl]

/-- The entry `dir_lookup` returns names an inode other than 0. -/
theorem dir_lookup_inode_ne_zero (dev : ext2) (fresh : Nat → Nat → Nat) (path : List Nat)
    (e : Nat → Nat) (h : dir_lookup dev fresh path = some (some e)) : dir_inode e 0 ≠ 0 := by
  unfold dir_lookup at h
  cases hr : dir_get_root dev (fresh 0) with
  | none =>
    rw [hr] at h
    exact absurd h (by simp)
  | some cur =>
    rw [hr, Option.some_bind] at h
    by_cases ht : path_tokens path [] = []
    · rw [if_pos ht] at h
      exact absurd h (by simp)
    · rw [if_neg ht] at h
      cases hl : lookup_loop dev fresh (path_tokens path []) 0 cur false none with
      | none =>
        rw [hl] at h
        exact absurd h (by simp)
      | some fp =>
        rw [hl, Option.some_bind] at h
        by_cases hc : fp.isSome ∧ dir_inode (fp.getD (fun _ => 0)) 0 ≠ 0
        · rw [if_pos hc, Option.some.injEq, Option.some.injEq] at h
          rw [← h]
          have e1 : dir_inode (fun k => if k < SIZEOF_DIRECTORY then fp.getD (fun _ => 0) k else 0) 0
              = dir_inode (fp.getD (fun _ => 0)) 0 := by
            unfold dir_inode SIZEOF_DIRECTORY
            simp only [Nat.zero_add]
            rw [if_pos (by decide), if_pos (by decide), if_pos (by decide), if_pos (by decide)]
          rw [e1]
          exact hc.2
        · rw [if_neg hc] at h
          exact absurd h (by simp)

/-- The entry copy of a handle `filesys_open` has made. -/
theorem heap_dirs_after_open (hp : heap) (b : Nat → Nat) (ino : inode) :
    (heap_new_inode (heap_new_dir hp b).2 ino).2.dirs (hp.brk + 1) = b := by
  unfold heap_new_inode heap_new_dir
  simp

/-- No handle is opened for a path `dir_lookup` does not find. -/
theorem filesys_open_null (dev : ext2) (hp : heap) (fresh : Nat → Nat → Nat) (name : List Nat)
    (hl : dir_lookup dev fresh name = some none) :
    filesys_open dev hp fresh name = some (none, hp) := by
  unfold filesys_open
  rw [hl, Option.some_bind]
  rfl

/-- The handle opened for a path `dir_lookup` finds: the entry copy and the
inode are the next two objects of the heap. -/
theorem filesys_open_entry (dev : ext2) (hp : heap) (fresh : Nat → Nat → Nat) (name : List Nat)
    (b : Nat → Nat) (hl : dir_lookup dev fresh name = some (some b))
    (hassert : ∃ k, DIV_ROUND_UP dev.meta.sb.s_blocks_count dev.meta.sb.s_blocks_per_group
      = some k ∧ k ≠ 0)
    (hipg : dev.meta.sb.s_inodes_per_group ≠ 0) (hB : ext2_get_block_size dev.meta.sb ≠ 0) :
    ∃ r, ext2_get_inode dev (dir_inode b 0) = some r ∧
      filesys_open dev hp fresh name
        = some (some { dir := hp.brk + 1, inode := hp.brk + 2, pos := 0, deny_write := false },
            (heap_new_inode (heap_new_dir hp b).2 (inode_of_record r)).2) := by
  have hi := dir_lookup_inode_ne_zero dev fresh name b hl
  have hloc := inode_location_eq dev (dir_inode b 0) hassert hipg hB
    (Nat.pos_of_ne_zero hi) (dir_inode_lt _ _)
  have hg : ∃ r, ext2_get_inode dev (dir_inode b 0) = some r := by
    unfold ext2_get_inode
    rw [hloc, Option.some_bind]
    exact ⟨_, rfl⟩
  obtain ⟨r, hr⟩ := hg
  refine ⟨r, hr, ?_⟩
  unfold filesys_open
  rw [hl, Option.some_bind, if_pos (Option.isSome_some), Option.getD_some, hr, Option.some_bind]
  unfold file_open
  rw [if_neg (by unfold heap_new_inode; exact Nat.succ_ne_zero _), Option.some_bind]
  rfl

/-! ## Block counts of a resize -/

/-- The count of index blocks is computed (no failed `ASSERT`, no division by
zero) when the block count is within the range of the assertion and, for a
product `W * W` that wraps to zero, within the single-indirect range. -/
theorem inode_get_indirect_blocks_some (n W : Nat) (hW : 1 ≤ W)
    (hW2 : W ≤ 536870912) (hn : n ≤ 4194304)
    (hmax : n ≤ u32 (12 + W + W * W + W * W * W))
    (hzero : u32 (W * W) = 0 → n ≤ 12 + W) :
    ∃ ind, inode_get_indirect_blocks n W = some ind := by
  unfold inode_get_indirect_blocks DIRECT_BLOCKS
  have hA := u32_lt (W * W)
  generalize u32 (W * W) = A at hA hzero
  generalize u32 (12 + W + W * W + W * W * W) = C at hmax
  rw [if_neg (by omega), if_neg (by omega)]
  simp only []
  rw [toInt32_of_range (x := (n : Int)) (by omega) (by omega)]
  have e1 : toInt32 ((n : Int) - (12 : Nat)) = (n : Int) - 12 :=
    toInt32_of_range (by push_cast; omega) (by push_cast; omega)
  rw [e1]
  by_cases h1 : n ≤ 12
  · rw [if_pos (by omega)]
    exact ⟨_, rfl⟩
  rw [if_neg (by omega)]
  have e2 : toInt32 ((n : Int) - 12 - (W : Int)) = (n : Int) - 12 - W :=
    toInt32_of_range (by omega) (by omega)
  rw [e2]
  by_cases h2 : n ≤ 12 + W
  · rw [if_pos (by omega)]
    exact ⟨_, rfl⟩
  rw [if_neg (by omega)]
  have e3 : (((n : Int) - 12) - W) = ((n - 12 - W : Nat) : Int) := by omega
  rw [e3, ofInt32_natCast (by omega)]
  by_cases h3 : n - 12 - W ≤ A
  · rw [if_pos h3]
    unfold DIV_ROUND_UP
    rw [if_neg (by omega)]
    exact ⟨_, rfl⟩
  rw [if_neg h3]
  have hA0 : A ≠ 0 := fun e => h2 (hzero e)
  have e4 : ((n - 12 - W : Nat) : Int) - (A : Int) = ((n - 12 - W - A : Nat) : Int) := by omega
  rw [e4, toInt32_of_range (by omega) (by omega), ofInt32_natCast (by omega)]
  unfold DIV_ROUND_UP
  rw [if_neg hA0, if_neg (by omega)]
  exact ⟨_, rfl⟩

/-- For each block size the code can register, the block counts `inode_resize`
computes are within the range `inode_get_indirect_blocks` accepts. -/
theorem indirect_blocks_total (s n : Nat) (hs : s ≤ 21)
    (hn : n ≤ 4294967295 / (1024 * 2 ^ s)) :
    ∃ ind, inode_get_indirect_blocks n (1024 * 2 ^ s / 4) = some ind := by
  interval_cases s <;>
    exact inode_get_indirect_blocks_some n _ (by norm_num) (by norm_num)
      (by norm_num at hn; omega)
      (by norm_num [u32] at hn ⊢; omega)
      (by norm_num [u32] at hn ⊢ <;> omega)

/-- Equal rounded-up quotients stay equal in the `uint32_t` arithmetic of
`DIV_ROUND_UP`: both sums wrap or neither does. -/
theorem div_round_up_same (s x y : Nat) (hs : s ≤ 21)
    (h : (x + 1024 * 2 ^ s - 1) / (1024 * 2 ^ s) = (y + 1024 * 2 ^ s - 1) / (1024 * 2 ^ s)) :
    u32 (x + 1024 * 2 ^ s - 1) / (1024 * 2 ^ s) = u32 (y + 1024 * 2 ^ s - 1) / (1024 * 2 ^ s) := by
  unfold u32
  interval_cases s <;> norm_num at h ⊢ <;> omega

/-! ## Leaves of the walks of `inode_expand_range` and `inode_shrink_range` -/

/-- For `2 ≤ W < 2^30` the square of `W` is not 1 modulo `2^32`. -/
theorem sq_sub_one_not_dvd (W : Nat) (h2 : 2 ≤ W) (h30 : W < 1073741824) :
    ¬ 4294967296 ∣ W * W - 1 := by
  intro hd
  rcases Nat.even_or_odd W with ⟨k, hk⟩ | ⟨k, hk⟩
  · have h2d : 2 ∣ W * W - 1 := Dvd.dvd.trans (by norm_num) hd
    have hW : W * W = 2 * (k * W) := by rw [hk]; ring
    have hpos : 1 ≤ k * W := Nat.mul_pos (by omega) (by omega)
    generalize k * W = m at hW hpos
    omega
  · have e : W * W - 1 = 4 * (k * (k + 1)) := by
      have : W * W = 4 * (k * (k + 1)) + 1 := by rw [hk]; ring
      omega
    rw [e] at hd
    have hd' : 1073741824 ∣ k * (k + 1) := by
      have h4 : (4294967296 : Nat) = 4 * 1073741824 := by norm_num
      rw [h4] at hd
      exact Nat.dvd_of_mul_dvd_mul_left (by norm_num) hd
    have hk1 : 1 ≤ k := by omega
    have hk2 : k + 1 < 1073741824 := by omega
    have hp : (1073741824 : Nat) = 2 ^ 30 := by norm_num
    rcases Nat.even_or_odd k with hev | hodd
    · have hodd1 : Odd (k + 1) := Even.add_one hev
      have hc : Nat.Coprime (2 ^ 30) (k + 1) :=
        Nat.Coprime.pow_left 30 (Nat.coprime_two_left.mpr hodd1)
      rw [hp] at hd'
      have := Nat.Coprime.dvd_of_dvd_mul_right hc hd'
      have := Nat.le_of_dvd (by omega) this
      omega
    · have hc : Nat.Coprime (2 ^ 30) k :=
        Nat.Coprime.pow_left 30 (Nat.coprime_two_left.mpr hodd)
      rw [hp] at hd'
      have := Nat.Coprime.dvd_of_dvd_mul_left hc hd'
      have := Nat.le_of_dvd (by omega) this
      omega

/-- Two `uint32_t` sums that differ by a non-multiple of `2^32` differ. -/
theorem u32_add_ne (a d : Nat) (h : ¬ 4294967296 ∣ d) : u32 a ≠ u32 (a + d) := by
  unfold u32
  intro e
  apply h
  have h1 : (a + d) % 4294967296 = (a + 0) % 4294967296 := by rw [Nat.add_zero]; exact e.symm
  have h2 : d % 4294967296 = 0 % 4294967296 := Nat.ModEq.add_left_cancel' a h1
  exact Nat.dvd_of_mod_eq_zero h2

/-- An entry of the index block under `i_block[12]` is a leaf. -/
theorem item_leaf_12 (W l1 l2 i : Nat) :
    item_start 1 W 12 l1 l2 i = item_end 1 W 12 l1 l2 i := by
  norm_num [item_start, item_end, inode_get_direct_block_idx, DIRECT_BLOCKS]

/-- An entry at the second level under `i_block[13]` is a leaf. -/
theorem item_leaf_13 (W l1 l2 i : Nat) :
    item_start 2 W 13 l1 l2 i = item_end 2 W 13 l1 l2 i := by
  norm_num [item_start, item_end, inode_get_direct_block_idx, DIRECT_BLOCKS]

/-- An entry at the first level under `i_block[13]` is not a leaf. -/
theorem item_inner_13 (W l1 l2 i : Nat) (h2 : 2 ≤ W) (h32 : W < 4294967296) :
    item_start 1 W 13 l1 l2 i ≠ item_end 1 W 13 l1 l2 i := by
  have e1 : item_start 1 W 13 l1 l2 i = u32 (12 + W + i * W) := by
    norm_num [item_start, inode_get_direct_block_idx, DIRECT_BLOCKS]
  have e2 : item_end 1 W 13 l1 l2 i = u32 (12 + W + i * W + (W - 1)) := by
    norm_num [item_end, inode_get_direct_block_idx, DIRECT_BLOCKS]
    rw [dec32_of_pos (by omega) (by omega)]
  rw [e1, e2]
  exact u32_add_ne _ _ (fun hd => by
    have := Nat.le_of_dvd (by omega) hd
    omega)

/-- An entry at the second level under `i_block[14]` is not a leaf. -/
theorem item_inner_14_2 (W l1 l2 i : Nat) (h2 : 2 ≤ W) (h32 : W < 4294967296) :
    item_start 2 W 14 l1 l2 i ≠ item_end 2 W 14 l1 l2 i := by
  have e1 : item_start 2 W 14 l1 l2 i = u32 (12 + W + W * W + l1 * W * W + i * W) := by
    norm_num [item_start, inode_get_direct_block_idx, DIRECT_BLOCKS]
  have e2 : item_end 2 W 14 l1 l2 i
      = u32 (12 + W + W * W + l1 * W * W + i * W + (W - 1)) := by
    norm_num [item_end, inode_get_direct_block_idx, DIRECT_BLOCKS]
    rw [dec32_of_pos (by omega) (by omega)]
  rw [e1, e2]
  exact u32_add_ne _ _ (fun hd => by
    have := Nat.le_of_dvd (by omega) hd
    omega)

/-- An entry at the first level under `i_block[14]` is not a leaf. -/
theorem item_inner_14_1 (W l1 l2 i : Nat) (h2 : 2 ≤ W) (h30 : W < 1073741824) :
    item_start 1 W 14 l1 l2 i ≠ item_end 1 W 14 l1 l2 i := by
  have e1 : item_start 1 W 14 l1 l2 i = u32 (12 + W + W * W + i * W * W) := by
    norm_num [item_start, inode_get_direct_block_idx, DIRECT_BLOCKS]
  have e2 : item_end 1 W 14 l1 l2 i
      = u32 (12 + W + W * W + i * W * W + (W * W - 1)) := by
    norm_num [item_end, inode_get_direct_block_idx, DIRECT_BLOCKS]
    rw [dec32_of_pos (by omega) (by omega)]
    congr 1
    obtain ⟨m, rfl⟩ : ∃ m, W = m + 1 := ⟨W - 1, by omega⟩
    have h1 : (m + 1) * (m + 1) = m * (m + 1) + m + 1 := by ring
    simp only [Nat.add_sub_cancel]
    omega
  rw [e1, e2]
  exact u32_add_ne _ _ (sq_sub_one_not_dvd W h2 h30)

/-- The loop of `inode_expand_range` returns when, at every entry that is not
a leaf, the level is 1 or 2 and the call one level down returns. -/
theorem expand_loop_total
    (self : Nat → Nat → Nat → Nat → Nat → Nat → Nat → Nat → Nat → fs → Option (Int × fs))
    (level start end_ W l0 l1 l2 l3 : Nat)
    (hcall : ∀ i, item_start level W l0 l1 l2 i ≠ item_end level W l0 l1 l2 i →
      (level = 1 ∧ ∀ b st, ∃ r, self b (level + 1) start end_ W l0 i 0 0 st = some r) ∨
      (level = 2 ∧ ∀ b st, ∃ r, self b (level + 1) start end_ W l0 l1 i 0 st = some r)) :
    ∀ n i data st, ∃ r,
      expand_loop self level start end_ W l0 l1 l2 l3 n i data st = some r := by
  intro n
  induction n with
  | zero =>
    intro i data st
    exact ⟨_, rfl⟩
  | succ n ih =>
    intro i data st
    rw [expand_loop]
    simp only []
    by_cases h1 : inode_range_compare (item_start level W l0 l1 l2 i)
        (item_end level W l0 l1 l2 i) start end_ &&& RANGE_OVERLAP > 0
    · rw [if_pos h1]
      by_cases h2 : (expand_entry (get_word data i) (item_start level W l0 l1 l2 i)
          (item_end level W l0 l1 l2 i) st).1 ≠ FREEMAP_GET_ERROR
      · rw [if_pos h2]
        by_cases h3 : item_start level W l0 l1 l2 i = item_end level W l0 l1 l2 i
        · rw [if_pos h3]
          exact ih _ _ _
        · rw [if_neg h3]
          rcases hcall i h3 with ⟨hl, hs⟩ | ⟨hl, hs⟩
          · rw [if_pos hl]
            obtain ⟨r, hr⟩ := hs (expand_entry (get_word data i)
              (item_start level W l0 l1 l2 i) (item_end level W l0 l1 l2 i) st).1
              (expand_entry (get_word data i) (item_start level W l0 l1 l2 i)
                (item_end level W l0 l1 l2 i) st).2
            rw [hr, Option.some_bind]
            exact ih _ _ _
          · rw [if_neg (by omega), if_pos hl]
            obtain ⟨r, hr⟩ := hs (expand_entry (get_word data i)
              (item_start level W l0 l1 l2 i) (item_end level W l0 l1 l2 i) st).1
              (expand_entry (get_word data i) (item_start level W l0 l1 l2 i)
                (item_end level W l0 l1 l2 i) st).2
            rw [hr, Option.some_bind]
            exact ih _ _ _
      · rw [if_neg h2]
        exact ⟨_, rfl⟩
    · rw [if_neg h1]
      by_cases h5 : inode_range_compare (item_start level W l0 l1 l2 i)
          (item_end level W l0 l1 l2 i) start end_ &&& RANGE_AHEAD > 0
      · rw [if_pos h5]
        exact ih _ _ _
      · rw [if_neg h5]
        exact ⟨_, rfl⟩

/-- The loop of `inode_shrink_range` returns when, at every entry that is not
a leaf, the level is 1 or 2 and the call one level down returns. -/
theorem shrink_loop_calls
    (self : Nat → Nat → Nat → Nat → Nat → Nat → Nat → Nat → Nat → fs → Option (Int × fs))
    (level start end_ W l0 l1 l2 l3 : Nat)
    (hcall : ∀ i, item_start level W l0 l1 l2 i ≠ item_end level W l0 l1 l2 i →
      (level = 1 ∧ ∀ b st, ∃ r, self b (level + 1) start end_ W l0 i 0 0 st = some r) ∨
      (level = 2 ∧ ∀ b st, ∃ r, self b (level + 1) start end_ W l0 l1 i 0 st = some r)) :
    ∀ n i data st, ∃ r,
      shrink_loop self level start end_ W l0 l1 l2 l3 n i data st = some r := by
  intro n
  induction n with
  | zero =>
    intro i data st
    exact ⟨_, rfl⟩
  | succ n ih =>
    intro i data st
    rw [shrink_loop]
    by_cases h1 : inode_range_compare (item_start level W l0 l1 l2 i)
        (item_end level W l0 l1 l2 i) start end_ &&& RANGE_OVERLAP > 0
    · rw [if_pos h1]
      by_cases h2 : get_word data i = 0
      · rw [if_pos h2]
        exact ih _ _ _
      · rw [if_neg h2]
        by_cases h3 : item_start level W l0 l1 l2 i = item_end level W l0 l1 l2 i
        · rw [if_pos h3]
          obtain ⟨st', hf⟩ := freemap_free_block_some (get_word data i) st h2
          rw [hf, Option.some_bind]
          exact ih _ _ _
        · rw [if_neg h3]
          have hsub : ∃ r, (if level = 1 then
                self (get_word data i) (level + 1) start end_ W l0 i 0 0 st
              else if level = 2 then
                self (get_word data i) (level + 1) start end_ W l0 l1 i 0 st
              else none) = some r := by
            rcases hcall i h3 with ⟨hl, hs⟩ | ⟨hl, hs⟩
            · rw [if_pos hl]
              exact hs _ _
            · rw [if_neg (by omega), if_pos hl]
              exact hs _ _
          obtain ⟨r, hr⟩ := hsub
          rw [hr, Option.some_bind]
          by_cases h4 : start ≤ item_start level W l0 l1 l2 i
          · rw [if_pos h4]
            obtain ⟨st', hf⟩ := freemap_free_block_some (get_word data i) r.2 h2
            rw [hf, Option.some_bind]
            exact ih _ _ _
          · rw [if_neg h4]
            exact ih _ _ _
    · rw [if_neg h1]
      by_cases h5 : inode_range_compare (item_start level W l0 l1 l2 i)
          (item_end level W l0 l1 l2 i) start end_ &&& RANGE_AHEAD > 0
      · rw [if_pos h5]
        exact ih _ _ _
      · rw [if_neg h5]
        exact ⟨_, rfl⟩

/-- One call of `inode_expand_range` returns when its loop does. -/
theorem inode_expand_range_succ (f b level start end_ W l0 l1 l2 l3 : Nat) (st : fs)
    (hl : level ≠ 0)
    (h : ∀ n i data st', ∃ r, expand_loop (inode_expand_range f) level start end_ W l0 l1 l2 l3
      n i data st' = some r) :
    ∃ r, inode_expand_range (f + 1) b level start end_ W l0 l1 l2 l3 st = some r := by
  rw [inode_expand_range, if_neg hl]
  obtain ⟨r, hr⟩ := h W 0 (ext2_read_block st.disk b (u32 (W * 4))) st
  rw [hr, Option.some_bind]
  exact ⟨_, rfl⟩

/-- One call of `inode_shrink_range` returns when its loop does. -/
theorem inode_shrink_range_succ (f b level start end_ W l0 l1 l2 l3 : Nat) (st : fs)
    (hl : level ≠ 0)
    (h : ∀ n i data st', ∃ r, shrink_loop (inode_shrink_range f) level start end_ W l0 l1 l2 l3
      n i data st' = some r) :
    ∃ r, inode_shrink_range (f + 1) b level start end_ W l0 l1 l2 l3 st = some r := by
  rw [inode_shrink_range, if_neg hl]
  obtain ⟨r, hr⟩ := h W 0 (ext2_read_block st.disk b (u32 (W * 4))) st
  rw [hr, Option.some_bind]
  exact ⟨_, rfl⟩

/-! ## Layout of the address tree -/

theorem succ_mul_le (a b c : Nat) (h : a < b) : a * c + c ≤ b * c := by
  have := Nat.mul_le_mul_right c (Nat.succ_le_of_lt h)
  rw [Nat.succ_mul] at this
  exact this

/-- The index of a position under `i_block[12]`. -/
theorem idx_12 (W l1 l2 l3 : Nat) (hfit : 12 + W + W * W + W * W * W < 4294967296)
    (b1 : l1 < W) : inode_get_direct_block_idx W 12 l1 l2 l3 = 12 + l1 := by
  unfold inode_get_direct_block_idx DIRECT_BLOCKS
  rw [if_neg (by decide), if_pos rfl]
  exact u32_of_lt (by omega)

/-- The index of a position under `i_block[13]`. -/
theorem idx_13 (W l1 l2 l3 : Nat) (hfit : 12 + W + W * W + W * W * W < 4294967296)
    (b1 : l1 < W) (b2 : l2 < W) :
    inode_get_direct_block_idx W 13 l1 l2 l3 = 12 + W + l1 * W + l2 := by
  have m1 := succ_mul_le l1 W W b1
  unfold inode_get_direct_block_idx DIRECT_BLOCKS
  rw [if_neg (by decide), if_neg (by decide), if_pos rfl]
  exact u32_of_lt (by omega)

/-- The index of a position under `i_block[14]`. -/
theorem idx_14 (W l1 l2 l3 : Nat) (hfit : 12 + W + W * W + W * W * W < 4294967296)
    (b1 : l1 < W) (b2 : l2 < W) (b3 : l3 < W) :
    inode_get_direct_block_idx W 14 l1 l2 l3 = 12 + W + W * W + l1 * (W * W) + l2 * W + l3 := by
  have m2 := succ_mul_le l2 W W b2
  have m3 := succ_mul_le l1 W (W * W) b1
  rw [← Nat.mul_assoc W W W] at m3
  unfold inode_get_direct_block_idx DIRECT_BLOCKS
  rw [if_neg (by decide), if_neg (by decide), if_neg (by decide), if_pos rfl,
    Nat.mul_assoc l1 W W]
  exact u32_of_lt (by omega)

/-- The indices of the positions lie in the range of the tree. -/
theorem idx_range (W : Nat) (hfit : 12 + W + W * W + W * W * W < 4294967296) :
    ∀ l0 l1 l2 l3, tree_pos W l0 l1 l2 l3 →
      12 ≤ inode_get_direct_block_idx W l0 l1 l2 l3 ∧
      inode_get_direct_block_idx W l0 l1 l2 l3 < 12 + W + W * W + W * W * W := by
  intro l0 l1 l2 l3 hp
  rcases hp with ⟨rfl, b1, -, -⟩ | ⟨rfl, b1, b2, -⟩ | ⟨rfl, b1, b2, b3⟩
  · rw [idx_12 W l1 l2 l3 hfit b1]
    omega
  · rw [idx_13 W l1 l2 l3 hfit b1 b2]
    have m1 := succ_mul_le l1 W W b1
    omega
  · rw [idx_14 W l1 l2 l3 hfit b1 b2 b3]
    have m2 := succ_mul_le l2 W W b2
    have m3 := succ_mul_le l1 W (W * W) b1
    rw [← Nat.mul_assoc W W W] at m3
    omega

/-- The index grows with the position. -/
theorem idx_mono (W : Nat) (hfit : 12 + W + W * W + W * W * W < 4294967296) :
    ∀ l0 l1 l2 l3 m0 m1 m2 m3, tree_pos W l0 l1 l2 l3 → tree_pos W m0 m1 m2 m3 →
      pos_lt l0 l1 l2 l3 m0 m1 m2 m3 →
      inode_get_direct_block_idx W l0 l1 l2 l3 < inode_get_direct_block_idx W m0 m1 m2 m3 := by
  intro l0 l1 l2 l3 m0 m1 m2 m3 hp hq hlt
  unfold pos_lt at hlt
  rcases hp with ⟨rfl, b1, rfl, rfl⟩ | ⟨rfl, b1, b2, rfl⟩ | ⟨rfl, b1, b2, b3⟩
  · rcases hq with ⟨rfl, c1, rfl, rfl⟩ | ⟨rfl, c1, c2, rfl⟩ | ⟨rfl, c1, c2, c3⟩
    · rw [idx_12 W l1 0 0 hfit b1, idx_12 W m1 0 0 hfit c1]
      rcases hlt with a | ⟨-, a | ⟨-, a | ⟨-, a⟩⟩⟩
      · exact absurd a (by decide)
      · omega
      · exact absurd a (by decide)
      · exact absurd a (by decide)
    · rw [idx_12 W l1 0 0 hfit b1, idx_13 W m1 m2 0 hfit c1 c2]
      omega
    · rw [idx_12 W l1 0 0 hfit b1, idx_14 W m1 m2 m3 hfit c1 c2 c3]
      omega
  · have n1 := succ_mul_le l1 W W b1
    rcases hq with ⟨rfl, c1, rfl, rfl⟩ | ⟨rfl, c1, c2, rfl⟩ | ⟨rfl, c1, c2, c3⟩
    · rcases hlt with a | ⟨a, -⟩
      · exact absurd a (by decide)
      · exact absurd a (by decide)
    · rw [idx_13 W l1 l2 0 hfit b1 b2, idx_13 W m1 m2 0 hfit c1 c2]
      rcases hlt with a | ⟨-, a | ⟨a1, a | ⟨-, a⟩⟩⟩
      · exact absurd a (by decide)
      · have := succ_mul_le l1 m1 W a
        omega
      · subst a1
        omega
      · exact absurd a (by decide)
    · rw [idx_13 W l1 l2 0 hfit b1 b2, idx_14 W m1 m2 m3 hfit c1 c2 c3]
      omega
  · rcases hq with ⟨rfl, c1, rfl, rfl⟩ | ⟨rfl, c1, c2, rfl⟩ | ⟨rfl, c1, c2, c3⟩
    · rcases hlt with a | ⟨a, -⟩
      · exact absurd a (by decide)
      · exact absurd a (by decide)
    · rcases hlt with a | ⟨a, -⟩
      · exact absurd a (by decide)
      · exact absurd a (by decide)
    · rw [idx_14 W l1 l2 l3 hfit b1 b2 b3, idx_14 W m1 m2 m3 hfit c1 c2 c3]
      have n2 := succ_mul_le l2 W W b2
      rcases hlt with a | ⟨-, a | ⟨a1, a | ⟨a2, a⟩⟩⟩
      · exact absurd a (by decide)
      · have := succ_mul_le l1 m1 (W * W) a
        omega
      · subst a1
        have := succ_mul_le l2 m2 W a
        omega
      · subst a1
        subst a2
        omega

/-- Every index of the range is the index of a position. -/
theorem idx_onto (W : Nat) (hW : 1 ≤ W) (hfit : 12 + W + W * W + W * W * W < 4294967296) :
    ∀ n, 12 ≤ n → n < 12 + W + W * W + W * W * W →
      ∃ l0 l1 l2 l3, tree_pos W l0 l1 l2 l3 ∧ inode_get_direct_block_idx W l0 l1 l2 l3 = n := by
  intro n h12 hn
  by_cases c1 : n < 12 + W
  · refine ⟨12, n - 12, 0, 0, Or.inl ⟨rfl, by omega, rfl, rfl⟩, ?_⟩
    rw [idx_12 W (n - 12) 0 0 hfit (by omega)]
    omega
  · by_cases c2 : n < 12 + W + W * W
    · have hd : (n - 12 - W) / W < W := Nat.div_lt_of_lt_mul (by omega)
      have hm : (n - 12 - W) % W < W := Nat.mod_lt _ (by omega)
      refine ⟨13, _, _, 0, Or.inr (Or.inl ⟨rfl, hd, hm, rfl⟩), ?_⟩
      rw [idx_13 W _ _ 0 hfit hd hm]
      have := Nat.div_add_mod (n - 12 - W) W
      rw [Nat.mul_comm] at this
      omega
    · have hk : n - 12 - W - W * W < W * W * W := by omega
      have hkn : n = 12 + W + W * W + (n - 12 - W - W * W) := by omega
      generalize n - 12 - W - W * W = k at hk hkn
      have hd : k / (W * W) < W := Nat.div_lt_of_lt_mul hk
      have hm2 : k / W % W < W := Nat.mod_lt _ (by omega)
      have hm : k % W < W := Nat.mod_lt _ (by omega)
      refine ⟨14, _, _, _, Or.inr (Or.inr ⟨rfl, hd, hm2, hm⟩), ?_⟩
      rw [idx_14 W _ _ _ hfit hd hm2 hm]
      have a1 := Nat.div_add_mod k W
      have a2 := Nat.div_add_mod (k / W) W
      rw [Nat.div_div_eq_div_mul] at a2
      have a3 : W * (W * (k / (W * W)) + k / W % W)
          = k / (W * W) * (W * W) + k / W % W * W := by
        ring
      rw [← a2, a3] at a1
      omega

/-- The lookup of the index of a position follows the position. -/
theorem idx_lookup (W : Nat) (hW : 1 ≤ W) (hfit : 12 + W + W * W + W * W * W < 4294967296) :
    ∀ (st : fs) (ino : inode) l0 l1 l2 l3, ext2_get_block_size st.sb = 4 * W →
      tree_pos W l0 l1 l2 l3 →
      inode_get_data_block st ino (inode_get_direct_block_idx W l0 l1 l2 l3)
        = some (tree_entry st ino l0 l1 l2 l3) := by
  intro st ino l0 l1 l2 l3 hB hp
  obtain ⟨-, g12, g13, g14, -⟩ := inode_get_data_block_mapping_aux st ino
    (inode_get_direct_block_idx W l0 l1 l2 l3) W hB hW (by omega)
  unfold tree_entry
  rcases hp with ⟨rfl, b1, -, -⟩ | ⟨rfl, b1, b2, -⟩ | ⟨rfl, b1, b2, b3⟩
  · rw [if_pos rfl]
    rw [idx_12 W l1 l2 l3 hfit b1] at g12 ⊢
    rw [g12 (by omega) (by omega), Nat.add_sub_cancel_left]
  · rw [if_neg (by decide), if_pos rfl]
    have m1 := succ_mul_le l1 W W b1
    rw [idx_13 W l1 l2 l3 hfit b1 b2] at g13 ⊢
    rw [g13 (by omega) (by omega)]
    have e : 12 + W + l1 * W + l2 - 12 - W = l2 + l1 * W := by omega
    rw [e, Nat.add_mul_div_right _ _ (by omega), Nat.add_mul_mod_self_right,
      Nat.div_eq_of_lt b2, Nat.mod_eq_of_lt b2, Nat.zero_add]
  · rw [if_neg (by decide), if_neg (by decide)]
    have m2 := succ_mul_le l2 W W b2
    have m3 := succ_mul_le l1 W (W * W) b1
    rw [← Nat.mul_assoc W W W] at m3
    rw [idx_14 W l1 l2 l3 hfit b1 b2 b3] at g14 ⊢
    rw [g14 (by omega) (by omega)]
    have e : 12 + W + W * W + l1 * (W * W) + l2 * W + l3 - 12 - W - W * W
        = l3 + (l2 + l1 * W) * W := by
      have : (l2 + l1 * W) * W = l2 * W + l1 * (W * W) := by ring
      omega
    have e' : l3 + (l2 + l1 * W) * W = (l3 + l2 * W) + l1 * (W * W) := by ring
    have hlt : l3 + l2 * W < W * W := by omega
    have q1 : (l3 + (l2 + l1 * W) * W) / (W * W) = l1 := by
      rw [e', Nat.add_mul_div_right _ _ (by omega), Nat.div_eq_of_lt hlt, Nat.zero_add]
    have q2 : (l3 + (l2 + l1 * W) * W) / W % W = l2 := by
      rw [Nat.add_mul_div_right _ _ (by omega), Nat.div_eq_of_lt b3, Nat.zero_add,
        Nat.add_mul_mod_self_right, Nat.mod_eq_of_lt b2]
    have q3 : (l3 + (l2 + l1 * W) * W) % W = l3 := by
      rw [Nat.add_mul_mod_self_right, Nat.mod_eq_of_lt b3]
    rw [e, q1, q2, q3]

/-! ## The zero-fill flag of the requests of the expansion -/

/-- At a zero entry in range that is a leaf the loop of `inode_expand_range`
requests the block with `false` and goes on. -/
theorem expand_loop_leaf_step
    (self : Nat → Nat → Nat → Nat → Nat → Nat → Nat → Nat → Nat → fs → Option (Int × fs))
    (level start end_ W l0 l1 l2 l3 n i : Nat) (data : Nat → Nat) (st : fs)
    (hov : inode_range_compare (item_start level W l0 l1 l2 i) (item_end level W l0 l1 l2 i)
      start end_ &&& RANGE_OVERLAP > 0)
    (hz : get_word data i = 0)
    (hleaf : item_start level W l0 l1 l2 i = item_end level W l0 l1 l2 i) :
    expand_loop self level start end_ W l0 l1 l2 l3 (n + 1) i data st
      = expand_data_step self level start end_ W l0 l1 l2 l3 n i data st := by
  rw [expand_loop]
  simp only []
  rw [if_pos hov, hz]
  have e : expand_entry 0 (item_start level W l0 l1 l2 i) (item_end level W l0 l1 l2 i) st
      = freemap_get_block false st := by
    unfold expand_entry
    rw [if_pos rfl, if_pos hleaf]
  rw [e, if_pos hleaf]
  rfl

/-- At a zero entry in range at level 1 that is not a leaf the loop of
`inode_expand_range` requests the block with `true` and hands it to the call
at level 2. -/
theorem expand_loop_inner_step_1
    (self : Nat → Nat → Nat → Nat → Nat → Nat → Nat → Nat → Nat → fs → Option (Int × fs))
    (start end_ W l0 l1 l2 l3 n i : Nat) (data : Nat → Nat) (st : fs)
    (hov : inode_range_compare (item_start 1 W l0 l1 l2 i) (item_end 1 W l0 l1 l2 i)
      start end_ &&& RANGE_OVERLAP > 0)
    (hz : get_word data i = 0)
    (hinner : item_start 1 W l0 l1 l2 i ≠ item_end 1 W l0 l1 l2 i) :
    expand_loop self 1 start end_ W l0 l1 l2 l3 (n + 1) i data st
      = expand_index_step self (fun b s => self b 2 start end_ W l0 i 0 0 s)
          1 start end_ W l0 l1 l2 l3 n i data st := by
  rw [expand_loop]
  simp only []
  rw [if_pos hov, hz]
  have e : expand_entry 0 (item_start 1 W l0 l1 l2 i) (item_end 1 W l0 l1 l2 i) st
      = freemap_get_block true st := by
    unfold expand_entry
    rw [if_pos rfl, if_neg hinner]
  rw [e, if_neg hinner, if_pos trivial]
  rfl

/-- At a zero entry in range at level 2 that is not a leaf the loop of
`inode_expand_range` requests the block with `true` and hands it to the call
at level 3. -/
theorem expand_loop_inner_step_2
    (self : Nat → Nat → Nat → Nat → Nat → Nat → Nat → Nat → Nat → fs → Option (Int × fs))
    (start end_ W l0 l1 l2 l3 n i : Nat) (data : Nat → Nat) (st : fs)
    (hov : inode_range_compare (item_start 2 W l0 l1 l2 i) (item_end 2 W l0 l1 l2 i)
      start end_ &&& RANGE_OVERLAP > 0)
    (hz : get_word data i = 0)
    (hinner : item_start 2 W l0 l1 l2 i ≠ item_end 2 W l0 l1 l2 i) :
    expand_loop self 2 start end_ W l0 l1 l2 l3 (n + 1) i data st
      = expand_index_step self (fun b s => self b 3 start end_ W l0 l1 i 0 s)
          2 start end_ W l0 l1 l2 l3 n i data st := by
  rw [expand_loop]
  simp only []
  rw [if_pos hov, hz]
  have e : expand_entry 0 (item_start 2 W l0 l1 l2 i) (item_end 2 W l0 l1 l2 i) st
      = freemap_get_block true st := by
    unfold expand_entry
    rw [if_pos rfl, if_neg hinner]
  rw [e, if_neg hinner]
  rfl

/-- A request with `false` writes no block. -/
theorem freemap_get_block_false_disk (st : fs) : (freemap_get_block false st).2.disk = st.disk := by
  unfold freemap_get_block
  simp only []
  by_cases he : u32 (st.answers st.calls) = FREEMAP_GET_ERROR
  · rw [if_pos he]
  · rw [if_neg he, if_neg (by decide)]

/-- A request with `true` that succeeds leaves the block zero-filled. -/
theorem freemap_get_block_true_zero (st : fs)
    (hok : (freemap_get_block true st).1 ≠ FREEMAP_GET_ERROR) (k : Nat)
    (hk : k < ext2_get_block_size st.sb) :
    (freemap_get_block true st).2.disk (freemap_get_block true st).1 k = 0 := by
  have hid : (freemap_get_block true st).1 = u32 (st.answers st.calls) := by
    unfold freemap_get_block
    simp only []
    split_ifs <;> rfl
  rw [hid] at hok ⊢
  unfold freemap_get_block
  simp only []
  rw [if_neg hok, if_pos trivial]
  unfold set_disk ext2_write_block
  simp only []
  exact if_pos ⟨trivial, hk⟩

/-- At a level whose entries are all leaves the loop of `inode_expand_range`
writes no block. -/
theorem expand_loop_leaf_disk
    (self : Nat → Nat → Nat → Nat → Nat → Nat → Nat → Nat → Nat → fs → Option (Int × fs))
    (level start end_ W l0 l1 l2 l3 : Nat)
    (hleaf : ∀ i, item_start level W l0 l1 l2 i = item_end level W l0 l1 l2 i) :
    ∀ n i data st r, expand_loop self level start end_ W l0 l1 l2 l3 n i data st = some r →
      r.2.2.disk = st.disk := by
  intro n
  induction n with
  | zero =>
    intro i data st r h
    rw [expand_loop] at h
    rw [← Option.some.inj h]
  | succ n ih =>
    intro i data st r h
    rw [expand_loop] at h
    simp only [] at h
    have hg : (expand_entry (get_word data i) (item_start level W l0 l1 l2 i)
        (item_end level W l0 l1 l2 i) st).2.disk = st.disk := by
      unfold expand_entry
      by_cases hz : get_word data i = 0
      · rw [if_pos hz, if_pos (hleaf i)]
        exact freemap_get_block_false_disk st
      · rw [if_neg hz]
    by_cases h1 : inode_range_compare (item_start level W l0 l1 l2 i)
        (item_end level W l0 l1 l2 i) start end_ &&& RANGE_OVERLAP > 0
    · rw [if_pos h1] at h
      by_cases h2 : (expand_entry (get_word data i) (item_start level W l0 l1 l2 i)
          (item_end level W l0 l1 l2 i) st).1 ≠ FREEMAP_GET_ERROR
      · rw [if_pos h2, if_pos (hleaf i)] at h
        rw [ih _ _ _ _ h, hg]
      · rw [if_neg h2] at h
        rw [← Option.some.inj h]
        exact hg
    · rw [if_neg h1] at h
      by_cases h5 : inode_range_compare (item_start level W l0 l1 l2 i)
          (item_end level W l0 l1 l2 i) start end_ &&& RANGE_AHEAD > 0
      · rw [if_pos h5] at h
        exact ih _ _ _ _ h
      · rw [if_neg h5] at h
        rw [← Option.some.inj h]

/-- A call of `inode_expand_range` at a level whose entries are all leaves
writes its own index block and no other block. -/
theorem inode_expand_range_leaf_disk (f b level start end_ W l0 l1 l2 l3 : Nat) (st : fs)
    (r : Int × fs)
    (hleaf : ∀ i, item_start level W l0 l1 l2 i = item_end level W l0 l1 l2 i)
    (h : inode_expand_range (f + 1) b level start end_ W l0 l1 l2 l3 st = some r) :
    ∀ b' k, b' ≠ b → r.2.disk b' k = st.disk b' k := by
  intro b' k hb
  rw [inode_expand_range] at h
  by_cases hl : level = 0
  · rw [if_pos hl] at h
    exact absurd h (by simp)
  · rw [if_neg hl] at h
    cases hlo : expand_loop (inode_expand_range f) level start end_ W l0 l1 l2 l3 W 0
        (ext2_read_block st.disk b (u32 (W * 4))) st with
    | none =>
      rw [hlo] at h
      exact absurd h (by simp)
    | some q =>
      rw [hlo, Option.some_bind] at h
      rw [← Option.some.inj h]
      have hd := expand_loop_leaf_disk _ level start end_ W l0 l1 l2 l3 hleaf _ _ _ _ _ hlo
      unfold set_disk ext2_write_block
      simp only []
      rw [if_neg (fun c => hb c.1), hd]

/-- The loop over the direct slots writes no block. -/
theorem expand_direct_disk (fs_blocks : Nat) :
    ∀ n i ino st, (expand_direct fs_blocks n i ino st).2.2.disk = st.disk := by
  intro n
  induction n with
  | zero => intro i ino st; rfl
  | succ n ih =>
    intro i ino st
    rw [expand_direct]
    split_ifs
    · rw [ih, freemap_get_block_false_disk]
    · exact freemap_get_block_false_disk st
    · exact ih _ _ _
    · rfl

/-- Growth of an inode within its direct slots writes no block. -/
theorem inode_resize_direct_disk (st : fs) (ino : inode) (bytes fs_blocks old_fs_blocks : Nat)
    (r : Int × inode × fs)
    (hn : DIV_ROUND_UP bytes (ext2_get_block_size st.sb) = some fs_blocks)
    (ho : DIV_ROUND_UP ino.i_size (ext2_get_block_size st.sb) = some old_fs_blocks)
    (hlt : old_fs_blocks < fs_blocks) (h12 : fs_blocks ≤ 12)
    (h : inode_resize st ino bytes = some r) : r.2.2.disk = st.disk := by
  unfold inode_resize at h
  rw [hn, Option.some_bind, ho, Option.some_bind] at h
  cases hi : inode_get_indirect_blocks fs_blocks (ext2_get_block_size st.sb / 4) with
  | none =>
    rw [hi] at h
    exact absurd h (by simp)
  | some ind =>
    rw [hi, Option.some_bind] at h
    by_cases c1 : ind < 0
    · rw [if_pos c1] at h
      rw [← Option.some.inj h]
    · rw [if_neg c1, if_neg (by omega), if_neg (by omega)] at h
      unfold resize_expand at h
      by_cases c2 : (expand_direct fs_blocks DIRECT_BLOCKS old_fs_blocks ino st).1 = false
      · rw [if_pos c2] at h
        rw [← Option.some.inj h]
        exact expand_direct_disk _ _ _ _ _
      · rw [if_neg c2] at h
        have hd := expand_direct_disk fs_blocks DIRECT_BLOCKS old_fs_blocks ino st
        generalize expand_direct fs_blocks DIRECT_BLOCKS old_fs_blocks ino st = d at h hd
        have hlev : expand_level (ext2_get_block_size st.sb / 4) old_fs_blocks fs_blocks
            DIRECT_BLOCKS d.2.1 d.2.2 = some (flow.done, d.2.1, d.2.2) := by
          have e12 : inode_get_direct_block_idx (ext2_get_block_size st.sb / 4) DIRECT_BLOCKS 0 0 0
              = 12 := by
            norm_num [inode_get_direct_block_idx, DIRECT_BLOCKS, u32]
          have hdec : dec32 fs_blocks = fs_blocks - 1 := dec32_of_pos (by omega) (by omega)
          have hah : dec32 fs_blocks
              < inode_get_direct_block_idx (ext2_get_block_size st.sb / 4) DIRECT_BLOCKS 0 0 0 := by
            rw [e12, hdec]
            omega
          unfold expand_level
          simp only []
          rw [if_neg (fun c => ((range_compare_overlap_iff _ _ _ _).mp c).1 hah),
            if_pos ((range_compare_ahead_iff _ _ _ _).mpr hah)]
        unfold walk_levels at h
        rw [hlev, Option.some_bind, if_neg (fun c => flow.noConfusion c), Option.some_bind] at h
        rw [← Option.some.inj h]
        unfold resize_finish
        simp only []
        rw [if_neg (by decide)]
        exact hd

/-! ## The claims -/

/-- C5: closed form of the indirect-overhead formula.  For `W ≥ 1` and
`n ≤ 12 + W + W² + W³`, when no 32-bit operation overflows (the bound fits
`uint32_t` and `n` fits `int`), `inode_get_indirect_blocks n W` is `0` for
`n ≤ 12`, `1` for `12 < n ≤ 12 + W`, `2 + ⌈(n-12-W)/W⌉` for
`12 + W < n ≤ 12 + W + W²`, and `3 + W + ⌈r/W²⌉ + ⌈r/W⌉` with
`r = n - 12 - W - W²` beyond. -/
theorem inode_get_indirect_blocks_closed_form (W n : Nat) (hW : 1 ≤ W)
    (hfit : 12 + W + W * W + W * W * W < 4294967296) (hn : n < 2147483648)
    (hle : n ≤ 12 + W + W * W + W * W * W) :
    inode_get_indirect_blocks n W = some
      (if n ≤ 12 then 0
       else if n ≤ 12 + W then 1
       else if n ≤ 12 + W + W * W then ((2 + (n - 12 - W + W - 1) / W : Nat) : Int)
       else ((3 + W + (n - 12 - W - W * W + W * W - 1) / (W * W)
              + (n - 12 - W - W * W + W - 1) / W : Nat) : Int)) := by
  have hA : W ≤ W * W := Nat.le_mul_of_pos_left W hW
  have hA1 : 1 ≤ W * W := Nat.mul_pos hW hW
  have hW1 : W = 1 → W * W = 1 := by intro h; subst h; rfl
  have hWC : W = 1 → W * W * W = 1 := by intro h; subst h; rfl
  unfold inode_get_indirect_blocks DIRECT_BLOCKS
  generalize hAe : W * W = A at *
  generalize hCe : A * W = C at *
  rw [if_neg (by omega), u32_of_lt hfit, if_neg (by omega)]
  dsimp only
  have e1 : toInt32 (toInt32 (n : Int) - (12 : Nat)) = ((n - 12 : Nat) : Int) ∨ n ≤ 12 := by
    by_cases h : n ≤ 12
    · exact Or.inr h
    left
    rw [toInt32_of_range (x := (n : Int)) (by omega) (by omega)]
    rw [toInt32_of_range (by push_cast; omega) (by push_cast; omega)]
    push_cast; omega
  by_cases h1 : n ≤ 12
  · rw [if_pos h1, if_pos]
    rw [toInt32_of_range (x := (n : Int)) (by omega) (by omega)]
    rw [toInt32_of_range (by push_cast; omega) (by push_cast; omega)]
    push_cast; omega
  rw [e1.resolve_right h1]
  clear e1
  rw [if_neg (by omega), if_neg h1]
  have e2 : toInt32 (((n - 12 : Nat) : Int) - (W : Int)) = ((n - 12 : Nat) : Int) - W :=
    toInt32_of_range (by omega) (by omega)
  rw [e2]
  clear e2
  by_cases h2 : n ≤ 12 + W
  · rw [if_pos (by omega), if_pos h2]; rfl
  rw [if_neg (by omega), if_neg h2]
  have e3 : (((n - 12 : Nat) : Int) - W) = ((n - 12 - W : Nat) : Int) := by omega
  rw [e3, ofInt32_natCast (by omega), u32_of_lt (by omega : A < 4294967296)]
  clear e3
  by_cases h3 : n ≤ 12 + W + A
  · rw [if_pos (by omega), if_pos h3]
    unfold DIV_ROUND_UP
    rw [if_neg (by omega), u32_of_lt (by omega)]
    simp only [Option.map_some']
    have hq : (n - 12 - W + W - 1) / W ≤ n - 12 - W := ceil_le_self hW
    rw [Option.some.injEq]
    generalize (n - 12 - W + W - 1) / W = q at *
    rw [toInt32_of_range (x := (0:Int) + 1) (by omega) (by omega)]
    rw [toInt32_of_range (x := (0:Int) + 1 + 1) (by omega) (by omega)]
    rw [toInt32_of_range (by omega) (by omega)]
    push_cast; ring
  rw [if_neg (by omega), if_neg h3]
  have e4 : ((n - 12 - W : Nat) : Int) - (A : Int) = ((n - 12 - W - A : Nat) : Int) := by omega
  rw [e4, toInt32_of_range (by omega) (by omega), ofInt32_natCast (by omega)]
  clear e4
  unfold DIV_ROUND_UP
  rw [if_neg (by omega), if_neg (by omega), u32_of_lt (by omega), u32_of_lt (by omega)]
  simp only [Option.some_bind, Option.map_some']
  have hq1 : (n - 12 - W - A + W - 1) / W ≤ n - 12 - W - A := ceil_le_self hW
  have hq2 : (n - 12 - W - A + A - 1) / A ≤ n - 12 - W - A := ceil_le_self hA1
  have hq1' : 2 ≤ W → 2 * ((n - 12 - W - A + W - 1) / W) ≤ n - 12 - W - A + 1 :=
    fun h => two_ceil_le h (by omega)
  have hq2' : 2 ≤ W → 2 * ((n - 12 - W - A + A - 1) / A) ≤ n - 12 - W - A + 1 :=
    fun h => two_ceil_le (by omega) (by omega)
  rw [Option.some.injEq]
  generalize (n - 12 - W - A + W - 1) / W = q1 at *
  generalize (n - 12 - W - A + A - 1) / A = q2 at *
  have hb : 3 + W + q2 + q1 < 2147483648 := by
    rcases Nat.lt_or_ge W 2 with h | h
    · have hw : W = 1 := by omega
      have := hW1 hw
      have := hWC hw
      omega
    · have := hq1' h
      have := hq2' h
      omega
  rw [toInt32_of_range (x := (0:Int) + 1) (by omega) (by omega)]
  rw [toInt32_of_range (x := (0:Int) + 1 + 1) (by omega) (by omega)]
  rw [toInt32_of_range (x := (0:Int) + 1 + 1 + (W : Int)) (by omega) (by omega)]
  rw [toInt32_of_range (x := (0:Int) + 1 + 1 + (W : Int) + 1) (by omega) (by omega)]
  rw [toInt32_of_range (x := (0:Int) + 1 + 1 + (W : Int) + 1 + _) (by omega) (by omega)]
  rw [toInt32_of_range (by omega) (by omega)]
  push_cast; ring

theorem run_result_eq (x : Option (Int × inode × fs)) (h : x.isSome = true) :
    x = some (run_result x) := by
  cases x with
  | none => exact absurd h (by decide)
  | some r => rfl

/-- A returned allocation is the value `got` picks. -/
theorem got_eq (x : Option (Nat × ext2)) (h : x.isSome = true) : x = some (got x) := by
  cases x with
  | none => exact absurd h (by decide)
  | some r => rfl

/-- A returned release is the value `released` picks. -/
theorem released_eq (x : Option ext2) (h : x.isSome = true) : x = some (released x) := by
  cases x with
  | none => exact absurd h (by decide)
  | some r => rfl

/-- C5 at an instance: `W = 256` and `n = 65805 = 12 + 256 + 256² + 1` give
`3 + 256 + 1 + 1 = 261` index blocks. -/
theorem inode_get_indirect_blocks_closed_form_witness :
    (1 ≤ 256 ∧ 12 + 256 + 256 * 256 + 256 * 256 * 256 < 4294967296 ∧ 65805 < 2147483648 ∧
      65805 ≤ 12 + 256 + 256 * 256 + 256 * 256 * 256) ∧
    inode_get_indirect_blocks 65805 256 = some 261 :=
  ⟨by decide,
    (inode_get_indirect_blocks_closed_form 256 65805 (by decide) (by decide) (by decide)
      (by decide)).trans (by decide)⟩

/-- C3: resize postcondition.  For every state, inode and `new_size ≤ 2^32 - B`
(`B` the block size, `W = B / 4`) for which `inode_resize` returns `0`, the
inode afterwards has `i_size = new_size` and
`i_blocks = (⌈new_size/B⌉ + inode_get_indirect_blocks ⌈new_size/B⌉ W) * (2 << s_log_block_size)`,
the product taken without wrap-around. -/
theorem inode_resize_size_fields (st : fs) (ino : inode) (new_size : Nat)
    (r : Int × inode × fs)
    (hsize : new_size ≤ 4294967296 - ext2_get_block_size st.sb)
    (h : inode_resize st ino new_size = some r) (h0 : r.1 = 0) :
    r.2.1.i_size = new_size ∧
    ∃ overhead : Int,
      inode_get_indirect_blocks
        ((new_size + ext2_get_block_size st.sb - 1) / ext2_get_block_size st.sb)
        (ext2_get_block_size st.sb / 4) = some overhead ∧
      (r.2.1.i_blocks : Int) =
        ((((new_size + ext2_get_block_size st.sb - 1) / ext2_get_block_size st.sb : Nat) : Int)
          + overhead) * (2 * 2 ^ st.sb.s_log_block_size) := by
  obtain ⟨fs_blocks, ind, hfb, hind, -, hsz, hbl⟩ := inode_resize_zero_fields st ino new_size r h h0
  obtain ⟨e1, -, e3⟩ := resize_counts_no_wrap st.sb new_size fs_blocks ind hsize hfb hind
  refine ⟨hsz, ind, ?_, ?_⟩
  · rw [← e1]; exact hind
  · rw [hbl, e3, e1]

/-- C3 at an instance: growing the empty inode to 2000 bytes with block size
1024 returns `0` and leaves `i_size = 2000`, `i_blocks = 4`. -/
theorem inode_resize_size_fields_witness :
    (run_result (inode_resize ex_st ex_ino 2000)).1 = 0 ∧
    (run_result (inode_resize ex_st ex_ino 2000)).2.1.i_size = 2000 ∧
    ∃ overhead : Int,
      inode_get_indirect_blocks
        ((2000 + ext2_get_block_size ex_st.sb - 1) / ext2_get_block_size ex_st.sb)
        (ext2_get_block_size ex_st.sb / 4) = some overhead ∧
      ((run_result (inode_resize ex_st ex_ino 2000)).2.1.i_blocks : Int) =
        ((((2000 + ext2_get_block_size ex_st.sb - 1) / ext2_get_block_size ex_st.sb : Nat) : Int)
          + overhead) * (2 * 2 ^ ex_st.sb.s_log_block_size) :=
  ⟨by decide,
    inode_resize_size_fields ex_st ex_ino 2000 (run_result (inode_resize ex_st ex_ino 2000))
      (by decide) (run_result_eq _ (by decide)) (by decide)⟩

/-- C2, as stated, fails for a block size of 8192 bytes: `W = 2048`, the index
`12 + W + W²` is below `12 + W + W² + W³`, and the lookup is the fatal error,
because the `uint32_t` product `W³` is `0`. -/
theorem inode_get_data_block_wraps_at_8k :
    ext2_get_block_size ex_st8k.sb / 4 = 2048 ∧
    4196364 < 12 + 2048 + 2048 ^ 2 + 2048 ^ 3 ∧
    inode_get_data_block ex_st8k ex_ino 4196364 = none := by
  decide

/-- C2, amended: with `W = block_size / 4` and `W³ < 2^32`, for `i < 12` the
lookup returns `i_block[i]`; for `i < 12 + W` entry `i - 12` of block
`i_block[12]`; for `j = i - 12 - W < W²` entry `j mod W` of the block stored at
entry `j div W` of block `i_block[13]`; for `k = i - 12 - W - W² < W³` entry
`k mod W` of the block at entry `(k div W) mod W` of the block at entry
`k div W²` of block `i_block[14]`; for `i ≥ 12 + W + W² + W³` it is the fatal
error. -/
theorem inode_get_data_block_mapping (st : fs) (ino : inode) (i : Nat)
    (hW3 : ext2_get_block_size st.sb / 4 * (ext2_get_block_size st.sb / 4)
      * (ext2_get_block_size st.sb / 4) < 4294967296) :
    (i < 12 → inode_get_data_block st ino i = some (ino.i_block i)) ∧
    (12 ≤ i → i < 12 + ext2_get_block_size st.sb / 4 →
      inode_get_data_block st ino i = some (block_entry st (ino.i_block 12) (i - 12))) ∧
    (12 + ext2_get_block_size st.sb / 4 ≤ i →
      i < 12 + ext2_get_block_size st.sb / 4
        + ext2_get_block_size st.sb / 4 * (ext2_get_block_size st.sb / 4) →
      inode_get_data_block st ino i =
        some (block_entry st
          (block_entry st (ino.i_block 13)
            ((i - 12 - ext2_get_block_size st.sb / 4) / (ext2_get_block_size st.sb / 4)))
          ((i - 12 - ext2_get_block_size st.sb / 4) % (ext2_get_block_size st.sb / 4)))) ∧
    (12 + ext2_get_block_size st.sb / 4
        + ext2_get_block_size st.sb / 4 * (ext2_get_block_size st.sb / 4) ≤ i →
      i < 12 + ext2_get_block_size st.sb / 4
        + ext2_get_block_size st.sb / 4 * (ext2_get_block_size st.sb / 4)
        + ext2_get_block_size st.sb / 4 * (ext2_get_block_size st.sb / 4)
          * (ext2_get_block_size st.sb / 4) →
      inode_get_data_block st ino i =
        some (block_entry st
          (block_entry st
            (block_entry st (ino.i_block 14)
              ((i - 12 - ext2_get_block_size st.sb / 4
                  - ext2_get_block_size st.sb / 4 * (ext2_get_block_size st.sb / 4))
                / (ext2_get_block_size st.sb / 4 * (ext2_get_block_size st.sb / 4))))
            ((i - 12 - ext2_get_block_size st.sb / 4
                  - ext2_get_block_size st.sb / 4 * (ext2_get_block_size st.sb / 4))
                / (ext2_get_block_size st.sb / 4) % (ext2_get_block_size st.sb / 4)))
          ((i - 12 - ext2_get_block_size st.sb / 4
              - ext2_get_block_size st.sb / 4 * (ext2_get_block_size st.sb / 4))
            % (ext2_get_block_size st.sb / 4)))) ∧
    (12 + ext2_get_block_size st.sb / 4
        + ext2_get_block_size st.sb / 4 * (ext2_get_block_size st.sb / 4)
        + ext2_get_block_size st.sb / 4 * (ext2_get_block_size st.sb / 4)
          * (ext2_get_block_size st.sb / 4) ≤ i →
      inode_get_data_block st ino i = none) := by
  by_cases hB : ext2_get_block_size st.sb = 0
  · rw [hB]
    refine ⟨?_, ?_, ?_, ?_, ?_⟩
    · intro h
      unfold inode_get_data_block DIRECT_BLOCKS
      simp only []
      rw [if_pos h]
    · intro h1 h2; omega
    · intro h1 h2; omega
    · intro h1 h2; omega
    · intro h
      unfold inode_get_data_block DIRECT_BLOCKS
      simp only []
      have e1 : u32 (0 / 4 * (0 / 4)) = 0 := by decide
      have e2 : u32 (u32 (0 / 4 * (0 / 4)) * (0 / 4)) = 0 := by decide
      rw [if_neg (by omega), hB, if_neg (by omega), e2, e1, if_neg (Nat.not_lt_zero _),
        if_neg (Nat.not_lt_zero _)]
  · obtain ⟨hs, hBe⟩ := block_size_cases st.sb hB
    have h4 : ext2_get_block_size st.sb = 4 * (ext2_get_block_size st.sb / 4) := by
      have : 1024 * 2 ^ st.sb.s_log_block_size = 4 * (256 * 2 ^ st.sb.s_log_block_size) := by
        ring
      omega
    have h1 : 1 ≤ ext2_get_block_size st.sb / 4 := by
      have : 1 ≤ 2 ^ st.sb.s_log_block_size := Nat.one_le_two_pow
      omega
    exact inode_get_data_block_mapping_aux st ino i _ h4 h1 hW3

/-- C2 at an instance: block size 1024 (`W = 256`, `W³ = 2^24`), index 12 is
entry 0 of block `i_block[12]`. -/
theorem inode_get_data_block_mapping_witness :
    ext2_get_block_size ex_st.sb / 4 * (ext2_get_block_size ex_st.sb / 4)
      * (ext2_get_block_size ex_st.sb / 4) < 4294967296 ∧
    inode_get_data_block ex_st ex_ino 12 = some (block_entry ex_st (ex_ino.i_block 12) 0) :=
  ⟨by decide,
    (inode_get_data_block_mapping ex_st ex_ino 12 (by decide)).2.1 (by decide) (by decide)⟩

/-- C6 fails on the code: growing the empty inode to 13312 bytes (13 blocks of
1024) makes 14 allocation requests; request 13, for entry 0 of the
single-indirect index block, is answered with `FREEMAP_GET_ERROR`, and
`inode_resize` still returns `0` with `i_size = 13312` and `i_blocks = 28`,
because the result of `inode_expand_range` is discarded. -/
theorem inode_resize_hides_failed_allocation :
    ex_st_fail.answers 13 = FREEMAP_GET_ERROR ∧
    (inode_resize ex_st_fail ex_ino 13312).map
        (fun r => (r.1, r.2.1.i_size, r.2.1.i_blocks, r.2.2.calls)) =
      some (0, 13312, 28, 14) := by
  decide

/-! ## The claims on the allocator, the inode table and directories -/

/-- C12: postcondition of a successful `freemap_get_blocks(n, zero)`, on a
device whose counters hold `uint32_t` and `uint16_t` values.  The group `g` is
the lowest one from 1 on, below `s_blocks_count / s_blocks_per_group`, with
`bg_free_blocks_count ≥ n`; `b` is the lowest index of `n` contiguous clear bits
of that group's bitmap, and these bits are set in the bitmap written back (read
here from the device, which holds it unless the zero-fill of the allotted
blocks runs over the bitmap block itself); the value returned is
`b + g * s_blocks_per_group + s_first_data_block` as a `uint32_t`, hence past
group 0 when the sum fits 32 bits; the superblock count and the count of group
`g` drop by exactly `n`, and every other descriptor is unchanged. -/
theorem freemap_get_blocks_post (n : Nat) (zero : Bool) (st st' : ext2) (id : Nat)
    (hsb : st.meta.sb.s_free_blocks_count < 4294967296)
    (hbg : ∀ g, (st.meta.bg_desc_tabs g).bg_free_blocks_count < 65536)
    (h : freemap_get_blocks n zero st = some (id, st')) (hid : id ≠ FREEMAP_GET_ERROR) :
    ∃ g b,
      (1 ≤ g ∧ g < st.meta.sb.s_blocks_count / st.meta.sb.s_blocks_per_group ∧
        n ≤ (st.meta.bg_desc_tabs g).bg_free_blocks_count ∧
        ∀ j, 1 ≤ j → j < g → (st.meta.bg_desc_tabs j).bg_free_blocks_count < n) ∧
      (b + n ≤ 8 * ext2_get_block_size st.meta.sb ∧
        (∀ j, j < n →
          (ext2_read_bitmap st (st.meta.bg_desc_tabs g).bg_block_bitmap).bits (b + j) = false) ∧
        ∀ k, k < b → ∃ j, j < n ∧
          (ext2_read_bitmap st (st.meta.bg_desc_tabs g).bg_block_bitmap).bits (k + j) = true) ∧
      ((zero = false ∨ ∀ j, j < n → u32 (id + j) ≠ (st.meta.bg_desc_tabs g).bg_block_bitmap) →
        ∀ i, (ext2_read_bitmap st' (st.meta.bg_desc_tabs g).bg_block_bitmap).bits i =
          if b ≤ i ∧ i < b + n then true
          else (ext2_read_bitmap st (st.meta.bg_desc_tabs g).bg_block_bitmap).bits i) ∧
      id = u32 (b + g * st.meta.sb.s_blocks_per_group + st.meta.sb.s_first_data_block) ∧
      (b + g * st.meta.sb.s_blocks_per_group + st.meta.sb.s_first_data_block < 4294967296 →
        st.meta.sb.s_first_data_block + st.meta.sb.s_blocks_per_group ≤ id) ∧
      st'.meta.sb.s_free_blocks_count + n = st.meta.sb.s_free_blocks_count ∧
      (st'.meta.bg_desc_tabs g).bg_free_blocks_count + n
        = (st.meta.bg_desc_tabs g).bg_free_blocks_count ∧
      ∀ j, j ≠ g → st'.meta.bg_desc_tabs j = st.meta.bg_desc_tabs j := by
  rcases freemap_get_blocks_cases n zero st st' id h with ⟨he, -⟩ | ⟨h1, h2, h4, h5, h6, hide, st4, hu, hst'⟩
  · exact absurd he hid
  obtain ⟨g1, g2, g3, g4⟩ := blocks_group_spec n st h4 h5
  obtain ⟨b1, b2, b3⟩ := bitmap_scan_found _ n false h6
  obtain ⟨u1, u2, u3, -, -⟩ := update_blocks_post _ _ _ _ _ _ hu
  have hmeta : st'.meta = st4.meta := by
    rw [hst']
    by_cases hz : zero = true
    · rw [if_pos hz, zero_blocks_meta]
    · rw [if_neg hz]
  generalize hg : blocks_group n st = g at *
  generalize hbm : ext2_read_bitmap st (st.meta.bg_desc_tabs g).bg_block_bitmap = bm at *
  generalize hb : bitmap_scan bm 0 n false = b at *
  have hcnt : bm.bit_cnt = 8 * ext2_get_block_size st.meta.sb := by
    rw [← hbm]; rfl
  refine ⟨g, b, ?_⟩
  rw [hbm]
  refine ⟨⟨g1, g2, g3, g4⟩, ⟨by omega, b2, ?_⟩, ?_, ?_, ?_, ?_, ?_, ?_⟩
  · intro k hk
    obtain ⟨j, hj, hne⟩ := b3 k hk
    refine ⟨j, hj, ?_⟩
    cases hbit : bm.bits (k + j)
    · exact absurd hbit hne
    · rfl
  · intro hz i
    have hd : st'.disk (st.meta.bg_desc_tabs g).bg_block_bitmap
        = st4.disk (st.meta.bg_desc_tabs g).bg_block_bitmap := by
      rw [hst']
      by_cases hzt : zero = true
      · rw [if_pos hzt]
        apply zero_blocks_disk
        intro j _ hj2
        rcases hz with hz | hz
        · rw [hzt] at hz; exact Bool.noConfusion hz
        · exact hz j (by omega)
      · rw [if_neg hzt]
    rw [read_bitmap_after_update st st4 st' g _ _ _ hu hmeta hd i]
    unfold bitmap_set_multiple
    simp only []
    by_cases hi : i < 8 * ext2_get_block_size st.meta.sb
    · have hi' : decide (i < 8 * ext2_get_block_size st.meta.sb) = true := by simpa using hi
      rw [hi', Bool.true_and]
      by_cases hr : b ≤ i ∧ i < b + n
      · rw [if_pos hr, if_pos ⟨hr.1, hr.2, by omega⟩]
      · rw [if_neg hr, if_neg (fun hh => hr ⟨hh.1, hh.2.1⟩)]
    · have hi' : decide (i < 8 * ext2_get_block_size st.meta.sb) = false := by simpa using hi
      rw [hi', Bool.false_and, if_neg (by omega)]
      rw [← hbm]
      unfold ext2_read_bitmap bitmap_create_from_buf
      simp only []
      rw [hi', Bool.false_and]
  · rw [hide]; exact block_of_index_eq _ _ _
  · intro hlt
    rw [hide, block_of_index_eq, u32_of_lt hlt]
    have : st.meta.sb.s_blocks_per_group ≤ g * st.meta.sb.s_blocks_per_group :=
      Nat.le_mul_of_pos_left _ g1
    omega
  · rw [hmeta, u1]
    show sub32 st.meta.sb.s_free_blocks_count n + n = _
    rw [sub32_of_le _ _ h2 hsb]
    omega
  · rw [hmeta, u2]
    simp only [if_pos]
    show u16 (sub32 (st.meta.bg_desc_tabs g).bg_free_blocks_count n) + n = _
    have := hbg g
    rw [sub32_of_le _ _ g3 (by omega), u16_of_lt _ (by omega)]
    omega
  · intro j hj
    rw [hmeta, u2]
    simp only [if_neg hj]

/-- C12 at an instance: two blocks, zero-filled, on `ex_dev`; the block bitmap
of group 1 has its first 72 bits set, and the block returned is
`72 + 1 * 8192 + 1`. -/
theorem freemap_get_blocks_post_witness :
    (got (freemap_get_blocks 2 true ex_dev)).1 = 8265 ∧
    ∃ g b, 1 ≤ g ∧
      (got (freemap_get_blocks 2 true ex_dev)).1 =
        u32 (b + g * ex_dev.meta.sb.s_blocks_per_group + ex_dev.meta.sb.s_first_data_block) ∧
      (got (freemap_get_blocks 2 true ex_dev)).2.meta.sb.s_free_blocks_count + 2
        = ex_dev.meta.sb.s_free_blocks_count :=
  ⟨by decide,
    (freemap_get_blocks_post 2 true ex_dev (got (freemap_get_blocks 2 true ex_dev)).2
      (got (freemap_get_blocks 2 true ex_dev)).1 (by decide) (fun g => (ex_dev_counters g).1)
      (got_eq _ (by decide)) (by decide)).imp
      fun _ hg => hg.imp fun _ hb => ⟨hb.1.1, hb.2.2.2.1, hb.2.2.2.2.2.1⟩⟩

/-- C13, as stated, fails: on `ex_dev_full` the two sums are coherent, the
bit of block 8193 is set, and `freemap_free_blocks(8193, 1)` takes the 16-bit
counter of group 1 from 65535 to 0 while the superblock counter goes to 65536. -/
theorem counters_incoherent_after_free :
    counters_coherent ex_dev_full 2 ∧
    (freemap_free_blocks 8193 1 ex_dev_full).isSome = true ∧
    ((released (freemap_free_blocks 8193 1 ex_dev_full)).meta.bg_desc_tabs 1).bg_free_blocks_count
      = 0 ∧
    (released (freemap_free_blocks 8193 1 ex_dev_full)).meta.sb.s_free_blocks_count = 65536 ∧
    ¬ counters_coherent (released (freemap_free_blocks 8193 1 ex_dev_full)) 2 := by
  refine ⟨⟨by decide, by decide⟩, by decide, by decide, by decide, ?_⟩
  intro h
  exact absurd h.1 (by decide)

/-- C13, amended: on a device whose counters hold `uint32_t` and `uint16_t`
values and are coherent over the groups `0 .. G-1`, each of
`freemap_get_blocks`, `freemap_free_blocks`, `freemap_get_inode` and
`freemap_free_inode` that returns (with a number or with the error sentinel)
leaves them coherent, provided `G` covers the groups the allocation loops scan
and, for the two release operations, the group of the released number is below
`G` and its counter and the superblock counter do not leave their 16 and 32
bits. -/
theorem counters_coherent_preserved (st : ext2) (G : Nat)
    (hb32 : st.meta.sb.s_free_blocks_count < 4294967296)
    (hi32 : st.meta.sb.s_free_inodes_count < 4294967296)
    (h16 : ∀ g, (st.meta.bg_desc_tabs g).bg_free_blocks_count < 65536 ∧
      (st.meta.bg_desc_tabs g).bg_free_inodes_count < 65536)
    (hco : counters_coherent st G) :
    (∀ n zero id st', freemap_get_blocks n zero st = some (id, st') →
      st.meta.sb.s_blocks_count / st.meta.sb.s_blocks_per_group ≤ G →
      counters_coherent st' G) ∧
    (∀ id n st', freemap_free_blocks id n st = some st' →
      sub32 id st.meta.sb.s_first_data_block / st.meta.sb.s_blocks_per_group < G →
      (st.meta.bg_desc_tabs (sub32 id st.meta.sb.s_first_data_block
        / st.meta.sb.s_blocks_per_group)).bg_free_blocks_count + n < 65536 →
      st.meta.sb.s_free_blocks_count + n < 4294967296 →
      counters_coherent st' G) ∧
    (∀ id st', freemap_get_inode st = some (id, st') →
      st.meta.sb.s_inodes_count / st.meta.sb.s_inodes_per_group ≤ G →
      counters_coherent st' G) ∧
    (∀ ino st', freemap_free_inode ino st = some st' →
      dec32 ino / st.meta.sb.s_inodes_per_group < G →
      (st.meta.bg_desc_tabs
        (dec32 ino / st.meta.sb.s_inodes_per_group)).bg_free_inodes_count + 1 < 65536 →
      st.meta.sb.s_free_inodes_count + 1 < 4294967296 →
      counters_coherent st' G) := by
  refine ⟨?_, ?_, ?_, ?_⟩
  · intro n zero id st' h hG
    rcases freemap_get_blocks_cases n zero st st' id h with
      ⟨-, he⟩ | ⟨h1, h2, h4, h5, h6, -, st4, hu, hst'⟩
    · rw [he]; exact hco
    obtain ⟨g1, g2, g3, -⟩ := blocks_group_spec n st h4 h5
    have hc4 : counters_coherent st4 G := by
      apply update_blocks_coherent st st4 _ _ _ _ G hu (by omega) hco
      have := (h16 (blocks_group n st)).1
      rw [sub32_of_le _ _ h2 hb32, sub32_of_le _ _ g3 (by omega), u16_of_lt _ (by omega)]
      omega
    have hm : st'.meta = st4.meta := by
      rw [hst']
      by_cases hz : zero = true
      · rw [if_pos hz, zero_blocks_meta]
      · rw [if_neg hz]
    unfold counters_coherent at hc4 ⊢
    rw [hm]
    exact hc4
  · intro id n st' h hg h16' h32'
    obtain ⟨-, -, -, -, hu⟩ := freemap_free_blocks_cases id n st st' h
    apply update_blocks_coherent st st' _ _ _ _ G hu hg hco
    rw [u32_of_lt h32', u16_of_lt _ h16']
    omega
  · intro id st' h hG
    rcases freemap_get_inode_cases st st' id h with ⟨-, he⟩ | ⟨h2, h3, h4, h5, h6, -, hu⟩
    · rw [he]; exact hco
    obtain ⟨g1, g2, g3, -⟩ := inodes_group_spec st h4 h5
    apply update_inodes_coherent st st' _ _ _ _ G hu (by omega) hco
    have := (h16 (inodes_group st)).2
    rw [dec32_of_pos' _ (by omega) hi32, dec32_of_pos' _ g3 (by omega), u16_of_lt _ (by omega)]
    omega
  · intro ino st' h hg h16' h32'
    obtain ⟨-, -, hu⟩ := freemap_free_inode_cases ino st st' h
    apply update_inodes_coherent st st' _ _ _ _ G hu hg hco
    rw [u32_of_lt h32', u16_of_lt _ h16']
    omega

/-- C13 at an instance: the four operations on `ex_dev`, coherent over its two
groups. -/
theorem counters_coherent_preserved_witness :
    counters_coherent ex_dev 2 ∧
    counters_coherent (got (freemap_get_blocks 2 true ex_dev)).2 2 ∧
    counters_coherent (released (freemap_free_blocks 8193 1 ex_dev)) 2 ∧
    counters_coherent (got (freemap_get_inode ex_dev)).2 2 ∧
    counters_coherent (released (freemap_free_inode 513 ex_dev)) 2 :=
  ⟨⟨by decide, by decide⟩,
    (counters_coherent_preserved ex_dev 2 (by decide) (by decide) ex_dev_counters
      ⟨by decide, by decide⟩).1 2 true _ _ (got_eq _ (by decide)) (by decide),
    (counters_coherent_preserved ex_dev 2 (by decide) (by decide) ex_dev_counters
      ⟨by decide, by decide⟩).2.1 8193 1 _ (released_eq _ (by decide)) (by decide) (by decide)
      (by decide),
    (counters_coherent_preserved ex_dev 2 (by decide) (by decide) ex_dev_counters
      ⟨by decide, by decide⟩).2.2.1 _ _ (got_eq _ (by decide)) (by decide),
    (counters_coherent_preserved ex_dev 2 (by decide) (by decide) ex_dev_counters
      ⟨by decide, by decide⟩).2.2.2 513 _ (released_eq _ (by decide)) (by decide) (by decide)
      (by decide)⟩

/-- C14, as stated, fails: on `ex_dev_narrow` (64 blocks per group, a bitmap
block of 8192 bits whose first 72 bits are set in group 1) the allocation uses
group 1 and local index 72 and returns `72 + 64 + 1 = 137`; from that id
`freemap_free_blocks` derives group 2 and local index 8, and stops at its
`ASSERT` on the bitmap of group 2. -/
theorem freemap_free_blocks_misses_group :
    (freemap_get_blocks 1 false ex_dev_narrow).isSome = true ∧
    (got (freemap_get_blocks 1 false ex_dev_narrow)).1 = 137 ∧
    blocks_group 1 ex_dev_narrow = 1 ∧
    bitmap_scan
      (ext2_read_bitmap ex_dev_narrow
        (ex_dev_narrow.meta.bg_desc_tabs (blocks_group 1 ex_dev_narrow)).bg_block_bitmap)
      0 1 false = 72 ∧
    sub32 137 ex_dev_narrow.meta.sb.s_first_data_block
      / ex_dev_narrow.meta.sb.s_blocks_per_group = 2 ∧
    sub32 137 ex_dev_narrow.meta.sb.s_first_data_block
      % ex_dev_narrow.meta.sb.s_blocks_per_group = 8 ∧
    (freemap_free_blocks 137 1 (got (freemap_get_blocks 1 false ex_dev_narrow)).2).isSome
      = false := by
  decide

/-- C14, amended: on a device whose fields hold `uint32_t` and `uint16_t`
values, when `freemap_get_blocks(n, false)` returns an id other than the error
sentinel and other than 0, and the local index the allocation used is below
`s_blocks_per_group`, then the group and the local index `freemap_free_blocks`
derives from the id (`(id - s_first_data_block)` divided by, and modulo,
`s_blocks_per_group`) are the group and the local index the allocation used,
and `freemap_free_blocks(id, n)` returns and restores the superblock, every
group descriptor and the block bitmap, leaving every other block as it was. -/
theorem freemap_free_blocks_undoes_get (n : Nat) (st st1 : ext2) (id : Nat)
    (hsb : st.meta.sb.s_free_blocks_count < 4294967296)
    (hbc : st.meta.sb.s_blocks_count < 4294967296)
    (hfdb : st.meta.sb.s_first_data_block < 4294967296)
    (hbg : ∀ g, (st.meta.bg_desc_tabs g).bg_free_blocks_count < 65536)
    (h : freemap_get_blocks n false st = some (id, st1)) (hid : id ≠ FREEMAP_GET_ERROR)
    (hid0 : id ≠ 0)
    (hb : bitmap_scan
        (ext2_read_bitmap st (st.meta.bg_desc_tabs (blocks_group n st)).bg_block_bitmap)
        0 n false < st.meta.sb.s_blocks_per_group) :
    sub32 id st1.meta.sb.s_first_data_block / st1.meta.sb.s_blocks_per_group
      = blocks_group n st ∧
    sub32 id st1.meta.sb.s_first_data_block % st1.meta.sb.s_blocks_per_group
      = bitmap_scan
        (ext2_read_bitmap st (st.meta.bg_desc_tabs (blocks_group n st)).bg_block_bitmap)
        0 n false ∧
    ∃ st2, freemap_free_blocks id n st1 = some st2 ∧
      st2.meta.sb = st.meta.sb ∧ st2.meta.bg_desc_tabs = st.meta.bg_desc_tabs ∧
      (∀ i, (ext2_read_bitmap st2
          (st.meta.bg_desc_tabs (blocks_group n st)).bg_block_bitmap).bits i =
        (ext2_read_bitmap st
          (st.meta.bg_desc_tabs (blocks_group n st)).bg_block_bitmap).bits i) ∧
      ∀ blk, blk ≠ (st.meta.bg_desc_tabs (blocks_group n st)).bg_block_bitmap →
        st2.disk blk = st.disk blk := by
  rcases freemap_get_blocks_cases n false st st1 id h with
    ⟨he, -⟩ | ⟨h1, h2, h4, h5, h6, hide, st4, hu, hst1⟩
  · exact absurd he hid
  rw [if_neg (by decide)] at hst1
  subst hst1
  obtain ⟨g1, g2, g3, -⟩ := blocks_group_spec n st h4 h5
  obtain ⟨b1, b2, -⟩ := bitmap_scan_found _ n false h6
  obtain ⟨u1, u2, u3, u4, u5⟩ := update_blocks_post _ _ _ _ _ _ hu
  have hrd := read_bitmap_updated _ _ _ _ _ _ hu
  generalize hg : blocks_group n st = g at *
  generalize hbm : ext2_read_bitmap st (st.meta.bg_desc_tabs g).bg_block_bitmap = bm at *
  generalize hbe : bitmap_scan bm 0 n false = b at *
  have hcnt : bm.bit_cnt = 8 * ext2_get_block_size st.meta.sb := by
    rw [← hbm]; rfl
  have hc16 := hbg g
  -- geometry of the first state seen from the second
  have e_fdb : st1.meta.sb.s_first_data_block = st.meta.sb.s_first_data_block := by rw [u1]; rfl
  have e_bpg : st1.meta.sb.s_blocks_per_group = st.meta.sb.s_blocks_per_group := by rw [u1]; rfl
  have e_B : ext2_get_block_size st1.meta.sb = ext2_get_block_size st.meta.sb := by rw [u1]; rfl
  have e_S : st1.meta.sb.s_free_blocks_count = st.meta.sb.s_free_blocks_count - n := by
    rw [u1]
    show sub32 st.meta.sb.s_free_blocks_count n = _
    exact sub32_of_le _ _ h2 hsb
  have e_tg : st1.meta.bg_desc_tabs g = bg_set_free_blocks (st.meta.bg_desc_tabs g)
      ((st.meta.bg_desc_tabs g).bg_free_blocks_count - n) := by
    rw [u2]
    simp only [if_pos]
    rw [sub32_of_le _ _ g3 (by omega), u16_of_lt _ (by omega)]
  have e_blk : (st1.meta.bg_desc_tabs g).bg_block_bitmap
      = (st.meta.bg_desc_tabs g).bg_block_bitmap := by rw [e_tg]; rfl
  have e_cnt : (st1.meta.bg_desc_tabs g).bg_free_blocks_count
      = (st.meta.bg_desc_tabs g).bg_free_blocks_count - n := by rw [e_tg]; rfl
  have hmul : (g + 1) * st.meta.sb.s_blocks_per_group ≤ st.meta.sb.s_blocks_count :=
    (Nat.le_div_iff_mul_le (Nat.pos_of_ne_zero u4)).1 (by omega)
  have hlt : b + g * st.meta.sb.s_blocks_per_group < 4294967296 := by
    have : (g + 1) * st.meta.sb.s_blocks_per_group
        = g * st.meta.sb.s_blocks_per_group + st.meta.sb.s_blocks_per_group := by ring
    omega
  have hsub : sub32 id st.meta.sb.s_first_data_block = b + g * st.meta.sb.s_blocks_per_group := by
    rw [hide]; exact sub32_block_of_index st g b hfdb hlt
  obtain ⟨hdiv, hmod⟩ := div_mod_of_lt b g _ hb
  rw [e_fdb, e_bpg, hsub]
  refine ⟨hdiv, hmod, ?_⟩
  -- the release
  have hall : bitmap_all (ext2_read_bitmap st1 (st.meta.bg_desc_tabs g).bg_block_bitmap) b n
      = true := by
    unfold bitmap_all
    rw [bits_all_iff]
    intro j hj
    rw [hrd]
    have : decide (b + j < 8 * ext2_get_block_size st.meta.sb) = true := by
      simp only [decide_eq_true_eq]; omega
    rw [this, Bool.true_and]
    unfold bitmap_set_multiple
    simp only []
    rw [if_pos ⟨by omega, by omega, by omega⟩]
  obtain ⟨st2, hu2⟩ := update_blocks_some st1 g
    (u32 (st1.meta.sb.s_free_blocks_count + n))
    (u16 ((st1.meta.bg_desc_tabs g).bg_free_blocks_count + n))
    (bitmap_set_multiple (ext2_read_bitmap st1 (st1.meta.bg_desc_tabs g).bg_block_bitmap) b n
      false)
    (by rw [e_bpg]; exact u4) (by rw [e_B]; exact u5)
  have hfree : freemap_free_blocks id n st1 = some st2 := by
    unfold freemap_free_blocks
    rw [if_neg (by rintro (hh | hh); exact hid0 hh; exact h1 hh), e_bpg, if_neg u4, e_fdb, hsub,
      hdiv, hmod, e_blk, hall, if_neg (by decide)]
    rw [e_blk] at hu2
    exact hu2
  refine ⟨st2, hfree, ?_, ?_, ?_, ?_⟩
  · obtain ⟨v1, -, -, -, -⟩ := update_blocks_post _ _ _ _ _ _ hu2
    rw [v1, e_S, u32_of_lt (by omega), u1]
    have : st.meta.sb.s_free_blocks_count - n + n = st.meta.sb.s_free_blocks_count := by omega
    rw [this, sub32_of_le _ _ h2 hsb]
    exact sb_set_free_blocks_twice _ _
  · obtain ⟨-, v2, -, -, -⟩ := update_blocks_post _ _ _ _ _ _ hu2
    rw [v2]
    funext j
    by_cases hj : j = g
    · rw [if_pos hj, e_cnt, u16_of_lt _ (by omega), e_tg, hj]
      have : (st.meta.bg_desc_tabs g).bg_free_blocks_count - n + n
          = (st.meta.bg_desc_tabs g).bg_free_blocks_count := by omega
      rw [this]
      exact bg_set_free_blocks_twice _ _
    · rw [if_neg hj, u2]
      simp only [if_neg hj]
  · intro i
    have hrd2 := read_bitmap_updated _ _ _ _ _ _ hu2 i
    rw [e_blk, e_B] at hrd2
    rw [hrd2]
    by_cases hi : i < 8 * ext2_get_block_size st.meta.sb
    · have hi' : decide (i < 8 * ext2_get_block_size st.meta.sb) = true := by simpa using hi
      rw [hi', Bool.true_and]
      unfold bitmap_set_multiple
      simp only []
      have hc1 : (ext2_read_bitmap st1 (st.meta.bg_desc_tabs g).bg_block_bitmap).bit_cnt
          = 8 * ext2_get_block_size st.meta.sb := by
        rw [← e_B]; rfl
      by_cases hr : b ≤ i ∧ i < b + n
      · rw [if_pos ⟨hr.1, hr.2, by omega⟩]
        have := b2 (i - b) (by omega)
        have e : b + (i - b) = i := by omega
        rw [e] at this
        exact this.symm
      · rw [if_neg (fun hh => hr ⟨hh.1, hh.2.1⟩), hrd, hi', Bool.true_and]
        show (if b ≤ i ∧ i < b + n ∧ i < bm.bit_cnt then true else bm.bits i) = bm.bits i
        rw [if_neg (fun hh => hr ⟨hh.1, hh.2.1⟩)]
    · have hi' : decide (i < 8 * ext2_get_block_size st.meta.sb) = false := by simpa using hi
      rw [hi', Bool.false_and, ← hbm]
      exact (read_bitmap_past st _ i hi).symm
  · intro blk hblk
    obtain ⟨-, -, v3, -, -⟩ := update_blocks_post _ _ _ _ _ _ hu2
    rw [v3, e_blk, u3]
    unfold ext2_write_block
    funext k
    rw [if_neg (fun hh => hblk hh.1), if_neg (fun hh => hblk hh.1)]

/-- C14 at an instance: two blocks on `ex_dev`, local index 72 of group 1. -/
theorem freemap_free_blocks_undoes_get_witness :
    (got (freemap_get_blocks 2 false ex_dev)).1 = 8265 ∧
    sub32 (got (freemap_get_blocks 2 false ex_dev)).1
        (got (freemap_get_blocks 2 false ex_dev)).2.meta.sb.s_first_data_block
      / (got (freemap_get_blocks 2 false ex_dev)).2.meta.sb.s_blocks_per_group
      = blocks_group 2 ex_dev ∧
    ∃ st2, freemap_free_blocks (got (freemap_get_blocks 2 false ex_dev)).1 2
        (got (freemap_get_blocks 2 false ex_dev)).2 = some st2 ∧
      st2.meta.sb = ex_dev.meta.sb ∧ st2.meta.bg_desc_tabs = ex_dev.meta.bg_desc_tabs :=
  ⟨by decide,
    (freemap_free_blocks_undoes_get 2 ex_dev _ _ (by decide) (by decide) (by decide)
      (fun g => (ex_dev_counters g).1) (got_eq _ (by decide)) (by decide) (by decide)
      (by decide)).1,
    (freemap_free_blocks_undoes_get 2 ex_dev _ _ (by decide) (by decide) (by decide)
      (fun g => (ex_dev_counters g).1) (got_eq _ (by decide)) (by decide) (by decide)
      (by decide)).2.2.imp fun _ hs => ⟨hs.1, hs.2.1, hs.2.2.1⟩⟩

/-- C15, as stated, fails: on `ex_dev_narrow` (8 inodes per group, an inode
bitmap block of 8192 bits whose first 12 bits are set in group 1)
`freemap_get_inode` flips local bit 12 of group 1 and returns
`1 * 8 + 12 + 1 = 21`; `freemap_free_inode(21)` derives group 2 and local
index 4 and stops at its `ASSERT` on the bitmap of group 2, and the inode table
is addressed at group 2, local index 4 as well. -/
theorem inode_number_leaves_group :
    (freemap_get_inode ex_dev_narrow).isSome = true ∧
    (got (freemap_get_inode ex_dev_narrow)).1 = 21 ∧
    inodes_group ex_dev_narrow = 1 ∧
    bitmap_scan
      (ext2_read_bitmap ex_dev_narrow
        (ex_dev_narrow.meta.bg_desc_tabs (inodes_group ex_dev_narrow)).bg_inode_bitmap)
      0 1 false = 12 ∧
    dec32 21 / ex_dev_narrow.meta.sb.s_inodes_per_group = 2 ∧
    dec32 21 % ex_dev_narrow.meta.sb.s_inodes_per_group = 4 ∧
    (freemap_free_inode 21 (got (freemap_get_inode ex_dev_narrow)).2).isSome = false ∧
    inode_location (got (freemap_get_inode ex_dev_narrow)).2 21 =
      some ((ex_dev_narrow.meta.bg_desc_tabs 2).bg_inode_table + 4 / 8, 4 % 8) := by
  decide

/-- C15, amended: on a device whose fields hold `uint32_t` and `uint16_t`
values and on which the assertion of `ext2_get_inode` on the number of block
groups holds, when `freemap_get_inode` returns a number and the local index `b`
it flipped in the inode bitmap of group `g` is below `s_inodes_per_group`, the
number is `g * s_inodes_per_group + b + 1`; the group and local index derived
from it (`(id - 1)` divided by, and modulo, `s_inodes_per_group`) are `g` and
`b`; `freemap_free_inode` of that number returns, clears exactly bit `b` of
group `g` and restores the superblock and every group descriptor; and
`ext2_get_inode` and `ext2_write_inode` address the number at group `g`, local
index `b` of the inode table: block `bg_inode_table[g] + b / (B / 128)`, slot
`b mod (B / 128)`. -/
theorem inode_numbering_consistent (st st1 : ext2) (id : Nat)
    (hsi : st.meta.sb.s_free_inodes_count < 4294967296)
    (hic : st.meta.sb.s_inodes_count < 4294967296)
    (h16 : ∀ g, (st.meta.bg_desc_tabs g).bg_free_inodes_count < 65536)
    (hassert : ∃ k, DIV_ROUND_UP st.meta.sb.s_blocks_count st.meta.sb.s_blocks_per_group
      = some k ∧ k ≠ 0)
    (h : freemap_get_inode st = some (id, st1)) (hid : id ≠ FREEMAP_GET_ERROR)
    (hb : bitmap_scan
        (ext2_read_bitmap st (st.meta.bg_desc_tabs (inodes_group st)).bg_inode_bitmap)
        0 1 false < st.meta.sb.s_inodes_per_group) :
    ∃ g b, g = inodes_group st ∧
      b = bitmap_scan
        (ext2_read_bitmap st (st.meta.bg_desc_tabs (inodes_group st)).bg_inode_bitmap)
        0 1 false ∧
      1 ≤ g ∧
      (ext2_read_bitmap st (st.meta.bg_desc_tabs g).bg_inode_bitmap).bits b = false ∧
      (∀ i, (ext2_read_bitmap st1 (st.meta.bg_desc_tabs g).bg_inode_bitmap).bits i =
        if i = b then true
        else (ext2_read_bitmap st (st.meta.bg_desc_tabs g).bg_inode_bitmap).bits i) ∧
      id = g * st.meta.sb.s_inodes_per_group + b + 1 ∧
      (id - 1) / st1.meta.sb.s_inodes_per_group = g ∧
      (id - 1) % st1.meta.sb.s_inodes_per_group = b ∧
      (∃ st2, freemap_free_inode id st1 = some st2 ∧
        st2.meta.sb = st.meta.sb ∧ st2.meta.bg_desc_tabs = st.meta.bg_desc_tabs ∧
        (∀ i, (ext2_read_bitmap st2 (st.meta.bg_desc_tabs g).bg_inode_bitmap).bits i =
          if i = b then false
          else (ext2_read_bitmap st1 (st.meta.bg_desc_tabs g).bg_inode_bitmap).bits i) ∧
        ∀ blk, blk ≠ (st.meta.bg_desc_tabs g).bg_inode_bitmap → st2.disk blk = st1.disk blk) ∧
      inode_location st1 id = some
        (u32 ((st1.meta.bg_desc_tabs g).bg_inode_table
          + b / (ext2_get_block_size st1.meta.sb / 128)),
          b % (ext2_get_block_size st1.meta.sb / 128)) := by
  rcases freemap_get_inode_cases st st1 id h with ⟨he, -⟩ | ⟨h2, h3, h4, h5, h6, hide, hu⟩
  · exact absurd he hid
  obtain ⟨g1, g2, g3, -⟩ := inodes_group_spec st h4 h5
  obtain ⟨b1, b2, -⟩ := bitmap_scan_found _ 1 false h6
  obtain ⟨u1, u2, u3, u4, u5⟩ := update_inodes_post _ _ _ _ _ _ hu
  have hrd := read_inode_bitmap_updated _ _ _ _ _ _ hu
  refine ⟨_, _, rfl, rfl, ?_⟩
  generalize hg : inodes_group st = g at *
  generalize hbm : ext2_read_bitmap st (st.meta.bg_desc_tabs g).bg_inode_bitmap = bm at *
  generalize hbe : bitmap_scan bm 0 1 false = b at *
  have hcnt : bm.bit_cnt = 8 * ext2_get_block_size st.meta.sb := by
    rw [← hbm]; rfl
  have hc16 := h16 g
  have hbit : bm.bits b = false := by
    have := b2 0 (by omega)
    rwa [Nat.add_zero] at this
  have e_ipg : st1.meta.sb.s_inodes_per_group = st.meta.sb.s_inodes_per_group := by rw [u1]; rfl
  have e_bpg : st1.meta.sb.s_blocks_per_group = st.meta.sb.s_blocks_per_group := by rw [u1]; rfl
  have e_bc : st1.meta.sb.s_blocks_count = st.meta.sb.s_blocks_count := by rw [u1]; rfl
  have e_B : ext2_get_block_size st1.meta.sb = ext2_get_block_size st.meta.sb := by rw [u1]; rfl
  have e_S : st1.meta.sb.s_free_inodes_count = st.meta.sb.s_free_inodes_count - 1 := by
    rw [u1]
    show dec32 st.meta.sb.s_free_inodes_count = _
    exact dec32_of_pos' _ (by omega) hsi
  have e_tg : st1.meta.bg_desc_tabs g = bg_set_free_inodes (st.meta.bg_desc_tabs g)
      ((st.meta.bg_desc_tabs g).bg_free_inodes_count - 1) := by
    rw [u2]
    simp only [if_pos]
    rw [dec32_of_pos' _ g3 (by omega), u16_of_lt _ (by omega)]
  have e_blk : (st1.meta.bg_desc_tabs g).bg_inode_bitmap
      = (st.meta.bg_desc_tabs g).bg_inode_bitmap := by rw [e_tg]; rfl
  have e_cnt : (st1.meta.bg_desc_tabs g).bg_free_inodes_count
      = (st.meta.bg_desc_tabs g).bg_free_inodes_count - 1 := by rw [e_tg]; rfl
  have hmul : (g + 1) * st.meta.sb.s_inodes_per_group ≤ st.meta.sb.s_inodes_count :=
    (Nat.le_div_iff_mul_le (Nat.pos_of_ne_zero h3)).1 (by omega)
  have hexp : (g + 1) * st.meta.sb.s_inodes_per_group
      = g * st.meta.sb.s_inodes_per_group + st.meta.sb.s_inodes_per_group := by ring
  have hidv : id = g * st.meta.sb.s_inodes_per_group + b + 1 := by
    rw [hide, inode_of_index_eq, u32_of_lt (by omega)]
    omega
  have hid1 : id - 1 = b + g * st.meta.sb.s_inodes_per_group := by omega
  obtain ⟨hdiv, hmod⟩ := div_mod_of_lt b g _ hb
  have hdec : dec32 id = b + g * st.meta.sb.s_inodes_per_group := by
    rw [dec32_of_pos' id (by omega) (by omega)]
    exact hid1
  have hst1bits : ∀ i, (ext2_read_bitmap st1 (st.meta.bg_desc_tabs g).bg_inode_bitmap).bits i =
      if i = b then true else bm.bits i := by
    intro i
    rw [hrd]
    by_cases hi : i < 8 * ext2_get_block_size st.meta.sb
    · have hi' : decide (i < 8 * ext2_get_block_size st.meta.sb) = true := by simpa using hi
      rw [hi', Bool.true_and]
      unfold bitmap_set_multiple
      simp only []
      by_cases hr : i = b
      · rw [if_pos hr, if_pos ⟨by omega, by omega, by omega⟩]
      · rw [if_neg hr, if_neg (by omega)]
    · have hi' : decide (i < 8 * ext2_get_block_size st.meta.sb) = false := by simpa using hi
      rw [hi', Bool.false_and, if_neg (by omega), ← hbm]
      exact (read_bitmap_past st _ i hi).symm
  refine ⟨g1, hbit, hst1bits, hidv, ?_, ?_, ?_, ?_⟩
  · rw [e_ipg, hid1]; exact hdiv
  · rw [e_ipg, hid1]; exact hmod
  · -- the release
    have hall : bitmap_all (ext2_read_bitmap st1 (st.meta.bg_desc_tabs g).bg_inode_bitmap) b 1
        = true := by
      unfold bitmap_all
      rw [bits_all_iff]
      intro j hj
      have hj0 : j = 0 := by omega
      rw [hj0, Nat.add_zero, hst1bits, if_pos rfl]
    obtain ⟨st2, hu2⟩ := update_inodes_some st1 g
      (u32 (st1.meta.sb.s_free_inodes_count + 1))
      (u16 ((st1.meta.bg_desc_tabs g).bg_free_inodes_count + 1))
      (bitmap_set_multiple (ext2_read_bitmap st1 (st1.meta.bg_desc_tabs g).bg_inode_bitmap) b 1
        false)
      (by rw [e_bpg]; exact u4) (by rw [e_B]; exact u5)
    have hfree : freemap_free_inode id st1 = some st2 := by
      unfold freemap_free_inode
      rw [e_ipg, if_neg h3, hdec, hdiv, hmod, e_blk, hall, if_neg (by decide)]
      rw [e_blk] at hu2
      exact hu2
    refine ⟨st2, hfree, ?_, ?_, ?_, ?_⟩
    · obtain ⟨v1, -, -, -, -⟩ := update_inodes_post _ _ _ _ _ _ hu2
      rw [v1, e_S, u32_of_lt (by omega), u1]
      have : st.meta.sb.s_free_inodes_count - 1 + 1 = st.meta.sb.s_free_inodes_count := by omega
      rw [this, dec32_of_pos' _ (by omega) hsi]
      exact sb_set_free_inodes_twice _ _
    · obtain ⟨-, v2, -, -, -⟩ := update_inodes_post _ _ _ _ _ _ hu2
      rw [v2]
      funext j
      by_cases hj : j = g
      · rw [if_pos hj, e_cnt, u16_of_lt _ (by omega), e_tg, hj]
        have : (st.meta.bg_desc_tabs g).bg_free_inodes_count - 1 + 1
            = (st.meta.bg_desc_tabs g).bg_free_inodes_count := by omega
        rw [this]
        exact bg_set_free_inodes_twice _ _
      · rw [if_neg hj, u2]
        simp only [if_neg hj]
    · intro i
      have hrd2 := read_inode_bitmap_updated _ _ _ _ _ _ hu2 i
      rw [e_blk, e_B] at hrd2
      rw [hrd2]
      have hc1 : (ext2_read_bitmap st1 (st.meta.bg_desc_tabs g).bg_inode_bitmap).bit_cnt
          = 8 * ext2_get_block_size st.meta.sb := by
        rw [← e_B]; rfl
      by_cases hi : i < 8 * ext2_get_block_size st.meta.sb
      · have hi' : decide (i < 8 * ext2_get_block_size st.meta.sb) = true := by simpa using hi
        rw [hi', Bool.true_and]
        unfold bitmap_set_multiple
        simp only []
        by_cases hr : i = b
        · rw [if_pos hr, if_pos ⟨by omega, by omega, by omega⟩]
        · rw [if_neg hr, if_neg (by omega)]
      · have hi' : decide (i < 8 * ext2_get_block_size st.meta.sb) = false := by simpa using hi
        rw [hi', Bool.false_and, if_neg (by omega)]
        rw [← e_B] at hi
        exact (read_bitmap_past st1 _ i hi).symm
    · intro blk hblk
      obtain ⟨-, -, v3, -, -⟩ := update_inodes_post _ _ _ _ _ _ hu2
      rw [v3, e_blk]
      unfold ext2_write_block
      funext k
      rw [if_neg (fun hh => hblk hh.1)]
  · rw [inode_location_eq st1 id (by rw [e_bc, e_bpg]; exact hassert)
      (by rw [e_ipg]; exact h3) (by rw [e_B]; exact u5) (by omega) (by omega)]
    rw [e_ipg, hid1, hdiv, hmod]

/-- C15 at an instance: the first free inode of `ex_dev`, local index 12 of
group 1, is number `1 * 512 + 12 + 1`. -/
theorem inode_numbering_consistent_witness :
    (got (freemap_get_inode ex_dev)).1 = 525 ∧
    ∃ g b, g = inodes_group ex_dev ∧
      (got (freemap_get_inode ex_dev)).1 = g * ex_dev.meta.sb.s_inodes_per_group + b + 1 ∧
      (∃ st2, freemap_free_inode (got (freemap_get_inode ex_dev)).1
          (got (freemap_get_inode ex_dev)).2 = some st2 ∧ st2.meta.sb = ex_dev.meta.sb) ∧
      inode_location (got (freemap_get_inode ex_dev)).2 (got (freemap_get_inode ex_dev)).1 =
        some
          (u32 (((got (freemap_get_inode ex_dev)).2.meta.bg_desc_tabs g).bg_inode_table
            + b / (ext2_get_block_size (got (freemap_get_inode ex_dev)).2.meta.sb / 128)),
            b % (ext2_get_block_size (got (freemap_get_inode ex_dev)).2.meta.sb / 128)) :=
  ⟨by decide,
    (inode_numbering_consistent ex_dev _ _ (by decide) (by decide)
      (fun g => (ex_dev_counters g).2) ⟨2, by decide, by decide⟩ (got_eq _ (by decide))
      (by decide) (by decide)).imp fun _ hg => hg.imp fun _ hb =>
        ⟨hb.1, hb.2.2.2.2.2.1, hb.2.2.2.2.2.2.2.2.1.imp fun _ hs => ⟨hs.1, hs.2.1⟩,
          hb.2.2.2.2.2.2.2.2.2⟩⟩

/-- C16 fails on the code: on a device with one block group of 4096 blocks
(`s_blocks_per_group = 8192`, so `bg_groups = 0`), 100 free blocks, and no
group from 1 on with a free block, `freemap_get_blocks(1, false)` does not
return: the loop over the groups never runs, `i = 1` differs from
`bg_groups = 0`, and `bg_desc`, still `NULL`, is dereferenced. -/
theorem freemap_get_blocks_single_group :
    ex_dev_single.meta.sb.s_blocks_count / ex_dev_single.meta.sb.s_blocks_per_group = 0 ∧
    blocks_group 1 ex_dev_single = 1 ∧
    ((ex_dev_single.meta.bg_desc_tabs 1).bg_free_blocks_count < 1 ∧
      (ex_dev_single.meta.bg_desc_tabs 2).bg_free_blocks_count < 1) ∧
    (freemap_get_blocks 1 false ex_dev_single).isSome = false := by
  decide

/-- C18: inode record round trip.  On a device on which the assertion of
`ext2_write_inode` on the number of block groups holds and whose
`s_inodes_per_group` and block size `B` are not zero, for every inode number
`n` with `1 ≤ n ≤ s_inodes_count` and every 128-byte record `x`,
`ext2_write_inode(n, x)` returns and `ext2_get_inode(n)` after it returns `x`;
with `g = (n - 1) / s_inodes_per_group` and `l = (n - 1) mod s_inodes_per_group`
the record lives in block `bg_inode_table[g] + l / (B / 128)` (a `uint32_t`
sum) at slot `l mod (B / 128)`; the other bytes of that block, every other
block and the registry are unchanged by the write. -/
theorem inode_record_round_trip (st : ext2) (n : Nat) (x : Nat → Nat)
    (hassert : ∃ k, DIV_ROUND_UP st.meta.sb.s_blocks_count st.meta.sb.s_blocks_per_group
      = some k ∧ k ≠ 0)
    (hipg : st.meta.sb.s_inodes_per_group ≠ 0) (hB : ext2_get_block_size st.meta.sb ≠ 0)
    (hic : st.meta.sb.s_inodes_count < 4294967296)
    (h1 : 1 ≤ n) (h2 : n ≤ st.meta.sb.s_inodes_count) :
    ∃ st', ext2_write_inode st n x = some st' ∧
      ext2_get_inode st' n = some (fun k => if k < 128 then x k else 0) ∧
      st'.meta = st.meta ∧
      (∀ k, k < 128 →
        st'.disk
          (u32 ((st.meta.bg_desc_tabs ((n - 1) / st.meta.sb.s_inodes_per_group)).bg_inode_table
            + (n - 1) % st.meta.sb.s_inodes_per_group / (ext2_get_block_size st.meta.sb / 128)))
          (128 * ((n - 1) % st.meta.sb.s_inodes_per_group
            % (ext2_get_block_size st.meta.sb / 128)) + k) = x k) ∧
      (∀ k, k < ext2_get_block_size st.meta.sb →
        ¬ (128 * ((n - 1) % st.meta.sb.s_inodes_per_group
              % (ext2_get_block_size st.meta.sb / 128)) ≤ k ∧
            k < 128 * ((n - 1) % st.meta.sb.s_inodes_per_group
              % (ext2_get_block_size st.meta.sb / 128)) + 128) →
        st'.disk
          (u32 ((st.meta.bg_desc_tabs ((n - 1) / st.meta.sb.s_inodes_per_group)).bg_inode_table
            + (n - 1) % st.meta.sb.s_inodes_per_group / (ext2_get_block_size st.meta.sb / 128)))
          k =
        st.disk
          (u32 ((st.meta.bg_desc_tabs ((n - 1) / st.meta.sb.s_inodes_per_group)).bg_inode_table
            + (n - 1) % st.meta.sb.s_inodes_per_group / (ext2_get_block_size st.meta.sb / 128)))
          k) ∧
      ∀ blk, blk ≠
          u32 ((st.meta.bg_desc_tabs ((n - 1) / st.meta.sb.s_inodes_per_group)).bg_inode_table
            + (n - 1) % st.meta.sb.s_inodes_per_group / (ext2_get_block_size st.meta.sb / 128)) →
        st'.disk blk = st.disk blk := by
  have hloc := inode_location_eq st n hassert hipg hB h1 (by omega)
  obtain ⟨-, m2⟩ := block_size_mod_128 _ hB
  have hslot : (n - 1) % st.meta.sb.s_inodes_per_group % (ext2_get_block_size st.meta.sb / 128)
      < ext2_get_block_size st.meta.sb / 128 := Nat.mod_lt _ (Nat.pos_of_ne_zero m2)
  have hdm := Nat.div_mul_le_self (ext2_get_block_size st.meta.sb) 128
  generalize hblk : u32
    ((st.meta.bg_desc_tabs ((n - 1) / st.meta.sb.s_inodes_per_group)).bg_inode_table
      + (n - 1) % st.meta.sb.s_inodes_per_group / (ext2_get_block_size st.meta.sb / 128)) = blk
    at *
  generalize hsl : (n - 1) % st.meta.sb.s_inodes_per_group
    % (ext2_get_block_size st.meta.sb / 128) = slot at *
  generalize hBe : ext2_get_block_size st.meta.sb = B at *
  have hin : 128 * slot + 128 ≤ B := by omega
  refine ⟨write_block st blk B (fun k =>
    if 128 * slot ≤ k ∧ k < 128 * slot + 128 then x (k - 128 * slot)
    else ext2_read_block st.disk blk B k), ?_, ?_, ?_, ?_, ?_, ?_⟩
  · unfold ext2_write_inode
    rw [hloc, Option.some_bind, hBe]
  · unfold ext2_get_inode
    have hloc' : inode_location
        (write_block st blk B fun k =>
          if 128 * slot ≤ k ∧ k < 128 * slot + 128 then x (k - 128 * slot)
          else ext2_read_block st.disk blk B k) n
        = inode_location st n := rfl
    have hB' : ext2_get_block_size (write_block st blk B fun k =>
          if 128 * slot ≤ k ∧ k < 128 * slot + 128 then x (k - 128 * slot)
          else ext2_read_block st.disk blk B k).meta.sb = B := hBe
    rw [hloc', hloc, Option.some_bind, Option.some.injEq, hB']
    funext k
    by_cases hk : k < 128
    · rw [if_pos hk, if_pos hk]
      unfold write_block ext2_read_block ext2_write_block
      simp only []
      rw [if_pos (by omega), if_pos ⟨trivial, by omega⟩, if_pos ⟨by omega, by omega⟩]
      congr 1
      omega
    · rw [if_neg hk, if_neg hk]
  · rfl
  · intro k hk
    unfold write_block ext2_write_block
    simp only []
    rw [if_pos ⟨trivial, by omega⟩, if_pos ⟨by omega, by omega⟩]
    congr 1
    omega
  · intro k hk hout
    unfold write_block ext2_write_block ext2_read_block
    simp only []
    rw [if_pos ⟨trivial, hk⟩, if_neg hout, if_pos hk]
  · intro b' hb'
    unfold write_block ext2_write_block
    funext k
    simp only []
    rw [if_neg (fun hh => hb' hh.1)]

/-- C18 at an instance: inode number 525 of `ex_dev` and the record `ex_record`. -/
theorem inode_record_round_trip_witness :
    (1 ≤ 525 ∧ 525 ≤ ex_dev.meta.sb.s_inodes_count) ∧
    ∃ st', ext2_write_inode ex_dev 525 ex_record = some st' ∧
      ext2_get_inode st' 525 = some (fun k => if k < 128 then ex_record k else 0) :=
  ⟨by decide,
    (inode_record_round_trip ex_dev 525 ex_record ⟨2, by decide, by decide⟩ (by decide)
      (by decide) (by decide) (by decide) (by decide)).imp fun _ h => ⟨h.1, h.2.1⟩⟩

/-- C17, as stated, fails.  First, with block size 1024 on a device whose
bytes are all `0xFF`, the inode `ex_ino_direct` has `i_size = 12288` and its
twelve blocks allocated, and reading one byte at `offset = i_size` looks up
block 12 through `i_block[12] = 0` before the chunk is computed: the lookup
gives `UINT32_MAX` and the `ASSERT` stops the read, where the claim has it
return 0.  Second, with a block size of `2^31` the `off_t` value of
`block_size - block_ofs` is negative, and reading one byte at offset 0 of a
file of 2000 bytes returns 0, where the claim has it return 1. -/
theorem inode_read_at_stops_at_assert :
    (ext2_get_block_size ex_st_ff.sb = 1024 ∧ ex_ino_direct.i_size = 12288 ∧
      (∀ i, i < 12 → inode_get_data_block ex_st_ff ex_ino_direct i = some (100 + i)) ∧
      inode_get_data_block ex_st_ff ex_ino_direct 12 = some UINT32_MAX ∧
      (inode_read_at ex_st_ff ex_ino_direct (fun _ => 0) 1 12288).isSome = false) ∧
    (ext2_get_block_size ex_st_2g.sb = 2147483648 ∧ ex_ino_two.i_size = 2000 ∧
      inode_get_data_block ex_st_2g ex_ino_two 0 = some 100 ∧
      (inode_read_at ex_st_2g ex_ino_two (fun _ => 0) 1 0).map (fun r => r.1) = some 0) := by
  decide

/-- C17, amended: for a non-zero block size `B < 2^31`, an inode with
`i_size = S < 2^31`, and `n`, `offset` below `2^31`, when the lookup returns an
id other than `UINT32_MAX` for every block index below `⌈S/B⌉` and, for a short
read (`n > S - offset`), also for the block index `max(offset, S) / B` at which
the loop stops, `inode_read_at` returns `min(n, S - offset)` (which is 0 for
`offset ≥ S`), stores the file bytes `[offset, offset + result)` at the start of
the buffer and leaves the rest of the buffer as it was. -/
theorem inode_read_at_length (st : fs) (ino : inode) (buffer : Nat → Nat) (n offset : Nat)
    (hB0 : ext2_get_block_size st.sb ≠ 0) (hB31 : ext2_get_block_size st.sb < 2147483648)
    (hS : ino.i_size < 2147483648) (hn : n < 2147483648) (hoff : offset < 2147483648)
    (hlook : ∀ i, (i * ext2_get_block_size st.sb < ino.i_size ∨
        (ino.i_size - offset < n ∧ i = max offset ino.i_size / ext2_get_block_size st.sb)) →
      ∃ b, inode_get_data_block st ino i = some b ∧ b ≠ UINT32_MAX) :
    ∃ out, inode_read_at st ino buffer (n : Int) (offset : Int)
        = some (((min n (ino.i_size - offset) : Nat) : Int), out) ∧
      ∀ k, out k =
        if k < min n (ino.i_size - offset) then file_byte st ino (offset + k) else buffer k := by
  obtain ⟨out, h1, h2⟩ := read_loop_spec st ino hB0 hB31 hS n n offset 0 buffer (Nat.le_refl _)
    hoff (by omega) hlook
  refine ⟨out, ?_, ?_⟩
  · unfold inode_read_at
    rw [Int.toNat_natCast]
    rw [Nat.zero_add] at h1
    exact h1
  · intro k
    rw [h2 k, Nat.zero_add, Nat.sub_zero]
    by_cases hk : k < min n (ino.i_size - offset)
    · rw [if_pos ⟨Nat.zero_le _, hk⟩, if_pos hk]
    · rw [if_neg (fun hh => hk hh.2), if_neg hk]

/-- C17 at an instance: 1500 bytes from offset 300 of a file of 2000 bytes in
two blocks of 1024. -/
theorem inode_read_at_length_witness :
    ∃ out, inode_read_at ex_st ex_ino_two (fun _ => 0) ((1500 : Nat) : Int) ((300 : Nat) : Int)
        = some (((min 1500 (ex_ino_two.i_size - 300) : Nat) : Int), out) ∧
      ∀ k, out k =
        if k < min 1500 (ex_ino_two.i_size - 300) then file_byte ex_st ex_ino_two (300 + k)
        else (fun _ => 0) k :=
  inode_read_at_length ex_st ex_ino_two (fun _ => 0) 1500 300 (by decide) (by decide) (by decide)
    (by decide) (by decide)
    (by
      have hB : ext2_get_block_size ex_st.sb = 1024 := by decide
      have hS : ex_ino_two.i_size = 2000 := rfl
      intro i hi
      rw [hB, hS] at hi
      have hi2 : i < 2 := by omega
      interval_cases i
      · exact ⟨100, by decide, by decide⟩
      · exact ⟨101, by decide, by decide⟩)

/-- C19, broken by the code: the root directory `ex_dir_tombstone`, one block
of 1024 bytes, is well-formed; it holds `.`, `..`, an unused entry (inode 0) at
offset 24 and the live last entry `a` (inode 12) at offset 36, which reaches
the end of the block.  The search for the last entry stops at the unused entry,
so `filesys_create` of `x` returns `true` and writes the new entry (inode 525)
at offset 36, over `a`: afterwards `dir_get_next` yields the offsets 0, 12, 24,
36 and 1024, the entry at offset 36 is `x`, and no `rec_len` has changed. -/
theorem filesys_create_overwrites_last_entry :
    (dir_partitions ex_dir_tombstone 1024 1024 100 0 = true ∧
      (dir_entry ex_dir_tombstone 2, dir_inode ex_dir_tombstone 24,
          dir_rec_len ex_dir_tombstone 24) = (24, 0, 12) ∧
      (dir_entry ex_dir_tombstone 3, dir_inode ex_dir_tombstone 36,
          dir_name_len ex_dir_tombstone 36, dir_name ex_dir_tombstone 36 0) = (36, 12, 1, 97) ∧
      36 + dir_rec_len ex_dir_tombstone 36 = 1024) ∧
    (filesys_create (ex_vol_with_root ex_dir_tombstone) ex_heap zfresh [120] 0
        FILESYS_REGULAR 420).map
        (fun r => (r.1, dir_inode (r.2.1.dev.disk 50) 36, dir_name_len (r.2.1.dev.disk 50) 36,
          dir_name (r.2.1.dev.disk 50) 36 0)) = some (true, 525, 1, 120) ∧
    (filesys_create (ex_vol_with_root ex_dir_tombstone) ex_heap zfresh [120] 0
        FILESYS_REGULAR 420).map
        (fun r => (dir_entry (r.2.1.dev.disk 50) 3, dir_entry (r.2.1.dev.disk 50) 4,
          dir_rec_len (r.2.1.dev.disk 50) 12, dir_rec_len (r.2.1.dev.disk 50) 24))
      = some (36, 1024, 12, 12) := by
  decide

/-- C20 fails on the code: in the directory `ex_dir_two_blocks` of two blocks
of 1024 bytes the new entry is written at offset 1036, in the second block,
1012 bytes before the end of that block; its `rec_len` is the `uint16_t` value
of `block_size - 1036`, which is 65524. -/
theorem filesys_create_rec_len_second_block :
    (filesys_create_dir ex_dir_two_blocks 2048 21 [120] FILESYS_REGULAR 1024).map
        (fun b => (dir_entry b 3, dir_inode b 1036, dir_rec_len b 1036)) =
      some (1036, 21, 65524) ∧
    2 * 1024 - 1036 = 1012 := by
  decide

/-! ## The claim on truncation -/

/-- A run of `filesys_create` and `filesys_remove` on `ex_vol`: the file `x` is
created with 0 bytes in the root directory and removed again.  Both calls
return `true`, and afterwards the counts of free blocks and of free inodes and
`rec_len` of the entry `d` (offset 36) are as before the creation; the bytes of
the entry of `x` at offset 48 of the directory (inode number, name) stay. -/
theorem create_remove_keeps_entry_bytes :
    ((filesys_create ex_vol ex_heap zfresh [120] 0 FILESYS_REGULAR 420).bind fun c =>
        (filesys_remove c.2.1 c.2.2 zfresh [120]).map fun r =>
          (c.1, r.1, r.2.1.dev.meta.sb.s_free_blocks_count,
            r.2.1.dev.meta.sb.s_free_inodes_count)) = some (true, true, 8000, 500) ∧
    ((filesys_create ex_vol ex_heap zfresh [120] 0 FILESYS_REGULAR 420).bind fun c =>
        (filesys_remove c.2.1 c.2.2 zfresh [120]).map fun r =>
          (dir_rec_len (r.2.1.dev.disk 50) 36, r.2.1.dev.disk 50 48, r.2.1.dev.disk 50 56))
      = some (988, 13, 120) ∧
    (ex_vol.dev.meta.sb.s_free_blocks_count, ex_vol.dev.meta.sb.s_free_inodes_count) = (8000, 500)
    ∧ (dir_rec_len (ex_vol.dev.disk 50) 36, ex_vol.dev.disk 50 48, ex_vol.dev.disk 50 56)
      = (988, 0, 0) := by
  decide

/-- C22, broken by the code: the root directory of `ex_vol_ab` holds the
regular files `a` (offset 24, inode 12, block 60) and `ab` (offset 36, inode
14, block 61).  `filesys_remove` of `ab` returns `true`, but the entry found by
the comparison over `name_len` bytes is `a`: block 60 is freed, the record of
inode 12 is zeroed, and `rec_len` of `..` (offset 12) grows, while `rec_len` of
`a`, the entry before `ab`, stays 12, the record of inode 14 is not zeroed and
`dir_lookup` still returns the entry of `ab`.  On `ex_vol_4g`, where `a` has
`i_size = 2^32 - 1`, the removal of `a` returns `true` and frees no block. -/
theorem filesys_remove_removes_prefix_entry :
    (dir_inode (ex_vol_ab.dev.disk 50) 24, dir_name_len (ex_vol_ab.dev.disk 50) 24,
        dir_inode (ex_vol_ab.dev.disk 50) 36, dir_name_len (ex_vol_ab.dev.disk 50) 36)
      = (12, 1, 14, 2) ∧
    (filesys_remove ex_vol_ab ex_heap zfresh [97, 98]).map
        (fun r => (r.1, r.2.1.freed, r.2.1.dev.meta.sb.s_free_inodes_count))
      = some (true, [60], 501) ∧
    (filesys_remove ex_vol_ab ex_heap zfresh [97, 98]).map
        (fun r => (dir_rec_len (r.2.1.dev.disk 50) 24, dir_rec_len (r.2.1.dev.disk 50) 12,
          (List.range 128).all fun k => r.2.1.dev.disk 6 (384 + k) = 0,
          (List.range 128).all fun k => r.2.1.dev.disk 6 (640 + k) = 0))
      = some (12, 24, true, false) ∧
    ((filesys_remove ex_vol_ab ex_heap zfresh [97, 98]).bind fun r =>
        (dir_lookup r.2.1.dev (zfresh 0) [97, 98]).map fun e =>
          e.map fun b => (dir_inode b 0, dir_name_len b 0)) = some (some (14, 2)) ∧
    ((inode_of_record fun k => ex_vol_4g.dev.disk 6 (384 + k)).i_size = 4294967295 ∧
      (inode_of_record fun k => ex_vol_4g.dev.disk 6 (384 + k)).i_block 0 = 60) ∧
    (filesys_remove ex_vol_4g ex_heap zfresh [97]).map
        (fun r => (r.1, r.2.1.freed, r.2.1.dev.meta.sb.s_free_blocks_count))
      = some (true, [], 8000) := by
  decide

/-- C23, broken by the code: `dir_lookup_current` compares the `name_len` bytes
of an entry with the start of the component and never looks at the length of
the component.  In the root directory of `ex_vol` the entry `a` (offset 24,
`name_len` 1) is returned for the component `ab`, and the entry `.` (offset 0)
for `.x`; `dir_lookup` and `filesys_open` of `ab` return the entry and a handle
of inode 12, and `filesys_create` of `ab` finds the path in existence. -/
theorem dir_lookup_current_matches_prefix :
    (dir_name_len (ex_vol_disk 50) 24 = 1 ∧ dir_name (ex_vol_disk 50) 24 0 = 97 ∧
      dir_lookup_current (ex_vol_disk 50) (cstring [97, 98] []) = some (some 24)) ∧
    (dir_name_len (ex_vol_disk 50) 0 = 1 ∧ dir_name (ex_vol_disk 50) 0 0 = 46 ∧
      dir_lookup_current (ex_vol_disk 50) (cstring [46, 120] []) = some (some 0)) ∧
    (dir_lookup ex_vol.dev (zfresh 0) [97, 98]).map
        (fun e => e.map fun b => (dir_inode b 0, dir_name_len b 0, dir_name b 0 0))
      = some (some (12, 1, 97)) ∧
    (filesys_open ex_vol.dev ex_heap (zfresh 0) [97, 98]).map
        (fun r => r.1.map fun f => dir_inode (r.2.dirs f.dir) 0) = some (some 12) ∧
    (filesys_create ex_vol ex_heap zfresh [97, 98] 0 FILESYS_REGULAR 420).map (fun r => r.1)
      = some false := by
  decide

/-- C24: when the tokens before `tok` have each led into a directory, `tok` is
not the last token of the path, and the entry `dir_lookup_current` finds for
`tok` is missing, has inode 0, has a type other than `EXT2_FT_DIR` or names
an inode whose `i_mode` lacks `EXT2_S_IFDIR`, `dir_lookup` returns `NULL`; and
an entry `dir_lookup` returns for any path has an inode other than 0. -/
theorem dir_lookup_through_non_directory (dev : ext2) (fresh : Nat → Nat → Nat)
    (path : List Nat) (pre : List (List Nat × List Nat)) (tok : List Nat × List Nat)
    (rest : List (List Nat × List Nat)) (root : Nat → Nat) (depth : Nat) (cur : Nat → Nat)
    (found : Option Nat)
    (htok : path_tokens path [] = pre ++ tok :: rest) (hrest : rest ≠ [])
    (hroot : dir_get_root dev (fresh 0) = some root)
    (hwalk : lookup_enter dev fresh pre 0 root = some (depth, cur))
    (hfound : dir_lookup_current cur (cstring tok.1 tok.2) = some found)
    (hbad : found = none ∨ dir_inode cur (found.getD 0) = 0
      ∨ dir_file_type cur (found.getD 0) ≠ EXT2_FT_DIR
      ∨ ∃ r, ext2_get_inode dev (dir_inode cur (found.getD 0)) = some r
          ∧ (inode_of_record r).i_mode &&& EXT2_S_IFDIR = 0) :
    dir_lookup dev fresh path = some none ∧
    ∀ p e, dir_lookup dev fresh p = some (some e) → dir_inode e 0 ≠ 0 := by
  refine ⟨?_, fun p e h => dir_lookup_inode_ne_zero dev fresh p e h⟩
  unfold dir_lookup
  rw [hroot, Option.some_bind, htok, if_neg (by simp),
    lookup_loop_enter dev fresh tok rest pre 0 root none depth cur hwalk,
    lookup_loop_stuck dev fresh tok rest depth cur none found hrest hfound hbad,
    Option.some_bind, if_neg (by simp)]

/-- C24 at an instance: the path `d/x/y` on `ex_vol`, where `d` is a directory
that holds no entry `x`. -/
theorem dir_lookup_through_non_directory_witness :
    dir_lookup ex_vol.dev (zfresh 0) [100, 47, 120, 47, 121] = some none ∧
    ∀ p e, dir_lookup ex_vol.dev (zfresh 0) p = some (some e) → dir_inode e 0 ≠ 0 :=
  dir_lookup_through_non_directory ex_vol.dev (zfresh 0) [100, 47, 120, 47, 121]
    [([100], [120, 47, 121])] ([120], [121]) [([121], [])]
    ((dir_get_root ex_vol.dev (zfresh 0 0)).getD fun _ => 0) 1
    ((lookup_enter ex_vol.dev (zfresh 0) [([100], [120, 47, 121])] 0
      ((dir_get_root ex_vol.dev (zfresh 0 0)).getD fun _ => 0)).getD (0, fun _ => 0)).2
    none (by decide) (by decide) rfl rfl (by decide) (Or.inl rfl)

/-- C25: for `initial_size ≥ 0` and a path for which `dir_lookup` returns an
entry, `filesys_create` returns `false`, and the volume (superblock, group
descriptors and every block) and the heap are as before. -/
theorem filesys_create_rejects_existing (v : volume) (hp : heap) (fresh : Nat → Nat → Nat → Nat)
    (path : List Nat) (initial_size : Int) (type permission : Nat)
    (hsize : 0 ≤ initial_size)
    (hfound : (dir_lookup v.dev (fresh 0) path).map (fun e => e.isSome) = some true) :
    filesys_create v hp fresh path initial_size type permission = some (false, v, hp) := by
  unfold filesys_create
  rw [if_neg (by omega)]
  cases hl : dir_lookup v.dev (fresh 0) path with
  | none =>
    rw [hl] at hfound
    exact absurd hfound (by simp)
  | some e =>
    rw [hl, Option.map_some', Option.some.injEq] at hfound
    rw [Option.some_bind, if_pos hfound]

/-- C25 at an instance: the file `a` of `ex_vol`. -/
theorem filesys_create_rejects_existing_witness :
    filesys_create ex_vol ex_heap zfresh [97] 0 FILESYS_REGULAR 420
      = some (false, ex_vol, ex_heap) :=
  filesys_create_rejects_existing ex_vol ex_heap zfresh [97] 0 FILESYS_REGULAR 420 (by decide)
    (by decide)

/-- C26: for a non-empty path, on a volume with a non-zero block size, a
non-zero count of inodes per group and at least one block group,
`filesys_remove` returns `false` and leaves the volume as it was when
`dir_lookup` returns `NULL` for the path, and when it returns an entry whose
`file_type` is not `EXT2_FT_REG_FILE`. -/
theorem filesys_remove_requires_regular (v : volume) (hp : heap) (fresh : Nat → Nat → Nat → Nat)
    (path : List Nat) (hne : path ≠ [])
    (hassert : ∃ k, DIV_ROUND_UP v.dev.meta.sb.s_blocks_count v.dev.meta.sb.s_blocks_per_group
      = some k ∧ k ≠ 0)
    (hipg : v.dev.meta.sb.s_inodes_per_group ≠ 0)
    (hB : ext2_get_block_size v.dev.meta.sb ≠ 0)
    (hcase : (dir_lookup v.dev (fresh 0) path).map
      (fun e => decide (e.isSome = false
        ∨ dir_file_type (e.getD fun _ => 0) 0 ≠ EXT2_FT_REG_FILE)) = some true) :
    ∃ hp', filesys_remove v hp fresh path = some (false, v, hp') := by
  unfold filesys_remove
  rw [if_neg (fun h => hne (List.length_eq_zero.mp h))]
  cases hl : dir_lookup v.dev (fresh 0) path with
  | none =>
    rw [hl] at hcase
    exact absurd hcase (by simp)
  | some e =>
    rw [hl, Option.map_some', Option.some.injEq, decide_eq_true_eq] at hcase
    cases e with
    | none =>
      rw [filesys_open_null v.dev hp (fresh 0) path hl, Option.some_bind]
      exact ⟨hp, rfl⟩
    | some b =>
      have hb : dir_file_type b 0 ≠ EXT2_FT_REG_FILE := by
        rcases hcase with h | h
        · exact absurd h (by simp)
        · exact h
      obtain ⟨r, -, ho⟩ := filesys_open_entry v.dev hp (fresh 0) path b hl hassert hipg hB
      rw [ho, Option.some_bind]
      have h1 : ¬ ((some (file.mk (hp.brk + 1) (hp.brk + 2) 0 false)).isSome = false) := by
        simp
      have h2 : dir_file_type
          ((heap_new_inode (heap_new_dir hp b).2 (inode_of_record r)).2.dirs
            ((some (file.mk (hp.brk + 1) (hp.brk + 2) 0 false)).getD file_null).dir) 0
            ≠ EXT2_FT_REG_FILE := by
        rw [Option.getD_some, heap_dirs_after_open]
        exact hb
      exact ⟨_, (if_neg h1).trans (if_pos h2)⟩

/-- C26 at an instance: the directory `d` of `ex_vol`. -/
theorem filesys_remove_requires_regular_witness :
    ∃ hp', filesys_remove ex_vol ex_heap zfresh [100] = some (false, ex_vol, hp') :=
  filesys_remove_requires_regular ex_vol ex_heap zfresh [100] (by decide)
    ⟨2, by decide, by decide⟩ (by decide) (by decide) (by decide)

/-- C27, as stated, fails: the path `.x`, which contains no `'/'`, is split into
the parent `.` and the name `x`, not the whole path; `..` is split into `.`
and `.`. -/
theorem filesys_split_path_drops_leading_dot :
    filesys_split_path [46, 120] = some ([46], [120]) ∧
    filesys_split_path [46, 46] = some ([46], [46]) := by
  decide

/-- C27, amended: for every non-empty path (a string, so without a zero byte),
`filesys_split_path` returns name = the bytes after the last `'/'` and parent =
the bytes before it, with parent `/` when the last `'/'` is at index 0; for a
path without `'/'` the parent is `.` and the name is the whole path when the
path does not start with `'.'`, and the path without its first byte when it
does.  The name holds no `'/'`, and with the last `'/'` at an index above 0
the path is parent, `'/'`, name. -/
theorem filesys_split_path_spec (path : List Nat) (hne : path ≠ []) (hnul : 0 ∉ path) :
    (∀ pre post, path = pre ++ 47 :: post → 47 ∉ post →
      filesys_split_path path = some (if pre = [] then [47] else pre, post)) ∧
    (47 ∉ path → path.head? ≠ some 46 → filesys_split_path path = some ([46], path)) ∧
    (47 ∉ path → path.head? = some 46 → filesys_split_path path = some ([46], path.tail)) := by
  have hlen : path.length ≠ 0 := fun e => hne (List.length_eq_zero.mp e)
  refine ⟨?_, ?_, ?_⟩
  · intro pre post hp h47
    have hscan := split_scan_slash pre post h47 0
    have e1 : pre ++ 47 :: post ++ List.replicate 0 0 = path := by
      rw [hp]; simp
    have e2 : pre.length + 1 + post.length = path.length := by
      rw [hp]; simp; omega
    rw [e1, e2, Nat.add_zero] at hscan
    unfold filesys_split_path
    rw [if_neg hlen, hscan]
    have hdrop : path.drop ((pre.length : Int) + 1).toNat = post := by
      have : ((pre.length : Int) + 1).toNat = pre.length + 1 := by omega
      rw [this, hp]
      simp
    have h0pre : 0 ∉ pre := fun e => hnul (by rw [hp]; simp [e])
    by_cases hpre : pre = []
    · subst hpre
      simp only [if_true]
      rw [hdrop]
      have ht : (47 :: List.replicate post.length 0).takeWhile (fun c => decide (c ≠ 0)) = [47] := by
        rw [List.takeWhile_cons_of_pos (by decide), takeWhile_zeros]
      rw [ht]
      rfl
    · simp only [if_neg hpre]
      rw [hdrop, takeWhile_ne_zero pre h0pre, if_neg hpre]
  · intro h47 hhead
    have hscan := split_scan_plain path h47 0
    rw [List.replicate_zero, List.append_nil, if_neg hhead, Nat.add_zero] at hscan
    unfold filesys_split_path
    rw [if_neg hlen, hscan, takeWhile_zeros, if_pos rfl]
    rfl
  · intro h47 hhead
    have hscan := split_scan_plain path h47 0
    rw [List.replicate_zero, List.append_nil, if_pos hhead, Nat.add_zero] at hscan
    unfold filesys_split_path
    rw [if_neg hlen, hscan]
    have ht : (46 :: List.replicate (path.length - 1) 0).takeWhile (fun c => decide (c ≠ 0))
        = [46] := by
      rw [List.takeWhile_cons_of_pos (by decide), takeWhile_zeros]
    rw [ht, if_neg (by decide)]
    cases path with
    | nil => exact absurd rfl hne
    | cons a t => rfl

/-- C27 at an instance: the path `/d/f.txt`. -/
theorem filesys_split_path_spec_witness :
    filesys_split_path [47, 100, 47, 102, 46, 116, 120, 116]
      = some ([47, 100], [102, 46, 116, 120, 116]) :=
  (filesys_split_path_spec [47, 100, 47, 102, 46, 116, 120, 116] (by decide) (by decide)).1
    [47, 100] [102, 46, 116, 120, 116] rfl (by decide)

/-- C29: for a handle whose entry copy is not `NULL` and names an inode number
other than 0, on a volume with a non-zero block size, a non-zero count of
inodes per group and at least one block group, and for a `size` with
`-2^31 < size < 2^31` for which `inode_resize` returns 0, `file_truncate`
returns 0; afterwards `file_length` is `size`, the position is `size - 1` when
it was `≥ size` and is unchanged otherwise, and the record of the inode number
of the entry copy on the disk is the resized inode. -/
theorem file_truncate_clamps_position (v : volume) (hp : heap) (f : file) (size : Int)
    (hlo : -2147483648 < size) (hhi : size < 2147483648)
    (hres : (inode_resize (volume_fs v) (hp.inodes f.inode) (ofInt32 size)).map
      (fun r => r.1) = some 0)
    (hdir : f.dir ≠ 0) (hino : dir_inode (hp.dirs f.dir) 0 ≠ 0)
    (hassert : ∃ k, DIV_ROUND_UP v.dev.meta.sb.s_blocks_count v.dev.meta.sb.s_blocks_per_group
      = some k ∧ k ≠ 0)
    (hipg : v.dev.meta.sb.s_inodes_per_group ≠ 0)
    (hB : ext2_get_block_size v.dev.meta.sb ≠ 0) :
    ∃ ino' st' d,
      inode_resize (volume_fs v) (hp.inodes f.inode) (ofInt32 size) = some (0, ino', st') ∧
      file_truncate v hp f size
        = some (0, volume_set_dev (volume_of_fs v st') d, heap_set_inode hp f.inode ino',
            { f with pos := if f.pos ≥ size then size - 1 else f.pos }) ∧
      file_length (heap_set_inode hp f.inode ino')
        { f with pos := if f.pos ≥ size then size - 1 else f.pos } = size ∧
      ext2_get_inode d (dir_inode (hp.dirs f.dir) 0) = some (record_of_inode ino') := by
  cases hr : inode_resize (volume_fs v) (hp.inodes f.inode) (ofInt32 size) with
  | none =>
    rw [hr] at hres
    exact absurd hres (by simp)
  | some r =>
    obtain ⟨e, ino', st'⟩ := r
    rw [hr] at hres
    have he : e = 0 := by
      simpa using hres
    subst he
    have hgeo : sb_geometry st'.sb = sb_geometry v.dev.meta.sb :=
      inode_resize_geometry (volume_fs v) (hp.inodes f.inode) (ofInt32 size) (0, ino', st') hr
    have a1 : st'.sb.s_blocks_count = v.dev.meta.sb.s_blocks_count :=
      (congrArg superblock.s_blocks_count hgeo :
        (sb_geometry st'.sb).s_blocks_count = (sb_geometry v.dev.meta.sb).s_blocks_count)
    have a2 : st'.sb.s_blocks_per_group = v.dev.meta.sb.s_blocks_per_group :=
      (congrArg superblock.s_blocks_per_group hgeo :
        (sb_geometry st'.sb).s_blocks_per_group
          = (sb_geometry v.dev.meta.sb).s_blocks_per_group)
    have a3 : st'.sb.s_inodes_per_group = v.dev.meta.sb.s_inodes_per_group :=
      (congrArg superblock.s_inodes_per_group hgeo :
        (sb_geometry st'.sb).s_inodes_per_group
          = (sb_geometry v.dev.meta.sb).s_inodes_per_group)
    have a4 : st'.sb.s_log_block_size = v.dev.meta.sb.s_log_block_size :=
      (congrArg superblock.s_log_block_size hgeo :
        (sb_geometry st'.sb).s_log_block_size = (sb_geometry v.dev.meta.sb).s_log_block_size)
    have a5 : ext2_get_block_size st'.sb = ext2_get_block_size v.dev.meta.sb := by
      unfold ext2_get_block_size
      rw [a4]
    have hassert' : ∃ k, DIV_ROUND_UP (volume_of_fs v st').dev.meta.sb.s_blocks_count
        (volume_of_fs v st').dev.meta.sb.s_blocks_per_group = some k ∧ k ≠ 0 := by
      have e1 : (volume_of_fs v st').dev.meta.sb = st'.sb := rfl
      rw [e1, a1, a2]
      exact hassert
    have hipg' : (volume_of_fs v st').dev.meta.sb.s_inodes_per_group ≠ 0 := by
      have e1 : (volume_of_fs v st').dev.meta.sb = st'.sb := rfl
      rw [e1, a3]
      exact hipg
    have hB' : ext2_get_block_size (volume_of_fs v st').dev.meta.sb ≠ 0 := by
      have e1 : (volume_of_fs v st').dev.meta.sb = st'.sb := rfl
      rw [e1, a5]
      exact hB
    obtain ⟨d, hw, hg, -⟩ := write_inode_then_get (volume_of_fs v st').dev
      (dir_inode (hp.dirs f.dir) 0) (record_of_inode ino') hassert' hipg' hB'
      (Nat.pos_of_ne_zero hino) (dir_inode_lt _ _)
    rw [record_of_inode_past] at hg
    obtain ⟨_, _, -, -, -, hsz, -⟩ := inode_resize_zero_fields (volume_fs v) (hp.inodes f.inode)
      (ofInt32 size) (0, ino', st') hr rfl
    refine ⟨ino', st', d, rfl, ?_, ?_, hg⟩
    · unfold file_truncate
      rw [hr, Option.some_bind, if_neg hdir, hw, Option.some_bind]
      have e1 : toInt32 (size - 1) = size - 1 := toInt32_of_range (by omega) (by omega)
      simp only [e1, true_and]
    · unfold file_length heap_set_inode
      simp only [if_pos]
      have hsz' : ino'.i_size = ofInt32 size := hsz
      rw [hsz']
      exact toInt32_ofInt32 size (by omega) hhi

/-- C29 at an instance: the file `a` of `ex_vol`, 5 bytes long, with the
position at 4, truncated to 3 bytes. -/
theorem file_truncate_clamps_position_witness :
    ∃ ino' st' d,
      inode_resize (volume_fs ex_vol) (ex_heap_a.inodes 2) (ofInt32 3) = some (0, ino', st') ∧
      file_truncate ex_vol ex_heap_a { ex_file_a with pos := 4 } 3
        = some (0, volume_set_dev (volume_of_fs ex_vol st') d, heap_set_inode ex_heap_a 2 ino',
            { ex_file_a with pos := 2 }) ∧
      file_length (heap_set_inode ex_heap_a 2 ino') { ex_file_a with pos := 2 } = 3 ∧
      ext2_get_inode d 12 = some (record_of_inode ino') :=
  file_truncate_clamps_position ex_vol ex_heap_a { ex_file_a with pos := 4 } 3 (by decide)
    (by decide) (by decide) (by decide) (by decide) ⟨2, by decide, by decide⟩ (by decide)
    (by decide)

/-- C28: for a `size` below `2^31` and two handles whose inodes hold the same
`struct inode`, `file_read_at(h, buf, size, k)` and `file_seek(h', k)` followed
by `file_read(h', buf', size)` fail together or return the same count, and the
two buffers hold the same bytes below the count; both return when the block
size `B` is non-zero and below `2^31`, `i_size`, `k ≥ 0` are below `2^31`,
`size ≥ 0`, and the lookup returns a block for every block index below
`⌈i_size / B⌉` and, for a short read, for the block index at which the loop
stops. -/
theorem file_read_at_eq_seek_read (v : volume) (hp : heap) (h h' : file) (buf buf' : Nat → Nat)
    (size k : Int) (hsize : size < 2147483648)
    (hsame : hp.inodes h.inode = hp.inodes h'.inode) :
    (file_read_at v hp h buf size k).map (fun r => r.1)
        = ((file_seek h' k).bind fun s => file_read v hp s buf' size).map (fun r => r.1) ∧
    (∀ r r', file_read_at v hp h buf size k = some r →
        ((file_seek h' k).bind fun s => file_read v hp s buf' size) = some r' →
        ∀ j : Nat, (j : Int) < r.1 → r.2.1 j = r'.2.1 j) ∧
    (ext2_get_block_size (volume_fs v).sb ≠ 0 → ext2_get_block_size (volume_fs v).sb < 2147483648 →
      (hp.inodes h.inode).i_size < 2147483648 → 0 ≤ k → k < 2147483648 → 0 ≤ size →
      (∀ i, (i * ext2_get_block_size (volume_fs v).sb < (hp.inodes h.inode).i_size ∨
          ((hp.inodes h.inode).i_size - k.toNat < size.toNat ∧
            i = max k.toNat (hp.inodes h.inode).i_size / ext2_get_block_size (volume_fs v).sb)) →
        ∃ b, inode_get_data_block (volume_fs v) (hp.inodes h.inode) i = some b ∧ b ≠ UINT32_MAX) →
      (file_read_at v hp h buf size k).isSome = true) := by
  by_cases hk : k < 0
  · have e1 : file_read_at v hp h buf size k = none := by
      unfold file_read_at
      rw [if_pos hk]
    have e2 : file_seek h' k = none := by
      unfold file_seek
      rw [if_pos hk]
    rw [e1, e2]
    refine ⟨rfl, fun r r' hr => ?_, fun _ _ _ h0 => absurd h0 (by omega)⟩
    exact absurd hr (by simp)
  · have e1 : file_read_at v hp h buf size k =
        (inode_read_at (volume_fs v) (hp.inodes h.inode) buf size k).bind fun r =>
          some (r.1, r.2, { h with pos := toInt32 (h.pos + r.1) }) := by
      unfold file_read_at
      rw [if_neg hk]
    have e2 : ((file_seek h' k).bind fun s => file_read v hp s buf' size) =
        (inode_read_at (volume_fs v) (hp.inodes h.inode) buf' size k).bind fun r =>
          some (r.1, r.2, { h' with pos := toInt32 (k + r.1) }) := by
      unfold file_seek
      rw [if_neg hk, Option.some_bind]
      unfold file_read
      rw [hsame]
    rw [e1, e2]
    unfold inode_read_at
    refine ⟨?_, ?_, ?_⟩
    · rcases read_loop_frame (volume_fs v) (hp.inodes h.inode) size.toNat buf buf' size k 0
        (Int.le_refl 0) (by omega) with ⟨h1, h2⟩ | ⟨c, o1, o2, h1, h2, -, -⟩
      · rw [h1, h2]
        rfl
      · rw [h1, h2]
        rfl
    · intro r r' hr hr'
      rcases read_loop_frame (volume_fs v) (hp.inodes h.inode) size.toNat buf buf' size k 0
        (Int.le_refl 0) (by omega) with ⟨h1, h2⟩ | ⟨c, o1, o2, h1, h2, -, hag⟩
      · rw [h1] at hr
        exact absurd hr (by simp)
      · rw [h1, Option.some_bind, Option.some.injEq] at hr
        rw [h2, Option.some_bind, Option.some.injEq] at hr'
        subst hr
        subst hr'
        intro j hj
        exact (hag j).1 ⟨Int.natCast_nonneg j, hj⟩
    · intro hB0 hB31 hS _ hk31 hs0 hlook
      have ek : ((k.toNat : Nat) : Int) = k := Int.toNat_of_nonneg (by omega)
      have es : ((size.toNat : Nat) : Int) = size := Int.toNat_of_nonneg hs0
      obtain ⟨out, ho, -⟩ := read_loop_spec (volume_fs v) (hp.inodes h.inode) hB0 hB31 hS
        size.toNat size.toNat k.toNat 0 buf (Nat.le_refl _) (by omega) (by omega) hlook
      rw [es, ek, Nat.cast_zero] at ho
      rw [ho]
      rfl

/-- C28 at an instance: 4 bytes from offset 1 of the file `a` of `ex_vol`
through its two handles, into a buffer of zeros and a buffer of ones. -/
theorem file_read_at_eq_seek_read_witness :
    (file_read_at ex_vol ex_heap_a ex_file_a (fun _ => 0) 4 1).map (fun r => r.1)
        = ((file_seek ex_file_a2 1).bind fun s =>
            file_read ex_vol ex_heap_a s (fun _ => 1) 4).map (fun r => r.1) ∧
    (file_read_at ex_vol ex_heap_a ex_file_a (fun _ => 0) 4 1).map (fun r => r.1) = some 4 :=
  ⟨(file_read_at_eq_seek_read ex_vol ex_heap_a ex_file_a ex_file_a2 (fun _ => 0) (fun _ => 1)
      4 1 (by decide) rfl).1, by decide⟩

/-- C30, broken by the code: `file_reopen` passes the pointers of the handle on
to `file_open`, so the handle it returns holds the same entry copy (address 1)
and the same inode (address 2) as the handle `ex_file_a`.  A truncation to 3
bytes through the new handle changes `file_length` of `ex_file_a` from 5 to 3,
and `file_close` of the new handle frees the inode and the entry copy of
`ex_file_a`. -/
theorem file_reopen_shares_inode :
    (file_reopen ex_file_a).map (fun h2 => (h2.dir, h2.inode, h2.pos))
        = some (ex_file_a.dir, ex_file_a.inode, 0) ∧
    file_length ex_heap_a ex_file_a = 5 ∧
    ((file_reopen ex_file_a).bind fun h2 => file_truncate ex_vol ex_heap_a h2 3).map
        (fun r => (r.1, file_length r.2.2.1 ex_file_a)) = some (0, 3) ∧
    (ex_heap_a.live ex_file_a.inode, ex_heap_a.live ex_file_a.dir) = (true, true) ∧
    (file_reopen ex_file_a).map (fun h2 =>
        ((file_close ex_heap_a h2).live ex_file_a.inode,
          (file_close ex_heap_a h2).live ex_file_a.dir)) = some (false, false) := by
  decide

/-! ## Claims on writes, directories and the layout of the tree -/

/-- C31, broken by the code: on `ex_st_fail` the write of 13312 bytes to the
empty inode resizes it to 13 blocks; the request for entry 0 of the
single-indirect index block (block 9012) is answered with
`FREEMAP_GET_ERROR`, `inode_resize` still returns 0, and the entry stays 0.
The lookup of block index 12 then gives block id 0, and the data loop writes
the last 1024 bytes to block 0: all 13312 bytes are reported as written and
byte 5 of block 0 changes from 7 to the data byte 65. -/
theorem inode_write_at_writes_block_zero :
    ex_st_fail.answers 13 = FREEMAP_GET_ERROR ∧ ex_st_fail.disk 0 5 = 7 ∧
    (inode_write_at ex_st_fail ex_ino (fun _ => 65) 13312 0).map
        (fun r => (r.1, r.2.1.i_block 12, block_entry r.2.2 (r.2.1.i_block 12) 0))
      = some (13312, 9012, 0) ∧
    (inode_write_at ex_st_fail ex_ino (fun _ => 65) 13312 0).map
        (fun r => (inode_get_data_block r.2.2 r.2.1 12, r.2.2.disk 0 5))
      = some (some 0, 65) := by
  decide

/-- C32, broken by the code: on `ex_st_disk_full` the allocator has 13 blocks to
give.  A write of 13312 bytes of `65` to the empty inode returns 13312 with
`i_size = 13312`; the request for the thirteenth data block fails inside the
index block, `inode_resize` returns 0 all the same, and block index 12 is
looked up as block 0.  A second write of 1024 bytes of `66` at offset 13312
returns 1024 with `i_size = 14336 = offset + n`; block index 13 is block 0 as
well, so the bytes 12288 to 13311 of the file, below the offset, change from
`65` to `66`.  On `ex_st`, a write of 1 byte at offset 0 to the inode
`ex_ino_4g` (`i_size = 2^32 - 1`) returns 1 with `i_size = 1` and frees no
block: the slots 1 to 14 keep their blocks. -/
theorem inode_write_at_overwrites_earlier_bytes :
    (inode_write_at ex_st_disk_full ex_ino (fun _ => 65) 13312 0).map
        (fun r => (r.1, r.2.1.i_size, file_byte r.2.2 r.2.1 12288, file_byte r.2.2 r.2.1 13311))
      = some (13312, 13312, 65, 65) ∧
    ((inode_write_at ex_st_disk_full ex_ino (fun _ => 65) 13312 0).bind fun r =>
        (inode_write_at r.2.2 r.2.1 (fun _ => 66) 1024 13312).map fun w =>
          (w.1, w.2.1.i_size, file_byte w.2.2 w.2.1 12288, file_byte w.2.2 w.2.1 13311))
      = some (1024, 14336, 66, 66) ∧
    ((inode_write_at ex_st_disk_full ex_ino (fun _ => 65) 13312 0).bind fun r =>
        (inode_write_at r.2.2 r.2.1 (fun _ => 66) 1024 13312).map fun w =>
          (inode_get_data_block w.2.2 w.2.1 12, inode_get_data_block w.2.2 w.2.1 13))
      = some (some 0, some 0) ∧
    ex_ino_4g.i_size = 4294967295 ∧
    (inode_write_at ex_st ex_ino_4g (fun _ => 65) 1 0).map
        (fun r => (r.1, r.2.1.i_size, r.2.1.i_block 1, r.2.1.i_block 14))
      = some (1, 1, 101, 114) ∧
    (inode_write_at ex_st ex_ino_4g (fun _ => 65) 1 0).map (fun r => r.2.2.freed)
      = some [] := by
  decide

/-- C33, broken by the code: the directory `ex_dir_brim` of one block of 1024
bytes is well-formed, with its last entry `a` at offset 1008 (`rec_len` 16).
The creation of a file with a name of 10 bytes recalibrates `a` to 12 bytes
and builds the new entry at offset 1020, 4 bytes before the end of the buffer:
its `rec_len` is 4, less than `8 + name_len = 18`, the name is stored at the
offsets 1028 to 1037, past the end of the buffer, and the directory is not
well-formed afterwards.  `filesys_create` returns `true` on the volume whose
root directory this is. -/
theorem filesys_create_overflows_directory :
    dir_partitions ex_dir_brim 1024 1024 100 0 = true ∧
    (filesys_create_dir ex_dir_brim 1024 21 (List.replicate 10 120) FILESYS_REGULAR 1024).map
        (fun b => (dir_partitions b 1024 1024 100 0, dir_rec_len b 1008, dir_inode b 1020,
          dir_rec_len b 1020)) = some (false, 12, 21, 4) ∧
    (filesys_create_dir ex_dir_brim 1024 21 (List.replicate 10 120) FILESYS_REGULAR 1024).map
        (fun b => (dir_name_len b 1020, b 1028, b 1037)) = some (10, 120, 120) ∧
    (ex_dir_brim 1028, ex_dir_brim 1037) = (0, 0) ∧
    (filesys_create (ex_vol_with_root ex_dir_brim) ex_heap zfresh (List.replicate 10 120) 0
        FILESYS_REGULAR 420).map
        (fun r => (r.1, dir_partitions (r.2.1.dev.disk 50) 1024 1024 100 0,
          dir_inode (r.2.1.dev.disk 50) 1020)) = some (true, false, 525) := by
  decide

/-- C34, broken by the code: the root directory of `ex_vol`, one block of 1024
bytes, is well-formed, and no entry of it matches the name `x`.  The loop of
`dir_lookup_current` has no bound: after the last entry (offset 36, `rec_len`
988) it reads the field `inode` at offset 1024, past the end of the buffer, and
returns `NULL` only because that memory is zero; when the memory past the
buffer holds the bytes of an entry `x`, that entry, at offset 1024, is
returned. -/
theorem dir_lookup_current_reads_past_end :
    dir_partitions (ex_vol_disk 50) 1024 1024 100 0 = true ∧
    lookup_visits (ex_vol_disk 50) (cstring [120] []) 100 0 = [0, 12, 24, 36, 1024] ∧
    dir_lookup_current (ex_vol_disk 50) (cstring [120] []) = some none ∧
    dir_lookup_current
        (fun k => if k < 1024 then ex_vol_disk 50 k
          else bytes_at [(1024, 7), (1028, 12), (1030, 1), (1031, 1), (1032, 120)] k)
        (cstring [120] []) = some (some 1024) := by
  decide

/-- C35: for `2 ≤ W < 2^30` (`W` is a block size divided by 4) the loop of
`inode_expand_range`, at a zero entry whose range meets the expansion, requests
the block with `freemap_get_block(false)` where the entry is a data block
(level 1 under `i_block[12]`, level 2 under `i_block[13]`, level 3 under
`i_block[14]`) and with `freemap_get_block(true)` where it is an index block
(level 1 under `i_block[13]` and `i_block[14]`, level 2 under `i_block[14]`),
which it then hands to the call one level down; `inode_expand_range` is this
loop over the entries of its block.  `inode_resize` requests a zero root
`i_block[l0]` whose range meets the expansion with `freemap_get_block(true)`
and a zero direct slot with `freemap_get_block(false)`.  A request with `true`
that succeeds leaves the block zero-filled, a request with `false` writes no
block: a call of `inode_expand_range` at a data level writes its own index
block only, and a growth of the inode within the direct slots writes no
block. -/
theorem expand_zero_fill_policy (W : Nat) (h2 : 2 ≤ W) (h30 : W < 1073741824) :
    (∀ f start end_ l1 l2 l3 n i data st, get_word data i = 0 →
      (inode_range_compare (item_start 1 W 12 l1 l2 i) (item_end 1 W 12 l1 l2 i) start end_
          &&& RANGE_OVERLAP > 0 →
        expand_loop (inode_expand_range f) 1 start end_ W 12 l1 l2 l3 (n + 1) i data st
          = expand_data_step (inode_expand_range f) 1 start end_ W 12 l1 l2 l3 n i data st) ∧
      (inode_range_compare (item_start 2 W 13 l1 l2 i) (item_end 2 W 13 l1 l2 i) start end_
          &&& RANGE_OVERLAP > 0 →
        expand_loop (inode_expand_range f) 2 start end_ W 13 l1 l2 l3 (n + 1) i data st
          = expand_data_step (inode_expand_range f) 2 start end_ W 13 l1 l2 l3 n i data st) ∧
      (inode_range_compare (item_start 3 W 14 l1 l2 i) (item_end 3 W 14 l1 l2 i) start end_
          &&& RANGE_OVERLAP > 0 →
        expand_loop (inode_expand_range f) 3 start end_ W 14 l1 l2 l3 (n + 1) i data st
          = expand_data_step (inode_expand_range f) 3 start end_ W 14 l1 l2 l3 n i data st) ∧
      (inode_range_compare (item_start 1 W 13 l1 l2 i) (item_end 1 W 13 l1 l2 i) start end_
          &&& RANGE_OVERLAP > 0 →
        expand_loop (inode_expand_range f) 1 start end_ W 13 l1 l2 l3 (n + 1) i data st
          = expand_index_step (inode_expand_range f)
              (fun b s => inode_expand_range f b 2 start end_ W 13 i 0 0 s)
              1 start end_ W 13 l1 l2 l3 n i data st) ∧
      (inode_range_compare (item_start 1 W 14 l1 l2 i) (item_end 1 W 14 l1 l2 i) start end_
          &&& RANGE_OVERLAP > 0 →
        expand_loop (inode_expand_range f) 1 start end_ W 14 l1 l2 l3 (n + 1) i data st
          = expand_index_step (inode_expand_range f)
              (fun b s => inode_expand_range f b 2 start end_ W 14 i 0 0 s)
              1 start end_ W 14 l1 l2 l3 n i data st) ∧
      (inode_range_compare (item_start 2 W 14 l1 l2 i) (item_end 2 W 14 l1 l2 i) start end_
          &&& RANGE_OVERLAP > 0 →
        expand_loop (inode_expand_range f) 2 start end_ W 14 l1 l2 l3 (n + 1) i data st
          = expand_index_step (inode_expand_range f)
              (fun b s => inode_expand_range f b 3 start end_ W 14 l1 i 0 s)
              2 start end_ W 14 l1 l2 l3 n i data st)) ∧
    (∀ f b level start end_ l0 l1 l2 l3 st, level ≠ 0 →
      inode_expand_range (f + 1) b level start end_ W l0 l1 l2 l3 st
        = (expand_loop (inode_expand_range f) level start end_ W l0 l1 l2 l3 W 0
            (ext2_read_block st.disk b (u32 (W * 4))) st).bind
          fun r => some (r.1,
            set_disk r.2.2 (ext2_write_block r.2.2.disk b (u32 (W * 4)) r.2.1))) ∧
    (∀ old_fs_blocks fs_blocks l0 ino st,
      inode_range_compare old_fs_blocks (dec32 fs_blocks)
          (inode_get_direct_block_idx W l0 0 0 0)
          (inode_get_direct_block_idx W l0 (dec32 W) (dec32 W) (dec32 W)) &&& RANGE_OVERLAP > 0 →
      ino.i_block l0 = 0 →
      expand_level W old_fs_blocks fs_blocks l0 ino st
        = if (freemap_get_block true st).1 ≠ FREEMAP_GET_ERROR then
            (inode_expand_range 3 (freemap_get_block true st).1 1 old_fs_blocks (dec32 fs_blocks)
              W l0 0 0 0 (freemap_get_block true st).2).bind
              fun r => some (flow.next, set_i_block ino l0 (freemap_get_block true st).1, r.2)
          else some (flow.fail, ino, (freemap_get_block true st).2)) ∧
    (∀ fs_blocks n i ino st, i < DIRECT_BLOCKS → i < fs_blocks → ino.i_block i = 0 →
      expand_direct fs_blocks (n + 1) i ino st
        = if (freemap_get_block false st).1 ≠ FREEMAP_GET_ERROR then
            expand_direct fs_blocks n (i + 1) (set_i_block ino i (freemap_get_block false st).1)
              (freemap_get_block false st).2
          else (false, ino, (freemap_get_block false st).2)) ∧
    (∀ st, ((freemap_get_block true st).1 ≠ FREEMAP_GET_ERROR →
        ∀ k, k < ext2_get_block_size st.sb →
          (freemap_get_block true st).2.disk (freemap_get_block true st).1 k = 0) ∧
      (freemap_get_block false st).2.disk = st.disk) ∧
    (∀ f b start end_ l1 l2 l3 st r b' k, b' ≠ b →
      (inode_expand_range (f + 1) b 1 start end_ W 12 l1 l2 l3 st = some r →
        r.2.disk b' k = st.disk b' k) ∧
      (inode_expand_range (f + 1) b 2 start end_ W 13 l1 l2 l3 st = some r →
        r.2.disk b' k = st.disk b' k) ∧
      (inode_expand_range (f + 1) b 3 start end_ W 14 l1 l2 l3 st = some r →
        r.2.disk b' k = st.disk b' k)) ∧
    (∀ st ino bytes fs_blocks old_fs_blocks r,
      DIV_ROUND_UP bytes (ext2_get_block_size st.sb) = some fs_blocks →
      DIV_ROUND_UP ino.i_size (ext2_get_block_size st.sb) = some old_fs_blocks →
      old_fs_blocks < fs_blocks → fs_blocks ≤ DIRECT_BLOCKS →
      inode_resize st ino bytes = some r → r.2.2.disk = st.disk) := by
  refine ⟨?_, ?_, ?_, ?_, ?_, ?_, ?_⟩
  · intro f start end_ l1 l2 l3 n i data st hz
    exact ⟨fun hov => expand_loop_leaf_step _ 1 start end_ W 12 l1 l2 l3 n i data st hov hz
        (item_leaf_12 W l1 l2 i),
      fun hov => expand_loop_leaf_step _ 2 start end_ W 13 l1 l2 l3 n i data st hov hz
        (item_leaf_13 W l1 l2 i),
      fun hov => expand_loop_leaf_step _ 3 start end_ W 14 l1 l2 l3 n i data st hov hz
        (item_leaf_level3 W 14 l1 l2 i),
      fun hov => expand_loop_inner_step_1 _ start end_ W 13 l1 l2 l3 n i data st hov hz
        (item_inner_13 W l1 l2 i h2 (by omega)),
      fun hov => expand_loop_inner_step_1 _ start end_ W 14 l1 l2 l3 n i data st hov hz
        (item_inner_14_1 W l1 l2 i h2 h30),
      fun hov => expand_loop_inner_step_2 _ start end_ W 14 l1 l2 l3 n i data st hov hz
        (item_inner_14_2 W l1 l2 i h2 (by omega))⟩
  · intro f b level start end_ l0 l1 l2 l3 st hl
    rw [inode_expand_range, if_neg hl]
  · intro old_fs_blocks fs_blocks l0 ino st hov hz
    unfold expand_level
    simp only []
    rw [if_pos hov, if_pos hz]
  · intro fs_blocks n i ino st h1 h2' hz
    rw [expand_direct, if_pos ⟨h1, h2'⟩, if_pos hz]
  · intro st
    exact ⟨fun hok k hk => freemap_get_block_true_zero st hok k hk,
      freemap_get_block_false_disk st⟩
  · intro f b start end_ l1 l2 l3 st r b' k hb
    exact ⟨fun h => inode_expand_range_leaf_disk f b 1 start end_ W 12 l1 l2 l3 st r
        (fun i => item_leaf_12 W l1 l2 i) h b' k hb,
      fun h => inode_expand_range_leaf_disk f b 2 start end_ W 13 l1 l2 l3 st r
        (fun i => item_leaf_13 W l1 l2 i) h b' k hb,
      fun h => inode_expand_range_leaf_disk f b 3 start end_ W 14 l1 l2 l3 st r
        (fun i => item_leaf_level3 W 14 l1 l2 i) h b' k hb⟩
  · intro st ino bytes fs_blocks old_fs_blocks r hn ho hlt h12 h
    exact inode_resize_direct_disk st ino bytes fs_blocks old_fs_blocks r hn ho hlt h12 h

/-- C35 at an instance: block size 1024, `W = 256`, on the state `ex_st`, whose
blocks hold the byte 7 and whose allocator answers `9000, 9001, ...`.  Entry 5
of a second-level block under `i_block[13]` is requested as a data block, entry
5 of a second-level block under `i_block[14]` as an index block.  Growing
`ex_ino_268` from 268 to 269 blocks takes the root 9000 of `i_block[13]`, the
index block 9001 and the data block 9002: the two index blocks are zero past
their first entry and the data block keeps its bytes.  Growing `ex_ino_65804`
from 65804 to 65805 blocks takes the index blocks 9000, 9001 and 9002 under
`i_block[14]` and the data block 9003. -/
theorem expand_zero_fill_policy_witness :
    (expand_loop (inode_expand_range 1) 2 1000 2000 256 13 3 0 0 (0 + 1) 5 (fun _ => 0) ex_st
        = expand_data_step (inode_expand_range 1) 2 1000 2000 256 13 3 0 0 0 5 (fun _ => 0)
            ex_st ∧
      expand_loop (inode_expand_range 1) 2 263700 263700 256 14 3 0 0 (0 + 1) 5 (fun _ => 0)
          ex_st
        = expand_index_step (inode_expand_range 1)
            (fun b s => inode_expand_range 1 b 3 263700 263700 256 14 3 5 0 s)
            2 263700 263700 256 14 3 0 0 0 5 (fun _ => 0) ex_st) ∧
    ((inode_resize ex_st ex_ino 1024).map
        (fun r => (r.1, r.2.1.i_block 0, r.2.2.calls, r.2.2.disk 9000 0)) = some (0, 9000, 1, 7) ∧
      (inode_resize ex_st ex_ino_268 275456).map
        (fun r => (r.1, r.2.1.i_block 13, r.2.2.calls)) = some (0, 9000, 3) ∧
      (inode_resize ex_st ex_ino_268 275456).map
        (fun r => (get_word (r.2.2.disk 9000) 0, r.2.2.disk 9000 4, r.2.2.disk 9000 1023))
        = some (9001, 0, 0) ∧
      (inode_resize ex_st ex_ino_268 275456).map
        (fun r => (get_word (r.2.2.disk 9001) 0, r.2.2.disk 9001 4, r.2.2.disk 9001 1023))
        = some (9002, 0, 0) ∧
      (inode_resize ex_st ex_ino_268 275456).map
        (fun r => (r.2.2.disk 9002 0, r.2.2.disk 9002 1023)) = some (7, 7)) ∧
    ((inode_resize ex_st ex_ino_65804 67384320).map
        (fun r => (r.1, r.2.1.i_block 14, r.2.2.calls)) = some (0, 9000, 4) ∧
      (inode_resize ex_st ex_ino_65804 67384320).map
        (fun r => (get_word (r.2.2.disk 9000) 0, r.2.2.disk 9000 4, r.2.2.disk 9000 1023))
        = some (9001, 0, 0) ∧
      (inode_resize ex_st ex_ino_65804 67384320).map
        (fun r => (get_word (r.2.2.disk 9001) 0, r.2.2.disk 9001 4, r.2.2.disk 9001 1023))
        = some (9002, 0, 0) ∧
      (inode_resize ex_st ex_ino_65804 67384320).map
        (fun r => (get_word (r.2.2.disk 9002) 0, r.2.2.disk 9002 4, r.2.2.disk 9002 1023))
        = some (9003, 0, 0) ∧
      (inode_resize ex_st ex_ino_65804 67384320).map
        (fun r => (r.2.2.disk 9003 0, r.2.2.disk 9003 1023)) = some (7, 7)) :=
  ⟨⟨((expand_zero_fill_policy 256 (by decide) (by decide)).1 1 1000 2000 3 0 0 0 5 (fun _ => 0)
        ex_st (by decide)).2.1 (by decide),
      ((expand_zero_fill_policy 256 (by decide) (by decide)).1 1 263700 263700 3 0 0 0 5
        (fun _ => 0) ex_st (by decide)).2.2.2.2.2 (by decide)⟩,
    by decide, by decide⟩

/-- C36: for `2 ≤ W < 2^30` (`W` is a block size divided by 4) the entries at
level 1 under `i_block[12]`, at level 2 under `i_block[13]` and at level 3 under
`i_block[14]` are leaves (`item_start = item_end`) and the entries above those
levels are not; `inode_expand_range` and `inode_shrink_range`, called at level 1
for `l0 = 12`, `13`, `14`, return with the nesting of the recursive calls
bounded by 1, 2 and 3, so neither the `PANIC` nor a deeper call is reached. -/
theorem range_walk_depth (W : Nat) (h2 : 2 ≤ W) (h30 : W < 1073741824) :
    (∀ l1 l2 i, item_start 1 W 12 l1 l2 i = item_end 1 W 12 l1 l2 i ∧
      item_start 2 W 13 l1 l2 i = item_end 2 W 13 l1 l2 i ∧
      item_start 3 W 14 l1 l2 i = item_end 3 W 14 l1 l2 i ∧
      item_start 1 W 13 l1 l2 i ≠ item_end 1 W 13 l1 l2 i ∧
      item_start 1 W 14 l1 l2 i ≠ item_end 1 W 14 l1 l2 i ∧
      item_start 2 W 14 l1 l2 i ≠ item_end 2 W 14 l1 l2 i) ∧
    (∀ b start end_ st,
      (∃ r, inode_expand_range 1 b 1 start end_ W 12 0 0 0 st = some r) ∧
      (∃ r, inode_expand_range 2 b 1 start end_ W 13 0 0 0 st = some r) ∧
      (∃ r, inode_expand_range 3 b 1 start end_ W 14 0 0 0 st = some r) ∧
      (∃ r, inode_shrink_range 1 b 1 start end_ W 12 0 0 0 st = some r) ∧
      (∃ r, inode_shrink_range 2 b 1 start end_ W 13 0 0 0 st = some r) ∧
      (∃ r, inode_shrink_range 3 b 1 start end_ W 14 0 0 0 st = some r)) := by
  refine ⟨fun l1 l2 i => ⟨item_leaf_12 W l1 l2 i, item_leaf_13 W l1 l2 i,
    item_leaf_level3 W 14 l1 l2 i, item_inner_13 W l1 l2 i h2 (by omega),
    item_inner_14_1 W l1 l2 i h2 h30, item_inner_14_2 W l1 l2 i h2 (by omega)⟩, ?_⟩
  intro b start end_ st
  -- expansion
  have e12 : ∀ f b st, ∃ r, inode_expand_range (f + 1) b 1 start end_ W 12 0 0 0 st = some r :=
    fun f b st => inode_expand_range_succ f b 1 start end_ W 12 0 0 0 st (by decide)
      (expand_loop_total _ 1 start end_ W 12 0 0 0
        (fun i hne => absurd (item_leaf_12 W 0 0 i) hne))
  have e13b : ∀ f b l1 st, ∃ r,
      inode_expand_range (f + 1) b 2 start end_ W 13 l1 0 0 st = some r :=
    fun f b l1 st => inode_expand_range_succ f b 2 start end_ W 13 l1 0 0 st (by decide)
      (expand_loop_total _ 2 start end_ W 13 l1 0 0
        (fun i hne => absurd (item_leaf_13 W l1 0 i) hne))
  have e13 : ∀ f b st, ∃ r, inode_expand_range (f + 2) b 1 start end_ W 13 0 0 0 st = some r :=
    fun f b st => inode_expand_range_succ (f + 1) b 1 start end_ W 13 0 0 0 st (by decide)
      (expand_loop_total _ 1 start end_ W 13 0 0 0
        (fun i _ => Or.inl ⟨rfl, fun b st => e13b f b i st⟩))
  have e14c : ∀ f b l1 l2 st, ∃ r,
      inode_expand_range (f + 1) b 3 start end_ W 14 l1 l2 0 st = some r :=
    fun f b l1 l2 st => inode_expand_range_succ f b 3 start end_ W 14 l1 l2 0 st (by decide)
      (expand_loop_total _ 3 start end_ W 14 l1 l2 0
        (fun i hne => absurd (item_leaf_level3 W 14 l1 l2 i) hne))
  have e14b : ∀ f b l1 st, ∃ r,
      inode_expand_range (f + 2) b 2 start end_ W 14 l1 0 0 st = some r :=
    fun f b l1 st => inode_expand_range_succ (f + 1) b 2 start end_ W 14 l1 0 0 st (by decide)
      (expand_loop_total _ 2 start end_ W 14 l1 0 0
        (fun i _ => Or.inr ⟨rfl, fun b st => e14c f b l1 i st⟩))
  have e14 : ∀ f b st, ∃ r, inode_expand_range (f + 3) b 1 start end_ W 14 0 0 0 st = some r :=
    fun f b st => inode_expand_range_succ (f + 2) b 1 start end_ W 14 0 0 0 st (by decide)
      (expand_loop_total _ 1 start end_ W 14 0 0 0
        (fun i _ => Or.inl ⟨rfl, fun b st => e14b f b i st⟩))
  -- release
  have s12 : ∀ f b st, ∃ r, inode_shrink_range (f + 1) b 1 start end_ W 12 0 0 0 st = some r :=
    fun f b st => inode_shrink_range_succ f b 1 start end_ W 12 0 0 0 st (by decide)
      (shrink_loop_calls _ 1 start end_ W 12 0 0 0
        (fun i hne => absurd (item_leaf_12 W 0 0 i) hne))
  have s13b : ∀ f b l1 st, ∃ r,
      inode_shrink_range (f + 1) b 2 start end_ W 13 l1 0 0 st = some r :=
    fun f b l1 st => inode_shrink_range_succ f b 2 start end_ W 13 l1 0 0 st (by decide)
      (shrink_loop_calls _ 2 start end_ W 13 l1 0 0
        (fun i hne => absurd (item_leaf_13 W l1 0 i) hne))
  have s13 : ∀ f b st, ∃ r, inode_shrink_range (f + 2) b 1 start end_ W 13 0 0 0 st = some r :=
    fun f b st => inode_shrink_range_succ (f + 1) b 1 start end_ W 13 0 0 0 st (by decide)
      (shrink_loop_calls _ 1 start end_ W 13 0 0 0
        (fun i _ => Or.inl ⟨rfl, fun b st => s13b f b i st⟩))
  have s14c : ∀ f b l1 l2 st, ∃ r,
      inode_shrink_range (f + 1) b 3 start end_ W 14 l1 l2 0 st = some r :=
    fun f b l1 l2 st => inode_shrink_range_succ f b 3 start end_ W 14 l1 l2 0 st (by decide)
      (shrink_loop_calls _ 3 start end_ W 14 l1 l2 0
        (fun i hne => absurd (item_leaf_level3 W 14 l1 l2 i) hne))
  have s14b : ∀ f b l1 st, ∃ r,
      inode_shrink_range (f + 2) b 2 start end_ W 14 l1 0 0 st = some r :=
    fun f b l1 st => inode_shrink_range_succ (f + 1) b 2 start end_ W 14 l1 0 0 st (by decide)
      (shrink_loop_calls _ 2 start end_ W 14 l1 0 0
        (fun i _ => Or.inr ⟨rfl, fun b st => s14c f b l1 i st⟩))
  have s14 : ∀ f b st, ∃ r, inode_shrink_range (f + 3) b 1 start end_ W 14 0 0 0 st = some r :=
    fun f b st => inode_shrink_range_succ (f + 2) b 1 start end_ W 14 0 0 0 st (by decide)
      (shrink_loop_calls _ 1 start end_ W 14 0 0 0
        (fun i _ => Or.inl ⟨rfl, fun b st => s14b f b i st⟩))
  exact ⟨e12 0 b st, e13 0 b st, e14 0 b st, s12 0 b st, s13 0 b st, s14 0 b st⟩

/-- C36 at an instance: block size 1024, `W = 256`. -/
theorem range_walk_depth_witness :
    (∀ l1 l2 i, item_start 1 256 12 l1 l2 i = item_end 1 256 12 l1 l2 i ∧
      item_start 2 256 13 l1 l2 i = item_end 2 256 13 l1 l2 i ∧
      item_start 3 256 14 l1 l2 i = item_end 3 256 14 l1 l2 i ∧
      item_start 1 256 13 l1 l2 i ≠ item_end 1 256 13 l1 l2 i ∧
      item_start 1 256 14 l1 l2 i ≠ item_end 1 256 14 l1 l2 i ∧
      item_start 2 256 14 l1 l2 i ≠ item_end 2 256 14 l1 l2 i) ∧
    (∀ b start end_ st,
      (∃ r, inode_expand_range 1 b 1 start end_ 256 12 0 0 0 st = some r) ∧
      (∃ r, inode_expand_range 2 b 1 start end_ 256 13 0 0 0 st = some r) ∧
      (∃ r, inode_expand_range 3 b 1 start end_ 256 14 0 0 0 st = some r) ∧
      (∃ r, inode_shrink_range 1 b 1 start end_ 256 12 0 0 0 st = some r) ∧
      (∃ r, inode_shrink_range 2 b 1 start end_ 256 13 0 0 0 st = some r) ∧
      (∃ r, inode_shrink_range 3 b 1 start end_ 256 14 0 0 0 st = some r)) :=
  range_walk_depth 256 (by decide) (by decide)

/-- C37, as stated, fails: for `W = 2048` (block size 8192) the sum for the
position `(14, 1023, 0, 0)` wraps in `uint32_t` arithmetic to 2060, the index
of the position `(13, 0, 0, 0)`, which comes before it. -/
theorem inode_get_direct_block_idx_wraps_at_8k :
    tree_pos 2048 13 0 0 0 ∧ tree_pos 2048 14 1023 0 0 ∧ pos_lt 13 0 0 0 14 1023 0 0 ∧
    inode_get_direct_block_idx 2048 13 0 0 0 = 2060 ∧
    inode_get_direct_block_idx 2048 14 1023 0 0 = 2060 := by
  decide

/-- C37, amended: for `W ≥ 1` with `12 + W + W^2 + W^3 < 2^32`, on the
positions `l1 < W` under `i_block[12]`, `l1, l2 < W` under `i_block[13]` and
`l1, l2, l3 < W` under `i_block[14]`, `inode_get_direct_block_idx` takes its
values in `[12, 12 + W + W^2 + W^3)`, is strictly increasing in the
lexicographic order of the positions, and takes every value of that range; and
with block size `4 * W`, `inode_get_data_block` of the index of a position
returns the entry reached from `i_block[l0]` along `l1`, `l2`, `l3`. -/
theorem inode_get_direct_block_idx_layout (W : Nat) (hW : 1 ≤ W)
    (hfit : 12 + W + W * W + W * W * W < 4294967296) :
    (∀ l0 l1 l2 l3, tree_pos W l0 l1 l2 l3 →
      12 ≤ inode_get_direct_block_idx W l0 l1 l2 l3 ∧
      inode_get_direct_block_idx W l0 l1 l2 l3 < 12 + W + W * W + W * W * W) ∧
    (∀ l0 l1 l2 l3 m0 m1 m2 m3, tree_pos W l0 l1 l2 l3 → tree_pos W m0 m1 m2 m3 →
      pos_lt l0 l1 l2 l3 m0 m1 m2 m3 →
      inode_get_direct_block_idx W l0 l1 l2 l3 < inode_get_direct_block_idx W m0 m1 m2 m3) ∧
    (∀ n, 12 ≤ n → n < 12 + W + W * W + W * W * W →
      ∃ l0 l1 l2 l3, tree_pos W l0 l1 l2 l3 ∧ inode_get_direct_block_idx W l0 l1 l2 l3 = n) ∧
    (∀ (st : fs) (ino : inode) l0 l1 l2 l3, ext2_get_block_size st.sb = 4 * W →
      tree_pos W l0 l1 l2 l3 →
      inode_get_data_block st ino (inode_get_direct_block_idx W l0 l1 l2 l3)
        = some (tree_entry st ino l0 l1 l2 l3)) :=
  ⟨idx_range W hfit, idx_mono W hfit, idx_onto W hW hfit, idx_lookup W hW hfit⟩

/-- C37 at an instance: block size 1024, `W = 256`. -/
theorem inode_get_direct_block_idx_layout_witness :
    (∀ l0 l1 l2 l3, tree_pos 256 l0 l1 l2 l3 →
      12 ≤ inode_get_direct_block_idx 256 l0 l1 l2 l3 ∧
      inode_get_direct_block_idx 256 l0 l1 l2 l3 < 12 + 256 + 256 * 256 + 256 * 256 * 256) ∧
    inode_get_data_block ex_st ex_ino (inode_get_direct_block_idx 256 14 1 2 3)
      = some (tree_entry ex_st ex_ino 14 1 2 3) :=
  ⟨(inode_get_direct_block_idx_layout 256 (by decide) (by decide)).1,
    (inode_get_direct_block_idx_layout 256 (by decide) (by decide)).2.2.2 ex_st ex_ino 14 1 2 3
      (by decide) (by decide)⟩

/-- C38, broken by the code: on the volume whose root directory `ex_dir_no_room`
ends with the entry `a` of 12 bytes at offset 1012, `filesys_create` of `x`
takes an inode from the allocator, finds the slot after `a` at offset 1024,
outside the buffer, and returns `false` without releasing the inode: the
superblock count of free inodes drops from 500 to 499, the count of group 1
from 500 to 499, and the bit of the inode stays set in the inode bitmap (byte 1
of block 8194 goes from 15 to 31).  The same happens on `ex_vol_no_block`, where
`inode_resize` fails for `initial_size = 1`. -/
theorem filesys_create_leaks_inode :
    ((ex_vol_with_root ex_dir_no_room).dev.meta.sb.s_free_inodes_count,
        ((ex_vol_with_root ex_dir_no_room).dev.meta.bg_desc_tabs 1).bg_free_inodes_count,
        (ex_vol_with_root ex_dir_no_room).dev.disk 8194 1) = (500, 500, 15) ∧
    (filesys_create (ex_vol_with_root ex_dir_no_room) ex_heap zfresh [120] 0
        FILESYS_REGULAR 420).map
        (fun r => (r.1, r.2.1.dev.meta.sb.s_free_inodes_count,
          (r.2.1.dev.meta.bg_desc_tabs 1).bg_free_inodes_count, r.2.1.dev.disk 8194 1))
      = some (false, 499, 499, 31) ∧
    (ex_vol_no_block.dev.meta.sb.s_free_inodes_count,
        (ex_vol_no_block.dev.meta.bg_desc_tabs 1).bg_free_inodes_count,
        ex_vol_no_block.dev.disk 8194 1) = (500, 500, 15) ∧
    (filesys_create ex_vol_no_block ex_heap zfresh [120] 1 FILESYS_REGULAR 420).map
        (fun r => (r.1, r.2.1.dev.meta.sb.s_free_inodes_count,
          (r.2.1.dev.meta.bg_desc_tabs 1).bg_free_inodes_count, r.2.1.dev.disk 8194 1))
      = some (false, 499, 499, 31) := by
  decide

/-- C39: a transfer of `r` bytes by `file_read_at`, `file_write_at`,
`file_read` or `file_write` on a handle at position `p` leaves the position
`p + r` when that sum is an `off_t` (the start `k` of a positional transfer
does not enter), and `file_seek` to `q ≥ 0` returns with the position `q`. -/
theorem file_io_moves_position (v : volume) (hp : heap) (h : file) (buf : Nat → Nat)
    (n k q : Int) (hq : 0 ≤ q) :
    (∀ r out h', file_read_at v hp h buf n k = some (r, out, h') →
      -2147483648 ≤ h.pos + r → h.pos + r < 2147483648 → file_tell h' = h.pos + r) ∧
    (∀ r v' hp' h', file_write_at v hp h buf n k = some (r, v', hp', h') →
      -2147483648 ≤ h.pos + r → h.pos + r < 2147483648 → file_tell h' = h.pos + r) ∧
    (∀ r out h', file_read v hp h buf n = some (r, out, h') →
      -2147483648 ≤ h.pos + r → h.pos + r < 2147483648 → file_tell h' = h.pos + r) ∧
    (∀ r v' hp' h', file_write v hp h buf n = some (r, v', hp', h') →
      -2147483648 ≤ h.pos + r → h.pos + r < 2147483648 → file_tell h' = h.pos + r) ∧
    ∃ h', file_seek h q = some h' ∧ file_tell h' = q := by
  have hw : ∀ (start : Int) r v' hp' h',
      file_write_from v hp h buf n start = some (r, v', hp', h') →
      -2147483648 ≤ h.pos + r → h.pos + r < 2147483648 → file_tell h' = h.pos + r := by
    intro start r v' hp' h' e h1 h2
    unfold file_write_from at e
    cases hw : inode_write_at (volume_fs v) (hp.inodes h.inode) buf n start with
    | none =>
      rw [hw] at e
      exact absurd e (by simp)
    | some w =>
      rw [hw, Option.some_bind] at e
      by_cases hd : h.dir = 0
      · rw [if_pos hd] at e
        exact absurd e (by simp)
      · rw [if_neg hd] at e
        cases hx : ext2_write_inode (volume_of_fs v w.2.2).dev (dir_inode (hp.dirs h.dir) 0)
            (record_of_inode w.2.1) with
        | none =>
          rw [hx] at e
          exact absurd e (by simp)
        | some d =>
          rw [hx, Option.some_bind, Option.some.injEq, Prod.mk.injEq, Prod.mk.injEq,
            Prod.mk.injEq] at e
          obtain ⟨e1, -, -, e4⟩ := e
          rw [← e4, ← e1]
          exact toInt32_of_range (by rw [e1]; exact h1) (by rw [e1]; exact h2)
  have hr : ∀ (start : Int) r out h',
      ((inode_read_at (volume_fs v) (hp.inodes h.inode) buf n start).bind fun x =>
        some (x.1, x.2, ({ h with pos := toInt32 (h.pos + x.1) } : file))) = some (r, out, h') →
      -2147483648 ≤ h.pos + r → h.pos + r < 2147483648 → file_tell h' = h.pos + r := by
    intro start r out h' e h1 h2
    cases hx : inode_read_at (volume_fs v) (hp.inodes h.inode) buf n start with
    | none =>
      rw [hx] at e
      exact absurd e (by simp)
    | some x =>
      rw [hx, Option.some_bind, Option.some.injEq, Prod.mk.injEq, Prod.mk.injEq] at e
      obtain ⟨e1, -, e3⟩ := e
      rw [← e3, ← e1]
      exact toInt32_of_range (by rw [e1]; exact h1) (by rw [e1]; exact h2)
  refine ⟨?_, ?_, ?_, ?_, ?_⟩
  · intro r out h' e
    unfold file_read_at at e
    by_cases hk : k < 0
    · rw [if_pos hk] at e
      exact absurd e (by simp)
    · rw [if_neg hk] at e
      exact hr k r out h' e
  · intro r v' hp' h' e
    unfold file_write_at at e
    by_cases hk : k < 0
    · rw [if_pos hk] at e
      exact absurd e (by simp)
    · rw [if_neg hk] at e
      exact hw k r v' hp' h' e
  · intro r out h' e
    exact hr h.pos r out h' e
  · intro r v' hp' h' e
    exact hw h.pos r v' hp' h' e
  · refine ⟨{ h with pos := q }, ?_, rfl⟩
    unfold file_seek
    rw [if_neg (by omega)]

/-- C39 at an instance: the handle of the file `a` of `ex_vol` at position 2;
a read of 3 bytes at offset 1 and a write of 2 bytes at offset 1 leave the
positions 5 and 4, and a seek to 3 leaves 3. -/
theorem file_io_moves_position_witness :
    ((file_read_at ex_vol ex_heap_a { ex_file_a with pos := 2 } (fun _ => 0) 3 1).map
        (fun x => (x.1, file_tell x.2.2)) = some (3, 5) ∧
      (file_write_at ex_vol ex_heap_a { ex_file_a with pos := 2 } (fun _ => 65) 2 1).map
        (fun x => (x.1, file_tell x.2.2.2)) = some (2, 4)) ∧
    ∃ h', file_seek { ex_file_a with pos := 2 } 3 = some h' ∧ file_tell h' = 3 :=
  ⟨by decide,
    (file_io_moves_position ex_vol ex_heap_a { ex_file_a with pos := 2 } (fun _ => 0) 3 1 3
      (by decide)).2.2.2.2⟩

/-- C40: for a non-zero block size `B` and a `new_size` with
`⌈new_size / B⌉ = ⌈i_size / B⌉`, `inode_resize` returns 0 with the state as it
was (no request to the allocator, no release, no block written) and with the
inode changed in `i_size` and `i_blocks` only: `i_size = new_size` and
`i_blocks` is the count of 512-byte sectors of the data and index blocks the
code computes. -/
theorem inode_resize_same_block_count (st : fs) (ino : inode) (new_size : Nat)
    (hB : ext2_get_block_size st.sb ≠ 0)
    (hsame : (new_size + ext2_get_block_size st.sb - 1) / ext2_get_block_size st.sb
      = (ino.i_size + ext2_get_block_size st.sb - 1) / ext2_get_block_size st.sb) :
    ∃ fs_blocks indirect_blocks,
      DIV_ROUND_UP new_size (ext2_get_block_size st.sb) = some fs_blocks ∧
      inode_get_indirect_blocks fs_blocks (ext2_get_block_size st.sb / 4)
        = some indirect_blocks ∧
      inode_resize st ino new_size
        = some (0,
            { ino with
              i_size := new_size,
              i_blocks := u32 ((fs_blocks + ofInt32 indirect_blocks)
                * (2 * 2 ^ st.sb.s_log_block_size)) },
            st) := by
  obtain ⟨hs, hBe⟩ := block_size_cases st.sb hB
  have hfb : u32 (new_size + ext2_get_block_size st.sb - 1) / ext2_get_block_size st.sb
      = u32 (ino.i_size + ext2_get_block_size st.sb - 1) / ext2_get_block_size st.sb := by
    rw [hBe] at hsame ⊢
    exact div_round_up_same _ _ _ hs hsame
  have hle : u32 (new_size + ext2_get_block_size st.sb - 1) / ext2_get_block_size st.sb
      ≤ 4294967295 / (1024 * 2 ^ st.sb.s_log_block_size) := by
    rw [hBe]
    exact Nat.div_le_div_right (Nat.le_of_lt_succ (u32_lt _))
  obtain ⟨ind, hind⟩ := indirect_blocks_total st.sb.s_log_block_size _ hs hle
  rw [← hBe] at hind
  have hpow : 2 ^ st.sb.s_log_block_size ≤ 2 ^ 21 := Nat.pow_le_pow_right (by omega) hs
  have hpos : 0 < 2 ^ st.sb.s_log_block_size := Nat.two_pow_pos _
  have hbound := inode_get_indirect_blocks_bound _ _ ind
    (by rw [hBe]; omega) (by rw [hBe]; omega)
    (Nat.le_trans hle (by
      rw [Nat.div_le_iff_le_mul_add_pred (by omega)]
      omega)) hind
  refine ⟨_, ind, ?_, hind, ?_⟩
  · unfold DIV_ROUND_UP
    rw [if_neg hB]
  · unfold inode_resize DIV_ROUND_UP
    rw [if_neg hB, Option.some_bind, if_neg hB, Option.some_bind, hind, Option.some_bind,
      if_neg (by omega), if_pos hfb]
    rfl

/-- C40 at an instance: the inode `ex_ino_two` of 2000 bytes in two blocks of
1024 bytes, resized to 1500 bytes. -/
theorem inode_resize_same_block_count_witness :
    ∃ fs_blocks indirect_blocks,
      DIV_ROUND_UP 1500 (ext2_get_block_size ex_st.sb) = some fs_blocks ∧
      inode_get_indirect_blocks fs_blocks (ext2_get_block_size ex_st.sb / 4)
        = some indirect_blocks ∧
      inode_resize ex_st ex_ino_two 1500
        = some (0,
            { ex_ino_two with
              i_size := 1500,
              i_blocks := u32 ((fs_blocks + ofInt32 indirect_blocks)
                * (2 * 2 ^ ex_st.sb.s_log_block_size)) },
            ex_st) :=
  inode_resize_same_block_count ex_st ex_ino_two 1500 (by decide) (by decide)

end Ext2
